import Mathlib

/-!
# NFS file-system server (`components/fs/nfs/op.c`)

A shallow embedding of the command dispatcher, the continuation pool, the
shared-buffer validator and the per-command handlers of `op.c`.

* Machine words are natural numbers; where the C arithmetic can wrap the
  reduction modulo `2 ^ 64` is written out.
* C code runs in the monad `M`: a run maps the server state to a result and a
  new state, or it stops in a fault when it trips an `assert` or dereferences
  an invalid pointer.
* The globals of `op.c` and the state of the collaborators (descriptor table,
  NFS client library) are the fields of `State`.
-/

namespace NfsOp

/-! ## Basic values -/

/-- Why a run of the C code stopped before returning. -/
inductive Fault where
  | assertion
  | invalid_access
deriving DecidableEq, Repr

/-- The number of values of a `uint64_t`. -/
def U64 : Nat := 18446744073709551616

/-- Subtraction of two `uint64_t` values. -/
def u64_sub (a b : Nat) : Nat := (a + U64 - b % U64) % U64

/-- Addition of two `uint64_t` values. -/
def u64_add (a b : Nat) : Nat := (a + b) % U64

/-- The null pointer, for pointers that are modelled by their address. -/
def NULL : Nat := 0

/-- The size of the shared data region: `#define CLIENT_SHARE_SIZE 0x4000000`. -/
def CLIENT_SHARE_SIZE : Nat := 0x4000000

/-- The fault a run ended in, if it did. -/
def fault_of {α : Type} : Except Fault α → Option Fault
  | .ok _ => none
  | .error f => some f

/-- Build-time constants that `op.c` takes from headers which are not part of
the translated sources (`lions/fs/protocol.h`, `fd.h`, `fcntl.h`). -/
structure Consts where
  FS_QUEUE_CAPACITY : Nat
  FS_MAX_PATH_LENGTH : Nat
  FS_MAX_NAME_LENGTH : Nat
  sizeof_fs_stat_t : Nat
  MAX_OPEN_FILES : Nat
  FS_OPEN_FLAGS_READ_ONLY : Nat
  FS_OPEN_FLAGS_WRITE_ONLY : Nat
  FS_OPEN_FLAGS_READ_WRITE : Nat
  FS_OPEN_FLAGS_CREATE : Nat
  O_RDONLY : Nat
  O_WRONLY : Nat
  O_RDWR : Nat
  O_CREAT : Nat

/-- The size of the continuation pool: `#define MAX_CONCURRENT_OPS FS_QUEUE_CAPACITY`. -/
def MAX_CONCURRENT_OPS (k : Consts) : Nat := k.FS_QUEUE_CAPACITY

/-! ## Protocol records -/

/-- A shared buffer descriptor `fs_buffer_t`: two `uint64_t` fields. -/
structure fs_buffer_t where
  offset : Nat := 0
  size : Nat := 0
deriving DecidableEq, Repr

structure fs_cmd_params_file_open where
  path : fs_buffer_t := {}
  flags : Nat := 0
deriving DecidableEq, Repr

structure fs_cmd_params_file_close_t where
  fd : Nat := 0
deriving DecidableEq, Repr

structure fs_cmd_params_stat_t where
  path : fs_buffer_t := {}
  buf : fs_buffer_t := {}
deriving DecidableEq, Repr

structure fs_cmd_params_file_read_t where
  fd : Nat := 0
  buf : fs_buffer_t := {}
  offset : Nat := 0
deriving DecidableEq, Repr

structure fs_cmd_params_file_write_t where
  fd : Nat := 0
  buf : fs_buffer_t := {}
  offset : Nat := 0
deriving DecidableEq, Repr

structure fs_cmd_params_file_size_t where
  fd : Nat := 0
deriving DecidableEq, Repr

structure fs_cmd_params_rename_t where
  old_path : fs_buffer_t := {}
  new_path : fs_buffer_t := {}
deriving DecidableEq, Repr

structure fs_cmd_params_file_remove_t where
  path : fs_buffer_t := {}
deriving DecidableEq, Repr

structure fs_cmd_params_file_truncate_t where
  fd : Nat := 0
  length : Nat := 0
deriving DecidableEq, Repr

structure fs_cmd_params_dir_create_t where
  path : fs_buffer_t := {}
deriving DecidableEq, Repr

structure fs_cmd_params_dir_remove_t where
  path : fs_buffer_t := {}
deriving DecidableEq, Repr

structure fs_cmd_params_dir_open_t where
  path : fs_buffer_t := {}
deriving DecidableEq, Repr

structure fs_cmd_params_dir_close_t where
  fd : Nat := 0
deriving DecidableEq, Repr

structure fs_cmd_params_dir_read_t where
  fd : Nat := 0
  buf : fs_buffer_t := {}
deriving DecidableEq, Repr

structure fs_cmd_params_dir_seek_t where
  fd : Nat := 0
  loc : Nat := 0
deriving DecidableEq, Repr

structure fs_cmd_params_dir_tell_t where
  fd : Nat := 0
deriving DecidableEq, Repr

structure fs_cmd_params_dir_rewind_t where
  fd : Nat := 0
deriving DecidableEq, Repr

structure fs_cmd_params_file_sync_t where
  fd : Nat := 0
deriving DecidableEq, Repr

/-- The parameter block of a command. In C it is a union; each handler reads
only the member of its own command type, so the block is modelled by the value
of every member. -/
structure fs_cmd_params_t where
  file_open : fs_cmd_params_file_open := {}
  file_close : fs_cmd_params_file_close_t := {}
  stat : fs_cmd_params_stat_t := {}
  file_read : fs_cmd_params_file_read_t := {}
  file_write : fs_cmd_params_file_write_t := {}
  file_size : fs_cmd_params_file_size_t := {}
  rename : fs_cmd_params_rename_t := {}
  file_remove : fs_cmd_params_file_remove_t := {}
  file_truncate : fs_cmd_params_file_truncate_t := {}
  dir_create : fs_cmd_params_dir_create_t := {}
  dir_remove : fs_cmd_params_dir_remove_t := {}
  dir_open : fs_cmd_params_dir_open_t := {}
  dir_close : fs_cmd_params_dir_close_t := {}
  dir_read : fs_cmd_params_dir_read_t := {}
  dir_seek : fs_cmd_params_dir_seek_t := {}
  dir_tell : fs_cmd_params_dir_tell_t := {}
  dir_rewind : fs_cmd_params_dir_rewind_t := {}
  file_sync : fs_cmd_params_file_sync_t := {}
deriving DecidableEq, Repr

/-- A command `fs_cmd_t`. -/
structure fs_cmd_t where
  type : Nat := 0
  id : Nat := 0
  params : fs_cmd_params_t := {}
deriving DecidableEq, Repr

/-- Modelled from the spec: the closed set of status codes of section 7 (the
enumeration is declared in `lions/fs/protocol.h`). -/
inductive fs_status where
  | FS_STATUS_SUCCESS
  | FS_STATUS_ERROR
  | FS_STATUS_INVALID_COMMAND
  | FS_STATUS_INVALID_PATH
  | FS_STATUS_INVALID_BUFFER
  | FS_STATUS_INVALID_FD
  | FS_STATUS_ALLOCATION_ERROR
  | FS_STATUS_OUTSTANDING_OPERATIONS
  | FS_STATUS_END_OF_DIRECTORY
deriving DecidableEq, Repr

export fs_status (FS_STATUS_SUCCESS FS_STATUS_ERROR FS_STATUS_INVALID_COMMAND
  FS_STATUS_INVALID_PATH FS_STATUS_INVALID_BUFFER FS_STATUS_INVALID_FD
  FS_STATUS_ALLOCATION_ERROR FS_STATUS_OUTSTANDING_OPERATIONS FS_STATUS_END_OF_DIRECTORY)

/-- The payload of a completion. In C it is a union that every handler
initialises with `{0}` before it sets at most one member. -/
structure fs_cmpl_data_t where
  file_open_fd : Nat := 0
  file_size_size : Nat := 0
  file_read_len_read : Nat := 0
  file_write_len_written : Nat := 0
  dir_open_fd : Nat := 0
  dir_read_path_len : Nat := 0
  dir_tell_location : Nat := 0
deriving DecidableEq, Repr

/-- A completion `fs_cmpl_t`. -/
structure fs_cmpl_t where
  id : Nat := 0
  status : fs_status := FS_STATUS_SUCCESS
  data : fs_cmpl_data_t := {}
deriving DecidableEq, Repr

/-! ## Command numbering -/

def FS_CMD_INITIALISE : Nat := 0
def FS_CMD_DEINITIALISE : Nat := 1
def FS_CMD_FILE_OPEN : Nat := 2
def FS_CMD_FILE_CLOSE : Nat := 3
def FS_CMD_STAT : Nat := 4
def FS_CMD_FILE_READ : Nat := 5
def FS_CMD_FILE_WRITE : Nat := 6
def FS_CMD_FILE_SIZE : Nat := 7
def FS_CMD_RENAME : Nat := 8
def FS_CMD_FILE_REMOVE : Nat := 9
def FS_CMD_FILE_TRUNCATE : Nat := 10
def FS_CMD_DIR_CREATE : Nat := 11
def FS_CMD_DIR_REMOVE : Nat := 12
def FS_CMD_DIR_OPEN : Nat := 13
def FS_CMD_DIR_CLOSE : Nat := 14
def FS_CMD_FILE_SYNC : Nat := 15
def FS_CMD_DIR_READ : Nat := 16
def FS_CMD_DIR_SEEK : Nat := 17
def FS_CMD_DIR_TELL : Nat := 18
def FS_CMD_DIR_REWIND : Nat := 19

/-- Modelled from the spec: the command catalogue is a closed set and the
handler table of `op.c` has one designated entry for each of its twenty
members; the enumeration itself is declared in `lions/fs/protocol.h`, and the
members are numbered here in the order of the table. -/
def FS_NUM_COMMANDS : Nat := 20

/-! ## Server state -/

/-- The record `struct continuation`. A pointer to a continuation is modelled by
its element index relative to `continuation_pool` (`none` is the null pointer,
`some i` is `continuation_pool + i` for any integer `i`). -/
structure continuation where
  request_id : Nat := 0
  data : List Nat := [0, 0, 0, 0]
  next_free : Option Int := none
deriving DecidableEq, Repr

/-- Modelled from the spec: a descriptor slot is free, reserved, bound to a file
handle or bound to a directory handle (section 3; `fd.c` is not part of the
translated sources). -/
inductive fd_state where
  | free
  | reserved
  | file (handle : Nat)
  | dir (handle : Nat)
deriving DecidableEq, Repr

/-- Modelled from the spec: a descriptor slot with its operation counter. -/
structure fd_entry where
  state : fd_state := fd_state.free
  counter : Nat := 0
deriving DecidableEq, Repr

/-- Modelled from the spec: a ring buffer with a consumer cursor (`head`), a
producer cursor (`tail`) and `FS_QUEUE_CAPACITY` slots (section 6; the record
`struct fs_queue` is declared in `lions/fs/protocol.h`). The cursors are
`uint64_t` values. -/
structure fs_queue (α : Type) where
  head : Nat
  tail : Nat
  buffer : Nat → α

/-- The calls of the NFS client library that `op.c` makes, with the arguments
that the handlers compute: the asynchronous submissions first, then the
synchronous calls. A path argument is the index of the scratch slot it points
to. -/
inductive nfs_call where
  | mount
  | stat64 (path : Nat)
  | fstat64 (fh : Nat)
  | open2 (path : Nat) (flags : Nat) (mode : Nat)
  | close (fh : Nat)
  | pread (fh : Nat) (buf : Nat) (count : Nat) (offset : Nat)
  | pwrite (fh : Nat) (buf : Nat) (count : Nat) (offset : Nat)
  | rename (old_path : Nat) (new_path : Nat)
  | unlink (path : Nat)
  | fsync (fh : Nat)
  | ftruncate (fh : Nat) (length : Nat)
  | mkdir (path : Nat)
  | rmdir (path : Nat)
  | opendir (path : Nat)
  | init_context
  | set_autoreconnect (num_retries : Int)
  | closedir (dir : Nat)
  | readdir (dir : Nat)
  | seekdir (dir : Nat) (loc : Nat)
  | telldir (dir : Nat)
  | rewinddir (dir : Nat)
deriving DecidableEq, Repr

/-- The callbacks of `op.c`. -/
inductive nfs_cb where
  | mount_cb
  | stat64_cb
  | fsize_cb
  | open_cb
  | close_cb
  | read_cb
  | write_cb
  | rename_cb
  | unlink_cb
  | fsync_cb
  | truncate_cb
  | mkdir_cb
  | rmdir_cb
  | opendir_cb
deriving DecidableEq, Repr

/-- An asynchronous submission that the NFS client library has accepted and
whose callback has not fired yet. -/
structure nfs_pending where
  call : nfs_call
  cb : nfs_cb
  private_data : Option Int
deriving DecidableEq, Repr

/-- What the NFS client library answers to the calls one handler makes: whether
`nfs_init_context` yields a context, the return value of the asynchronous
submission, the entry name `nfs_readdir` yields (its bytes, without the
terminating null) and the value of `nfs_telldir`. -/
structure nfs_env where
  init_context_ok : Bool := true
  err : Int := 0
  dirent : Option (List Nat) := none
  telldir : Nat := 0

/-- The arguments with which the NFS client library invokes a callback:
`status`, the pointer `data`, the bytes `data` points to and the field
`nfs_size` of the record it points to. -/
structure cb_args where
  status : Int := 0
  data : Nat := 0
  data_bytes : Nat → Nat := fun _ => 0
  nfs_size : Nat := 0

/-- The globals of `op.c` (`command_queue`, `completion_queue`, `client_share`,
`path_buffer`, `continuation_pool`, `first_free_cont`), the global `nfs` of
`nfs.c` (whether a context exists), memory by address, and the state of the
collaborators: the descriptor table, the submissions pending in the NFS client
library, the number of notifications sent to the client and the calls made to
the NFS client library so far, in order. -/
structure State where
  command_queue : fs_queue fs_cmd_t
  completion_queue : fs_queue fs_cmpl_t
  client_share : Nat
  mem : Nat → Nat
  path_buffer : Nat → Nat → Nat
  continuation_pool : List continuation
  first_free_cont : Option Int
  fd_table : List fd_entry
  nfs : Bool
  pending : List nfs_pending
  notified : Nat
  nfs_calls : List nfs_call

/-! ## Runs of C code -/

/-- A run of C code on the server state: it yields a value and the new state, or
it stops in a fault. -/
def M (α : Type) : Type := State → Except Fault (α × State)

instance : Monad M where
  pure a := fun s => .ok (a, s)
  bind m f := fun s =>
    match m s with
    | .ok (a, s') => f a s'
    | .error e => .error e

/-- The C `assert`. -/
def c_assert (b : Bool) : M Unit :=
  fun s => if b then .ok ((), s) else .error Fault.assertion

/-- The state after a run that returns. -/
def state_of {α : Type} (r : Except Fault (α × State)) : Except Fault State :=
  match r with
  | .ok (_, s) => .ok s
  | .error f => .error f

/-! ## Queue helpers -/

/-- Modelled from the spec: the number of filled slots as the consumer sees it
(`fs_queue_length_consumer` of `lions/fs/protocol.h`). -/
def fs_queue_length_consumer {α : Type} (q : fs_queue α) : Nat := u64_sub q.tail q.head

/-- Modelled from the spec: the number of filled slots as the producer sees it
(`fs_queue_length_producer` of `lions/fs/protocol.h`). -/
def fs_queue_length_producer {α : Type} (q : fs_queue α) : Nat := u64_sub q.tail q.head

/-- Modelled from the spec: the slot of the `index`-th filled entry. -/
def fs_queue_idx_filled {α : Type} (k : Consts) (q : fs_queue α) (index : Nat) : Nat :=
  u64_add q.head index % k.FS_QUEUE_CAPACITY

/-- Modelled from the spec: the slot of the `index`-th empty entry. -/
def fs_queue_idx_empty {α : Type} (k : Consts) (q : fs_queue α) (index : Nat) : Nat :=
  u64_add q.tail index % k.FS_QUEUE_CAPACITY

/-- Modelled from the spec: the consumer cursor advances by `amount`. -/
def fs_queue_publish_consumption {α : Type} (q : fs_queue α) (amount : Nat) : fs_queue α :=
  { q with head := u64_add q.head amount }

/-- Modelled from the spec: the producer cursor advances by `amount`. -/
def fs_queue_publish_production {α : Type} (q : fs_queue α) (amount : Nat) : fs_queue α :=
  { q with tail := u64_add q.tail amount }

/-- Writing one slot of a ring buffer. -/
def fs_queue_write {α : Type} (q : fs_queue α) (slot : Nat) (a : α) : fs_queue α :=
  { q with buffer := fun j => if j = slot then a else q.buffer j }

/-! ## Completion publication and the continuation pool -/

/-- The state after `reply` has published `cmpl`. -/
def reply_state (k : Consts) (cmpl : fs_cmpl_t) (s : State) : State :=
  { s with
    completion_queue :=
      fs_queue_publish_production
        (fs_queue_write s.completion_queue (fs_queue_idx_empty k s.completion_queue 0) cmpl) 1
    notified := s.notified + 1 }

/-- The function `reply` of `op.c`. -/
def reply (k : Consts) (cmpl : fs_cmpl_t) : M Unit := fun s =>
  if fs_queue_length_producer s.completion_queue != k.FS_QUEUE_CAPACITY then
    .ok ((), reply_state k cmpl s)
  else .error Fault.assertion

/-- Reading the record a continuation pointer points to; a pointer that is
null or outside the pool does not point to a record. -/
def cont_read (k : Consts) (cont : Option Int) : M continuation := fun s =>
  match cont with
  | none => .error Fault.invalid_access
  | some i =>
    if 0 ≤ i ∧ i < (MAX_CONCURRENT_OPS k : Int) then
      match s.continuation_pool[i.toNat]? with
      | some c => .ok (c, s)
      | none => .error Fault.invalid_access
    else .error Fault.invalid_access

/-- Writing the record a continuation pointer points to. -/
def cont_write (k : Consts) (cont : Option Int) (c : continuation) : M Unit := fun s =>
  match cont with
  | none => .error Fault.invalid_access
  | some i =>
    if 0 ≤ i ∧ i < (MAX_CONCURRENT_OPS k : Int) ∧ i.toNat < s.continuation_pool.length then
      .ok ((), { s with continuation_pool := s.continuation_pool.set i.toNat c })
    else .error Fault.invalid_access

/-- The loop of `continuation_pool_init` from index `i` on; `fuel` bounds the
number of iterations. -/
def continuation_pool_init_loop (k : Consts) :
    Nat → Nat → List continuation → List continuation
  | 0, _, pool => pool
  | fuel + 1, i, pool =>
    if i + 1 < MAX_CONCURRENT_OPS k then
      continuation_pool_init_loop k fuel (i + 1)
        (pool.modify (fun c => { c with next_free := some ((i : Int) + 1) }) i)
    else pool

/-- The function `continuation_pool_init` of `op.c`. -/
def continuation_pool_init (k : Consts) (s : State) : State :=
  { s with
    first_free_cont := some 0
    continuation_pool :=
      continuation_pool_init_loop k (MAX_CONCURRENT_OPS k) 0 s.continuation_pool }

/-- Reading the global `first_free_cont`. -/
def get_first_free_cont : M (Option Int) := fun s => .ok (s.first_free_cont, s)

/-- Writing the global `first_free_cont`. -/
def set_first_free_cont (p : Option Int) : M Unit := fun s =>
  .ok ((), { s with first_free_cont := p })

/-- The function `continuation_alloc` of `op.c`. -/
def continuation_alloc (k : Consts) : M (Option Int) := do
  let cont ← get_first_free_cont
  if cont ≠ none then
    let c ← cont_read k cont
    set_first_free_cont c.next_free
    cont_write k cont { c with next_free := none }
    pure cont
  else
    pure cont

/-- The comparison `cont >= continuation_pool`; the null pointer lies below
every object. -/
def cont_ge_pool (cont : Option Int) : Bool :=
  match cont with
  | none => false
  | some i => decide (0 ≤ i)

/-- The comparison `cont < continuation_pool + MAX_CONCURRENT_OPS`. -/
def cont_lt_pool_end (k : Consts) (cont : Option Int) : Bool :=
  match cont with
  | none => true
  | some i => decide (i < (MAX_CONCURRENT_OPS k : Int))

/-- The function `continuation_free` of `op.c`. -/
def continuation_free (k : Consts) (cont : Option Int) : M Unit := do
  c_assert (cont_ge_pool cont)
  c_assert (cont_lt_pool_end k cont)
  let c ← cont_read k cont
  c_assert (c.next_free == none)
  let first ← get_first_free_cont
  cont_write k cont { c with next_free := first }
  set_first_free_cont cont

/-- The assignment `cont->request_id = v`. -/
def cont_set_request_id (k : Consts) (cont : Option Int) (v : Nat) : M Unit := do
  let c ← cont_read k cont
  cont_write k cont { c with request_id := v }

/-- The assignment `cont->data[j] = v`. -/
def cont_set_data (k : Consts) (cont : Option Int) (j : Nat) (v : Nat) : M Unit := do
  let c ← cont_read k cont
  cont_write k cont { c with data := c.data.set j v }

/-! ## Shared-buffer validation and path copy -/

/-- The function `get_buffer` of `op.c`; the result is an address. -/
def get_buffer (buf : fs_buffer_t) : M Nat := fun s =>
  if buf.offset ≥ CLIENT_SHARE_SIZE
      ∨ buf.size > u64_sub CLIENT_SHARE_SIZE buf.offset
      ∨ buf.size = 0 then
    .ok (NULL, s)
  else
    .ok (s.client_share + buf.offset, s)

/-- The statements `memcpy(path_buffer[slot], client_buf, size)` and
`path_buffer[slot][size] = 0` of `copy_path`. -/
def path_buffer_fill (slot : Nat) (client_buf : Nat) (size : Nat) : M Unit := fun s =>
  let row : Nat → Nat := fun j =>
    if j = size then 0
    else if j < size then s.mem (client_buf + j)
    else s.path_buffer slot j
  .ok ((), { s with path_buffer := fun t => if t = slot then row else s.path_buffer t })

/-- The function `copy_path` of `op.c`. The pointer it returns is `none` for
null and `some slot` for `path_buffer[slot]`. -/
def copy_path (k : Consts) (slot : Int) (buf : fs_buffer_t) : M (Option Nat) := do
  c_assert (decide (0 ≤ slot ∧ slot < 2))
  let client_buf ← get_buffer buf
  if client_buf = NULL ∨ buf.size > k.FS_MAX_PATH_LENGTH then
    pure none
  else
    path_buffer_fill slot.toNat client_buf buf.size
    pure (some slot.toNat)

/-- The copy `memcpy(dst, src, n)` into memory, the source given by its bytes. -/
def memcpy_to_mem (dst : Nat) (src : Nat → Nat) (n : Nat) : M Unit := fun s =>
  .ok ((), { s with mem := fun a => if dst ≤ a ∧ a < dst + n then src (a - dst) else s.mem a })

/-! ## Descriptor table -/

/-- Modelled from the spec: `alloc` takes the free slot of lowest index to
*reserved* with counter 0 and fails when no slot is free (sections 3 and 4.2;
`fd.c` is not part of the translated sources). The result is the return value
and the descriptor. -/
def fd_alloc : M (Int × Nat) := fun s =>
  match s.fd_table.findIdx? (fun e => e.state == fd_state.free) with
  | none => .ok ((-1, 0), s)
  | some i =>
    .ok ((0, i),
      { s with fd_table := s.fd_table.set i { state := fd_state.reserved, counter := 0 } })

/-- Modelled from the spec: `set_file` binds a slot that is reserved or
file-bound to a file handle; its precondition is asserted. -/
def fd_set_file (fd : Nat) (h : Nat) : M Unit := fun s =>
  match s.fd_table[fd]? with
  | some e =>
    match e.state with
    | fd_state.reserved | fd_state.file _ =>
      .ok ((), { s with fd_table := s.fd_table.set fd { e with state := fd_state.file h } })
    | _ => .error Fault.assertion
  | none => .error Fault.assertion

/-- Modelled from the spec: `set_dir` binds a slot that is reserved or
directory-bound to a directory handle; its precondition is asserted. -/
def fd_set_dir (fd : Nat) (h : Nat) : M Unit := fun s =>
  match s.fd_table[fd]? with
  | some e =>
    match e.state with
    | fd_state.reserved | fd_state.dir _ =>
      .ok ((), { s with fd_table := s.fd_table.set fd { e with state := fd_state.dir h } })
    | _ => .error Fault.assertion
  | none => .error Fault.assertion

/-- Modelled from the spec: `begin_op` on a file-bound slot returns the handle
and increments the counter; it fails on any other slot. The result is the return
value and the handle. -/
def fd_begin_op_file (fd : Nat) : M (Int × Nat) := fun s =>
  match s.fd_table[fd]? with
  | some e =>
    match e.state with
    | fd_state.file h =>
      .ok ((0, h), { s with fd_table := s.fd_table.set fd { e with counter := e.counter + 1 } })
    | _ => .ok ((-1, NULL), s)
  | none => .ok ((-1, NULL), s)

/-- Modelled from the spec: `begin_op` on a directory-bound slot returns the
handle and increments the counter; it fails on any other slot. -/
def fd_begin_op_dir (fd : Nat) : M (Int × Nat) := fun s =>
  match s.fd_table[fd]? with
  | some e =>
    match e.state with
    | fd_state.dir h =>
      .ok ((0, h), { s with fd_table := s.fd_table.set fd { e with counter := e.counter + 1 } })
    | _ => .ok ((-1, NULL), s)
  | none => .ok ((-1, NULL), s)

/-- Modelled from the spec: `end_op` decrements the counter; a counter of zero
is an assertion failure (section 7). -/
def fd_end_op (fd : Nat) : M Unit := fun s =>
  match s.fd_table[fd]? with
  | some e =>
    if e.counter > 0 then
      .ok ((), { s with fd_table := s.fd_table.set fd { e with counter := e.counter - 1 } })
    else .error Fault.assertion
  | none => .error Fault.assertion

/-- Modelled from the spec: `unset` takes a file-bound or directory-bound slot
back to *reserved* iff its counter is 0 and fails otherwise. The result is the
return value. -/
def fd_unset (fd : Nat) : M Int := fun s =>
  match s.fd_table[fd]? with
  | some e =>
    match e.state with
    | fd_state.file _ | fd_state.dir _ =>
      if e.counter = 0 then
        .ok (0, { s with fd_table := s.fd_table.set fd { e with state := fd_state.reserved } })
      else .ok (-1, s)
    | _ => .ok (-1, s)
  | none => .ok (-1, s)

/-- Modelled from the spec: `free` returns a reserved slot to *free*; its
precondition is asserted. -/
def fd_free (fd : Nat) : M Unit := fun s =>
  match s.fd_table[fd]? with
  | some e =>
    match e.state with
    | fd_state.reserved =>
      .ok ((), { s with fd_table := s.fd_table.set fd { state := fd_state.free, counter := 0 } })
    | _ => .error Fault.assertion
  | none => .error Fault.assertion

/-! ## The NFS client library -/

/-- Modelled from the spec: an asynchronous call of the NFS client library is
either rejected synchronously (a non-zero return value, no callback) or accepted
(return value 0), in which case its callback fires later with the user pointer
unchanged (section 6; the library is a collaborator). Either way the call has
been made and is recorded. -/
def nfs_async (env : nfs_env) (call : nfs_call) (cb : nfs_cb) (private_data : Option Int) :
    M Int := fun s =>
  if env.err = 0 then
    .ok (0, { s with
      pending := s.pending ++ [{ call := call, cb := cb, private_data := private_data }]
      nfs_calls := s.nfs_calls ++ [call] })
  else .ok (env.err, { s with nfs_calls := s.nfs_calls ++ [call] })

/-- Reading the global `nfs`: whether it is a context (not null). -/
def get_nfs : M Bool := fun s => .ok (s.nfs, s)

/-- The assignment `nfs = nfs_init_context()`. -/
def nfs_init_context (env : nfs_env) : M Unit := fun s =>
  .ok ((), { s with
    nfs := env.init_context_ok
    nfs_calls := s.nfs_calls ++ [nfs_call.init_context] })

/-- A synchronous call of the NFS client library: it is recorded. -/
def nfs_sync (call : nfs_call) : M Unit := fun s =>
  .ok ((), { s with nfs_calls := s.nfs_calls ++ [call] })

/-- The call `nfs_set_autoreconnect(nfs, num_retries)`. -/
def nfs_set_autoreconnect (num_retries : Int) : M Unit :=
  nfs_sync (nfs_call.set_autoreconnect num_retries)

/-- The call `nfs_closedir(nfs, dir)`. -/
def nfs_closedir (dir : Nat) : M Unit := nfs_sync (nfs_call.closedir dir)

/-- The call `nfs_readdir(nfs, dir)`: the name of the next entry, or `none` when
the library returns the null pointer. -/
def nfs_readdir (env : nfs_env) (dir : Nat) : M (Option (List Nat)) := fun s =>
  .ok (env.dirent, { s with nfs_calls := s.nfs_calls ++ [nfs_call.readdir dir] })

/-- The call `nfs_seekdir(nfs, dir, loc)`. -/
def nfs_seekdir (dir : Nat) (loc : Nat) : M Unit := nfs_sync (nfs_call.seekdir dir loc)

/-- The call `nfs_telldir(nfs, dir)`. -/
def nfs_telldir (env : nfs_env) (dir : Nat) : M Nat := fun s =>
  .ok (env.telldir, { s with nfs_calls := s.nfs_calls ++ [nfs_call.telldir dir] })

/-- The call `nfs_rewinddir(nfs, dir)`. -/
def nfs_rewinddir (dir : Nat) : M Unit := nfs_sync (nfs_call.rewinddir dir)

/-! ## Callbacks -/

def mount_cb (k : Consts) (a : cb_args) (private_data : Option Int) : M Unit := do
  let cont := private_data
  let c ← cont_read k cont
  let cmpl : fs_cmpl_t := { id := c.request_id, status := FS_STATUS_SUCCESS, data := {} }
  let cmpl := if a.status ≠ 0 then { cmpl with status := FS_STATUS_ERROR } else cmpl
  continuation_free k cont
  reply k cmpl

def stat64_cb (k : Consts) (a : cb_args) (private_data : Option Int) : M Unit := do
  let cont := private_data
  let c ← cont_read k cont
  let cmpl : fs_cmpl_t := { id := c.request_id, status := FS_STATUS_SUCCESS, data := {} }
  let buf := c.data.getD 0 0
  if a.status = 0 then
    memcpy_to_mem buf a.data_bytes k.sizeof_fs_stat_t
    continuation_free k cont
    reply k cmpl
  else
    let cmpl := { cmpl with status := FS_STATUS_ERROR }
    continuation_free k cont
    reply k cmpl

def fsize_cb (k : Consts) (a : cb_args) (private_data : Option Int) : M Unit := do
  let cont := private_data
  let c ← cont_read k cont
  let cmpl : fs_cmpl_t := { id := c.request_id, status := FS_STATUS_SUCCESS, data := {} }
  let fd := c.data.getD 0 0
  let cmpl :=
    if a.status ≠ 0 then { cmpl with status := FS_STATUS_ERROR }
    else { cmpl with data := { cmpl.data with file_size_size := a.nfs_size } }
  fd_end_op fd
  continuation_free k cont
  reply k cmpl

def open_cb (k : Consts) (a : cb_args) (private_data : Option Int) : M Unit := do
  let cont := private_data
  let c ← cont_read k cont
  let cmpl : fs_cmpl_t := { id := c.request_id, status := FS_STATUS_SUCCESS, data := {} }
  let file := a.data
  let fd := c.data.getD 0 0
  if a.status = 0 then
    fd_set_file fd file
    let cmpl := { cmpl with data := { cmpl.data with file_open_fd := fd } }
    continuation_free k cont
    reply k cmpl
  else
    fd_free fd
    let cmpl := { cmpl with status := FS_STATUS_ERROR }
    continuation_free k cont
    reply k cmpl

def close_cb (k : Consts) (a : cb_args) (private_data : Option Int) : M Unit := do
  let cont := private_data
  let c ← cont_read k cont
  let cmpl : fs_cmpl_t := { id := c.request_id, status := FS_STATUS_SUCCESS, data := {} }
  let fd := c.data.getD 0 0
  let fh := c.data.getD 1 0
  if a.status = 0 then
    fd_free fd
    continuation_free k cont
    reply k cmpl
  else
    fd_set_file fd fh
    let cmpl := { cmpl with status := FS_STATUS_ERROR }
    continuation_free k cont
    reply k cmpl

def read_cb (k : Consts) (a : cb_args) (private_data : Option Int) : M Unit := do
  let cont := private_data
  let c ← cont_read k cont
  let cmpl : fs_cmpl_t := { id := c.request_id, status := FS_STATUS_SUCCESS, data := {} }
  let fd := c.data.getD 0 0
  let cmpl :=
    if a.status ≥ 0 then
      { cmpl with data := { cmpl.data with file_read_len_read := a.status.toNat } }
    else { cmpl with status := FS_STATUS_ERROR }
  fd_end_op fd
  continuation_free k cont
  reply k cmpl

def write_cb (k : Consts) (a : cb_args) (private_data : Option Int) : M Unit := do
  let cont := private_data
  let c ← cont_read k cont
  let cmpl : fs_cmpl_t := { id := c.request_id, status := FS_STATUS_SUCCESS, data := {} }
  let fd := c.data.getD 0 0
  let cmpl :=
    if a.status ≥ 0 then
      { cmpl with data := { cmpl.data with file_write_len_written := a.status.toNat } }
    else { cmpl with status := FS_STATUS_ERROR }
  fd_end_op fd
  continuation_free k cont
  reply k cmpl

def rename_cb (k : Consts) (a : cb_args) (private_data : Option Int) : M Unit := do
  let cont := private_data
  let c ← cont_read k cont
  let cmpl : fs_cmpl_t := { id := c.request_id, status := FS_STATUS_SUCCESS, data := {} }
  let cmpl := if a.status ≠ 0 then { cmpl with status := FS_STATUS_ERROR } else cmpl
  continuation_free k cont
  reply k cmpl

def unlink_cb (k : Consts) (a : cb_args) (private_data : Option Int) : M Unit := do
  let cont := private_data
  let c ← cont_read k cont
  let cmpl : fs_cmpl_t := { id := c.request_id, status := FS_STATUS_SUCCESS, data := {} }
  let cmpl := if a.status ≠ 0 then { cmpl with status := FS_STATUS_ERROR } else cmpl
  continuation_free k cont
  reply k cmpl

def fsync_cb (k : Consts) (a : cb_args) (private_data : Option Int) : M Unit := do
  let cont := private_data
  let c ← cont_read k cont
  let cmpl : fs_cmpl_t := { id := c.request_id, status := FS_STATUS_SUCCESS, data := {} }
  let fd := c.data.getD 0 0
  let cmpl := if a.status ≠ 0 then { cmpl with status := FS_STATUS_ERROR } else cmpl
  fd_end_op fd
  continuation_free k cont
  reply k cmpl

def truncate_cb (k : Consts) (a : cb_args) (private_data : Option Int) : M Unit := do
  let cont := private_data
  let c ← cont_read k cont
  let cmpl : fs_cmpl_t := { id := c.request_id, status := FS_STATUS_SUCCESS, data := {} }
  let fd := c.data.getD 0 0
  let cmpl := if a.status ≠ 0 then { cmpl with status := FS_STATUS_ERROR } else cmpl
  fd_end_op fd
  continuation_free k cont
  reply k cmpl

def mkdir_cb (k : Consts) (a : cb_args) (private_data : Option Int) : M Unit := do
  let cont := private_data
  let c ← cont_read k cont
  let cmpl : fs_cmpl_t := { id := c.request_id, status := FS_STATUS_SUCCESS, data := {} }
  let cmpl := if a.status ≠ 0 then { cmpl with status := FS_STATUS_ERROR } else cmpl
  continuation_free k cont
  reply k cmpl

/-- The callback `rmdir_cb` of `op.c`: its continuation is the result of
`continuation_alloc()`, and `private_data` is not read. -/
def rmdir_cb (k : Consts) (a : cb_args) (_private_data : Option Int) : M Unit := do
  let cont ← continuation_alloc k
  let c ← cont_read k cont
  let cmpl : fs_cmpl_t := { id := c.request_id, status := FS_STATUS_SUCCESS, data := {} }
  let cmpl := if a.status ≠ 0 then { cmpl with status := FS_STATUS_ERROR } else cmpl
  continuation_free k cont
  reply k cmpl

def opendir_cb (k : Consts) (a : cb_args) (private_data : Option Int) : M Unit := do
  let cont := private_data
  let c ← cont_read k cont
  let cmpl : fs_cmpl_t := { id := c.request_id, status := FS_STATUS_SUCCESS, data := {} }
  let fd := c.data.getD 0 0
  let dir := a.data
  if a.status = 0 then
    fd_set_dir fd dir
    let cmpl := { cmpl with data := { cmpl.data with dir_open_fd := fd } }
    continuation_free k cont
    reply k cmpl
  else
    let cmpl := { cmpl with status := FS_STATUS_ERROR }
    fd_free fd
    continuation_free k cont
    reply k cmpl

/-- The callback that the NFS client library invokes for a pending submission. -/
def run_cb (k : Consts) (cb : nfs_cb) (a : cb_args) (private_data : Option Int) : M Unit :=
  match cb with
  | nfs_cb.mount_cb => mount_cb k a private_data
  | nfs_cb.stat64_cb => stat64_cb k a private_data
  | nfs_cb.fsize_cb => fsize_cb k a private_data
  | nfs_cb.open_cb => open_cb k a private_data
  | nfs_cb.close_cb => close_cb k a private_data
  | nfs_cb.read_cb => read_cb k a private_data
  | nfs_cb.write_cb => write_cb k a private_data
  | nfs_cb.rename_cb => rename_cb k a private_data
  | nfs_cb.unlink_cb => unlink_cb k a private_data
  | nfs_cb.fsync_cb => fsync_cb k a private_data
  | nfs_cb.truncate_cb => truncate_cb k a private_data
  | nfs_cb.mkdir_cb => mkdir_cb k a private_data
  | nfs_cb.rmdir_cb => rmdir_cb k a private_data
  | nfs_cb.opendir_cb => opendir_cb k a private_data

/-! ## Handlers -/

def handle_initialise (k : Consts) (env : nfs_env) (cmd : fs_cmd_t) : M Unit := do
  let status := FS_STATUS_ERROR
  let nfs ← get_nfs
  if nfs then
    reply k { id := cmd.id, status := status, data := {} }
  else
    nfs_init_context env
    let nfs ← get_nfs
    if !nfs then
      reply k { id := cmd.id, status := status, data := {} }
    else
      let cont ← continuation_alloc k
      c_assert (cont != none)
      cont_set_request_id k cont cmd.id
      nfs_set_autoreconnect (-1)
      let err ← nfs_async env nfs_call.mount nfs_cb.mount_cb cont
      if err ≠ 0 then
        continuation_free k cont
        reply k { id := cmd.id, status := status, data := {} }
      else
        pure ()

def handle_deinitialise (_k : Consts) (_env : nfs_env) (_cmd : fs_cmd_t) : M Unit :=
  pure ()

def handle_stat (k : Consts) (env : nfs_env) (cmd : fs_cmd_t) : M Unit := do
  let status := FS_STATUS_ERROR
  let params := cmd.params.stat
  let path ← copy_path k 0 params.path
  match path with
  | none => reply k { id := cmd.id, status := FS_STATUS_INVALID_PATH, data := {} }
  | some path =>
    let buf ← get_buffer params.buf
    if buf = NULL ∨ params.buf.size < k.sizeof_fs_stat_t then
      reply k { id := cmd.id, status := FS_STATUS_INVALID_BUFFER, data := {} }
    else
      let cont ← continuation_alloc k
      c_assert (cont != none)
      cont_set_request_id k cont cmd.id
      cont_set_data k cont 0 buf
      let err ← nfs_async env (nfs_call.stat64 path) nfs_cb.stat64_cb cont
      if err ≠ 0 then
        continuation_free k cont
        reply k { id := cmd.id, status := status, data := {} }
      else
        pure ()

def handle_fsize (k : Consts) (env : nfs_env) (cmd : fs_cmd_t) : M Unit := do
  let status := FS_STATUS_ERROR
  let params := cmd.params.file_size
  let (err, file_handle) ← fd_begin_op_file params.fd
  if err ≠ 0 then
    reply k { id := cmd.id, status := FS_STATUS_INVALID_FD, data := {} }
  else
    let cont ← continuation_alloc k
    c_assert (cont != none)
    cont_set_request_id k cont cmd.id
    cont_set_data k cont 0 params.fd
    let err ← nfs_async env (nfs_call.fstat64 file_handle) nfs_cb.fsize_cb cont
    if err ≠ 0 then
      continuation_free k cont
      fd_end_op params.fd
      reply k { id := cmd.id, status := status, data := {} }
    else
      pure ()

def handle_open (k : Consts) (env : nfs_env) (cmd : fs_cmd_t) : M Unit := do
  let status := FS_STATUS_ERROR
  let params := cmd.params.file_open
  let path ← copy_path k 0 params.path
  match path with
  | none => reply k { id := cmd.id, status := FS_STATUS_INVALID_PATH, data := {} }
  | some path =>
    let (err, fd) ← fd_alloc
    if err ≠ 0 then
      reply k { id := cmd.id, status := FS_STATUS_ALLOCATION_ERROR, data := {} }
    else
      let cont ← continuation_alloc k
      c_assert (cont != none)
      cont_set_request_id k cont cmd.id
      cont_set_data k cont 0 fd
      let posix_flags := 0
      let posix_flags :=
        if params.flags &&& k.FS_OPEN_FLAGS_READ_ONLY ≠ 0 then posix_flags ||| k.O_RDONLY
        else posix_flags
      let posix_flags :=
        if params.flags &&& k.FS_OPEN_FLAGS_WRITE_ONLY ≠ 0 then posix_flags ||| k.O_WRONLY
        else posix_flags
      let posix_flags :=
        if params.flags &&& k.FS_OPEN_FLAGS_READ_WRITE ≠ 0 then posix_flags ||| k.O_RDWR
        else posix_flags
      let posix_flags :=
        if params.flags &&& k.FS_OPEN_FLAGS_CREATE ≠ 0 then posix_flags ||| k.O_CREAT
        else posix_flags
      let err ← nfs_async env (nfs_call.open2 path posix_flags 0o644) nfs_cb.open_cb cont
      if err ≠ 0 then
        continuation_free k cont
        fd_free fd
        reply k { id := cmd.id, status := status, data := {} }
      else
        pure ()

def handle_close (k : Consts) (env : nfs_env) (cmd : fs_cmd_t) : M Unit := do
  let status := FS_STATUS_ERROR
  let params := cmd.params.file_close
  let (err, file_handle) ← fd_begin_op_file params.fd
  if err ≠ 0 then
    reply k { id := cmd.id, status := FS_STATUS_INVALID_FD, data := {} }
  else
    fd_end_op params.fd
    let err ← fd_unset params.fd
    if err ≠ 0 then
      reply k { id := cmd.id, status := FS_STATUS_OUTSTANDING_OPERATIONS, data := {} }
    else
      let cont ← continuation_alloc k
      c_assert (cont != none)
      cont_set_request_id k cont cmd.id
      cont_set_data k cont 0 params.fd
      cont_set_data k cont 1 file_handle
      let err ← nfs_async env (nfs_call.close file_handle) nfs_cb.close_cb cont
      if err ≠ 0 then
        continuation_free k cont
        fd_set_file params.fd file_handle
        reply k { id := cmd.id, status := status, data := {} }
      else
        pure ()

def handle_read (k : Consts) (env : nfs_env) (cmd : fs_cmd_t) : M Unit := do
  let status := FS_STATUS_ERROR
  let params := cmd.params.file_read
  let buf ← get_buffer params.buf
  if buf = NULL then
    reply k { id := cmd.id, status := FS_STATUS_INVALID_BUFFER, data := {} }
  else
    let (err, file_handle) ← fd_begin_op_file params.fd
    if err ≠ 0 then
      reply k { id := cmd.id, status := FS_STATUS_INVALID_FD, data := {} }
    else
      let cont ← continuation_alloc k
      c_assert (cont != none)
      cont_set_request_id k cont cmd.id
      cont_set_data k cont 0 params.fd
      cont_set_data k cont 1 buf
      let err ←
        nfs_async env (nfs_call.pread file_handle buf params.buf.size params.offset)
          nfs_cb.read_cb cont
      if err ≠ 0 then
        continuation_free k cont
        fd_end_op params.fd
        reply k { id := cmd.id, status := status, data := {} }
      else
        pure ()

def handle_write (k : Consts) (env : nfs_env) (cmd : fs_cmd_t) : M Unit := do
  let status := FS_STATUS_ERROR
  let params := cmd.params.file_write
  let buf ← get_buffer params.buf
  if buf = NULL then
    reply k { id := cmd.id, status := FS_STATUS_INVALID_BUFFER, data := {} }
  else
    let (err, file_handle) ← fd_begin_op_file params.fd
    if err ≠ 0 then
      reply k { id := cmd.id, status := FS_STATUS_INVALID_FD, data := {} }
    else
      let cont ← continuation_alloc k
      c_assert (cont != none)
      cont_set_request_id k cont cmd.id
      cont_set_data k cont 0 params.fd
      let err ←
        nfs_async env (nfs_call.pwrite file_handle buf params.buf.size params.offset)
          nfs_cb.write_cb cont
      if err ≠ 0 then
        continuation_free k cont
        fd_end_op params.fd
        reply k { id := cmd.id, status := status, data := {} }
      else
        pure ()

def handle_rename (k : Consts) (env : nfs_env) (cmd : fs_cmd_t) : M Unit := do
  let status := FS_STATUS_ERROR
  let params := cmd.params.rename
  let old_path ← copy_path k 0 params.old_path
  let new_path ← copy_path k 1 params.new_path
  match old_path, new_path with
  | some old_path, some new_path =>
    let cont ← continuation_alloc k
    c_assert (cont != none)
    cont_set_request_id k cont cmd.id
    let err ← nfs_async env (nfs_call.rename old_path new_path) nfs_cb.rename_cb cont
    if err ≠ 0 then
      continuation_free k cont
      reply k { id := cmd.id, status := status, data := {} }
    else
      pure ()
  | _, _ => reply k { id := cmd.id, status := FS_STATUS_INVALID_PATH, data := {} }

def handle_unlink (k : Consts) (env : nfs_env) (cmd : fs_cmd_t) : M Unit := do
  let status := FS_STATUS_ERROR
  let params := cmd.params.file_remove
  let path ← copy_path k 0 params.path
  match path with
  | none => reply k { id := cmd.id, status := FS_STATUS_INVALID_PATH, data := {} }
  | some path =>
    let cont ← continuation_alloc k
    c_assert (cont != none)
    cont_set_request_id k cont cmd.id
    let err ← nfs_async env (nfs_call.unlink path) nfs_cb.unlink_cb cont
    if err ≠ 0 then
      continuation_free k cont
      reply k { id := cmd.id, status := status, data := {} }
    else
      pure ()

def handle_fsync (k : Consts) (env : nfs_env) (cmd : fs_cmd_t) : M Unit := do
  let status := FS_STATUS_ERROR
  let params := cmd.params.file_sync
  let (err, file_handle) ← fd_begin_op_file params.fd
  if err ≠ 0 then
    reply k { id := cmd.id, status := FS_STATUS_INVALID_FD, data := {} }
  else
    let cont ← continuation_alloc k
    c_assert (cont != none)
    cont_set_request_id k cont cmd.id
    cont_set_data k cont 0 params.fd
    let err ← nfs_async env (nfs_call.fsync file_handle) nfs_cb.fsync_cb cont
    if err ≠ 0 then
      continuation_free k cont
      fd_end_op params.fd
      reply k { id := cmd.id, status := status, data := {} }
    else
      pure ()

def handle_truncate (k : Consts) (env : nfs_env) (cmd : fs_cmd_t) : M Unit := do
  let status := FS_STATUS_ERROR
  let params := cmd.params.file_truncate
  let (err, file_handle) ← fd_begin_op_file params.fd
  if err ≠ 0 then
    reply k { id := cmd.id, status := FS_STATUS_INVALID_FD, data := {} }
  else
    let cont ← continuation_alloc k
    c_assert (cont != none)
    cont_set_request_id k cont cmd.id
    cont_set_data k cont 0 params.fd
    let err ←
      nfs_async env (nfs_call.ftruncate file_handle params.length) nfs_cb.truncate_cb cont
    if err ≠ 0 then
      continuation_free k cont
      fd_end_op params.fd
      reply k { id := cmd.id, status := status, data := {} }
    else
      pure ()

def handle_mkdir (k : Consts) (env : nfs_env) (cmd : fs_cmd_t) : M Unit := do
  let status := FS_STATUS_ERROR
  let params := cmd.params.dir_create
  let path ← copy_path k 0 params.path
  match path with
  | none => reply k { id := cmd.id, status := FS_STATUS_INVALID_PATH, data := {} }
  | some path =>
    let cont ← continuation_alloc k
    c_assert (cont != none)
    cont_set_request_id k cont cmd.id
    let err ← nfs_async env (nfs_call.mkdir path) nfs_cb.mkdir_cb cont
    if err ≠ 0 then
      continuation_free k cont
      reply k { id := cmd.id, status := status, data := {} }
    else
      pure ()

def handle_rmdir (k : Consts) (env : nfs_env) (cmd : fs_cmd_t) : M Unit := do
  let status := FS_STATUS_ERROR
  let params := cmd.params.dir_remove
  let path ← copy_path k 0 params.path
  match path with
  | none => reply k { id := cmd.id, status := FS_STATUS_INVALID_PATH, data := {} }
  | some path =>
    let cont ← continuation_alloc k
    c_assert (cont != none)
    cont_set_request_id k cont cmd.id
    let err ← nfs_async env (nfs_call.rmdir path) nfs_cb.rmdir_cb cont
    if err ≠ 0 then
      continuation_free k cont
      reply k { id := cmd.id, status := status, data := {} }
    else
      pure ()

def handle_opendir (k : Consts) (env : nfs_env) (cmd : fs_cmd_t) : M Unit := do
  let params := cmd.params.dir_open
  let cmpl : fs_cmpl_t := { id := cmd.id, status := FS_STATUS_ERROR, data := {} }
  let path ← copy_path k 0 params.path
  match path with
  | none => reply k { cmpl with status := FS_STATUS_INVALID_PATH }
  | some path =>
    let (err, fd) ← fd_alloc
    if err ≠ 0 then
      reply k { cmpl with status := FS_STATUS_ALLOCATION_ERROR }
    else
      let cont ← continuation_alloc k
      c_assert (cont != none)
      cont_set_request_id k cont cmd.id
      cont_set_data k cont 0 fd
      let err ← nfs_async env (nfs_call.opendir path) nfs_cb.opendir_cb cont
      if err ≠ 0 then
        let cmpl := { cmpl with status := FS_STATUS_ERROR }
        continuation_free k cont
        fd_free fd
        reply k cmpl
      else
        pure ()

def handle_closedir (k : Consts) (_env : nfs_env) (cmd : fs_cmd_t) : M Unit := do
  let params := cmd.params.dir_close
  let cmpl : fs_cmpl_t := { id := cmd.id, status := FS_STATUS_SUCCESS, data := {} }
  let (err, dir_handle) ← fd_begin_op_dir params.fd
  if err ≠ 0 then
    reply k { cmpl with status := FS_STATUS_INVALID_FD }
  else
    fd_end_op params.fd
    let err ← fd_unset params.fd
    if err ≠ 0 then
      reply k { cmpl with status := FS_STATUS_OUTSTANDING_OPERATIONS }
    else
      nfs_closedir dir_handle
      fd_free params.fd
      reply k cmpl

def handle_readdir (k : Consts) (env : nfs_env) (cmd : fs_cmd_t) : M Unit := do
  let params := cmd.params.dir_read
  let cmpl : fs_cmpl_t := { id := cmd.id, status := FS_STATUS_SUCCESS, data := {} }
  let buf ← get_buffer params.buf
  if buf = NULL ∨ params.buf.size < k.FS_MAX_NAME_LENGTH then
    reply k { cmpl with status := FS_STATUS_INVALID_BUFFER }
  else
    let (status, dir_handle) ← fd_begin_op_dir params.fd
    if status ≠ 0 then
      reply k { cmpl with status := FS_STATUS_INVALID_FD }
    else
      let dirent ← nfs_readdir env dir_handle
      match dirent with
      | none =>
        let cmpl := { cmpl with status := FS_STATUS_END_OF_DIRECTORY }
        fd_end_op params.fd
        reply k cmpl
      | some name =>
        let name_len := name.length
        c_assert (decide (name_len ≤ k.FS_MAX_NAME_LENGTH))
        memcpy_to_mem buf (fun j => name.getD j 0) name_len
        let cmpl := { cmpl with data := { cmpl.data with dir_read_path_len := name_len } }
        fd_end_op params.fd
        reply k cmpl

def handle_seekdir (k : Consts) (_env : nfs_env) (cmd : fs_cmd_t) : M Unit := do
  let params := cmd.params.dir_seek
  let cmpl : fs_cmpl_t := { id := cmd.id, status := FS_STATUS_SUCCESS, data := {} }
  let (err, dir_handle) ← fd_begin_op_dir params.fd
  if err ≠ 0 then
    reply k { cmpl with status := FS_STATUS_INVALID_FD }
  else
    nfs_seekdir dir_handle params.loc
    fd_end_op params.fd
    reply k cmpl

def handle_telldir (k : Consts) (env : nfs_env) (cmd : fs_cmd_t) : M Unit := do
  let params := cmd.params.dir_tell
  let cmpl : fs_cmpl_t := { id := cmd.id, status := FS_STATUS_SUCCESS, data := {} }
  let (err, dir_handle) ← fd_begin_op_dir params.fd
  if err ≠ 0 then
    reply k { cmpl with status := FS_STATUS_INVALID_FD }
  else
    let location ← nfs_telldir env dir_handle
    let cmpl := { cmpl with data := { cmpl.data with dir_tell_location := location } }
    fd_end_op params.fd
    reply k cmpl

def handle_rewinddir (k : Consts) (_env : nfs_env) (cmd : fs_cmd_t) : M Unit := do
  let params := cmd.params.dir_rewind
  let cmpl : fs_cmpl_t := { id := cmd.id, status := FS_STATUS_SUCCESS, data := {} }
  let (err, dir_handle) ← fd_begin_op_dir params.fd
  if err ≠ 0 then
    reply k { cmpl with status := FS_STATUS_INVALID_FD }
  else
    nfs_rewinddir dir_handle
    fd_end_op params.fd
    reply k cmpl

/-! ## Dispatcher -/

/-- The table `cmd_handler` of `op.c`; an index past its end has no entry. -/
def cmd_handler (type : Nat) : Option (Consts → nfs_env → fs_cmd_t → M Unit) :=
  if type = FS_CMD_INITIALISE then some handle_initialise
  else if type = FS_CMD_DEINITIALISE then some handle_deinitialise
  else if type = FS_CMD_FILE_OPEN then some handle_open
  else if type = FS_CMD_FILE_CLOSE then some handle_close
  else if type = FS_CMD_STAT then some handle_stat
  else if type = FS_CMD_FILE_READ then some handle_read
  else if type = FS_CMD_FILE_WRITE then some handle_write
  else if type = FS_CMD_FILE_SIZE then some handle_fsize
  else if type = FS_CMD_RENAME then some handle_rename
  else if type = FS_CMD_FILE_REMOVE then some handle_unlink
  else if type = FS_CMD_FILE_TRUNCATE then some handle_truncate
  else if type = FS_CMD_DIR_CREATE then some handle_mkdir
  else if type = FS_CMD_DIR_REMOVE then some handle_rmdir
  else if type = FS_CMD_DIR_OPEN then some handle_opendir
  else if type = FS_CMD_DIR_CLOSE then some handle_closedir
  else if type = FS_CMD_FILE_SYNC then some handle_fsync
  else if type = FS_CMD_DIR_READ then some handle_readdir
  else if type = FS_CMD_DIR_SEEK then some handle_seekdir
  else if type = FS_CMD_DIR_TELL then some handle_telldir
  else if type = FS_CMD_DIR_REWIND then some handle_rewinddir
  else none

/-- The body of the loop of `process_commands` for the command `cmd`. -/
def process_command (k : Consts) (env : nfs_env) (cmd : fs_cmd_t) : M Unit :=
  if cmd.type ≥ FS_NUM_COMMANDS then
    reply k { id := cmd.id, status := FS_STATUS_INVALID_COMMAND, data := {} }
  else
    match cmd_handler cmd.type with
    | some handler => handler k env cmd
    | none => fun _ => .error Fault.invalid_access

/-- The read `fs_queue_idx_filled(command_queue, i)->cmd`. -/
def read_cmd (k : Consts) (i : Nat) : M fs_cmd_t := fun s =>
  .ok (s.command_queue.buffer (fs_queue_idx_filled k s.command_queue i), s)

/-- The loop of `process_commands` from index `i` on; `fuel` bounds the number
of iterations, and `env i` is what the NFS client library answers during
iteration `i`. -/
def process_commands_loop (k : Consts) (env : Nat → nfs_env) (to_consume : Nat) :
    Nat → Nat → M Unit
  | 0, _ => pure ()
  | fuel + 1, i =>
    if i < to_consume then do
      let cmd ← read_cmd k i
      process_command k (env i) cmd
      process_commands_loop k env to_consume fuel (i + 1)
    else pure ()

/-- The number of commands one run of `process_commands` consumes from the
state `s`: the local `to_consume`. -/
def to_consume (k : Consts) (s : State) : Nat :=
  let command_count := fs_queue_length_consumer s.command_queue
  let completion_space :=
    u64_sub k.FS_QUEUE_CAPACITY (fs_queue_length_producer s.completion_queue)
  min command_count completion_space

/-- The call `fs_queue_publish_consumption(command_queue, amount)`. -/
def publish_consumption (amount : Nat) : M Unit := fun s =>
  .ok ((), { s with command_queue := fs_queue_publish_consumption s.command_queue amount })

/-- The function `process_commands` of `op.c`. -/
def process_commands (k : Consts) (env : Nat → nfs_env) : M Unit := fun s =>
  let n := to_consume k s
  (do
    process_commands_loop k env n n 0
    publish_consumption n : M Unit) s

/-! ## The server in its environment -/

/-- Modelled from the spec: the program image before `init` runs. The globals are
zero, the queues are empty, every descriptor slot is free and no NFS context
exists. -/
def boot_state (k : Consts) (client_share : Nat) (mem : Nat → Nat) : State :=
  { command_queue := { head := 0, tail := 0, buffer := fun _ => {} }
    completion_queue := { head := 0, tail := 0, buffer := fun _ => {} }
    client_share := client_share
    mem := mem
    path_buffer := fun _ _ => 0
    continuation_pool := List.replicate (MAX_CONCURRENT_OPS k) {}
    first_free_cont := none
    fd_table := List.replicate k.MAX_OPEN_FILES {}
    nfs := false
    pending := []
    notified := 0
    nfs_calls := [] }

/-- Modelled from the spec: the server at startup, the continuation pool having
been initialised (section 4.1). -/
def init_state (k : Consts) (client_share : Nat) (mem : Nat → Nat) : State :=
  continuation_pool_init k (boot_state k client_share mem)

/-- What can happen to the server: the client enqueues a command, the dispatcher
runs, the NFS client library fires the callback of the pending submission number
`idx`, or the client dequeues a completion. -/
inductive Event where
  | client_enqueue (cmd : fs_cmd_t)
  | process (env : Nat → nfs_env)
  | callback (idx : Nat) (args : cb_args)
  | client_dequeue

/-- Whether an event can happen in a state: the client enqueues only within the
capacity of the command queue and dequeues only from a non-empty completion
queue, and only a pending submission has its callback fired. -/
def enabled (k : Consts) (s : State) : Event → Bool
  | Event.client_enqueue _ => decide (fs_queue_length_producer s.command_queue < k.FS_QUEUE_CAPACITY)
  | Event.process _ => true
  | Event.callback idx _ => decide (idx < s.pending.length)
  | Event.client_dequeue => decide (0 < fs_queue_length_consumer s.completion_queue)

/-- The effect of an event. -/
def step (k : Consts) (s : State) : Event → Except Fault State
  | Event.client_enqueue cmd =>
    let q := fs_queue_write s.command_queue (fs_queue_idx_empty k s.command_queue 0) cmd
    .ok { s with command_queue := fs_queue_publish_production q 1 }
  | Event.process env => state_of (process_commands k env s)
  | Event.callback idx args =>
    match s.pending[idx]? with
    | some p =>
      state_of (run_cb k p.cb args p.private_data { s with pending := s.pending.eraseIdx idx })
    | none => .ok s
  | Event.client_dequeue =>
    .ok { s with completion_queue := fs_queue_publish_consumption s.completion_queue 1 }

/-- The states the server reaches from startup. -/
inductive Reachable (k : Consts) (client_share : Nat) (mem : Nat → Nat) : State → Prop where
  | init : Reachable k client_share mem (init_state k client_share mem)
  | step (s s' : State) (e : Event) : Reachable k client_share mem s →
      enabled k s e = true → step k s e = .ok s' → Reachable k client_share mem s'

/-- Running a sequence of events; `none` when one of them cannot happen. -/
def run (k : Consts) : State → List Event → Option (Except Fault State)
  | s, [] => some (.ok s)
  | s, e :: es =>
    if enabled k s e then
      match step k s e with
      | .ok s' => run k s' es
      | .error f => some (.error f)
    else none

/-! ## Specification vocabulary -/

/-- A buffer descriptor is valid (section 3 of the specification). -/
def buffer_valid (buf : fs_buffer_t) : Prop :=
  buf.offset < CLIENT_SHARE_SIZE ∧ buf.size ≤ CLIENT_SHARE_SIZE - buf.offset ∧ 0 < buf.size

/-- A run returns, and its result and final state satisfy `Q`. -/
def wpt {α : Type} (m : M α) (s : State) (Q : α → State → Prop) : Prop :=
  ∃ a s', m s = .ok (a, s') ∧ Q a s'

/-- The free list: following `next_free` from the pointer `p` visits the pool
entries `fl` in this order and ends in the null pointer. -/
def FreeChain (pool : List continuation) : Option Int → List Nat → Prop
  | p, [] => p = none
  | p, i :: rest =>
    p = some (i : Int) ∧ ∃ c, pool[i]? = some c ∧ FreeChain pool c.next_free rest

/-- The invariant of the continuation pool: the pool has `MAX_CONCURRENT_OPS`
entries, the free list is the duplicate-free list `fl` of entries of the pool,
and `next_free` is null in every entry that is not on the free list. -/
structure PoolOK (k : Consts) (pool : List continuation) (first : Option Int)
    (fl : List Nat) : Prop where
  len : pool.length = MAX_CONCURRENT_OPS k
  chain : FreeChain pool first fl
  nodup : fl.Nodup
  bound : ∀ i, i ∈ fl → i < MAX_CONCURRENT_OPS k
  alloc_null : ∀ i c, i ∉ fl → pool[i]? = some c → c.next_free = none

/-! ## Concrete instances -/

/-- Constants for concrete runs, with a command queue of one slot. -/
def consts_q1 : Consts :=
  { FS_QUEUE_CAPACITY := 1
    FS_MAX_PATH_LENGTH := 4096
    FS_MAX_NAME_LENGTH := 256
    sizeof_fs_stat_t := 128
    MAX_OPEN_FILES := 4
    FS_OPEN_FLAGS_READ_ONLY := 0
    FS_OPEN_FLAGS_WRITE_ONLY := 1
    FS_OPEN_FLAGS_READ_WRITE := 2
    FS_OPEN_FLAGS_CREATE := 4
    O_RDONLY := 0
    O_WRONLY := 1
    O_RDWR := 2
    O_CREAT := 64 }

/-- Constants for concrete runs, with a command queue of two slots. -/
def consts_q2 : Consts := { consts_q1 with FS_QUEUE_CAPACITY := 2 }

/-- The server at startup with one queue slot, the shared region at address
`0x30000000` and filled with the byte `0x2f`. -/
def start_q1 : State := init_state consts_q1 0x30000000 (fun _ => 0x2f)

/-- The server at startup with two queue slots. -/
def start_q2 : State := init_state consts_q2 0x30000000 (fun _ => 0x2f)

/-- What a handler leaves behind for the command of request identifier `id`,
the free list of the pool being `fl` before. Either it has published one
completion with that identifier and has left the pending submissions and the
free list as they were; or it has published nothing, has taken the head of the
free list as continuation and has left one more pending submission, whose user
pointer is that continuation. -/
inductive Outcome (k : Consts) (s : State) (fl : List Nat) (id : Nat) (s' : State) : Prop where
  | immediate (cmpl : fs_cmpl_t) :
      cmpl.id = id →
      s'.completion_queue = (reply_state k cmpl s).completion_queue →
      s'.notified = s.notified + 1 →
      s'.pending = s.pending →
      s'.command_queue = s.command_queue →
      PoolOK k s'.continuation_pool s'.first_free_cont fl →
      Outcome k s fl id s'
  | deferred (c : Nat) (fl' : List Nat) (p : nfs_pending) :
      fl = c :: fl' →
      p.private_data = some (c : Int) →
      s'.completion_queue = s.completion_queue →
      s'.notified = s.notified →
      s'.pending = s.pending ++ [p] →
      s'.command_queue = s.command_queue →
      PoolOK k s'.continuation_pool s'.first_free_cont fl' →
      Outcome k s fl id s'

/-- A run from `s` to `s'` has published exactly one completion. -/
def published_one (k : Consts) (s s' : State) : Prop :=
  ∃ cmpl : fs_cmpl_t,
    s'.completion_queue = (reply_state k cmpl s).completion_queue ∧
    s'.notified = s.notified + 1

/-- A run from `s` to `s'` has published no completion. -/
def published_none (s s' : State) : Prop :=
  s'.completion_queue = s.completion_queue ∧ s'.notified = s.notified

/-- The handling of one consumed command returns, and either it has published
exactly one completion and has left no pending submission behind, or it has
published none and has left exactly one pending submission behind. -/
def one_completion_or_one_pending (k : Consts) (env : nfs_env) (cmd : fs_cmd_t)
    (s : State) : Prop :=
  ∃ s', process_command k env cmd s = .ok ((), s') ∧
    ((published_one k s s' ∧ s'.pending = s.pending) ∨
     (published_none s s' ∧ ∃ p, s'.pending = s.pending ++ [p]))

/-- What a callback needs from the descriptor table: the descriptor that the
handler stored in `data[0]` is still pinned (for the callbacks that end an
operation) or still reserved (for the callbacks of open, close and opendir). -/
def cb_fd_ready (cb : nfs_cb) (cont : continuation) (tbl : List fd_entry) : Prop :=
  match cb with
  | nfs_cb.fsize_cb | nfs_cb.read_cb | nfs_cb.write_cb | nfs_cb.fsync_cb
  | nfs_cb.truncate_cb =>
    ∃ e, tbl[cont.data.getD 0 0]? = some e ∧ 0 < e.counter
  | nfs_cb.open_cb | nfs_cb.close_cb | nfs_cb.opendir_cb =>
    ∃ e, tbl[cont.data.getD 0 0]? = some e ∧ e.state = fd_state.reserved
  | _ => True

/-- The callback of a submission whose continuation is the allocated pool entry
`c` returns, publishes exactly one completion, which carries the request
identifier stored in the continuation, adds no pending submission and returns
the continuation to the free list. -/
def callback_completes (k : Consts) (cb : nfs_cb) (a : cb_args) (c : Nat) (fl : List Nat)
    (s : State) : Prop :=
  wpt (run_cb k cb a (some (c : Int))) s (fun _ s' =>
    ∃ (cmpl : fs_cmpl_t) (cont : continuation),
      s.continuation_pool[c]? = some cont ∧ cmpl.id = cont.request_id ∧
      s'.completion_queue = (reply_state k cmpl s).completion_queue ∧
      s'.notified = s.notified + 1 ∧
      s'.pending = s.pending ∧
      PoolOK k s'.continuation_pool s'.first_free_cont (c :: fl))

/-- The invariant of the loop of `process_commands` before iteration `j`, the
run having started in `s0` with the free list `fl0`: the command queue is
untouched, and for some number `p` of completions published so far, `p` is at
most `j`, the completion queue has grown by `p`, and the free list has shrunk
by at most `j - p` entries. -/
def LoopInv (k : Consts) (s0 : State) (fl0 : List Nat) (j : Nat) (s : State) : Prop :=
  s.command_queue = s0.command_queue ∧
  ∃ (p : Nat) (fl : List Nat),
    PoolOK k s.continuation_pool s.first_free_cont fl ∧
    s.notified = s0.notified + p ∧
    fs_queue_length_producer s.completion_queue =
      fs_queue_length_producer s0.completion_queue + p ∧
    p + fl0.length ≤ j + fl.length ∧
    p ≤ j

/-- The pool states reached from `continuation_pool_init` (run on the zeroed
pool of a program at startup) by `continuation_alloc` and by `continuation_free`
of allocated continuations, each with the list of the continuations that are
allocated in it. The assignments to `request_id` and `data` of an allocated
continuation, which the handlers make, are steps as well. -/
inductive PoolReach (k : Consts) : State → List Int → Prop where
  | init (s : State) :
      s.continuation_pool = List.replicate (MAX_CONCURRENT_OPS k) {} →
      PoolReach k (continuation_pool_init k s) []
  | alloc (s s' : State) (A : List Int) (p : Int) :
      PoolReach k s A → continuation_alloc k s = .ok (some p, s') → PoolReach k s' (p :: A)
  | free (s s' : State) (A : List Int) (p : Int) :
      PoolReach k s A → p ∈ A → continuation_free k (some p) s = .ok ((), s') →
      PoolReach k s' (A.erase p)
  | set_request_id (s s' : State) (A : List Int) (p : Int) (v : Nat) :
      PoolReach k s A → p ∈ A → cont_set_request_id k (some p) v s = .ok ((), s') →
      PoolReach k s' A
  | set_data (s s' : State) (A : List Int) (p : Int) (j v : Nat) :
      PoolReach k s A → p ∈ A → cont_set_data k (some p) j v s = .ok ((), s') →
      PoolReach k s' A

/-- The results of `n` successive calls of `continuation_alloc`. -/
def alloc_many (k : Consts) : Nat → M (List (Option Int))
  | 0 => pure []
  | n + 1 => do
    let cont ← continuation_alloc k
    let rest ← alloc_many k n
    pure (cont :: rest)

/-- A `FILE_REMOVE` command for the one-byte path at offset 0 of the shared
region. -/
def cmd_unlink (id : Nat) : fs_cmd_t :=
  { type := FS_CMD_FILE_REMOVE, id := id
    params := { file_remove := { path := { offset := 0, size := 1 } } } }

/-- A `DIR_REMOVE` command for the one-byte path at offset 0 of the shared
region. -/
def cmd_rmdir (id : Nat) : fs_cmd_t :=
  { type := FS_CMD_DIR_REMOVE, id := id
    params := { dir_remove := { path := { offset := 0, size := 1 } } } }

/-- A `DIR_CLOSE` command for descriptor 0. -/
def cmd_closedir (id : Nat) : fs_cmd_t :=
  { type := FS_CMD_DIR_CLOSE, id := id, params := { dir_close := { fd := 0 } } }

/-- The NFS client library accepts every submission. -/
def env_accept : Nat → nfs_env := fun _ => {}

/-- The value a run returns. -/
def value_of {α : Type} (r : Except Fault (α × State)) : Except Fault α :=
  match r with
  | .ok (a, _) => .ok a
  | .error f => .error f

/-! ### A run that exhausts the pool (one queue slot) -/

/-- The client has enqueued `FILE_REMOVE` with identifier 1. -/
def run_a1 : State :=
  { start_q1 with
    command_queue :=
      { head := 0, tail := 1, buffer := fun j => if j = 0 then cmd_unlink 1 else {} } }

/-- The dispatcher has run: the submission is pending and holds the only
continuation. -/
def run_a2 : State :=
  { run_a1 with
    command_queue :=
      { head := 1, tail := 1, buffer := fun j => if j = 0 then cmd_unlink 1 else {} }
    path_buffer := fun t =>
      if t = 0 then fun j => if j = 1 then 0 else if j < 1 then 0x2f else 0 else fun _ => 0
    continuation_pool := [{ request_id := 1, data := [0, 0, 0, 0], next_free := none }]
    first_free_cont := none
    pending := [{ call := nfs_call.unlink 0, cb := nfs_cb.unlink_cb, private_data := some 0 }]
    nfs_calls := [nfs_call.unlink 0] }

/-- The client has enqueued `FILE_REMOVE` with identifier 2. -/
def run_a3 : State :=
  { run_a2 with
    command_queue :=
      { head := 1, tail := 2
        buffer := fun j =>
          if j = 0 then cmd_unlink 2 else if j = 0 then cmd_unlink 1 else {} } }

/-! ### A run that fills the completion queue under a pending submission -/

/-- After `run_a2` the client has enqueued `DIR_CLOSE` with identifier 2. -/
def run_b3 : State :=
  { run_a2 with
    command_queue :=
      { head := 1, tail := 2
        buffer := fun j =>
          if j = 0 then cmd_closedir 2 else if j = 0 then cmd_unlink 1 else {} } }

/-- The dispatcher has run: the completion queue is full, and the submission of
the first command is still pending. -/
def run_b4 : State :=
  { run_b3 with
    command_queue :=
      { head := 2, tail := 2
        buffer := fun j =>
          if j = 0 then cmd_closedir 2 else if j = 0 then cmd_unlink 1 else {} }
    completion_queue :=
      { head := 0, tail := 1
        buffer := fun j =>
          if j = 0 then { id := 2, status := FS_STATUS_INVALID_FD, data := {} } else {} }
    notified := 1 }

/-! ### A run with a directory removal (two queue slots) -/

/-- The client has enqueued `DIR_REMOVE` with identifier 7. -/
def run_c1 : State :=
  { start_q2 with
    command_queue :=
      { head := 0, tail := 1, buffer := fun j => if j = 0 then cmd_rmdir 7 else {} } }

/-- The dispatcher has run: the submission is pending with continuation 0. -/
def run_c2 : State :=
  { run_c1 with
    command_queue :=
      { head := 1, tail := 1, buffer := fun j => if j = 0 then cmd_rmdir 7 else {} }
    path_buffer := fun t =>
      if t = 0 then fun j => if j = 1 then 0 else if j < 1 then 0x2f else 0 else fun _ => 0
    continuation_pool :=
      [{ request_id := 7, data := [0, 0, 0, 0], next_free := none },
       { request_id := 0, data := [0, 0, 0, 0], next_free := none }]
    first_free_cont := some 1
    pending := [{ call := nfs_call.rmdir 0, cb := nfs_cb.rmdir_cb, private_data := some 0 }]
    nfs_calls := [nfs_call.rmdir 0] }

/-- The callback has fired with status 0. -/
def run_c3 : State :=
  { run_c2 with
    completion_queue :=
      { head := 0, tail := 1
        buffer := fun j =>
          if j = 0 then { id := 0, status := FS_STATUS_SUCCESS, data := {} } else {} }
    pending := []
    notified := 1 }

/-- The number of allocated continuations when the free list is `fl`: the pool
entries that are not on the free list. -/
def allocated_count (k : Consts) (fl : List Nat) : Nat := MAX_CONCURRENT_OPS k - fl.length

/-! ### A double free right after initialisation (two pool entries) -/

/-- Entry 1, the last entry of the free list, has been freed. -/
def run_d1 : State :=
  { start_q2 with
    continuation_pool :=
      [{ request_id := 0, data := [0, 0, 0, 0], next_free := some 1 },
       { request_id := 0, data := [0, 0, 0, 0], next_free := some 0 }]
    first_free_cont := some 1 }

/-- Entry 1 has been allocated. -/
def run_d2 : State :=
  { start_q2 with
    continuation_pool :=
      [{ request_id := 0, data := [0, 0, 0, 0], next_free := some 1 },
       { request_id := 0, data := [0, 0, 0, 0], next_free := none }]
    first_free_cont := some 0 }

/-- Entry 0 has been allocated. -/
def run_d3 : State :=
  { start_q2 with
    continuation_pool :=
      [{ request_id := 0, data := [0, 0, 0, 0], next_free := none },
       { request_id := 0, data := [0, 0, 0, 0], next_free := none }]
    first_free_cont := some 1 }

/-- Entry 1 has been allocated a second time. -/
def run_d4 : State := { run_d3 with first_free_cont := none }

/-- A run from `s` to `s'` has published `n` completions and has left the
command queue alone: `reply` has been called `n` times, and the completion queue
has grown by `n` entries (modulo `2 ^ 64`, as its cursors are). -/
structure Pub (n : Nat) (s s' : State) : Prop where
  command_queue : s'.command_queue = s.command_queue
  notified : s'.notified = s.notified + n
  length :
    fs_queue_length_producer s'.completion_queue =
      (fs_queue_length_producer s.completion_queue + n) % U64

/-- Every run of `m` that returns has published exactly `n` completions. -/
structure runs_pub {α : Type} (n : Nat) (m : M α) : Prop where
  run : ∀ s a s', m s = .ok (a, s') → Pub n s s'

/-- Every run of `m` that returns has published at most `n` completions. -/
structure runs_pub_le {α : Type} (n : Nat) (m : M α) : Prop where
  run : ∀ s a s', m s = .ok (a, s') → ∃ j, j ≤ n ∧ Pub j s s'

/-! ## Vocabulary of the error paths -/

/-- A run from `s` to `s'` has rejected a command with the completion `cmpl`: it
has published `cmpl` and nothing else, and the continuation pool, the free list,
the descriptor table, the pending submissions and the record of calls made to
the NFS client library are as before. -/
structure Rejected (k : Consts) (cmpl : fs_cmpl_t) (s s' : State) : Prop where
  completion_queue : s'.completion_queue = (reply_state k cmpl s).completion_queue
  notified : s'.notified = s.notified + 1
  continuation_pool : s'.continuation_pool = s.continuation_pool
  first_free_cont : s'.first_free_cont = s.first_free_cont
  fd_table : s'.fd_table = s.fd_table
  pending : s'.pending = s.pending
  nfs_calls : s'.nfs_calls = s.nfs_calls

/-- The descriptor `fd` does not name a slot bound to a file: there is no such
slot, or the slot is free, reserved or bound to a directory. -/
def not_file_bound (tbl : List fd_entry) (fd : Nat) : Prop :=
  ∀ e, tbl[fd]? = some e →
    e.state = fd_state.free ∨ e.state = fd_state.reserved ∨ ∃ h, e.state = fd_state.dir h

/-- A server with two queue slots and four descriptors: descriptor 0 is bound to
the file handle 7 and idle, descriptor 1 is bound to the directory handle 9
with two operations outstanding, descriptor 2 is bound to the file handle 8
with one operation outstanding, and descriptor 3 is free. -/
def bound_q2 : State :=
  { start_q2 with
    fd_table :=
      [{ state := fd_state.file 7, counter := 0 }, { state := fd_state.dir 9, counter := 2 },
       { state := fd_state.file 8, counter := 1 }, { state := fd_state.free, counter := 0 }] }

/-! ## Vocabulary of the dispatcher loop -/

/-- The command in the `i`-th filled slot of the command queue. -/
def nth_command (k : Consts) (s : State) (i : Nat) : fs_cmd_t :=
  s.command_queue.buffer (fs_queue_idx_filled k s.command_queue i)

/-- The state `s` with another completion queue and another count of
notifications; every other component is that of `s`. -/
def with_completions (s : State) (q : fs_queue fs_cmpl_t) (n : Nat) : State :=
  { s with completion_queue := q, notified := n }

/-- The completion queue after the completions `l` have been published to `q`,
in this order. -/
def fs_queue_produce (k : Consts) (q : fs_queue fs_cmpl_t) (l : List fs_cmpl_t) :
    fs_queue fs_cmpl_t :=
  l.foldl (fun q c =>
    fs_queue_publish_production (fs_queue_write q (fs_queue_idx_empty k q 0) c) 1) q

/-- The result of a run, moved to another completion queue and another count of
notifications. -/
def result_with_completions {α : Type} (r : Except Fault (α × State))
    (q : fs_queue fs_cmpl_t) (n : Nat) : Except Fault (α × State) :=
  match r with
  | .ok (a, s) => .ok (a, with_completions s q n)
  | .error f => .error f

/-- The code `m` neither reads nor writes the completion queue and the count of
notifications: run on a state with other ones, it does the same and leaves them
alone. -/
structure ignores_completions {α : Type} (m : M α) : Prop where
  run : ∀ s q n, m (with_completions s q n) = result_with_completions (m s) q n

/-- The code `m` publishes at most `b` completions and runs as if the
completions published before it were not there. Let the completion queue of `s`
and the queue `q` each have producer space for `b` completions. Whenever `m`
returns from `s`, having published the completions `l`, it returns the same
result from the state that differs from `s` in holding the completion queue `q`
and the count of notifications `n`, where it publishes the same completions `l`
after those that are in `q`; and whenever `m` stops in a fault from `s`, it
stops in the same fault from that state. -/
structure completion_blind (k : Consts) {α : Type} (b : Nat) (m : M α) : Prop where
  run : ∀ s q n,
    fs_queue_length_producer s.completion_queue + b ≤ k.FS_QUEUE_CAPACITY →
    fs_queue_length_producer q + b ≤ k.FS_QUEUE_CAPACITY →
    (∀ a s', m s = .ok (a, s') →
      ∃ l : List fs_cmpl_t,
        l.length ≤ b ∧
        s'.completion_queue = fs_queue_produce k s.completion_queue l ∧
        s'.notified = s.notified + l.length ∧
        m (with_completions s q n) =
          .ok (a, with_completions s' (fs_queue_produce k q l) (n + l.length))) ∧
    (∀ f, m s = .error f → m (with_completions s q n) = .error f)

/-! ## Vocabulary of the handlers -/

/-- The translations of the flags of `OPEN`. -/
def open_flag_translations (k : Consts) : List (Nat × Nat) :=
  [(k.FS_OPEN_FLAGS_READ_ONLY, k.O_RDONLY), (k.FS_OPEN_FLAGS_WRITE_ONLY, k.O_WRONLY),
   (k.FS_OPEN_FLAGS_READ_WRITE, k.O_RDWR), (k.FS_OPEN_FLAGS_CREATE, k.O_CREAT)]

/-- The bitwise OR, over the flags that are set in `flags`, of their
translations. -/
def open_flags_translation (k : Consts) (flags : Nat) : Nat :=
  ((open_flag_translations k).filter (fun p => flags &&& p.1 ≠ 0)).foldl
    (fun acc p => acc ||| p.2) 0

/-- A path descriptor that `copy_path` accepts. -/
def path_ok (k : Consts) (buf : fs_buffer_t) : Prop :=
  buffer_valid buf ∧ buf.size ≤ k.FS_MAX_PATH_LENGTH

/-- A run from `s` to `s'` has rolled a rejected submission back: it has made
one call to the NFS client library, has published the completion with the
identifier `id` and status `ERROR` and nothing else, and has left no pending
submission; the descriptor table is as before; the free list of the continuation
pool is as before, that is its head and the `next_free` link of every entry, and
every entry but the head of the free list is as before in every field. -/
structure RolledBack (k : Consts) (id : Nat) (s s' : State) : Prop where
  completion_queue :
    s'.completion_queue =
      (reply_state k { id := id, status := FS_STATUS_ERROR, data := {} } s).completion_queue
  notified : s'.notified = s.notified + 1
  fd_table : s'.fd_table = s.fd_table
  first_free_cont : s'.first_free_cont = s.first_free_cont
  next_free :
    s'.continuation_pool.map continuation.next_free =
      s.continuation_pool.map continuation.next_free
  others : ∀ i : Nat, s.first_free_cont ≠ some (i : Int) →
    s'.continuation_pool[i]? = s.continuation_pool[i]?
  pending : s'.pending = s.pending
  nfs_calls : ∃ call, s'.nfs_calls = s.nfs_calls ++ [call]

/-- The descriptor `fd` names a slot bound to a file. -/
def file_bound (tbl : List fd_entry) (fd : Nat) : Prop :=
  ∃ e h, tbl[fd]? = some e ∧ e.state = fd_state.file h

/-- The invariant of the descriptor table that a free slot has counter 0
(section 8 of the specification). -/
def fd_table_wf (tbl : List fd_entry) : Prop :=
  ∀ e, e ∈ tbl → e.state = fd_state.free → e.counter = 0

/-- Validation and resource acquisition succeed for the command `cmd` of an
asynchronous handler in the state `s`: its paths are accepted by `copy_path`,
its data buffer is valid (and holds a `fs_stat_t` for `STAT`), its descriptor
is bound to a file (and idle for `CLOSE`), and a descriptor slot is free for
`OPEN` and `DIR_OPEN`. -/
def acquisition_succeeds (k : Consts) (cmd : fs_cmd_t) (s : State) : Prop :=
  (cmd.type = FS_CMD_STAT ∧ path_ok k cmd.params.stat.path ∧
    buffer_valid cmd.params.stat.buf ∧ k.sizeof_fs_stat_t ≤ cmd.params.stat.buf.size) ∨
  (cmd.type = FS_CMD_FILE_SIZE ∧ file_bound s.fd_table cmd.params.file_size.fd) ∨
  (cmd.type = FS_CMD_FILE_OPEN ∧ path_ok k cmd.params.file_open.path ∧
    ∃ e, e ∈ s.fd_table ∧ e.state = fd_state.free) ∨
  (cmd.type = FS_CMD_FILE_CLOSE ∧
    ∃ e h, s.fd_table[cmd.params.file_close.fd]? = some e ∧ e.state = fd_state.file h ∧
      e.counter = 0) ∨
  (cmd.type = FS_CMD_FILE_READ ∧ buffer_valid cmd.params.file_read.buf ∧
    file_bound s.fd_table cmd.params.file_read.fd) ∨
  (cmd.type = FS_CMD_FILE_WRITE ∧ buffer_valid cmd.params.file_write.buf ∧
    file_bound s.fd_table cmd.params.file_write.fd) ∨
  (cmd.type = FS_CMD_RENAME ∧ path_ok k cmd.params.rename.old_path ∧
    path_ok k cmd.params.rename.new_path) ∨
  (cmd.type = FS_CMD_FILE_REMOVE ∧ path_ok k cmd.params.file_remove.path) ∨
  (cmd.type = FS_CMD_FILE_SYNC ∧ file_bound s.fd_table cmd.params.file_sync.fd) ∨
  (cmd.type = FS_CMD_FILE_TRUNCATE ∧ file_bound s.fd_table cmd.params.file_truncate.fd) ∨
  (cmd.type = FS_CMD_DIR_CREATE ∧ path_ok k cmd.params.dir_create.path) ∨
  (cmd.type = FS_CMD_DIR_REMOVE ∧ path_ok k cmd.params.dir_remove.path) ∨
  (cmd.type = FS_CMD_DIR_OPEN ∧ path_ok k cmd.params.dir_open.path ∧
    ∃ e, e ∈ s.fd_table ∧ e.state = fd_state.free)

/-- The NFS client library rejects the submission. -/
def env_reject : nfs_env := { err := -1 }

/-- The state after `FILE_REMOVE` with identifier 7 has been handled from
`start_q1` with the submission rejected: the completion is published, and the
only pool entry is free again and holds the identifier 7. -/
def run_e1 : State :=
  { start_q1 with
    completion_queue :=
      { head := 0, tail := 1
        buffer := fun j =>
          if j = 0 then { id := 7, status := FS_STATUS_ERROR, data := {} } else {} }
    path_buffer := fun t =>
      if t = 0 then fun j => if j = 1 then 0 else if j < 1 then 0x2f else 0 else fun _ => 0
    continuation_pool := [{ request_id := 7, data := [0, 0, 0, 0], next_free := none }]
    first_free_cont := some 0
    notified := 1
    nfs_calls := [nfs_call.unlink 0] }

/-! ## Vocabulary of rejected commands -/

/-- Whenever the run returns, its result and final state satisfy `Q`. -/
structure wlp {α : Type} (m : M α) (s : State) (Q : α → State → Prop) : Prop where
  run : ∀ a s', m s = .ok (a, s') → Q a s'

/-- The validation-class statuses: `INVALID_PATH`, `INVALID_BUFFER`,
`INVALID_FD`, `ALLOCATION_ERROR` and `OUTSTANDING_OPERATIONS`. -/
def validation_class : fs_status → Bool
  | FS_STATUS_INVALID_PATH => true
  | FS_STATUS_INVALID_BUFFER => true
  | FS_STATUS_INVALID_FD => true
  | FS_STATUS_ALLOCATION_ERROR => true
  | FS_STATUS_OUTSTANDING_OPERATIONS => true
  | _ => false

/-- The run from `s` to `s'` has published the completion `cmpl` and no other:
the completion queue of `s'` is that of `s` with `cmpl` produced, and the client
has been notified once. -/
def publishes (k : Consts) (cmpl : fs_cmpl_t) (s s' : State) : Prop :=
  s'.completion_queue = (reply_state k cmpl s).completion_queue ∧
  s'.notified = s.notified + 1

/-- The continuation pool, its free list, the descriptor table, the pending
submissions and the record of calls made to the NFS client library are the same
in `s` and `s'`. -/
structure Untouched (s s' : State) : Prop where
  continuation_pool : s'.continuation_pool = s.continuation_pool
  first_free_cont : s'.first_free_cont = s.first_free_cont
  fd_table : s'.fd_table = s.fd_table
  pending : s'.pending = s.pending
  nfs_calls : s'.nfs_calls = s.nfs_calls

/-- A run from `s` to `s'` that has published a completion of a validation-class
status has left the pool, the descriptor table and the NFS client library
alone. -/
def NoLeak (k : Consts) (s s' : State) : Prop :=
  ∀ cmpl, publishes k cmpl s s' → validation_class cmpl.status = true → Untouched s s'

/-- A `DIR_READ` command for descriptor 1 with the buffer of 256 bytes at offset
0 of the shared region. -/
def cmd_readdir (id : Nat) : fs_cmd_t :=
  { type := FS_CMD_DIR_READ, id := id
    params := { dir_read := { fd := 1, buf := { offset := 0, size := 256 } } } }

/-- The NFS client library returns a directory entry whose name is 257 bytes
long. -/
def env_long_name : nfs_env := { dirent := some (List.replicate 257 0x61) }

/-- A run from `s` to `s'` has not published a completion of status
`SUCCESS`. -/
def NoSuccess (k : Consts) (s s' : State) : Prop :=
  ∀ cmpl, publishes k cmpl s s' → cmpl.status ≠ FS_STATUS_SUCCESS

/-! ## Vocabulary of the hand-over to the callbacks -/

/-- The callback that the handler of a command type passes to the NFS client
library with its submission; the handlers of the other types, and the
dispatcher for an unknown type, submit nothing. -/
def cmd_callback (type : Nat) : Option nfs_cb :=
  if type = FS_CMD_INITIALISE then some nfs_cb.mount_cb
  else if type = FS_CMD_FILE_OPEN then some nfs_cb.open_cb
  else if type = FS_CMD_FILE_CLOSE then some nfs_cb.close_cb
  else if type = FS_CMD_STAT then some nfs_cb.stat64_cb
  else if type = FS_CMD_FILE_READ then some nfs_cb.read_cb
  else if type = FS_CMD_FILE_WRITE then some nfs_cb.write_cb
  else if type = FS_CMD_FILE_SIZE then some nfs_cb.fsize_cb
  else if type = FS_CMD_RENAME then some nfs_cb.rename_cb
  else if type = FS_CMD_FILE_REMOVE then some nfs_cb.unlink_cb
  else if type = FS_CMD_FILE_TRUNCATE then some nfs_cb.truncate_cb
  else if type = FS_CMD_DIR_CREATE then some nfs_cb.mkdir_cb
  else if type = FS_CMD_DIR_REMOVE then some nfs_cb.rmdir_cb
  else if type = FS_CMD_DIR_OPEN then some nfs_cb.opendir_cb
  else if type = FS_CMD_FILE_SYNC then some nfs_cb.fsync_cb
  else none

/-- What a run from `s` to `s'` that has left a pending submission `p` behind
hands to the callback: the callback of `p` is `cb`, its user pointer is the
pool entry `c`, that entry holds the request identifier `id`, and the
descriptor table is as the callback needs it for the descriptor stored in
`data[0]` of that entry. -/
def Handoff (cb : Option nfs_cb) (id c : Nat) (s s' : State) : Prop :=
  ∀ p : nfs_pending, s'.pending = s.pending ++ [p] →
    cb = some p.cb ∧ p.private_data = some (c : Int) ∧
    ∃ cont, s'.continuation_pool[c]? = some cont ∧ cont.request_id = id ∧
      cb_fd_ready p.cb cont s'.fd_table

/-! ### Concrete commands -/

/-- A `FILE_CLOSE` command for descriptor `fd`; the member of `DIR_CLOSE` names
descriptor 1. -/
def cmd_close (id fd : Nat) : fs_cmd_t :=
  { type := FS_CMD_FILE_CLOSE, id := id
    params := { file_close := { fd := fd }, dir_close := { fd := 1 } } }

/-- A `FILE_OPEN` command for the one-byte path at offset 0 of the shared
region, with the flags `READ_WRITE` and `CREATE` of `consts_q1`. -/
def cmd_open (id : Nat) : fs_cmd_t :=
  { type := FS_CMD_FILE_OPEN, id := id
    params := { file_open := { path := { offset := 0, size := 1 }, flags := 6 } } }

/-- A `FILE_READ` command for descriptor 1 with a buffer of size 0. -/
def cmd_read_empty (id : Nat) : fs_cmd_t :=
  { type := FS_CMD_FILE_READ, id := id
    params := { file_read := { fd := 1, buf := { offset := 0, size := 0 } } } }

/-- The server at startup with two queue slots, the client having enqueued a
command of the unknown type 99 with identifier 4 and `DIR_CLOSE` with
identifier 5. -/
def run_f1 : State :=
  { start_q2 with
    command_queue :=
      { head := 0, tail := 2
        buffer := fun j =>
          if j = 0 then { type := 99, id := 4 } else if j = 1 then cmd_closedir 5 else {} } }

/-! ## Runs -/

theorem bind_apply {α β : Type} (m : M α) (f : α → M β) (s : State) :
    (m >>= f) s = match m s with
      | .ok (a, s') => f a s'
      | .error e => .error e := rfl

theorem pure_apply {α : Type} (a : α) (s : State) : (pure a : M α) s = .ok (a, s) := rfl

theorem bind_ok {α β : Type} {m : M α} {f : α → M β} {s s' : State} {a : α}
    (h : m s = .ok (a, s')) : (m >>= f) s = f a s' := by
  rw [bind_apply, h]

theorem bind_error {α β : Type} {m : M α} {f : α → M β} {s : State} {e : Fault}
    (h : m s = .error e) : (m >>= f) s = .error e := by
  rw [bind_apply, h]

theorem ok_inj {α : Type} {a b : α} {s t : State}
    (h : (Except.ok (a, s) : Except Fault (α × State)) = .ok (b, t)) : a = b ∧ s = t := by
  injection h with h
  injection h with h1 h2
  exact ⟨h1, h2⟩

theorem wpt_bind {α β : Type} {m : M α} {f : α → M β} {s : State} {Q : β → State → Prop}
    (h : wpt m s (fun a s' => wpt (f a) s' Q)) : wpt (m >>= f) s Q := by
  obtain ⟨a, s', hm, b, s'', hf, hq⟩ := h
  exact ⟨b, s'', by rw [bind_ok hm]; exact hf, hq⟩

theorem wpt_pure {α : Type} {a : α} {s : State} {Q : α → State → Prop} (h : Q a s) :
    wpt (pure a) s Q := ⟨a, s, rfl, h⟩

theorem wpt_assert {b : Bool} {s : State} {Q : Unit → State → Prop} (hb : b = true)
    (h : Q () s) : wpt (c_assert b) s Q := by
  subst hb; exact ⟨(), s, rfl, h⟩

theorem wpt_mono {α : Type} {m : M α} {s : State} {Q R : α → State → Prop}
    (h : wpt m s Q) (hqr : ∀ a s', Q a s' → R a s') : wpt m s R := by
  obtain ⟨a, s', hm, hq⟩ := h
  exact ⟨a, s', hm, hqr a s' hq⟩

/-! ## Shared-buffer validation -/

theorem u64_sub_of_le {a b : Nat} (ha : a < U64) (hb : b ≤ a) : u64_sub a b = a - b := by
  unfold u64_sub U64 at *
  omega

theorem get_buffer_state (buf : fs_buffer_t) (s : State) :
    ∃ p, get_buffer buf s = .ok (p, s) := by
  unfold get_buffer
  split
  · exact ⟨_, rfl⟩
  · exact ⟨_, rfl⟩

theorem get_buffer_invalid (buf : fs_buffer_t) (s : State) (h : ¬ buffer_valid buf) :
    get_buffer buf s = .ok (NULL, s) := by
  unfold get_buffer
  by_cases h1 : buf.offset ≥ CLIENT_SHARE_SIZE
  · simp [h1]
  · have h2 : u64_sub CLIENT_SHARE_SIZE buf.offset = CLIENT_SHARE_SIZE - buf.offset :=
      u64_sub_of_le (by unfold CLIENT_SHARE_SIZE U64; omega) (by omega)
    rw [h2, if_pos]
    unfold buffer_valid at h
    omega

theorem get_buffer_valid (buf : fs_buffer_t) (s : State) (h : buffer_valid buf) :
    get_buffer buf s = .ok (s.client_share + buf.offset, s) := by
  unfold get_buffer
  unfold buffer_valid at h
  have h2 : u64_sub CLIENT_SHARE_SIZE buf.offset = CLIENT_SHARE_SIZE - buf.offset :=
    u64_sub_of_le (by unfold CLIENT_SHARE_SIZE U64; omega) (by omega)
  rw [h2, if_neg]
  omega

/-- C1. For every buffer descriptor, `get_buffer` returns without changing the
state, and, the shared region lying at a non-null address, it returns a non-null
pointer iff `offset < CLIENT_SHARE_SIZE`, `size <= CLIENT_SHARE_SIZE - offset`
and `size > 0`; the pointer is then `client_share + offset`. A descriptor with
`size > 0` and `offset + size = CLIENT_SHARE_SIZE` is accepted, one with
`size = 0` or `offset = CLIENT_SHARE_SIZE` is rejected. -/
theorem get_buffer_valid_iff (buf : fs_buffer_t) (s : State) (hcs : 0 < s.client_share) :
    ∃ p, get_buffer buf s = .ok (p, s) ∧
      (p ≠ NULL ↔
        buf.offset < CLIENT_SHARE_SIZE ∧ buf.size ≤ CLIENT_SHARE_SIZE - buf.offset ∧
          0 < buf.size) ∧
      (p ≠ NULL → p = s.client_share + buf.offset) ∧
      (0 < buf.size → buf.offset + buf.size = CLIENT_SHARE_SIZE →
        p = s.client_share + buf.offset ∧ p ≠ NULL) ∧
      (buf.size = 0 ∨ buf.offset = CLIENT_SHARE_SIZE → p = NULL) := by
  by_cases hv : buffer_valid buf
  · refine ⟨_, get_buffer_valid buf s hv, ?_, ?_, ?_, ?_⟩
    · have : s.client_share + buf.offset ≠ NULL := by unfold NULL; omega
      exact ⟨fun _ => hv, fun _ => this⟩
    · intro _; rfl
    · intro _ _; exact ⟨rfl, by unfold NULL; omega⟩
    · intro h; unfold buffer_valid at hv; omega
  · refine ⟨_, get_buffer_invalid buf s hv, ?_, ?_, ?_, ?_⟩
    · exact ⟨fun h => absurd rfl h, fun h => absurd h hv⟩
    · intro h; exact absurd rfl h
    · intro h1 h2; exact absurd (show buffer_valid buf from ⟨by omega, by omega, h1⟩) hv
    · intro _; rfl

theorem get_buffer_valid_iff_witness :
    0 < start_q1.client_share ∧
    ∃ p, get_buffer { offset := CLIENT_SHARE_SIZE - 5, size := 5 } start_q1 = .ok (p, start_q1) ∧
      (p ≠ NULL ↔
        CLIENT_SHARE_SIZE - 5 < CLIENT_SHARE_SIZE ∧ 5 ≤ CLIENT_SHARE_SIZE - (CLIENT_SHARE_SIZE - 5) ∧
          0 < 5) ∧
      (p ≠ NULL → p = start_q1.client_share + (CLIENT_SHARE_SIZE - 5)) ∧
      (0 < 5 → CLIENT_SHARE_SIZE - 5 + 5 = CLIENT_SHARE_SIZE →
        p = start_q1.client_share + (CLIENT_SHARE_SIZE - 5) ∧ p ≠ NULL) ∧
      ((5 : Nat) = 0 ∨ CLIENT_SHARE_SIZE - 5 = CLIENT_SHARE_SIZE → p = NULL) :=
  ⟨by decide,
   get_buffer_valid_iff { offset := CLIENT_SHARE_SIZE - 5, size := 5 } start_q1 (by decide)⟩

/-! ## Path copy -/

theorem copy_path_reject (k : Consts) (slot : Int) (hslot : slot = 0 ∨ slot = 1)
    (buf : fs_buffer_t) (s : State)
    (h : ¬ (buffer_valid buf ∧ buf.size ≤ k.FS_MAX_PATH_LENGTH)) :
    copy_path k slot buf s = .ok (none, s) := by
  unfold copy_path
  have h1 : c_assert (decide (0 ≤ slot ∧ slot < 2)) s = .ok ((), s) := by
    rcases hslot with rfl | rfl <;> rfl
  rw [bind_ok h1]
  by_cases hv : buffer_valid buf
  · have hgt : ¬ buf.size ≤ k.FS_MAX_PATH_LENGTH := fun hle => h ⟨hv, hle⟩
    rw [bind_ok (get_buffer_valid buf s hv), if_pos (Or.inr (by omega))]
    rfl
  · rw [bind_ok (get_buffer_invalid buf s hv), if_pos (Or.inl rfl)]
    rfl

theorem copy_path_accept (k : Consts) (slot : Int) (hslot : slot = 0 ∨ slot = 1)
    (buf : fs_buffer_t) (s : State) (hcs : 0 < s.client_share)
    (hv : buffer_valid buf) (hle : buf.size ≤ k.FS_MAX_PATH_LENGTH) :
    copy_path k slot buf s = .ok (some slot.toNat,
      { s with path_buffer := fun t =>
          if t = slot.toNat then
            fun j =>
              if j = buf.size then 0
              else if j < buf.size then s.mem (s.client_share + buf.offset + j)
              else s.path_buffer slot.toNat j
          else s.path_buffer t }) := by
  unfold copy_path
  have h1 : c_assert (decide (0 ≤ slot ∧ slot < 2)) s = .ok ((), s) := by
    rcases hslot with rfl | rfl <;> rfl
  rw [bind_ok h1, bind_ok (get_buffer_valid buf s hv), if_neg]
  · rfl
  · unfold NULL; omega

theorem wpt_get_buffer {buf : fs_buffer_t} {s : State} {Q : Nat → State → Prop}
    (h : ∀ r, Q r s) : wpt (get_buffer buf) s Q := by
  obtain ⟨p, hp⟩ := get_buffer_state buf s
  exact ⟨p, s, hp, h p⟩

theorem wpt_copy_path {k : Consts} {slot : Int} {buf : fs_buffer_t} {s : State}
    {Q : Option Nat → State → Prop} (hslot : slot = 0 ∨ slot = 1)
    (h : ∀ r pb, Q r { s with path_buffer := pb }) : wpt (copy_path k slot buf) s Q := by
  unfold copy_path
  apply wpt_bind
  apply wpt_assert (by rcases hslot with rfl | rfl <;> decide)
  apply wpt_bind
  apply wpt_get_buffer
  intro r
  split
  · exact wpt_pure (h none s.path_buffer)
  · apply wpt_bind
    exact ⟨(), _, rfl, wpt_pure (h _ _)⟩

theorem handle_stat_invalid_path (k : Consts) (env : nfs_env) (cmd : fs_cmd_t) (s : State)
    (h : copy_path k 0 cmd.params.stat.path s = .ok (none, s)) :
    handle_stat k env cmd s =
      reply k { id := cmd.id, status := FS_STATUS_INVALID_PATH, data := {} } s := by
  unfold handle_stat; rw [bind_ok h]

theorem handle_open_invalid_path (k : Consts) (env : nfs_env) (cmd : fs_cmd_t) (s : State)
    (h : copy_path k 0 cmd.params.file_open.path s = .ok (none, s)) :
    handle_open k env cmd s =
      reply k { id := cmd.id, status := FS_STATUS_INVALID_PATH, data := {} } s := by
  unfold handle_open; rw [bind_ok h]

theorem handle_unlink_invalid_path (k : Consts) (env : nfs_env) (cmd : fs_cmd_t) (s : State)
    (h : copy_path k 0 cmd.params.file_remove.path s = .ok (none, s)) :
    handle_unlink k env cmd s =
      reply k { id := cmd.id, status := FS_STATUS_INVALID_PATH, data := {} } s := by
  unfold handle_unlink; rw [bind_ok h]

theorem handle_mkdir_invalid_path (k : Consts) (env : nfs_env) (cmd : fs_cmd_t) (s : State)
    (h : copy_path k 0 cmd.params.dir_create.path s = .ok (none, s)) :
    handle_mkdir k env cmd s =
      reply k { id := cmd.id, status := FS_STATUS_INVALID_PATH, data := {} } s := by
  unfold handle_mkdir; rw [bind_ok h]

theorem handle_rmdir_invalid_path (k : Consts) (env : nfs_env) (cmd : fs_cmd_t) (s : State)
    (h : copy_path k 0 cmd.params.dir_remove.path s = .ok (none, s)) :
    handle_rmdir k env cmd s =
      reply k { id := cmd.id, status := FS_STATUS_INVALID_PATH, data := {} } s := by
  unfold handle_rmdir; rw [bind_ok h]

theorem handle_opendir_invalid_path (k : Consts) (env : nfs_env) (cmd : fs_cmd_t) (s : State)
    (h : copy_path k 0 cmd.params.dir_open.path s = .ok (none, s)) :
    handle_opendir k env cmd s =
      reply k { id := cmd.id, status := FS_STATUS_INVALID_PATH, data := {} } s := by
  unfold handle_opendir; rw [bind_ok h]

theorem handle_rename_invalid_path (k : Consts) (env : nfs_env) (cmd : fs_cmd_t) (s : State)
    (h0 : copy_path k 0 cmd.params.rename.old_path s = .ok (none, s))
    (h1 : copy_path k 1 cmd.params.rename.new_path s = .ok (none, s)) :
    handle_rename k env cmd s =
      reply k { id := cmd.id, status := FS_STATUS_INVALID_PATH, data := {} } s := by
  unfold handle_rename; rw [bind_ok h0, bind_ok h1]

/-- C2. For a slot in {0, 1} and every buffer descriptor, `copy_path` returns;
it returns the scratch slot iff the descriptor is valid and its size is at most
`FS_MAX_PATH_LENGTH`, and null otherwise. On success the first `size` bytes of
`path_buffer[slot]` are the `size` bytes of the shared region from `offset` on,
the byte at index `size` is null, and nothing else changes. A valid path of
length `FS_MAX_PATH_LENGTH` is accepted; a path of length
`FS_MAX_PATH_LENGTH + 1` is rejected without a change of state, and the handlers
that take a path then do nothing but reply `INVALID_PATH`. -/
theorem copy_path_spec (k : Consts) (slot : Int) (hslot : slot = 0 ∨ slot = 1)
    (buf : fs_buffer_t) (s : State) (hcs : 0 < s.client_share) :
    (∃ r s', copy_path k slot buf s = .ok (r, s') ∧
      (r = some slot.toNat ↔ buffer_valid buf ∧ buf.size ≤ k.FS_MAX_PATH_LENGTH) ∧
      (r = none ↔ ¬ (buffer_valid buf ∧ buf.size ≤ k.FS_MAX_PATH_LENGTH)) ∧
      (r = some slot.toNat →
        (∀ j, j < buf.size →
          s'.path_buffer slot.toNat j = s.mem (s.client_share + buf.offset + j)) ∧
        s'.path_buffer slot.toNat buf.size = 0 ∧
        (∀ t, t ≠ slot.toNat → s'.path_buffer t = s.path_buffer t) ∧
        s' = { s with path_buffer := s'.path_buffer }) ∧
      (r = none → s' = s) ∧
      (buffer_valid buf → buf.size = k.FS_MAX_PATH_LENGTH → r = some slot.toNat) ∧
      (buf.size = k.FS_MAX_PATH_LENGTH + 1 → r = none)) ∧
    (buf.size = k.FS_MAX_PATH_LENGTH + 1 → ∀ (env : nfs_env) (cmd : fs_cmd_t),
      (cmd.params.stat.path = buf → handle_stat k env cmd s =
        reply k { id := cmd.id, status := FS_STATUS_INVALID_PATH, data := {} } s) ∧
      (cmd.params.file_open.path = buf → handle_open k env cmd s =
        reply k { id := cmd.id, status := FS_STATUS_INVALID_PATH, data := {} } s) ∧
      (cmd.params.file_remove.path = buf → handle_unlink k env cmd s =
        reply k { id := cmd.id, status := FS_STATUS_INVALID_PATH, data := {} } s) ∧
      (cmd.params.dir_create.path = buf → handle_mkdir k env cmd s =
        reply k { id := cmd.id, status := FS_STATUS_INVALID_PATH, data := {} } s) ∧
      (cmd.params.dir_remove.path = buf → handle_rmdir k env cmd s =
        reply k { id := cmd.id, status := FS_STATUS_INVALID_PATH, data := {} } s) ∧
      (cmd.params.dir_open.path = buf → handle_opendir k env cmd s =
        reply k { id := cmd.id, status := FS_STATUS_INVALID_PATH, data := {} } s) ∧
      (cmd.params.rename.old_path = buf → cmd.params.rename.new_path = buf →
        handle_rename k env cmd s =
          reply k { id := cmd.id, status := FS_STATUS_INVALID_PATH, data := {} } s)) := by
  constructor
  · by_cases h : buffer_valid buf ∧ buf.size ≤ k.FS_MAX_PATH_LENGTH
    · refine ⟨_, _, copy_path_accept k slot hslot buf s hcs h.1 h.2, ?_, ?_, ?_, ?_, ?_, ?_⟩
      · simp [h]
      · simp [h]
      · intro _
        refine ⟨?_, by simp, ?_, rfl⟩
        · intro j hj
          have : j ≠ buf.size := by omega
          simp [this, hj]
        · intro t ht; simp [ht]
      · intro h'; cases h'
      · intro _ _; rfl
      · intro hsz; omega
    · refine ⟨none, s, copy_path_reject k slot hslot buf s h, ?_, ?_, ?_, ?_, ?_, ?_⟩
      · simp [h]
      · simp [h]
      · intro h'; cases h'
      · intro _; rfl
      · intro hv hsz; exact absurd ⟨hv, by omega⟩ h
      · intro _; rfl
  · intro hsz env cmd
    have hrej : ∀ slot' : Int, slot' = 0 ∨ slot' = 1 → copy_path k slot' buf s = .ok (none, s) :=
      fun slot' hs => copy_path_reject k slot' hs buf s (fun h => by omega)
    refine ⟨?_, ?_, ?_, ?_, ?_, ?_, ?_⟩
    · intro e; exact handle_stat_invalid_path k env cmd s (e ▸ hrej 0 (Or.inl rfl))
    · intro e; exact handle_open_invalid_path k env cmd s (e ▸ hrej 0 (Or.inl rfl))
    · intro e; exact handle_unlink_invalid_path k env cmd s (e ▸ hrej 0 (Or.inl rfl))
    · intro e; exact handle_mkdir_invalid_path k env cmd s (e ▸ hrej 0 (Or.inl rfl))
    · intro e; exact handle_rmdir_invalid_path k env cmd s (e ▸ hrej 0 (Or.inl rfl))
    · intro e; exact handle_opendir_invalid_path k env cmd s (e ▸ hrej 0 (Or.inl rfl))
    · intro e0 e1
      exact handle_rename_invalid_path k env cmd s (e0 ▸ hrej 0 (Or.inl rfl))
        (e1 ▸ hrej 1 (Or.inr rfl))

theorem copy_path_spec_witness :
    ((0 : Int) = 0 ∨ (0 : Int) = 1) ∧ 0 < start_q1.client_share ∧
    ∃ r s', copy_path consts_q1 0 { offset := 16, size := 3 } start_q1 = .ok (r, s') ∧
      (r = some 0 → s'.path_buffer 0 0 = 0x2f ∧ s'.path_buffer 0 3 = 0) := by
  refine ⟨Or.inl rfl, by decide, ?_⟩
  obtain ⟨r, s', h, _, _, h3, _⟩ :=
    (copy_path_spec consts_q1 0 (Or.inl rfl) { offset := 16, size := 3 } start_q1 (by decide)).1
  refine ⟨r, s', h, fun hr => ?_⟩
  have := h3 hr
  exact ⟨this.1 0 (by decide), this.2.1⟩

/-! ## The continuation pool -/

theorem FreeChain_set_not_mem {pool : List continuation} {j : Nat} {c' : continuation} :
    ∀ {fl : List Nat} {p : Option Int}, j ∉ fl → FreeChain pool p fl →
      FreeChain (pool.set j c') p fl
  | [], _, _, h => h
  | i :: rest, p, hj, h => by
    obtain ⟨hp, c, hc, hrest⟩ := h
    have hij : j ≠ i := fun e => hj (by simp [e])
    refine ⟨hp, c, ?_, FreeChain_set_not_mem (fun hm => hj (List.mem_cons_of_mem _ hm)) hrest⟩
    rw [List.getElem?_set_ne hij]; exact hc

theorem FreeChain_set_same_next {pool : List continuation} {j : Nat} {c c' : continuation}
    (hc : pool[j]? = some c) (hn : c'.next_free = c.next_free) :
    ∀ {fl : List Nat} {p : Option Int}, FreeChain pool p fl → FreeChain (pool.set j c') p fl
  | [], _, h => h
  | i :: rest, p, h => by
    obtain ⟨hp, d, hd, hrest⟩ := h
    by_cases hij : j = i
    · subst hij
      have hlt : j < pool.length := by
        rcases Nat.lt_or_ge j pool.length with h | h
        · exact h
        · rw [List.getElem?_eq_none h] at hc; cases hc
      have : d = c := by rw [hc] at hd; exact (Option.some.inj hd).symm
      subst this
      refine ⟨hp, c', ?_, ?_⟩
      · rw [List.getElem?_set, if_pos rfl, if_pos hlt]
      · rw [hn]; exact FreeChain_set_same_next hc hn hrest
    · refine ⟨hp, d, ?_, FreeChain_set_same_next hc hn hrest⟩
      rw [List.getElem?_set_ne hij]; exact hd

theorem lt_length_of_getElem? {α : Type} {l : List α} {j : Nat} {c : α} (hc : l[j]? = some c) :
    j < l.length := by
  rcases Nat.lt_or_ge j l.length with h | h
  · exact h
  · rw [List.getElem?_eq_none h] at hc; cases hc

/-- A write that keeps `next_free` keeps the pool invariant. -/
theorem PoolOK_set_same_next {k : Consts} {pool : List continuation} {first : Option Int}
    {fl : List Nat} {j : Nat} {c : continuation} (c' : continuation)
    (h : PoolOK k pool first fl) (hc : pool[j]? = some c) (hn : c'.next_free = c.next_free) :
    PoolOK k (pool.set j c') first fl := by
  refine ⟨by simp [h.len], FreeChain_set_same_next hc hn h.chain, h.nodup, h.bound, ?_⟩
  intro i d hi hd
  by_cases hij : j = i
  · subst hij
    rw [List.getElem?_set, if_pos rfl, if_pos (lt_length_of_getElem? hc)] at hd
    cases hd
    rw [hn]; exact h.alloc_null j c hi hc
  · rw [List.getElem?_set_ne hij] at hd
    exact h.alloc_null i d hi hd

/-- Taking the head off the free list. -/
theorem PoolOK_alloc {k : Consts} {pool : List continuation} {first : Option Int}
    {i : Nat} {fl : List Nat} (h : PoolOK k pool first (i :: fl)) :
    ∃ c, first = some (i : Int) ∧ pool[i]? = some c ∧ i < MAX_CONCURRENT_OPS k ∧ i ∉ fl ∧
      PoolOK k (pool.set i { c with next_free := none }) c.next_free fl := by
  obtain ⟨hp, c, hc, hrest⟩ := h.chain
  have hnd := List.nodup_cons.1 h.nodup
  refine ⟨c, hp, hc, h.bound i (by simp), hnd.1, ?_⟩
  refine ⟨by simp [h.len], FreeChain_set_not_mem hnd.1 hrest, hnd.2,
    fun j hj => h.bound j (List.mem_cons_of_mem _ hj), ?_⟩
  intro j d hj hd
  by_cases hij : i = j
  · subst hij
    rw [List.getElem?_set, if_pos rfl, if_pos (lt_length_of_getElem? hc)] at hd
    cases hd; rfl
  · rw [List.getElem?_set_ne hij] at hd
    exact h.alloc_null j d (by simp [hj, Ne.symm hij]) hd

/-- Putting an allocated entry back at the head of the free list. -/
theorem PoolOK_free {k : Consts} {pool : List continuation} {first : Option Int}
    {i : Nat} {fl : List Nat} {c : continuation} (h : PoolOK k pool first fl)
    (hi : i < MAX_CONCURRENT_OPS k) (hnot : i ∉ fl) (hc : pool[i]? = some c) :
    PoolOK k (pool.set i { c with next_free := first }) (some (i : Int)) (i :: fl) := by
  refine ⟨by simp [h.len], ⟨rfl, { c with next_free := first }, ?_, ?_⟩,
    List.nodup_cons.2 ⟨hnot, h.nodup⟩, ?_, ?_⟩
  · rw [List.getElem?_set, if_pos rfl, if_pos (lt_length_of_getElem? hc)]
  · exact FreeChain_set_not_mem hnot h.chain
  · intro j hj
    rcases List.mem_cons.1 hj with rfl | hj
    · exact hi
    · exact h.bound j hj
  · intro j d hj hd
    have hji : i ≠ j := fun e => hj (by simp [e])
    rw [List.getElem?_set_ne hji] at hd
    exact h.alloc_null j d (fun hm => hj (List.mem_cons_of_mem _ hm)) hd

theorem FreeChain_nil_iff {pool : List continuation} {p : Option Int} :
    FreeChain pool p [] ↔ p = none := Iff.rfl


theorem wpt_reply {k : Consts} {cmpl : fs_cmpl_t} {s : State} {Q : Unit → State → Prop}
    (hs : fs_queue_length_producer s.completion_queue ≠ k.FS_QUEUE_CAPACITY)
    (h : Q () (reply_state k cmpl s)) : wpt (reply k cmpl) s Q := by
  refine ⟨(), _, ?_, h⟩
  simp [reply, hs]


theorem cont_read_ok {k : Consts} {s : State} {i : Nat} {c : continuation}
    (hi : i < MAX_CONCURRENT_OPS k) (hc : s.continuation_pool[i]? = some c) :
    cont_read k (some (i : Int)) s = .ok (c, s) := by
  simp [cont_read, hi, hc]

theorem cont_write_ok {k : Consts} {s : State} {i : Nat} {c : continuation}
    (hi : i < MAX_CONCURRENT_OPS k) (hl : i < s.continuation_pool.length) :
    cont_write k (some (i : Int)) c s =
      .ok ((), { s with continuation_pool := s.continuation_pool.set i c }) := by
  simp [cont_write, hi, hl]

theorem wpt_alloc {k : Consts} {s : State} {i : Nat} {fl : List Nat}
    {Q : Option Int → State → Prop}
    (hp : PoolOK k s.continuation_pool s.first_free_cont (i :: fl))
    (h : ∀ pool ff, PoolOK k pool ff fl →
      Q (some (i : Int)) { s with continuation_pool := pool, first_free_cont := ff }) :
    wpt (continuation_alloc k) s Q := by
  obtain ⟨c, hfirst, hc, hi, _, hok⟩ := PoolOK_alloc hp
  refine ⟨some (i : Int), _, ?_, h _ _ hok⟩
  unfold continuation_alloc
  have h1 : get_first_free_cont s = .ok (some (i : Int), s) := by
    simp [get_first_free_cont, hfirst]
  rw [bind_ok h1]
  simp only [ne_eq, reduceCtorEq, not_false_eq_true, if_true]
  rw [bind_ok (cont_read_ok hi hc)]
  have h2 : set_first_free_cont c.next_free s = .ok ((), { s with first_free_cont := c.next_free }) := rfl
  rw [bind_ok h2]
  have h3 := @cont_write_ok k { s with first_free_cont := c.next_free } i { c with next_free := none } hi
    (lt_length_of_getElem? hc)
  rw [bind_ok h3]
  rfl

theorem wpt_free {k : Consts} {s : State} {i : Nat} {fl : List Nat}
    {Q : Unit → State → Prop}
    (hp : PoolOK k s.continuation_pool s.first_free_cont fl)
    (hi : i < MAX_CONCURRENT_OPS k) (hnot : i ∉ fl)
    (h : ∀ pool ff, PoolOK k pool ff (i :: fl) →
      Q () { s with continuation_pool := pool, first_free_cont := ff }) :
    wpt (continuation_free k (some (i : Int))) s Q := by
  have hl : i < s.continuation_pool.length := by rw [hp.len]; exact hi
  obtain ⟨c, hc⟩ : ∃ c, s.continuation_pool[i]? = some c :=
    ⟨_, List.getElem?_eq_getElem hl⟩
  have hnull := hp.alloc_null i c hnot hc
  refine ⟨(), _, ?_, h _ _ (PoolOK_free hp hi hnot hc)⟩
  unfold continuation_free
  have h1 : c_assert (cont_ge_pool (some (i : Int))) s = .ok ((), s) := by
    simp [c_assert, cont_ge_pool]
  rw [bind_ok h1]
  have h2 : c_assert (cont_lt_pool_end k (some (i : Int))) s = .ok ((), s) := by
    simp [c_assert, cont_lt_pool_end, hi]
  rw [bind_ok h2, bind_ok (cont_read_ok hi hc)]
  have h3 : c_assert (c.next_free == none) s = .ok ((), s) := by
    simp [c_assert, hnull]
  rw [bind_ok h3]
  have h4 : get_first_free_cont s = .ok (s.first_free_cont, s) := rfl
  rw [bind_ok h4, bind_ok (cont_write_ok hi hl)]
  rfl

theorem wpt_set_request_id {k : Consts} {s : State} {i : Nat} {fl : List Nat} {v : Nat}
    {Q : Unit → State → Prop}
    (hp : PoolOK k s.continuation_pool s.first_free_cont fl)
    (hi : i < MAX_CONCURRENT_OPS k)
    (h : ∀ pool, PoolOK k pool s.first_free_cont fl →
      Q () { s with continuation_pool := pool }) :
    wpt (cont_set_request_id k (some (i : Int)) v) s Q := by
  have hl : i < s.continuation_pool.length := by rw [hp.len]; exact hi
  obtain ⟨c, hc⟩ : ∃ c, s.continuation_pool[i]? = some c :=
    ⟨_, List.getElem?_eq_getElem hl⟩
  refine ⟨(), _, ?_, h _ (PoolOK_set_same_next { c with request_id := v } hp hc rfl)⟩
  unfold cont_set_request_id
  rw [bind_ok (cont_read_ok hi hc)]
  exact cont_write_ok hi hl

theorem wpt_set_data {k : Consts} {s : State} {i : Nat} {fl : List Nat} {j v : Nat}
    {Q : Unit → State → Prop}
    (hp : PoolOK k s.continuation_pool s.first_free_cont fl)
    (hi : i < MAX_CONCURRENT_OPS k)
    (h : ∀ pool, PoolOK k pool s.first_free_cont fl →
      Q () { s with continuation_pool := pool }) :
    wpt (cont_set_data k (some (i : Int)) j v) s Q := by
  have hl : i < s.continuation_pool.length := by rw [hp.len]; exact hi
  obtain ⟨c, hc⟩ : ∃ c, s.continuation_pool[i]? = some c :=
    ⟨_, List.getElem?_eq_getElem hl⟩
  refine ⟨(), _, ?_, h _ (PoolOK_set_same_next { c with data := c.data.set j v } hp hc rfl)⟩
  unfold cont_set_data
  rw [bind_ok (cont_read_ok hi hc)]
  exact cont_write_ok hi hl

theorem wpt_nfs_async {env : nfs_env} {call : nfs_call} {cb : nfs_cb} {pd : Option Int}
    {s : State} {Q : Int → State → Prop}
    (h0 : Q 0 { s with
      pending := s.pending ++ [{ call := call, cb := cb, private_data := pd }]
      nfs_calls := s.nfs_calls ++ [call] })
    (h1 : ∀ e, e ≠ 0 → Q e { s with nfs_calls := s.nfs_calls ++ [call] }) :
    wpt (nfs_async env call cb pd) s Q := by
  unfold nfs_async wpt
  split
  · exact ⟨_, _, rfl, h0⟩
  · rename_i h; exact ⟨_, _, rfl, h1 _ h⟩


theorem wpt_alloc_none {k : Consts} {s : State} {Q : Option Int → State → Prop}
    (hp : s.first_free_cont = none) (h : Q none s) : wpt (continuation_alloc k) s Q := by
  refine ⟨none, s, ?_, h⟩
  unfold continuation_alloc
  have h1 : get_first_free_cont s = .ok (none, s) := by
    simp [get_first_free_cont, hp]
  rw [bind_ok h1]
  rfl

/-! ## The descriptor table -/

theorem getElem?_set_of_some {α : Type} {l : List α} {i : Nat} {a b : α} (h : l[i]? = some a) :
    (l.set i b)[i]? = some b :=
  List.getElem?_set_self (lt_length_of_getElem? h)

theorem wpt_fd_begin_op_file {fd : Nat} {s : State} {Q : Int × Nat → State → Prop}
    (hfail : ∀ r, r.1 ≠ 0 → Q r s)
    (hok : ∀ h e, s.fd_table[fd]? = some e → e.state = fd_state.file h →
      Q (0, h) { s with fd_table := s.fd_table.set fd { e with counter := e.counter + 1 } }) :
    wpt (fd_begin_op_file fd) s Q := by
  unfold fd_begin_op_file wpt
  dsimp only
  split
  · rename_i e he
    split
    · rename_i h hst
      exact ⟨_, _, rfl, hok h e he hst⟩
    · exact ⟨_, _, rfl, hfail _ (by decide)⟩
  · exact ⟨_, _, rfl, hfail _ (by decide)⟩

theorem wpt_fd_begin_op_dir {fd : Nat} {s : State} {Q : Int × Nat → State → Prop}
    (hfail : ∀ r, r.1 ≠ 0 → Q r s)
    (hok : ∀ h e, s.fd_table[fd]? = some e → e.state = fd_state.dir h →
      Q (0, h) { s with fd_table := s.fd_table.set fd { e with counter := e.counter + 1 } }) :
    wpt (fd_begin_op_dir fd) s Q := by
  unfold fd_begin_op_dir wpt
  dsimp only
  split
  · rename_i e he
    split
    · rename_i h hst
      exact ⟨_, _, rfl, hok h e he hst⟩
    · exact ⟨_, _, rfl, hfail _ (by decide)⟩
  · exact ⟨_, _, rfl, hfail _ (by decide)⟩

theorem wpt_fd_end_op {fd : Nat} {s : State} {e : fd_entry} {Q : Unit → State → Prop}
    (he : s.fd_table[fd]? = some e) (hc : 0 < e.counter)
    (h : Q () { s with fd_table := s.fd_table.set fd { e with counter := e.counter - 1 } }) :
    wpt (fd_end_op fd) s Q := by
  refine ⟨(), _, ?_, h⟩
  simp [fd_end_op, he, hc]

theorem wpt_fd_unset {fd : Nat} {s : State} {Q : Int → State → Prop}
    (hfail : ∀ r, r ≠ 0 → Q r s)
    (hok : ∀ e, s.fd_table[fd]? = some e →
      Q 0 { s with fd_table := s.fd_table.set fd { e with state := fd_state.reserved } }) :
    wpt (fd_unset fd) s Q := by
  unfold fd_unset wpt
  dsimp only
  split
  · rename_i e he
    split <;> (try split) <;>
      first
      | exact ⟨_, _, rfl, hok e he⟩
      | exact ⟨_, _, rfl, hfail _ (by decide)⟩
  · exact ⟨_, _, rfl, hfail _ (by decide)⟩

theorem wpt_fd_free {fd : Nat} {s : State} {e : fd_entry} {Q : Unit → State → Prop}
    (he : s.fd_table[fd]? = some e) (hst : e.state = fd_state.reserved)
    (h : Q () { s with fd_table := s.fd_table.set fd { state := fd_state.free, counter := 0 } }) :
    wpt (fd_free fd) s Q := by
  refine ⟨(), _, ?_, h⟩
  simp [fd_free, he, hst]

theorem wpt_fd_set_file {fd hdl : Nat} {s : State} {e : fd_entry} {Q : Unit → State → Prop}
    (he : s.fd_table[fd]? = some e) (hst : e.state = fd_state.reserved)
    (h : Q () { s with fd_table := s.fd_table.set fd { e with state := fd_state.file hdl } }) :
    wpt (fd_set_file fd hdl) s Q := by
  refine ⟨(), _, ?_, h⟩
  simp [fd_set_file, he, hst]

theorem wpt_fd_set_dir {fd hdl : Nat} {s : State} {e : fd_entry} {Q : Unit → State → Prop}
    (he : s.fd_table[fd]? = some e) (hst : e.state = fd_state.reserved)
    (h : Q () { s with fd_table := s.fd_table.set fd { e with state := fd_state.dir hdl } }) :
    wpt (fd_set_dir fd hdl) s Q := by
  refine ⟨(), _, ?_, h⟩
  simp [fd_set_dir, he, hst]

theorem wpt_fd_alloc {s : State} {Q : Int × Nat → State → Prop}
    (hfail : ∀ r, r.1 ≠ 0 → Q r s)
    (hok : ∀ fd, fd < s.fd_table.length →
      Q (0, fd) { s with
        fd_table := s.fd_table.set fd { state := fd_state.reserved, counter := 0 } }) :
    wpt fd_alloc s Q := by
  unfold fd_alloc wpt
  dsimp only
  split
  · exact ⟨_, _, rfl, hfail _ (by decide)⟩
  · rename_i i hi
    obtain ⟨hlt, _⟩ := List.findIdx?_eq_some_iff_getElem.1 hi
    exact ⟨_, _, rfl, hok i hlt⟩

theorem wpt_memcpy_to_mem {dst n : Nat} {src : Nat → Nat} {s : State} {Q : Unit → State → Prop}
    (h : ∀ m, Q () { s with mem := m }) : wpt (memcpy_to_mem dst src n) s Q :=
  ⟨(), _, rfl, h _⟩

theorem wpt_get_nfs {s : State} {Q : Bool → State → Prop} (h : Q s.nfs s) : wpt get_nfs s Q :=
  ⟨_, _, rfl, h⟩

theorem wpt_nfs_init_context {env : nfs_env} {s : State} {Q : Unit → State → Prop}
    (h : Q () { s with
      nfs := env.init_context_ok
      nfs_calls := s.nfs_calls ++ [nfs_call.init_context] }) :
    wpt (nfs_init_context env) s Q :=
  ⟨_, _, rfl, h⟩

theorem wpt_nfs_sync {call : nfs_call} {s : State} {Q : Unit → State → Prop}
    (h : Q () { s with nfs_calls := s.nfs_calls ++ [call] }) : wpt (nfs_sync call) s Q :=
  ⟨_, _, rfl, h⟩

theorem wpt_nfs_set_autoreconnect {n : Int} {s : State} {Q : Unit → State → Prop}
    (h : Q () { s with nfs_calls := s.nfs_calls ++ [nfs_call.set_autoreconnect n] }) :
    wpt (nfs_set_autoreconnect n) s Q :=
  ⟨_, _, rfl, h⟩

theorem wpt_nfs_closedir {dir : Nat} {s : State} {Q : Unit → State → Prop}
    (h : Q () { s with nfs_calls := s.nfs_calls ++ [nfs_call.closedir dir] }) :
    wpt (nfs_closedir dir) s Q :=
  ⟨_, _, rfl, h⟩

theorem wpt_nfs_readdir {env : nfs_env} {dir : Nat} {s : State}
    {Q : Option (List Nat) → State → Prop}
    (h : Q env.dirent { s with nfs_calls := s.nfs_calls ++ [nfs_call.readdir dir] }) :
    wpt (nfs_readdir env dir) s Q :=
  ⟨_, _, rfl, h⟩

theorem wpt_nfs_seekdir {dir loc : Nat} {s : State} {Q : Unit → State → Prop}
    (h : Q () { s with nfs_calls := s.nfs_calls ++ [nfs_call.seekdir dir loc] }) :
    wpt (nfs_seekdir dir loc) s Q :=
  ⟨_, _, rfl, h⟩

theorem wpt_nfs_telldir {env : nfs_env} {dir : Nat} {s : State} {Q : Nat → State → Prop}
    (h : Q env.telldir { s with nfs_calls := s.nfs_calls ++ [nfs_call.telldir dir] }) :
    wpt (nfs_telldir env dir) s Q :=
  ⟨_, _, rfl, h⟩

theorem wpt_nfs_rewinddir {dir : Nat} {s : State} {Q : Unit → State → Prop}
    (h : Q () { s with nfs_calls := s.nfs_calls ++ [nfs_call.rewinddir dir] }) :
    wpt (nfs_rewinddir dir) s Q :=
  ⟨_, _, rfl, h⟩

/-! ## Handlers -/

theorem handle_unlink_outcome (k : Consts) (env : nfs_env) (cmd : fs_cmd_t) (s : State)
    (c : Nat) (fl : List Nat)
    (hp : PoolOK k s.continuation_pool s.first_free_cont (c :: fl))
    (hs : fs_queue_length_producer s.completion_queue ≠ k.FS_QUEUE_CAPACITY) :
    wpt (handle_unlink k env cmd) s (fun _ s' => Outcome k s (c :: fl) cmd.id s') := by
  have hcN : c < MAX_CONCURRENT_OPS k := hp.bound c (List.mem_cons_self _ _)
  have hcfl : c ∉ fl := (List.nodup_cons.1 hp.nodup).1
  unfold handle_unlink
  apply wpt_bind; apply wpt_copy_path (Or.inl rfl); intro r pb
  cases r with
  | none =>
    dsimp only
    apply wpt_reply (by exact hs)
    exact Outcome.immediate _ rfl rfl rfl rfl rfl (by exact hp)
  | some path =>
    dsimp only
    apply wpt_bind; apply wpt_alloc (by exact hp); intro pool1 ff1 hp1
    apply wpt_bind; apply wpt_assert rfl
    apply wpt_bind; apply wpt_set_request_id (by exact hp1) hcN; intro pool2 hp2
    apply wpt_bind; apply wpt_nfs_async
    · simp only [ne_eq, not_true_eq_false, if_false]
      apply wpt_pure
      exact Outcome.deferred c fl _ rfl rfl rfl rfl rfl rfl (by exact hp2)
    · intro err herr
      simp only [ne_eq, herr, not_false_eq_true, if_true]
      apply wpt_bind; apply wpt_free (by exact hp2) hcN hcfl; intro pool9 ff9 hp9
      apply wpt_reply (by exact hs)
      exact Outcome.immediate _ rfl rfl rfl rfl rfl (by exact hp9)

theorem handle_mkdir_outcome (k : Consts) (env : nfs_env) (cmd : fs_cmd_t) (s : State)
    (c : Nat) (fl : List Nat)
    (hp : PoolOK k s.continuation_pool s.first_free_cont (c :: fl))
    (hs : fs_queue_length_producer s.completion_queue ≠ k.FS_QUEUE_CAPACITY) :
    wpt (handle_mkdir k env cmd) s (fun _ s' => Outcome k s (c :: fl) cmd.id s') := by
  have hcN : c < MAX_CONCURRENT_OPS k := hp.bound c (List.mem_cons_self _ _)
  have hcfl : c ∉ fl := (List.nodup_cons.1 hp.nodup).1
  unfold handle_mkdir
  apply wpt_bind; apply wpt_copy_path (Or.inl rfl); intro r pb
  cases r with
  | none =>
    dsimp only
    apply wpt_reply (by exact hs)
    exact Outcome.immediate _ rfl rfl rfl rfl rfl (by exact hp)
  | some path =>
    dsimp only
    apply wpt_bind; apply wpt_alloc (by exact hp); intro pool1 ff1 hp1
    apply wpt_bind; apply wpt_assert rfl
    apply wpt_bind; apply wpt_set_request_id (by exact hp1) hcN; intro pool2 hp2
    apply wpt_bind; apply wpt_nfs_async
    · simp only [ne_eq, not_true_eq_false, if_false]
      apply wpt_pure
      exact Outcome.deferred c fl _ rfl rfl rfl rfl rfl rfl (by exact hp2)
    · intro err herr
      simp only [ne_eq, herr, not_false_eq_true, if_true]
      apply wpt_bind; apply wpt_free (by exact hp2) hcN hcfl; intro pool9 ff9 hp9
      apply wpt_reply (by exact hs)
      exact Outcome.immediate _ rfl rfl rfl rfl rfl (by exact hp9)

theorem handle_rmdir_outcome (k : Consts) (env : nfs_env) (cmd : fs_cmd_t) (s : State)
    (c : Nat) (fl : List Nat)
    (hp : PoolOK k s.continuation_pool s.first_free_cont (c :: fl))
    (hs : fs_queue_length_producer s.completion_queue ≠ k.FS_QUEUE_CAPACITY) :
    wpt (handle_rmdir k env cmd) s (fun _ s' => Outcome k s (c :: fl) cmd.id s') := by
  have hcN : c < MAX_CONCURRENT_OPS k := hp.bound c (List.mem_cons_self _ _)
  have hcfl : c ∉ fl := (List.nodup_cons.1 hp.nodup).1
  unfold handle_rmdir
  apply wpt_bind; apply wpt_copy_path (Or.inl rfl); intro r pb
  cases r with
  | none =>
    dsimp only
    apply wpt_reply (by exact hs)
    exact Outcome.immediate _ rfl rfl rfl rfl rfl (by exact hp)
  | some path =>
    dsimp only
    apply wpt_bind; apply wpt_alloc (by exact hp); intro pool1 ff1 hp1
    apply wpt_bind; apply wpt_assert rfl
    apply wpt_bind; apply wpt_set_request_id (by exact hp1) hcN; intro pool2 hp2
    apply wpt_bind; apply wpt_nfs_async
    · simp only [ne_eq, not_true_eq_false, if_false]
      apply wpt_pure
      exact Outcome.deferred c fl _ rfl rfl rfl rfl rfl rfl (by exact hp2)
    · intro err herr
      simp only [ne_eq, herr, not_false_eq_true, if_true]
      apply wpt_bind; apply wpt_free (by exact hp2) hcN hcfl; intro pool9 ff9 hp9
      apply wpt_reply (by exact hs)
      exact Outcome.immediate _ rfl rfl rfl rfl rfl (by exact hp9)

theorem handle_stat_outcome (k : Consts) (env : nfs_env) (cmd : fs_cmd_t) (s : State)
    (c : Nat) (fl : List Nat)
    (hp : PoolOK k s.continuation_pool s.first_free_cont (c :: fl))
    (hs : fs_queue_length_producer s.completion_queue ≠ k.FS_QUEUE_CAPACITY) :
    wpt (handle_stat k env cmd) s (fun _ s' => Outcome k s (c :: fl) cmd.id s') := by
  have hcN : c < MAX_CONCURRENT_OPS k := hp.bound c (List.mem_cons_self _ _)
  have hcfl : c ∉ fl := (List.nodup_cons.1 hp.nodup).1
  unfold handle_stat
  apply wpt_bind; apply wpt_copy_path (Or.inl rfl); intro r pb
  cases r with
  | none =>
    dsimp only
    apply wpt_reply (by exact hs)
    exact Outcome.immediate _ rfl rfl rfl rfl rfl (by exact hp)
  | some path =>
    dsimp only
    apply wpt_bind; apply wpt_get_buffer; intro buf
    split
    ·
      apply wpt_reply (by exact hs)
      exact Outcome.immediate _ rfl rfl rfl rfl rfl (by exact hp)
    ·
      apply wpt_bind; apply wpt_alloc (by exact hp); intro pool1 ff1 hp1
      apply wpt_bind; apply wpt_assert rfl
      apply wpt_bind; apply wpt_set_request_id (by exact hp1) hcN; intro pool2 hp2
      apply wpt_bind; apply wpt_set_data (by exact hp2) hcN; intro pool3 hp3
      apply wpt_bind; apply wpt_nfs_async
      · simp only [ne_eq, not_true_eq_false, if_false]
        apply wpt_pure
        exact Outcome.deferred c fl _ rfl rfl rfl rfl rfl rfl (by exact hp3)
      · intro err herr
        simp only [ne_eq, herr, not_false_eq_true, if_true]
        apply wpt_bind; apply wpt_free (by exact hp3) hcN hcfl; intro pool9 ff9 hp9
        apply wpt_reply (by exact hs)
        exact Outcome.immediate _ rfl rfl rfl rfl rfl (by exact hp9)

theorem handle_rename_outcome (k : Consts) (env : nfs_env) (cmd : fs_cmd_t) (s : State)
    (c : Nat) (fl : List Nat)
    (hp : PoolOK k s.continuation_pool s.first_free_cont (c :: fl))
    (hs : fs_queue_length_producer s.completion_queue ≠ k.FS_QUEUE_CAPACITY) :
    wpt (handle_rename k env cmd) s (fun _ s' => Outcome k s (c :: fl) cmd.id s') := by
  have hcN : c < MAX_CONCURRENT_OPS k := hp.bound c (List.mem_cons_self _ _)
  have hcfl : c ∉ fl := (List.nodup_cons.1 hp.nodup).1
  unfold handle_rename
  apply wpt_bind; apply wpt_copy_path (Or.inl rfl); intro r0 pb0
  apply wpt_bind; apply wpt_copy_path (Or.inr rfl); intro r1 pb1
  cases r0 with
  | none =>
    dsimp only
    apply wpt_reply (by exact hs)
    exact Outcome.immediate _ rfl rfl rfl rfl rfl (by exact hp)
  | some old_path =>
    cases r1 with
    | none =>
      dsimp only
      apply wpt_reply (by exact hs)
      exact Outcome.immediate _ rfl rfl rfl rfl rfl (by exact hp)
    | some new_path =>
      dsimp only
      apply wpt_bind; apply wpt_alloc (by exact hp); intro pool1 ff1 hp1
      apply wpt_bind; apply wpt_assert rfl
      apply wpt_bind; apply wpt_set_request_id (by exact hp1) hcN; intro pool2 hp2
      apply wpt_bind; apply wpt_nfs_async
      · simp only [ne_eq, not_true_eq_false, if_false]
        apply wpt_pure
        exact Outcome.deferred c fl _ rfl rfl rfl rfl rfl rfl (by exact hp2)
      · intro err herr
        simp only [ne_eq, herr, not_false_eq_true, if_true]
        apply wpt_bind; apply wpt_free (by exact hp2) hcN hcfl; intro pool9 ff9 hp9
        apply wpt_reply (by exact hs)
        exact Outcome.immediate _ rfl rfl rfl rfl rfl (by exact hp9)

theorem handle_fsize_outcome (k : Consts) (env : nfs_env) (cmd : fs_cmd_t) (s : State)
    (c : Nat) (fl : List Nat)
    (hp : PoolOK k s.continuation_pool s.first_free_cont (c :: fl))
    (hs : fs_queue_length_producer s.completion_queue ≠ k.FS_QUEUE_CAPACITY) :
    wpt (handle_fsize k env cmd) s (fun _ s' => Outcome k s (c :: fl) cmd.id s') := by
  have hcN : c < MAX_CONCURRENT_OPS k := hp.bound c (List.mem_cons_self _ _)
  have hcfl : c ∉ fl := (List.nodup_cons.1 hp.nodup).1
  unfold handle_fsize
  apply wpt_bind; apply wpt_fd_begin_op_file
  · intro r hr
    obtain ⟨err, fh⟩ := r
    dsimp only at hr ⊢
    rw [if_pos hr]
    apply wpt_reply (by exact hs)
    exact Outcome.immediate _ rfl rfl rfl rfl rfl (by exact hp)
  · intro fh e he hst
    dsimp only
    rw [if_neg (by decide)]
    apply wpt_bind; apply wpt_alloc (by exact hp); intro pool1 ff1 hp1
    apply wpt_bind; apply wpt_assert rfl
    apply wpt_bind; apply wpt_set_request_id (by exact hp1) hcN; intro pool2 hp2
    apply wpt_bind; apply wpt_set_data (by exact hp2) hcN; intro pool3 hp3
    apply wpt_bind; apply wpt_nfs_async
    · simp only [ne_eq, not_true_eq_false, if_false]
      apply wpt_pure
      exact Outcome.deferred c fl _ rfl rfl rfl rfl rfl rfl (by exact hp3)
    · intro err herr
      simp only [ne_eq, herr, not_false_eq_true, if_true]
      apply wpt_bind; apply wpt_free (by exact hp3) hcN hcfl; intro pool9 ff9 hp9
      apply wpt_bind; apply wpt_fd_end_op (e := { e with counter := e.counter + 1 }) (getElem?_set_of_some he) (Nat.succ_pos _)
      apply wpt_reply (by exact hs)
      exact Outcome.immediate _ rfl rfl rfl rfl rfl (by exact hp9)

theorem handle_read_outcome (k : Consts) (env : nfs_env) (cmd : fs_cmd_t) (s : State)
    (c : Nat) (fl : List Nat)
    (hp : PoolOK k s.continuation_pool s.first_free_cont (c :: fl))
    (hs : fs_queue_length_producer s.completion_queue ≠ k.FS_QUEUE_CAPACITY) :
    wpt (handle_read k env cmd) s (fun _ s' => Outcome k s (c :: fl) cmd.id s') := by
  have hcN : c < MAX_CONCURRENT_OPS k := hp.bound c (List.mem_cons_self _ _)
  have hcfl : c ∉ fl := (List.nodup_cons.1 hp.nodup).1
  unfold handle_read
  apply wpt_bind; apply wpt_get_buffer; intro buf
  split
  ·
    apply wpt_reply (by exact hs)
    exact Outcome.immediate _ rfl rfl rfl rfl rfl (by exact hp)
  ·
    apply wpt_bind; apply wpt_fd_begin_op_file
    · intro r hr
      obtain ⟨err, fh⟩ := r
      dsimp only at hr ⊢
      rw [if_pos hr]
      apply wpt_reply (by exact hs)
      exact Outcome.immediate _ rfl rfl rfl rfl rfl (by exact hp)
    · intro fh e he hst
      dsimp only
      rw [if_neg (by decide)]
      apply wpt_bind; apply wpt_alloc (by exact hp); intro pool1 ff1 hp1
      apply wpt_bind; apply wpt_assert rfl
      apply wpt_bind; apply wpt_set_request_id (by exact hp1) hcN; intro pool2 hp2
      apply wpt_bind; apply wpt_set_data (by exact hp2) hcN; intro pool3 hp3
      apply wpt_bind; apply wpt_set_data (by exact hp3) hcN; intro pool4 hp4
      apply wpt_bind; apply wpt_nfs_async
      · simp only [ne_eq, not_true_eq_false, if_false]
        apply wpt_pure
        exact Outcome.deferred c fl _ rfl rfl rfl rfl rfl rfl (by exact hp4)
      · intro err herr
        simp only [ne_eq, herr, not_false_eq_true, if_true]
        apply wpt_bind; apply wpt_free (by exact hp4) hcN hcfl; intro pool9 ff9 hp9
        apply wpt_bind; apply wpt_fd_end_op (e := { e with counter := e.counter + 1 }) (getElem?_set_of_some he) (Nat.succ_pos _)
        apply wpt_reply (by exact hs)
        exact Outcome.immediate _ rfl rfl rfl rfl rfl (by exact hp9)

theorem handle_write_outcome (k : Consts) (env : nfs_env) (cmd : fs_cmd_t) (s : State)
    (c : Nat) (fl : List Nat)
    (hp : PoolOK k s.continuation_pool s.first_free_cont (c :: fl))
    (hs : fs_queue_length_producer s.completion_queue ≠ k.FS_QUEUE_CAPACITY) :
    wpt (handle_write k env cmd) s (fun _ s' => Outcome k s (c :: fl) cmd.id s') := by
  have hcN : c < MAX_CONCURRENT_OPS k := hp.bound c (List.mem_cons_self _ _)
  have hcfl : c ∉ fl := (List.nodup_cons.1 hp.nodup).1
  unfold handle_write
  apply wpt_bind; apply wpt_get_buffer; intro buf
  split
  ·
    apply wpt_reply (by exact hs)
    exact Outcome.immediate _ rfl rfl rfl rfl rfl (by exact hp)
  ·
    apply wpt_bind; apply wpt_fd_begin_op_file
    · intro r hr
      obtain ⟨err, fh⟩ := r
      dsimp only at hr ⊢
      rw [if_pos hr]
      apply wpt_reply (by exact hs)
      exact Outcome.immediate _ rfl rfl rfl rfl rfl (by exact hp)
    · intro fh e he hst
      dsimp only
      rw [if_neg (by decide)]
      apply wpt_bind; apply wpt_alloc (by exact hp); intro pool1 ff1 hp1
      apply wpt_bind; apply wpt_assert rfl
      apply wpt_bind; apply wpt_set_request_id (by exact hp1) hcN; intro pool2 hp2
      apply wpt_bind; apply wpt_set_data (by exact hp2) hcN; intro pool3 hp3
      apply wpt_bind; apply wpt_nfs_async
      · simp only [ne_eq, not_true_eq_false, if_false]
        apply wpt_pure
        exact Outcome.deferred c fl _ rfl rfl rfl rfl rfl rfl (by exact hp3)
      · intro err herr
        simp only [ne_eq, herr, not_false_eq_true, if_true]
        apply wpt_bind; apply wpt_free (by exact hp3) hcN hcfl; intro pool9 ff9 hp9
        apply wpt_bind; apply wpt_fd_end_op (e := { e with counter := e.counter + 1 }) (getElem?_set_of_some he) (Nat.succ_pos _)
        apply wpt_reply (by exact hs)
        exact Outcome.immediate _ rfl rfl rfl rfl rfl (by exact hp9)

theorem handle_fsync_outcome (k : Consts) (env : nfs_env) (cmd : fs_cmd_t) (s : State)
    (c : Nat) (fl : List Nat)
    (hp : PoolOK k s.continuation_pool s.first_free_cont (c :: fl))
    (hs : fs_queue_length_producer s.completion_queue ≠ k.FS_QUEUE_CAPACITY) :
    wpt (handle_fsync k env cmd) s (fun _ s' => Outcome k s (c :: fl) cmd.id s') := by
  have hcN : c < MAX_CONCURRENT_OPS k := hp.bound c (List.mem_cons_self _ _)
  have hcfl : c ∉ fl := (List.nodup_cons.1 hp.nodup).1
  unfold handle_fsync
  apply wpt_bind; apply wpt_fd_begin_op_file
  · intro r hr
    obtain ⟨err, fh⟩ := r
    dsimp only at hr ⊢
    rw [if_pos hr]
    apply wpt_reply (by exact hs)
    exact Outcome.immediate _ rfl rfl rfl rfl rfl (by exact hp)
  · intro fh e he hst
    dsimp only
    rw [if_neg (by decide)]
    apply wpt_bind; apply wpt_alloc (by exact hp); intro pool1 ff1 hp1
    apply wpt_bind; apply wpt_assert rfl
    apply wpt_bind; apply wpt_set_request_id (by exact hp1) hcN; intro pool2 hp2
    apply wpt_bind; apply wpt_set_data (by exact hp2) hcN; intro pool3 hp3
    apply wpt_bind; apply wpt_nfs_async
    · simp only [ne_eq, not_true_eq_false, if_false]
      apply wpt_pure
      exact Outcome.deferred c fl _ rfl rfl rfl rfl rfl rfl (by exact hp3)
    · intro err herr
      simp only [ne_eq, herr, not_false_eq_true, if_true]
      apply wpt_bind; apply wpt_free (by exact hp3) hcN hcfl; intro pool9 ff9 hp9
      apply wpt_bind; apply wpt_fd_end_op (e := { e with counter := e.counter + 1 }) (getElem?_set_of_some he) (Nat.succ_pos _)
      apply wpt_reply (by exact hs)
      exact Outcome.immediate _ rfl rfl rfl rfl rfl (by exact hp9)

theorem handle_truncate_outcome (k : Consts) (env : nfs_env) (cmd : fs_cmd_t) (s : State)
    (c : Nat) (fl : List Nat)
    (hp : PoolOK k s.continuation_pool s.first_free_cont (c :: fl))
    (hs : fs_queue_length_producer s.completion_queue ≠ k.FS_QUEUE_CAPACITY) :
    wpt (handle_truncate k env cmd) s (fun _ s' => Outcome k s (c :: fl) cmd.id s') := by
  have hcN : c < MAX_CONCURRENT_OPS k := hp.bound c (List.mem_cons_self _ _)
  have hcfl : c ∉ fl := (List.nodup_cons.1 hp.nodup).1
  unfold handle_truncate
  apply wpt_bind; apply wpt_fd_begin_op_file
  · intro r hr
    obtain ⟨err, fh⟩ := r
    dsimp only at hr ⊢
    rw [if_pos hr]
    apply wpt_reply (by exact hs)
    exact Outcome.immediate _ rfl rfl rfl rfl rfl (by exact hp)
  · intro fh e he hst
    dsimp only
    rw [if_neg (by decide)]
    apply wpt_bind; apply wpt_alloc (by exact hp); intro pool1 ff1 hp1
    apply wpt_bind; apply wpt_assert rfl
    apply wpt_bind; apply wpt_set_request_id (by exact hp1) hcN; intro pool2 hp2
    apply wpt_bind; apply wpt_set_data (by exact hp2) hcN; intro pool3 hp3
    apply wpt_bind; apply wpt_nfs_async
    · simp only [ne_eq, not_true_eq_false, if_false]
      apply wpt_pure
      exact Outcome.deferred c fl _ rfl rfl rfl rfl rfl rfl (by exact hp3)
    · intro err herr
      simp only [ne_eq, herr, not_false_eq_true, if_true]
      apply wpt_bind; apply wpt_free (by exact hp3) hcN hcfl; intro pool9 ff9 hp9
      apply wpt_bind; apply wpt_fd_end_op (e := { e with counter := e.counter + 1 }) (getElem?_set_of_some he) (Nat.succ_pos _)
      apply wpt_reply (by exact hs)
      exact Outcome.immediate _ rfl rfl rfl rfl rfl (by exact hp9)

theorem handle_open_outcome (k : Consts) (env : nfs_env) (cmd : fs_cmd_t) (s : State)
    (c : Nat) (fl : List Nat)
    (hp : PoolOK k s.continuation_pool s.first_free_cont (c :: fl))
    (hs : fs_queue_length_producer s.completion_queue ≠ k.FS_QUEUE_CAPACITY) :
    wpt (handle_open k env cmd) s (fun _ s' => Outcome k s (c :: fl) cmd.id s') := by
  have hcN : c < MAX_CONCURRENT_OPS k := hp.bound c (List.mem_cons_self _ _)
  have hcfl : c ∉ fl := (List.nodup_cons.1 hp.nodup).1
  unfold handle_open
  apply wpt_bind; apply wpt_copy_path (Or.inl rfl); intro r pb
  cases r with
  | none =>
    dsimp only
    apply wpt_reply (by exact hs)
    exact Outcome.immediate _ rfl rfl rfl rfl rfl (by exact hp)
  | some path =>
    dsimp only
    apply wpt_bind; apply wpt_fd_alloc
    · intro r hr
      obtain ⟨err, fd⟩ := r
      dsimp only at hr ⊢
      rw [if_pos hr]
      apply wpt_reply (by exact hs)
      exact Outcome.immediate _ rfl rfl rfl rfl rfl (by exact hp)
    · intro fd hfd
      dsimp only
      rw [if_neg (by decide)]
      apply wpt_bind; apply wpt_alloc (by exact hp); intro pool1 ff1 hp1
      apply wpt_bind; apply wpt_assert rfl
      apply wpt_bind; apply wpt_set_request_id (by exact hp1) hcN; intro pool2 hp2
      apply wpt_bind; apply wpt_set_data (by exact hp2) hcN; intro pool3 hp3
      dsimp only
      apply wpt_bind; apply wpt_nfs_async
      · simp only [ne_eq, not_true_eq_false, if_false]
        apply wpt_pure
        exact Outcome.deferred c fl _ rfl rfl rfl rfl rfl rfl (by exact hp3)
      · intro err herr
        simp only [ne_eq, herr, not_false_eq_true, if_true]
        apply wpt_bind; apply wpt_free (by exact hp3) hcN hcfl; intro pool9 ff9 hp9
        apply wpt_bind; apply wpt_fd_free (e := { state := fd_state.reserved, counter := 0 }) (List.getElem?_set_self hfd) rfl
        apply wpt_reply (by exact hs)
        exact Outcome.immediate _ rfl rfl rfl rfl rfl (by exact hp9)

theorem handle_opendir_outcome (k : Consts) (env : nfs_env) (cmd : fs_cmd_t) (s : State)
    (c : Nat) (fl : List Nat)
    (hp : PoolOK k s.continuation_pool s.first_free_cont (c :: fl))
    (hs : fs_queue_length_producer s.completion_queue ≠ k.FS_QUEUE_CAPACITY) :
    wpt (handle_opendir k env cmd) s (fun _ s' => Outcome k s (c :: fl) cmd.id s') := by
  have hcN : c < MAX_CONCURRENT_OPS k := hp.bound c (List.mem_cons_self _ _)
  have hcfl : c ∉ fl := (List.nodup_cons.1 hp.nodup).1
  unfold handle_opendir
  apply wpt_bind; apply wpt_copy_path (Or.inl rfl); intro r pb
  cases r with
  | none =>
    dsimp only
    apply wpt_reply (by exact hs)
    exact Outcome.immediate _ rfl rfl rfl rfl rfl (by exact hp)
  | some path =>
    dsimp only
    apply wpt_bind; apply wpt_fd_alloc
    · intro r hr
      obtain ⟨err, fd⟩ := r
      dsimp only at hr ⊢
      rw [if_pos hr]
      apply wpt_reply (by exact hs)
      exact Outcome.immediate _ rfl rfl rfl rfl rfl (by exact hp)
    · intro fd hfd
      dsimp only
      rw [if_neg (by decide)]
      apply wpt_bind; apply wpt_alloc (by exact hp); intro pool1 ff1 hp1
      apply wpt_bind; apply wpt_assert rfl
      apply wpt_bind; apply wpt_set_request_id (by exact hp1) hcN; intro pool2 hp2
      apply wpt_bind; apply wpt_set_data (by exact hp2) hcN; intro pool3 hp3
      dsimp only
      apply wpt_bind; apply wpt_nfs_async
      · simp only [ne_eq, not_true_eq_false, if_false]
        apply wpt_pure
        exact Outcome.deferred c fl _ rfl rfl rfl rfl rfl rfl (by exact hp3)
      · intro err herr
        simp only [ne_eq, herr, not_false_eq_true, if_true]
        apply wpt_bind; apply wpt_free (by exact hp3) hcN hcfl; intro pool9 ff9 hp9
        apply wpt_bind; apply wpt_fd_free (e := { state := fd_state.reserved, counter := 0 }) (List.getElem?_set_self hfd) rfl
        apply wpt_reply (by exact hs)
        exact Outcome.immediate _ rfl rfl rfl rfl rfl (by exact hp9)

theorem handle_close_outcome (k : Consts) (env : nfs_env) (cmd : fs_cmd_t) (s : State)
    (c : Nat) (fl : List Nat)
    (hp : PoolOK k s.continuation_pool s.first_free_cont (c :: fl))
    (hs : fs_queue_length_producer s.completion_queue ≠ k.FS_QUEUE_CAPACITY) :
    wpt (handle_close k env cmd) s (fun _ s' => Outcome k s (c :: fl) cmd.id s') := by
  have hcN : c < MAX_CONCURRENT_OPS k := hp.bound c (List.mem_cons_self _ _)
  have hcfl : c ∉ fl := (List.nodup_cons.1 hp.nodup).1
  unfold handle_close
  apply wpt_bind; apply wpt_fd_begin_op_file
  · intro r hr
    obtain ⟨err, fh⟩ := r
    dsimp only at hr ⊢
    rw [if_pos hr]
    apply wpt_reply (by exact hs)
    exact Outcome.immediate _ rfl rfl rfl rfl rfl (by exact hp)
  · intro fh e he hst
    dsimp only
    rw [if_neg (by decide)]
    apply wpt_bind
    apply wpt_fd_end_op (e := { e with counter := e.counter + 1 }) (getElem?_set_of_some he)
      (Nat.succ_pos _)
    apply wpt_bind; apply wpt_fd_unset
    · intro r hr
      rw [if_pos hr]
      apply wpt_reply (by exact hs)
      exact Outcome.immediate _ rfl rfl rfl rfl rfl (by exact hp)
    · intro e2 he2
      rw [if_neg (by decide)]
      apply wpt_bind; apply wpt_alloc (by exact hp); intro pool1 ff1 hp1
      apply wpt_bind; apply wpt_assert rfl
      apply wpt_bind; apply wpt_set_request_id (by exact hp1) hcN; intro pool2 hp2
      apply wpt_bind; apply wpt_set_data (by exact hp2) hcN; intro pool3 hp3
      apply wpt_bind; apply wpt_set_data (by exact hp3) hcN; intro pool4 hp4
      apply wpt_bind; apply wpt_nfs_async
      · simp only [ne_eq, not_true_eq_false, if_false]
        apply wpt_pure
        exact Outcome.deferred c fl _ rfl rfl rfl rfl rfl rfl (by exact hp4)
      · intro err herr
        simp only [ne_eq, herr, not_false_eq_true, if_true]
        apply wpt_bind; apply wpt_free (by exact hp4) hcN hcfl; intro pool9 ff9 hp9
        apply wpt_bind; apply wpt_fd_set_file (e := { e2 with state := fd_state.reserved }) (getElem?_set_of_some he2) rfl
        apply wpt_reply (by exact hs)
        exact Outcome.immediate _ rfl rfl rfl rfl rfl (by exact hp9)

theorem handle_closedir_outcome (k : Consts) (env : nfs_env) (cmd : fs_cmd_t) (s : State)
    (c : Nat) (fl : List Nat)
    (hp : PoolOK k s.continuation_pool s.first_free_cont (c :: fl))
    (hs : fs_queue_length_producer s.completion_queue ≠ k.FS_QUEUE_CAPACITY) :
    wpt (handle_closedir k env cmd) s (fun _ s' => Outcome k s (c :: fl) cmd.id s') := by
  have hcN : c < MAX_CONCURRENT_OPS k := hp.bound c (List.mem_cons_self _ _)
  have hcfl : c ∉ fl := (List.nodup_cons.1 hp.nodup).1
  unfold handle_closedir
  apply wpt_bind; apply wpt_fd_begin_op_dir
  · intro r hr
    obtain ⟨err, fh⟩ := r
    dsimp only at hr ⊢
    rw [if_pos hr]
    apply wpt_reply (by exact hs)
    exact Outcome.immediate _ rfl rfl rfl rfl rfl (by exact hp)
  · intro fh e he hst
    dsimp only
    rw [if_neg (by decide)]
    apply wpt_bind
    apply wpt_fd_end_op (e := { e with counter := e.counter + 1 }) (getElem?_set_of_some he)
      (Nat.succ_pos _)
    apply wpt_bind; apply wpt_fd_unset
    · intro r hr
      rw [if_pos hr]
      apply wpt_reply (by exact hs)
      exact Outcome.immediate _ rfl rfl rfl rfl rfl (by exact hp)
    · intro e2 he2
      rw [if_neg (by decide)]
      apply wpt_bind; apply wpt_nfs_closedir
      apply wpt_bind
      apply wpt_fd_free (e := { e2 with state := fd_state.reserved }) (getElem?_set_of_some he2) rfl
      apply wpt_reply (by exact hs)
      exact Outcome.immediate _ rfl rfl rfl rfl rfl (by exact hp)

theorem handle_seekdir_outcome (k : Consts) (env : nfs_env) (cmd : fs_cmd_t) (s : State)
    (c : Nat) (fl : List Nat)
    (hp : PoolOK k s.continuation_pool s.first_free_cont (c :: fl))
    (hs : fs_queue_length_producer s.completion_queue ≠ k.FS_QUEUE_CAPACITY) :
    wpt (handle_seekdir k env cmd) s (fun _ s' => Outcome k s (c :: fl) cmd.id s') := by
  have hcN : c < MAX_CONCURRENT_OPS k := hp.bound c (List.mem_cons_self _ _)
  have hcfl : c ∉ fl := (List.nodup_cons.1 hp.nodup).1
  unfold handle_seekdir
  apply wpt_bind; apply wpt_fd_begin_op_dir
  · intro r hr
    obtain ⟨err, fh⟩ := r
    dsimp only at hr ⊢
    rw [if_pos hr]
    apply wpt_reply (by exact hs)
    exact Outcome.immediate _ rfl rfl rfl rfl rfl (by exact hp)
  · intro fh e he hst
    dsimp only
    rw [if_neg (by decide)]
    apply wpt_bind; apply wpt_nfs_seekdir
    apply wpt_bind
    apply wpt_fd_end_op (e := { e with counter := e.counter + 1 }) (getElem?_set_of_some he)
      (Nat.succ_pos _)
    apply wpt_reply (by exact hs)
    exact Outcome.immediate _ rfl rfl rfl rfl rfl (by exact hp)

theorem handle_telldir_outcome (k : Consts) (env : nfs_env) (cmd : fs_cmd_t) (s : State)
    (c : Nat) (fl : List Nat)
    (hp : PoolOK k s.continuation_pool s.first_free_cont (c :: fl))
    (hs : fs_queue_length_producer s.completion_queue ≠ k.FS_QUEUE_CAPACITY) :
    wpt (handle_telldir k env cmd) s (fun _ s' => Outcome k s (c :: fl) cmd.id s') := by
  have hcN : c < MAX_CONCURRENT_OPS k := hp.bound c (List.mem_cons_self _ _)
  have hcfl : c ∉ fl := (List.nodup_cons.1 hp.nodup).1
  unfold handle_telldir
  apply wpt_bind; apply wpt_fd_begin_op_dir
  · intro r hr
    obtain ⟨err, fh⟩ := r
    dsimp only at hr ⊢
    rw [if_pos hr]
    apply wpt_reply (by exact hs)
    exact Outcome.immediate _ rfl rfl rfl rfl rfl (by exact hp)
  · intro fh e he hst
    dsimp only
    rw [if_neg (by decide)]
    apply wpt_bind; apply wpt_nfs_telldir
    apply wpt_bind
    apply wpt_fd_end_op (e := { e with counter := e.counter + 1 }) (getElem?_set_of_some he)
      (Nat.succ_pos _)
    apply wpt_reply (by exact hs)
    exact Outcome.immediate _ rfl rfl rfl rfl rfl (by exact hp)

theorem handle_rewinddir_outcome (k : Consts) (env : nfs_env) (cmd : fs_cmd_t) (s : State)
    (c : Nat) (fl : List Nat)
    (hp : PoolOK k s.continuation_pool s.first_free_cont (c :: fl))
    (hs : fs_queue_length_producer s.completion_queue ≠ k.FS_QUEUE_CAPACITY) :
    wpt (handle_rewinddir k env cmd) s (fun _ s' => Outcome k s (c :: fl) cmd.id s') := by
  have hcN : c < MAX_CONCURRENT_OPS k := hp.bound c (List.mem_cons_self _ _)
  have hcfl : c ∉ fl := (List.nodup_cons.1 hp.nodup).1
  unfold handle_rewinddir
  apply wpt_bind; apply wpt_fd_begin_op_dir
  · intro r hr
    obtain ⟨err, fh⟩ := r
    dsimp only at hr ⊢
    rw [if_pos hr]
    apply wpt_reply (by exact hs)
    exact Outcome.immediate _ rfl rfl rfl rfl rfl (by exact hp)
  · intro fh e he hst
    dsimp only
    rw [if_neg (by decide)]
    apply wpt_bind; apply wpt_nfs_rewinddir
    apply wpt_bind
    apply wpt_fd_end_op (e := { e with counter := e.counter + 1 }) (getElem?_set_of_some he)
      (Nat.succ_pos _)
    apply wpt_reply (by exact hs)
    exact Outcome.immediate _ rfl rfl rfl rfl rfl (by exact hp)

theorem handle_readdir_outcome (k : Consts) (env : nfs_env) (cmd : fs_cmd_t) (s : State)
    (c : Nat) (fl : List Nat)
    (hp : PoolOK k s.continuation_pool s.first_free_cont (c :: fl))
    (hs : fs_queue_length_producer s.completion_queue ≠ k.FS_QUEUE_CAPACITY)
    (henv : ∀ name, env.dirent = some name → name.length ≤ k.FS_MAX_NAME_LENGTH) :
    wpt (handle_readdir k env cmd) s (fun _ s' => Outcome k s (c :: fl) cmd.id s') := by
  have hcN : c < MAX_CONCURRENT_OPS k := hp.bound c (List.mem_cons_self _ _)
  have hcfl : c ∉ fl := (List.nodup_cons.1 hp.nodup).1
  unfold handle_readdir
  apply wpt_bind; apply wpt_get_buffer; intro buf
  split
  ·
    apply wpt_reply (by exact hs)
    exact Outcome.immediate _ rfl rfl rfl rfl rfl (by exact hp)
  · apply wpt_bind; apply wpt_fd_begin_op_dir
    · intro r hr
      obtain ⟨err, fh⟩ := r
      dsimp only at hr ⊢
      rw [if_pos hr]
      apply wpt_reply (by exact hs)
      exact Outcome.immediate _ rfl rfl rfl rfl rfl (by exact hp)
    · intro fh e he hst
      dsimp only
      rw [if_neg (by decide)]
      apply wpt_bind; apply wpt_nfs_readdir
      cases hd : env.dirent with
      | none =>
        dsimp only
        apply wpt_bind
        apply wpt_fd_end_op (e := { e with counter := e.counter + 1 }) (getElem?_set_of_some he)
          (Nat.succ_pos _)
        apply wpt_reply (by exact hs)
        exact Outcome.immediate _ rfl rfl rfl rfl rfl (by exact hp)
      | some name =>
        dsimp only
        apply wpt_bind; apply wpt_assert (decide_eq_true (henv name hd))
        apply wpt_bind; apply wpt_memcpy_to_mem; intro m
        apply wpt_bind
        apply wpt_fd_end_op (e := { e with counter := e.counter + 1 }) (getElem?_set_of_some he)
          (Nat.succ_pos _)
        apply wpt_reply (by exact hs)
        exact Outcome.immediate _ rfl rfl rfl rfl rfl (by exact hp)

theorem handle_initialise_outcome (k : Consts) (env : nfs_env) (cmd : fs_cmd_t) (s : State)
    (c : Nat) (fl : List Nat)
    (hp : PoolOK k s.continuation_pool s.first_free_cont (c :: fl))
    (hs : fs_queue_length_producer s.completion_queue ≠ k.FS_QUEUE_CAPACITY) :
    wpt (handle_initialise k env cmd) s (fun _ s' => Outcome k s (c :: fl) cmd.id s') := by
  have hcN : c < MAX_CONCURRENT_OPS k := hp.bound c (List.mem_cons_self _ _)
  have hcfl : c ∉ fl := (List.nodup_cons.1 hp.nodup).1
  unfold handle_initialise
  apply wpt_bind; apply wpt_get_nfs
  cases hn : s.nfs with
  | true =>
    simp only [if_true]
    apply wpt_reply (by exact hs)
    exact Outcome.immediate _ rfl rfl rfl rfl rfl (by exact hp)
  | false =>
    simp only [Bool.false_eq_true, if_false]
    apply wpt_bind; apply wpt_nfs_init_context
    apply wpt_bind; apply wpt_get_nfs
    cases hi : env.init_context_ok with
    | false =>
      simp only [Bool.not_false, if_true]
      apply wpt_reply (by exact hs)
      exact Outcome.immediate _ rfl rfl rfl rfl rfl (by exact hp)
    | true =>
      simp only [Bool.not_true, Bool.false_eq_true, if_false]
      apply wpt_bind; apply wpt_alloc (by exact hp); intro pool1 ff1 hp1
      apply wpt_bind; apply wpt_assert rfl
      apply wpt_bind; apply wpt_set_request_id (by exact hp1) hcN; intro pool2 hp2
      apply wpt_bind; apply wpt_nfs_set_autoreconnect
      apply wpt_bind; apply wpt_nfs_async
      · simp only [ne_eq, not_true_eq_false, if_false]
        apply wpt_pure
        exact Outcome.deferred c fl _ rfl rfl rfl rfl rfl rfl (by exact hp2)
      · intro err herr
        simp only [ne_eq, herr, not_false_eq_true, if_true]
        apply wpt_bind; apply wpt_free (by exact hp2) hcN hcfl; intro pool9 ff9 hp9
        apply wpt_reply (by exact hs)
        exact Outcome.immediate _ rfl rfl rfl rfl rfl (by exact hp9)

theorem handle_deinitialise_eq (k : Consts) (env : nfs_env) (cmd : fs_cmd_t) (s : State) :
    handle_deinitialise k env cmd s = .ok ((), s) := rfl

/-! ## Callbacks -/

theorem wpt_cont_read {k : Consts} {s : State} {i : Nat} {Q : continuation → State → Prop}
    (hi : i < MAX_CONCURRENT_OPS k) (hl : i < s.continuation_pool.length)
    (h : ∀ c, s.continuation_pool[i]? = some c → Q c s) :
    wpt (cont_read k (some (i : Int))) s Q := by
  have hc : s.continuation_pool[i]? = some (s.continuation_pool[i]) := List.getElem?_eq_getElem hl
  exact ⟨_, s, cont_read_ok hi hc, h _ hc⟩

theorem mount_cb_completes (k : Consts) (a : cb_args) (c : Nat) (fl : List Nat) (s : State)
    (hp : PoolOK k s.continuation_pool s.first_free_cont fl)
    (hcN : c < MAX_CONCURRENT_OPS k) (hcfl : c ∉ fl)
    (hs : fs_queue_length_producer s.completion_queue ≠ k.FS_QUEUE_CAPACITY)
    (_hfd : ∀ cont, s.continuation_pool[c]? = some cont →
      cb_fd_ready nfs_cb.mount_cb cont s.fd_table) :
    callback_completes k nfs_cb.mount_cb a c fl s := by
  unfold callback_completes run_cb
  dsimp only
  unfold mount_cb
  apply wpt_bind; apply wpt_cont_read hcN (by rw [hp.len]; exact hcN); intro cont hcont
  dsimp only
  apply wpt_bind; apply wpt_free (by exact hp) hcN hcfl; intro pool9 ff9 hp9
  apply wpt_reply (by exact hs)
  exact ⟨_, cont, hcont, by split <;> rfl, rfl, rfl, rfl, hp9⟩

theorem rename_cb_completes (k : Consts) (a : cb_args) (c : Nat) (fl : List Nat) (s : State)
    (hp : PoolOK k s.continuation_pool s.first_free_cont fl)
    (hcN : c < MAX_CONCURRENT_OPS k) (hcfl : c ∉ fl)
    (hs : fs_queue_length_producer s.completion_queue ≠ k.FS_QUEUE_CAPACITY)
    (_hfd : ∀ cont, s.continuation_pool[c]? = some cont →
      cb_fd_ready nfs_cb.rename_cb cont s.fd_table) :
    callback_completes k nfs_cb.rename_cb a c fl s := by
  unfold callback_completes run_cb
  dsimp only
  unfold rename_cb
  apply wpt_bind; apply wpt_cont_read hcN (by rw [hp.len]; exact hcN); intro cont hcont
  dsimp only
  apply wpt_bind; apply wpt_free (by exact hp) hcN hcfl; intro pool9 ff9 hp9
  apply wpt_reply (by exact hs)
  exact ⟨_, cont, hcont, by split <;> rfl, rfl, rfl, rfl, hp9⟩

theorem unlink_cb_completes (k : Consts) (a : cb_args) (c : Nat) (fl : List Nat) (s : State)
    (hp : PoolOK k s.continuation_pool s.first_free_cont fl)
    (hcN : c < MAX_CONCURRENT_OPS k) (hcfl : c ∉ fl)
    (hs : fs_queue_length_producer s.completion_queue ≠ k.FS_QUEUE_CAPACITY)
    (_hfd : ∀ cont, s.continuation_pool[c]? = some cont →
      cb_fd_ready nfs_cb.unlink_cb cont s.fd_table) :
    callback_completes k nfs_cb.unlink_cb a c fl s := by
  unfold callback_completes run_cb
  dsimp only
  unfold unlink_cb
  apply wpt_bind; apply wpt_cont_read hcN (by rw [hp.len]; exact hcN); intro cont hcont
  dsimp only
  apply wpt_bind; apply wpt_free (by exact hp) hcN hcfl; intro pool9 ff9 hp9
  apply wpt_reply (by exact hs)
  exact ⟨_, cont, hcont, by split <;> rfl, rfl, rfl, rfl, hp9⟩

theorem mkdir_cb_completes (k : Consts) (a : cb_args) (c : Nat) (fl : List Nat) (s : State)
    (hp : PoolOK k s.continuation_pool s.first_free_cont fl)
    (hcN : c < MAX_CONCURRENT_OPS k) (hcfl : c ∉ fl)
    (hs : fs_queue_length_producer s.completion_queue ≠ k.FS_QUEUE_CAPACITY)
    (_hfd : ∀ cont, s.continuation_pool[c]? = some cont →
      cb_fd_ready nfs_cb.mkdir_cb cont s.fd_table) :
    callback_completes k nfs_cb.mkdir_cb a c fl s := by
  unfold callback_completes run_cb
  dsimp only
  unfold mkdir_cb
  apply wpt_bind; apply wpt_cont_read hcN (by rw [hp.len]; exact hcN); intro cont hcont
  dsimp only
  apply wpt_bind; apply wpt_free (by exact hp) hcN hcfl; intro pool9 ff9 hp9
  apply wpt_reply (by exact hs)
  exact ⟨_, cont, hcont, by split <;> rfl, rfl, rfl, rfl, hp9⟩

theorem stat64_cb_completes (k : Consts) (a : cb_args) (c : Nat) (fl : List Nat) (s : State)
    (hp : PoolOK k s.continuation_pool s.first_free_cont fl)
    (hcN : c < MAX_CONCURRENT_OPS k) (hcfl : c ∉ fl)
    (hs : fs_queue_length_producer s.completion_queue ≠ k.FS_QUEUE_CAPACITY)
    (_hfd : ∀ cont, s.continuation_pool[c]? = some cont →
      cb_fd_ready nfs_cb.stat64_cb cont s.fd_table) :
    callback_completes k nfs_cb.stat64_cb a c fl s := by
  unfold callback_completes run_cb
  dsimp only
  unfold stat64_cb
  apply wpt_bind; apply wpt_cont_read hcN (by rw [hp.len]; exact hcN); intro cont hcont
  dsimp only
  split
  · apply wpt_bind; apply wpt_memcpy_to_mem; intro m
    apply wpt_bind; apply wpt_free (by exact hp) hcN hcfl; intro pool9 ff9 hp9
    apply wpt_reply (by exact hs)
    exact ⟨_, cont, hcont, rfl, rfl, rfl, rfl, hp9⟩
  ·
    apply wpt_bind; apply wpt_free (by exact hp) hcN hcfl; intro pool9 ff9 hp9
    apply wpt_reply (by exact hs)
    exact ⟨_, cont, hcont, rfl, rfl, rfl, rfl, hp9⟩

theorem fsize_cb_completes (k : Consts) (a : cb_args) (c : Nat) (fl : List Nat) (s : State)
    (hp : PoolOK k s.continuation_pool s.first_free_cont fl)
    (hcN : c < MAX_CONCURRENT_OPS k) (hcfl : c ∉ fl)
    (hs : fs_queue_length_producer s.completion_queue ≠ k.FS_QUEUE_CAPACITY)
    (hfd : ∀ cont, s.continuation_pool[c]? = some cont →
      cb_fd_ready nfs_cb.fsize_cb cont s.fd_table) :
    callback_completes k nfs_cb.fsize_cb a c fl s := by
  unfold callback_completes run_cb
  dsimp only
  unfold fsize_cb
  apply wpt_bind; apply wpt_cont_read hcN (by rw [hp.len]; exact hcN); intro cont hcont
  obtain ⟨e, he, hcnt⟩ := hfd cont hcont
  dsimp only
  apply wpt_bind; apply wpt_fd_end_op (by exact he) hcnt
  apply wpt_bind; apply wpt_free (by exact hp) hcN hcfl; intro pool9 ff9 hp9
  apply wpt_reply (by exact hs)
  exact ⟨_, cont, hcont, by split <;> rfl, rfl, rfl, rfl, hp9⟩

theorem read_cb_completes (k : Consts) (a : cb_args) (c : Nat) (fl : List Nat) (s : State)
    (hp : PoolOK k s.continuation_pool s.first_free_cont fl)
    (hcN : c < MAX_CONCURRENT_OPS k) (hcfl : c ∉ fl)
    (hs : fs_queue_length_producer s.completion_queue ≠ k.FS_QUEUE_CAPACITY)
    (hfd : ∀ cont, s.continuation_pool[c]? = some cont →
      cb_fd_ready nfs_cb.read_cb cont s.fd_table) :
    callback_completes k nfs_cb.read_cb a c fl s := by
  unfold callback_completes run_cb
  dsimp only
  unfold read_cb
  apply wpt_bind; apply wpt_cont_read hcN (by rw [hp.len]; exact hcN); intro cont hcont
  obtain ⟨e, he, hcnt⟩ := hfd cont hcont
  dsimp only
  apply wpt_bind; apply wpt_fd_end_op (by exact he) hcnt
  apply wpt_bind; apply wpt_free (by exact hp) hcN hcfl; intro pool9 ff9 hp9
  apply wpt_reply (by exact hs)
  exact ⟨_, cont, hcont, by split <;> rfl, rfl, rfl, rfl, hp9⟩

theorem write_cb_completes (k : Consts) (a : cb_args) (c : Nat) (fl : List Nat) (s : State)
    (hp : PoolOK k s.continuation_pool s.first_free_cont fl)
    (hcN : c < MAX_CONCURRENT_OPS k) (hcfl : c ∉ fl)
    (hs : fs_queue_length_producer s.completion_queue ≠ k.FS_QUEUE_CAPACITY)
    (hfd : ∀ cont, s.continuation_pool[c]? = some cont →
      cb_fd_ready nfs_cb.write_cb cont s.fd_table) :
    callback_completes k nfs_cb.write_cb a c fl s := by
  unfold callback_completes run_cb
  dsimp only
  unfold write_cb
  apply wpt_bind; apply wpt_cont_read hcN (by rw [hp.len]; exact hcN); intro cont hcont
  obtain ⟨e, he, hcnt⟩ := hfd cont hcont
  dsimp only
  apply wpt_bind; apply wpt_fd_end_op (by exact he) hcnt
  apply wpt_bind; apply wpt_free (by exact hp) hcN hcfl; intro pool9 ff9 hp9
  apply wpt_reply (by exact hs)
  exact ⟨_, cont, hcont, by split <;> rfl, rfl, rfl, rfl, hp9⟩

theorem fsync_cb_completes (k : Consts) (a : cb_args) (c : Nat) (fl : List Nat) (s : State)
    (hp : PoolOK k s.continuation_pool s.first_free_cont fl)
    (hcN : c < MAX_CONCURRENT_OPS k) (hcfl : c ∉ fl)
    (hs : fs_queue_length_producer s.completion_queue ≠ k.FS_QUEUE_CAPACITY)
    (hfd : ∀ cont, s.continuation_pool[c]? = some cont →
      cb_fd_ready nfs_cb.fsync_cb cont s.fd_table) :
    callback_completes k nfs_cb.fsync_cb a c fl s := by
  unfold callback_completes run_cb
  dsimp only
  unfold fsync_cb
  apply wpt_bind; apply wpt_cont_read hcN (by rw [hp.len]; exact hcN); intro cont hcont
  obtain ⟨e, he, hcnt⟩ := hfd cont hcont
  dsimp only
  apply wpt_bind; apply wpt_fd_end_op (by exact he) hcnt
  apply wpt_bind; apply wpt_free (by exact hp) hcN hcfl; intro pool9 ff9 hp9
  apply wpt_reply (by exact hs)
  exact ⟨_, cont, hcont, by split <;> rfl, rfl, rfl, rfl, hp9⟩

theorem truncate_cb_completes (k : Consts) (a : cb_args) (c : Nat) (fl : List Nat) (s : State)
    (hp : PoolOK k s.continuation_pool s.first_free_cont fl)
    (hcN : c < MAX_CONCURRENT_OPS k) (hcfl : c ∉ fl)
    (hs : fs_queue_length_producer s.completion_queue ≠ k.FS_QUEUE_CAPACITY)
    (hfd : ∀ cont, s.continuation_pool[c]? = some cont →
      cb_fd_ready nfs_cb.truncate_cb cont s.fd_table) :
    callback_completes k nfs_cb.truncate_cb a c fl s := by
  unfold callback_completes run_cb
  dsimp only
  unfold truncate_cb
  apply wpt_bind; apply wpt_cont_read hcN (by rw [hp.len]; exact hcN); intro cont hcont
  obtain ⟨e, he, hcnt⟩ := hfd cont hcont
  dsimp only
  apply wpt_bind; apply wpt_fd_end_op (by exact he) hcnt
  apply wpt_bind; apply wpt_free (by exact hp) hcN hcfl; intro pool9 ff9 hp9
  apply wpt_reply (by exact hs)
  exact ⟨_, cont, hcont, by split <;> rfl, rfl, rfl, rfl, hp9⟩

theorem open_cb_completes (k : Consts) (a : cb_args) (c : Nat) (fl : List Nat) (s : State)
    (hp : PoolOK k s.continuation_pool s.first_free_cont fl)
    (hcN : c < MAX_CONCURRENT_OPS k) (hcfl : c ∉ fl)
    (hs : fs_queue_length_producer s.completion_queue ≠ k.FS_QUEUE_CAPACITY)
    (hfd : ∀ cont, s.continuation_pool[c]? = some cont →
      cb_fd_ready nfs_cb.open_cb cont s.fd_table) :
    callback_completes k nfs_cb.open_cb a c fl s := by
  unfold callback_completes run_cb
  dsimp only
  unfold open_cb
  apply wpt_bind; apply wpt_cont_read hcN (by rw [hp.len]; exact hcN); intro cont hcont
  obtain ⟨e, he, hst⟩ := hfd cont hcont
  dsimp only
  split
  · apply wpt_bind; apply wpt_fd_set_file (by exact he) hst
    apply wpt_bind; apply wpt_free (by exact hp) hcN hcfl; intro pool9 ff9 hp9
    apply wpt_reply (by exact hs)
    exact ⟨_, cont, hcont, rfl, rfl, rfl, rfl, hp9⟩
  · apply wpt_bind; apply wpt_fd_free (by exact he) hst
    apply wpt_bind; apply wpt_free (by exact hp) hcN hcfl; intro pool9 ff9 hp9
    apply wpt_reply (by exact hs)
    exact ⟨_, cont, hcont, rfl, rfl, rfl, rfl, hp9⟩

theorem close_cb_completes (k : Consts) (a : cb_args) (c : Nat) (fl : List Nat) (s : State)
    (hp : PoolOK k s.continuation_pool s.first_free_cont fl)
    (hcN : c < MAX_CONCURRENT_OPS k) (hcfl : c ∉ fl)
    (hs : fs_queue_length_producer s.completion_queue ≠ k.FS_QUEUE_CAPACITY)
    (hfd : ∀ cont, s.continuation_pool[c]? = some cont →
      cb_fd_ready nfs_cb.close_cb cont s.fd_table) :
    callback_completes k nfs_cb.close_cb a c fl s := by
  unfold callback_completes run_cb
  dsimp only
  unfold close_cb
  apply wpt_bind; apply wpt_cont_read hcN (by rw [hp.len]; exact hcN); intro cont hcont
  obtain ⟨e, he, hst⟩ := hfd cont hcont
  dsimp only
  split
  · apply wpt_bind; apply wpt_fd_free (by exact he) hst
    apply wpt_bind; apply wpt_free (by exact hp) hcN hcfl; intro pool9 ff9 hp9
    apply wpt_reply (by exact hs)
    exact ⟨_, cont, hcont, rfl, rfl, rfl, rfl, hp9⟩
  · apply wpt_bind; apply wpt_fd_set_file (by exact he) hst
    apply wpt_bind; apply wpt_free (by exact hp) hcN hcfl; intro pool9 ff9 hp9
    apply wpt_reply (by exact hs)
    exact ⟨_, cont, hcont, rfl, rfl, rfl, rfl, hp9⟩

theorem opendir_cb_completes (k : Consts) (a : cb_args) (c : Nat) (fl : List Nat) (s : State)
    (hp : PoolOK k s.continuation_pool s.first_free_cont fl)
    (hcN : c < MAX_CONCURRENT_OPS k) (hcfl : c ∉ fl)
    (hs : fs_queue_length_producer s.completion_queue ≠ k.FS_QUEUE_CAPACITY)
    (hfd : ∀ cont, s.continuation_pool[c]? = some cont →
      cb_fd_ready nfs_cb.opendir_cb cont s.fd_table) :
    callback_completes k nfs_cb.opendir_cb a c fl s := by
  unfold callback_completes run_cb
  dsimp only
  unfold opendir_cb
  apply wpt_bind; apply wpt_cont_read hcN (by rw [hp.len]; exact hcN); intro cont hcont
  obtain ⟨e, he, hst⟩ := hfd cont hcont
  dsimp only
  split
  · apply wpt_bind; apply wpt_fd_set_dir (by exact he) hst
    apply wpt_bind; apply wpt_free (by exact hp) hcN hcfl; intro pool9 ff9 hp9
    apply wpt_reply (by exact hs)
    exact ⟨_, cont, hcont, rfl, rfl, rfl, rfl, hp9⟩
  · apply wpt_bind; apply wpt_fd_free (by exact he) hst
    apply wpt_bind; apply wpt_free (by exact hp) hcN hcfl; intro pool9 ff9 hp9
    apply wpt_reply (by exact hs)
    exact ⟨_, cont, hcont, rfl, rfl, rfl, rfl, hp9⟩

theorem run_cb_completes (k : Consts) (cb : nfs_cb) (a : cb_args) (c : Nat) (fl : List Nat)
    (s : State) (hcb : cb ≠ nfs_cb.rmdir_cb)
    (hp : PoolOK k s.continuation_pool s.first_free_cont fl)
    (hcN : c < MAX_CONCURRENT_OPS k) (hcfl : c ∉ fl)
    (hs : fs_queue_length_producer s.completion_queue ≠ k.FS_QUEUE_CAPACITY)
    (hfd : ∀ cont, s.continuation_pool[c]? = some cont → cb_fd_ready cb cont s.fd_table) :
    callback_completes k cb a c fl s := by
  cases cb with
  | mount_cb => exact mount_cb_completes k a c fl s hp hcN hcfl hs hfd
  | stat64_cb => exact stat64_cb_completes k a c fl s hp hcN hcfl hs hfd
  | fsize_cb => exact fsize_cb_completes k a c fl s hp hcN hcfl hs hfd
  | open_cb => exact open_cb_completes k a c fl s hp hcN hcfl hs hfd
  | close_cb => exact close_cb_completes k a c fl s hp hcN hcfl hs hfd
  | read_cb => exact read_cb_completes k a c fl s hp hcN hcfl hs hfd
  | write_cb => exact write_cb_completes k a c fl s hp hcN hcfl hs hfd
  | rename_cb => exact rename_cb_completes k a c fl s hp hcN hcfl hs hfd
  | unlink_cb => exact unlink_cb_completes k a c fl s hp hcN hcfl hs hfd
  | fsync_cb => exact fsync_cb_completes k a c fl s hp hcN hcfl hs hfd
  | truncate_cb => exact truncate_cb_completes k a c fl s hp hcN hcfl hs hfd
  | mkdir_cb => exact mkdir_cb_completes k a c fl s hp hcN hcfl hs hfd
  | rmdir_cb => exact absurd rfl hcb
  | opendir_cb => exact opendir_cb_completes k a c fl s hp hcN hcfl hs hfd

/-! ## Completions published by a run -/

theorem length_producer_lt {α : Type} (q : fs_queue α) : fs_queue_length_producer q < U64 := by
  unfold fs_queue_length_producer u64_sub U64
  omega

theorem Pub_zero {s s' : State} (h1 : s'.command_queue = s.command_queue)
    (h2 : s'.notified = s.notified) (h3 : s'.completion_queue = s.completion_queue) :
    Pub 0 s s' := by
  refine ⟨h1, h2, ?_⟩
  rw [h3, Nat.add_zero, Nat.mod_eq_of_lt (length_producer_lt _)]

theorem Pub_trans {a b : Nat} {s t u : State} (h1 : Pub a s t) (h2 : Pub b t u) :
    Pub (a + b) s u := by
  refine ⟨h2.command_queue.trans h1.command_queue, ?_, ?_⟩
  · rw [h2.notified, h1.notified]; omega
  · rw [h2.length, h1.length]
    unfold U64
    omega

theorem Pub_reply (k : Consts) (cmpl : fs_cmpl_t) (s : State) : Pub 1 s (reply_state k cmpl s) := by
  refine ⟨rfl, rfl, ?_⟩
  unfold reply_state fs_queue_publish_production fs_queue_write fs_queue_length_producer
    u64_sub u64_add
  dsimp only
  unfold U64
  omega

theorem bind_eq_ok {α β : Type} {m : M α} {f : α → M β} {s u : State} {b : β}
    (h : (m >>= f) s = .ok (b, u)) : ∃ a t, m s = .ok (a, t) ∧ f a t = .ok (b, u) := by
  rw [bind_apply] at h
  cases hm : m s with
  | error e => rw [hm] at h; cases h
  | ok r =>
    obtain ⟨a, t⟩ := r
    rw [hm] at h
    exact ⟨a, t, rfl, h⟩

theorem runs_pub_bind {α β : Type} {a b : Nat} {m : M α} {f : α → M β}
    (hm : runs_pub a m) (hf : ∀ x, runs_pub b (f x)) : runs_pub (a + b) (m >>= f) := by
  constructor
  intro s y u h
  obtain ⟨x, t, h1, h2⟩ := bind_eq_ok h
  exact Pub_trans (hm.run s x t h1) ((hf x).run t y u h2)

theorem runs_pub_bind0 {α β : Type} {m : M α} {f : α → M β}
    (hm : runs_pub 0 m) (hf : ∀ x, runs_pub 0 (f x)) : runs_pub 0 (m >>= f) :=
  runs_pub_bind hm hf

theorem runs_pub_le_bind {α β : Type} {a b : Nat} {m : M α} {f : α → M β}
    (hm : runs_pub_le a m) (hf : ∀ x, runs_pub_le b (f x)) : runs_pub_le (a + b) (m >>= f) := by
  constructor
  intro s y u h
  obtain ⟨x, t, h1, h2⟩ := bind_eq_ok h
  obtain ⟨i, hi, hp1⟩ := hm.run s x t h1
  obtain ⟨j, hj, hp2⟩ := (hf x).run t y u h2
  exact ⟨i + j, by omega, Pub_trans hp1 hp2⟩

theorem runs_pub_le_of_pub {α : Type} {j n : Nat} {m : M α} (h : runs_pub j m) (hj : j ≤ n) :
    runs_pub_le n m :=
  ⟨fun s a s' hrun => ⟨j, hj, h.run s a s' hrun⟩⟩

theorem runs_pub_le_bind0 {α β : Type} {n : Nat} {m : M α} {f : α → M β}
    (hm : runs_pub 0 m) (hf : ∀ x, runs_pub_le n (f x)) : runs_pub_le n (m >>= f) := by
  have h := runs_pub_le_bind (runs_pub_le_of_pub hm (Nat.le_refl 0)) hf
  rwa [Nat.zero_add] at h

theorem runs_pub_pure {α : Type} (a : α) : runs_pub 0 (pure a : M α) :=
  ⟨fun s _ s' h => by
    obtain ⟨_, rfl⟩ := ok_inj h
    exact Pub_zero rfl rfl rfl⟩

theorem runs_pub_le_pure {α : Type} (n : Nat) (a : α) : runs_pub_le n (pure a : M α) :=
  runs_pub_le_of_pub (runs_pub_pure a) (Nat.zero_le n)

theorem runs_pub_reply (k : Consts) (cmpl : fs_cmpl_t) : runs_pub 1 (reply k cmpl) := by
  constructor
  intro s a s' h
  unfold reply at h
  split at h
  · obtain ⟨_, rfl⟩ := ok_inj h
    exact Pub_reply k cmpl s
  · cases h

theorem runs_pub_le_reply (k : Consts) (cmpl : fs_cmpl_t) : runs_pub_le 1 (reply k cmpl) :=
  runs_pub_le_of_pub (runs_pub_reply k cmpl) (Nat.le_refl 1)

theorem runs_pub_assert (b : Bool) : runs_pub 0 (c_assert b) := by
  constructor
  intro s a s' h
  unfold c_assert at h
  split at h
  · obtain ⟨_, rfl⟩ := ok_inj h
    exact Pub_zero rfl rfl rfl
  · cases h

theorem runs_pub_cont_read (k : Consts) (cont : Option Int) : runs_pub 0 (cont_read k cont) := by
  constructor
  intro s a s' h
  unfold cont_read at h
  repeat' split at h
  all_goals first
    | (obtain ⟨_, rfl⟩ := ok_inj h; exact Pub_zero rfl rfl rfl)
    | cases h

theorem runs_pub_cont_write (k : Consts) (cont : Option Int) (c : continuation) :
    runs_pub 0 (cont_write k cont c) := by
  constructor
  intro s a s' h
  unfold cont_write at h
  repeat' split at h
  all_goals first
    | (obtain ⟨_, rfl⟩ := ok_inj h; exact Pub_zero rfl rfl rfl)
    | cases h

theorem runs_pub_get_first_free_cont : runs_pub 0 get_first_free_cont :=
  ⟨fun s _ s' h => by
    obtain ⟨_, rfl⟩ := ok_inj h
    exact Pub_zero rfl rfl rfl⟩

theorem runs_pub_set_first_free_cont (p : Option Int) : runs_pub 0 (set_first_free_cont p) :=
  ⟨fun s _ s' h => by
    obtain ⟨_, rfl⟩ := ok_inj h
    exact Pub_zero rfl rfl rfl⟩

theorem runs_pub_alloc (k : Consts) : runs_pub 0 (continuation_alloc k) := by
  unfold continuation_alloc
  refine runs_pub_bind0 runs_pub_get_first_free_cont fun cont => ?_
  split
  · exact runs_pub_bind0 (runs_pub_cont_read k cont) fun c =>
      runs_pub_bind0 (runs_pub_set_first_free_cont _) fun _ =>
        runs_pub_bind0 (runs_pub_cont_write k cont _) fun _ => runs_pub_pure _
  · exact runs_pub_pure _

theorem runs_pub_free (k : Consts) (cont : Option Int) : runs_pub 0 (continuation_free k cont) := by
  unfold continuation_free
  exact runs_pub_bind0 (runs_pub_assert _) fun _ =>
    runs_pub_bind0 (runs_pub_assert _) fun _ =>
      runs_pub_bind0 (runs_pub_cont_read k cont) fun c =>
        runs_pub_bind0 (runs_pub_assert _) fun _ =>
          runs_pub_bind0 runs_pub_get_first_free_cont fun first =>
            runs_pub_bind0 (runs_pub_cont_write k cont _) fun _ =>
              runs_pub_set_first_free_cont cont

theorem runs_pub_set_request_id (k : Consts) (cont : Option Int) (v : Nat) :
    runs_pub 0 (cont_set_request_id k cont v) := by
  unfold cont_set_request_id
  exact runs_pub_bind0 (runs_pub_cont_read k cont) fun c => runs_pub_cont_write k cont _

theorem runs_pub_set_data (k : Consts) (cont : Option Int) (j v : Nat) :
    runs_pub 0 (cont_set_data k cont j v) := by
  unfold cont_set_data
  exact runs_pub_bind0 (runs_pub_cont_read k cont) fun c => runs_pub_cont_write k cont _

theorem runs_pub_get_buffer (buf : fs_buffer_t) : runs_pub 0 (get_buffer buf) := by
  constructor
  intro s a s' h
  unfold get_buffer at h
  split at h
  all_goals (obtain ⟨_, rfl⟩ := ok_inj h; exact Pub_zero rfl rfl rfl)

theorem runs_pub_path_buffer_fill (slot client_buf size : Nat) :
    runs_pub 0 (path_buffer_fill slot client_buf size) :=
  ⟨fun s _ s' h => by
    obtain ⟨_, rfl⟩ := ok_inj h
    exact Pub_zero rfl rfl rfl⟩

theorem runs_pub_copy_path (k : Consts) (slot : Int) (buf : fs_buffer_t) :
    runs_pub 0 (copy_path k slot buf) := by
  unfold copy_path
  refine runs_pub_bind0 (runs_pub_assert _) fun _ =>
    runs_pub_bind0 (runs_pub_get_buffer buf) fun client_buf => ?_
  split
  · exact runs_pub_pure _
  · exact runs_pub_bind0 (runs_pub_path_buffer_fill _ _ _) fun _ => runs_pub_pure _

theorem runs_pub_memcpy_to_mem (dst : Nat) (src : Nat → Nat) (n : Nat) :
    runs_pub 0 (memcpy_to_mem dst src n) :=
  ⟨fun s _ s' h => by
    obtain ⟨_, rfl⟩ := ok_inj h
    exact Pub_zero rfl rfl rfl⟩

theorem runs_pub_get_nfs : runs_pub 0 get_nfs :=
  ⟨fun s _ s' h => by
    obtain ⟨_, rfl⟩ := ok_inj h
    exact Pub_zero rfl rfl rfl⟩

theorem runs_pub_nfs_init_context (env : nfs_env) : runs_pub 0 (nfs_init_context env) :=
  ⟨fun s _ s' h => by
    obtain ⟨_, rfl⟩ := ok_inj h
    exact Pub_zero rfl rfl rfl⟩

theorem runs_pub_nfs_sync (call : nfs_call) : runs_pub 0 (nfs_sync call) :=
  ⟨fun s _ s' h => by
    obtain ⟨_, rfl⟩ := ok_inj h
    exact Pub_zero rfl rfl rfl⟩

theorem runs_pub_nfs_set_autoreconnect (n : Int) : runs_pub 0 (nfs_set_autoreconnect n) :=
  runs_pub_nfs_sync _

theorem runs_pub_nfs_closedir (dir : Nat) : runs_pub 0 (nfs_closedir dir) :=
  runs_pub_nfs_sync _

theorem runs_pub_nfs_seekdir (dir loc : Nat) : runs_pub 0 (nfs_seekdir dir loc) :=
  runs_pub_nfs_sync _

theorem runs_pub_nfs_rewinddir (dir : Nat) : runs_pub 0 (nfs_rewinddir dir) :=
  runs_pub_nfs_sync _

theorem runs_pub_nfs_readdir (env : nfs_env) (dir : Nat) : runs_pub 0 (nfs_readdir env dir) :=
  ⟨fun s _ s' h => by
    obtain ⟨_, rfl⟩ := ok_inj h
    exact Pub_zero rfl rfl rfl⟩

theorem runs_pub_nfs_telldir (env : nfs_env) (dir : Nat) : runs_pub 0 (nfs_telldir env dir) :=
  ⟨fun s _ s' h => by
    obtain ⟨_, rfl⟩ := ok_inj h
    exact Pub_zero rfl rfl rfl⟩

theorem runs_pub_nfs_async (env : nfs_env) (call : nfs_call) (cb : nfs_cb) (pd : Option Int) :
    runs_pub 0 (nfs_async env call cb pd) := by
  constructor
  intro s a s' h
  unfold nfs_async at h
  split at h
  all_goals (obtain ⟨_, rfl⟩ := ok_inj h; exact Pub_zero rfl rfl rfl)

theorem runs_pub_fd_alloc : runs_pub 0 fd_alloc := by
  constructor
  intro s a s' h
  unfold fd_alloc at h
  split at h
  all_goals (obtain ⟨_, rfl⟩ := ok_inj h; exact Pub_zero rfl rfl rfl)

theorem runs_pub_fd_set_file (fd hdl : Nat) : runs_pub 0 (fd_set_file fd hdl) := by
  constructor
  intro s a s' h
  unfold fd_set_file at h
  repeat' split at h
  all_goals first
    | (obtain ⟨_, rfl⟩ := ok_inj h; exact Pub_zero rfl rfl rfl)
    | cases h

theorem runs_pub_fd_set_dir (fd hdl : Nat) : runs_pub 0 (fd_set_dir fd hdl) := by
  constructor
  intro s a s' h
  unfold fd_set_dir at h
  repeat' split at h
  all_goals first
    | (obtain ⟨_, rfl⟩ := ok_inj h; exact Pub_zero rfl rfl rfl)
    | cases h

theorem runs_pub_fd_begin_op_file (fd : Nat) : runs_pub 0 (fd_begin_op_file fd) := by
  constructor
  intro s a s' h
  unfold fd_begin_op_file at h
  repeat' split at h
  all_goals (obtain ⟨_, rfl⟩ := ok_inj h; exact Pub_zero rfl rfl rfl)

theorem runs_pub_fd_begin_op_dir (fd : Nat) : runs_pub 0 (fd_begin_op_dir fd) := by
  constructor
  intro s a s' h
  unfold fd_begin_op_dir at h
  repeat' split at h
  all_goals (obtain ⟨_, rfl⟩ := ok_inj h; exact Pub_zero rfl rfl rfl)

theorem runs_pub_fd_end_op (fd : Nat) : runs_pub 0 (fd_end_op fd) := by
  constructor
  intro s a s' h
  unfold fd_end_op at h
  repeat' split at h
  all_goals first
    | (obtain ⟨_, rfl⟩ := ok_inj h; exact Pub_zero rfl rfl rfl)
    | cases h

theorem runs_pub_fd_unset (fd : Nat) : runs_pub 0 (fd_unset fd) := by
  constructor
  intro s a s' h
  unfold fd_unset at h
  repeat' split at h
  all_goals (obtain ⟨_, rfl⟩ := ok_inj h; exact Pub_zero rfl rfl rfl)

theorem runs_pub_fd_free (fd : Nat) : runs_pub 0 (fd_free fd) := by
  constructor
  intro s a s' h
  unfold fd_free at h
  repeat' split at h
  all_goals first
    | (obtain ⟨_, rfl⟩ := ok_inj h; exact Pub_zero rfl rfl rfl)
    | cases h

theorem handle_initialise_pub (k : Consts) (env : nfs_env) (cmd : fs_cmd_t) :
    runs_pub_le 1 (handle_initialise k env cmd) := by
  unfold handle_initialise
  repeat' first
    | exact runs_pub_le_reply _ _
    | exact runs_pub_le_pure _ _
    | exact runs_pub_assert _
    | exact runs_pub_alloc _
    | exact runs_pub_free _ _
    | exact runs_pub_set_request_id _ _ _
    | exact runs_pub_set_data _ _ _ _
    | exact runs_pub_get_buffer _
    | exact runs_pub_copy_path _ _ _
    | exact runs_pub_memcpy_to_mem _ _ _
    | exact runs_pub_get_nfs
    | exact runs_pub_nfs_init_context _
    | exact runs_pub_nfs_async _ _ _ _
    | exact runs_pub_nfs_set_autoreconnect _
    | exact runs_pub_nfs_closedir _
    | exact runs_pub_nfs_seekdir _ _
    | exact runs_pub_nfs_rewinddir _
    | exact runs_pub_nfs_readdir _ _
    | exact runs_pub_nfs_telldir _ _
    | exact runs_pub_fd_alloc
    | exact runs_pub_fd_set_file _ _
    | exact runs_pub_fd_begin_op_file _
    | exact runs_pub_fd_begin_op_dir _
    | exact runs_pub_fd_end_op _
    | exact runs_pub_fd_unset _
    | exact runs_pub_fd_free _
    | apply runs_pub_le_bind0
    | intro _
    | split

theorem handle_open_pub (k : Consts) (env : nfs_env) (cmd : fs_cmd_t) :
    runs_pub_le 1 (handle_open k env cmd) := by
  unfold handle_open
  repeat' first
    | exact runs_pub_le_reply _ _
    | exact runs_pub_le_pure _ _
    | exact runs_pub_assert _
    | exact runs_pub_alloc _
    | exact runs_pub_free _ _
    | exact runs_pub_set_request_id _ _ _
    | exact runs_pub_set_data _ _ _ _
    | exact runs_pub_get_buffer _
    | exact runs_pub_copy_path _ _ _
    | exact runs_pub_memcpy_to_mem _ _ _
    | exact runs_pub_get_nfs
    | exact runs_pub_nfs_init_context _
    | exact runs_pub_nfs_async _ _ _ _
    | exact runs_pub_nfs_set_autoreconnect _
    | exact runs_pub_nfs_closedir _
    | exact runs_pub_nfs_seekdir _ _
    | exact runs_pub_nfs_rewinddir _
    | exact runs_pub_nfs_readdir _ _
    | exact runs_pub_nfs_telldir _ _
    | exact runs_pub_fd_alloc
    | exact runs_pub_fd_set_file _ _
    | exact runs_pub_fd_begin_op_file _
    | exact runs_pub_fd_begin_op_dir _
    | exact runs_pub_fd_end_op _
    | exact runs_pub_fd_unset _
    | exact runs_pub_fd_free _
    | apply runs_pub_le_bind0
    | intro _
    | split

theorem handle_close_pub (k : Consts) (env : nfs_env) (cmd : fs_cmd_t) :
    runs_pub_le 1 (handle_close k env cmd) := by
  unfold handle_close
  repeat' first
    | exact runs_pub_le_reply _ _
    | exact runs_pub_le_pure _ _
    | exact runs_pub_assert _
    | exact runs_pub_alloc _
    | exact runs_pub_free _ _
    | exact runs_pub_set_request_id _ _ _
    | exact runs_pub_set_data _ _ _ _
    | exact runs_pub_get_buffer _
    | exact runs_pub_copy_path _ _ _
    | exact runs_pub_memcpy_to_mem _ _ _
    | exact runs_pub_get_nfs
    | exact runs_pub_nfs_init_context _
    | exact runs_pub_nfs_async _ _ _ _
    | exact runs_pub_nfs_set_autoreconnect _
    | exact runs_pub_nfs_closedir _
    | exact runs_pub_nfs_seekdir _ _
    | exact runs_pub_nfs_rewinddir _
    | exact runs_pub_nfs_readdir _ _
    | exact runs_pub_nfs_telldir _ _
    | exact runs_pub_fd_alloc
    | exact runs_pub_fd_set_file _ _
    | exact runs_pub_fd_begin_op_file _
    | exact runs_pub_fd_begin_op_dir _
    | exact runs_pub_fd_end_op _
    | exact runs_pub_fd_unset _
    | exact runs_pub_fd_free _
    | apply runs_pub_le_bind0
    | intro _
    | split

theorem handle_stat_pub (k : Consts) (env : nfs_env) (cmd : fs_cmd_t) :
    runs_pub_le 1 (handle_stat k env cmd) := by
  unfold handle_stat
  repeat' first
    | exact runs_pub_le_reply _ _
    | exact runs_pub_le_pure _ _
    | exact runs_pub_assert _
    | exact runs_pub_alloc _
    | exact runs_pub_free _ _
    | exact runs_pub_set_request_id _ _ _
    | exact runs_pub_set_data _ _ _ _
    | exact runs_pub_get_buffer _
    | exact runs_pub_copy_path _ _ _
    | exact runs_pub_memcpy_to_mem _ _ _
    | exact runs_pub_get_nfs
    | exact runs_pub_nfs_init_context _
    | exact runs_pub_nfs_async _ _ _ _
    | exact runs_pub_nfs_set_autoreconnect _
    | exact runs_pub_nfs_closedir _
    | exact runs_pub_nfs_seekdir _ _
    | exact runs_pub_nfs_rewinddir _
    | exact runs_pub_nfs_readdir _ _
    | exact runs_pub_nfs_telldir _ _
    | exact runs_pub_fd_alloc
    | exact runs_pub_fd_set_file _ _
    | exact runs_pub_fd_begin_op_file _
    | exact runs_pub_fd_begin_op_dir _
    | exact runs_pub_fd_end_op _
    | exact runs_pub_fd_unset _
    | exact runs_pub_fd_free _
    | apply runs_pub_le_bind0
    | intro _
    | split

theorem handle_read_pub (k : Consts) (env : nfs_env) (cmd : fs_cmd_t) :
    runs_pub_le 1 (handle_read k env cmd) := by
  unfold handle_read
  repeat' first
    | exact runs_pub_le_reply _ _
    | exact runs_pub_le_pure _ _
    | exact runs_pub_assert _
    | exact runs_pub_alloc _
    | exact runs_pub_free _ _
    | exact runs_pub_set_request_id _ _ _
    | exact runs_pub_set_data _ _ _ _
    | exact runs_pub_get_buffer _
    | exact runs_pub_copy_path _ _ _
    | exact runs_pub_memcpy_to_mem _ _ _
    | exact runs_pub_get_nfs
    | exact runs_pub_nfs_init_context _
    | exact runs_pub_nfs_async _ _ _ _
    | exact runs_pub_nfs_set_autoreconnect _
    | exact runs_pub_nfs_closedir _
    | exact runs_pub_nfs_seekdir _ _
    | exact runs_pub_nfs_rewinddir _
    | exact runs_pub_nfs_readdir _ _
    | exact runs_pub_nfs_telldir _ _
    | exact runs_pub_fd_alloc
    | exact runs_pub_fd_set_file _ _
    | exact runs_pub_fd_begin_op_file _
    | exact runs_pub_fd_begin_op_dir _
    | exact runs_pub_fd_end_op _
    | exact runs_pub_fd_unset _
    | exact runs_pub_fd_free _
    | apply runs_pub_le_bind0
    | intro _
    | split

theorem handle_write_pub (k : Consts) (env : nfs_env) (cmd : fs_cmd_t) :
    runs_pub_le 1 (handle_write k env cmd) := by
  unfold handle_write
  repeat' first
    | exact runs_pub_le_reply _ _
    | exact runs_pub_le_pure _ _
    | exact runs_pub_assert _
    | exact runs_pub_alloc _
    | exact runs_pub_free _ _
    | exact runs_pub_set_request_id _ _ _
    | exact runs_pub_set_data _ _ _ _
    | exact runs_pub_get_buffer _
    | exact runs_pub_copy_path _ _ _
    | exact runs_pub_memcpy_to_mem _ _ _
    | exact runs_pub_get_nfs
    | exact runs_pub_nfs_init_context _
    | exact runs_pub_nfs_async _ _ _ _
    | exact runs_pub_nfs_set_autoreconnect _
    | exact runs_pub_nfs_closedir _
    | exact runs_pub_nfs_seekdir _ _
    | exact runs_pub_nfs_rewinddir _
    | exact runs_pub_nfs_readdir _ _
    | exact runs_pub_nfs_telldir _ _
    | exact runs_pub_fd_alloc
    | exact runs_pub_fd_set_file _ _
    | exact runs_pub_fd_begin_op_file _
    | exact runs_pub_fd_begin_op_dir _
    | exact runs_pub_fd_end_op _
    | exact runs_pub_fd_unset _
    | exact runs_pub_fd_free _
    | apply runs_pub_le_bind0
    | intro _
    | split

theorem handle_fsize_pub (k : Consts) (env : nfs_env) (cmd : fs_cmd_t) :
    runs_pub_le 1 (handle_fsize k env cmd) := by
  unfold handle_fsize
  repeat' first
    | exact runs_pub_le_reply _ _
    | exact runs_pub_le_pure _ _
    | exact runs_pub_assert _
    | exact runs_pub_alloc _
    | exact runs_pub_free _ _
    | exact runs_pub_set_request_id _ _ _
    | exact runs_pub_set_data _ _ _ _
    | exact runs_pub_get_buffer _
    | exact runs_pub_copy_path _ _ _
    | exact runs_pub_memcpy_to_mem _ _ _
    | exact runs_pub_get_nfs
    | exact runs_pub_nfs_init_context _
    | exact runs_pub_nfs_async _ _ _ _
    | exact runs_pub_nfs_set_autoreconnect _
    | exact runs_pub_nfs_closedir _
    | exact runs_pub_nfs_seekdir _ _
    | exact runs_pub_nfs_rewinddir _
    | exact runs_pub_nfs_readdir _ _
    | exact runs_pub_nfs_telldir _ _
    | exact runs_pub_fd_alloc
    | exact runs_pub_fd_set_file _ _
    | exact runs_pub_fd_begin_op_file _
    | exact runs_pub_fd_begin_op_dir _
    | exact runs_pub_fd_end_op _
    | exact runs_pub_fd_unset _
    | exact runs_pub_fd_free _
    | apply runs_pub_le_bind0
    | intro _
    | split

theorem handle_rename_pub (k : Consts) (env : nfs_env) (cmd : fs_cmd_t) :
    runs_pub_le 1 (handle_rename k env cmd) := by
  unfold handle_rename
  repeat' first
    | exact runs_pub_le_reply _ _
    | exact runs_pub_le_pure _ _
    | exact runs_pub_assert _
    | exact runs_pub_alloc _
    | exact runs_pub_free _ _
    | exact runs_pub_set_request_id _ _ _
    | exact runs_pub_set_data _ _ _ _
    | exact runs_pub_get_buffer _
    | exact runs_pub_copy_path _ _ _
    | exact runs_pub_memcpy_to_mem _ _ _
    | exact runs_pub_get_nfs
    | exact runs_pub_nfs_init_context _
    | exact runs_pub_nfs_async _ _ _ _
    | exact runs_pub_nfs_set_autoreconnect _
    | exact runs_pub_nfs_closedir _
    | exact runs_pub_nfs_seekdir _ _
    | exact runs_pub_nfs_rewinddir _
    | exact runs_pub_nfs_readdir _ _
    | exact runs_pub_nfs_telldir _ _
    | exact runs_pub_fd_alloc
    | exact runs_pub_fd_set_file _ _
    | exact runs_pub_fd_begin_op_file _
    | exact runs_pub_fd_begin_op_dir _
    | exact runs_pub_fd_end_op _
    | exact runs_pub_fd_unset _
    | exact runs_pub_fd_free _
    | apply runs_pub_le_bind0
    | intro _
    | split

theorem handle_unlink_pub (k : Consts) (env : nfs_env) (cmd : fs_cmd_t) :
    runs_pub_le 1 (handle_unlink k env cmd) := by
  unfold handle_unlink
  repeat' first
    | exact runs_pub_le_reply _ _
    | exact runs_pub_le_pure _ _
    | exact runs_pub_assert _
    | exact runs_pub_alloc _
    | exact runs_pub_free _ _
    | exact runs_pub_set_request_id _ _ _
    | exact runs_pub_set_data _ _ _ _
    | exact runs_pub_get_buffer _
    | exact runs_pub_copy_path _ _ _
    | exact runs_pub_memcpy_to_mem _ _ _
    | exact runs_pub_get_nfs
    | exact runs_pub_nfs_init_context _
    | exact runs_pub_nfs_async _ _ _ _
    | exact runs_pub_nfs_set_autoreconnect _
    | exact runs_pub_nfs_closedir _
    | exact runs_pub_nfs_seekdir _ _
    | exact runs_pub_nfs_rewinddir _
    | exact runs_pub_nfs_readdir _ _
    | exact runs_pub_nfs_telldir _ _
    | exact runs_pub_fd_alloc
    | exact runs_pub_fd_set_file _ _
    | exact runs_pub_fd_begin_op_file _
    | exact runs_pub_fd_begin_op_dir _
    | exact runs_pub_fd_end_op _
    | exact runs_pub_fd_unset _
    | exact runs_pub_fd_free _
    | apply runs_pub_le_bind0
    | intro _
    | split

theorem handle_truncate_pub (k : Consts) (env : nfs_env) (cmd : fs_cmd_t) :
    runs_pub_le 1 (handle_truncate k env cmd) := by
  unfold handle_truncate
  repeat' first
    | exact runs_pub_le_reply _ _
    | exact runs_pub_le_pure _ _
    | exact runs_pub_assert _
    | exact runs_pub_alloc _
    | exact runs_pub_free _ _
    | exact runs_pub_set_request_id _ _ _
    | exact runs_pub_set_data _ _ _ _
    | exact runs_pub_get_buffer _
    | exact runs_pub_copy_path _ _ _
    | exact runs_pub_memcpy_to_mem _ _ _
    | exact runs_pub_get_nfs
    | exact runs_pub_nfs_init_context _
    | exact runs_pub_nfs_async _ _ _ _
    | exact runs_pub_nfs_set_autoreconnect _
    | exact runs_pub_nfs_closedir _
    | exact runs_pub_nfs_seekdir _ _
    | exact runs_pub_nfs_rewinddir _
    | exact runs_pub_nfs_readdir _ _
    | exact runs_pub_nfs_telldir _ _
    | exact runs_pub_fd_alloc
    | exact runs_pub_fd_set_file _ _
    | exact runs_pub_fd_begin_op_file _
    | exact runs_pub_fd_begin_op_dir _
    | exact runs_pub_fd_end_op _
    | exact runs_pub_fd_unset _
    | exact runs_pub_fd_free _
    | apply runs_pub_le_bind0
    | intro _
    | split

theorem handle_mkdir_pub (k : Consts) (env : nfs_env) (cmd : fs_cmd_t) :
    runs_pub_le 1 (handle_mkdir k env cmd) := by
  unfold handle_mkdir
  repeat' first
    | exact runs_pub_le_reply _ _
    | exact runs_pub_le_pure _ _
    | exact runs_pub_assert _
    | exact runs_pub_alloc _
    | exact runs_pub_free _ _
    | exact runs_pub_set_request_id _ _ _
    | exact runs_pub_set_data _ _ _ _
    | exact runs_pub_get_buffer _
    | exact runs_pub_copy_path _ _ _
    | exact runs_pub_memcpy_to_mem _ _ _
    | exact runs_pub_get_nfs
    | exact runs_pub_nfs_init_context _
    | exact runs_pub_nfs_async _ _ _ _
    | exact runs_pub_nfs_set_autoreconnect _
    | exact runs_pub_nfs_closedir _
    | exact runs_pub_nfs_seekdir _ _
    | exact runs_pub_nfs_rewinddir _
    | exact runs_pub_nfs_readdir _ _
    | exact runs_pub_nfs_telldir _ _
    | exact runs_pub_fd_alloc
    | exact runs_pub_fd_set_file _ _
    | exact runs_pub_fd_begin_op_file _
    | exact runs_pub_fd_begin_op_dir _
    | exact runs_pub_fd_end_op _
    | exact runs_pub_fd_unset _
    | exact runs_pub_fd_free _
    | apply runs_pub_le_bind0
    | intro _
    | split

theorem handle_rmdir_pub (k : Consts) (env : nfs_env) (cmd : fs_cmd_t) :
    runs_pub_le 1 (handle_rmdir k env cmd) := by
  unfold handle_rmdir
  repeat' first
    | exact runs_pub_le_reply _ _
    | exact runs_pub_le_pure _ _
    | exact runs_pub_assert _
    | exact runs_pub_alloc _
    | exact runs_pub_free _ _
    | exact runs_pub_set_request_id _ _ _
    | exact runs_pub_set_data _ _ _ _
    | exact runs_pub_get_buffer _
    | exact runs_pub_copy_path _ _ _
    | exact runs_pub_memcpy_to_mem _ _ _
    | exact runs_pub_get_nfs
    | exact runs_pub_nfs_init_context _
    | exact runs_pub_nfs_async _ _ _ _
    | exact runs_pub_nfs_set_autoreconnect _
    | exact runs_pub_nfs_closedir _
    | exact runs_pub_nfs_seekdir _ _
    | exact runs_pub_nfs_rewinddir _
    | exact runs_pub_nfs_readdir _ _
    | exact runs_pub_nfs_telldir _ _
    | exact runs_pub_fd_alloc
    | exact runs_pub_fd_set_file _ _
    | exact runs_pub_fd_begin_op_file _
    | exact runs_pub_fd_begin_op_dir _
    | exact runs_pub_fd_end_op _
    | exact runs_pub_fd_unset _
    | exact runs_pub_fd_free _
    | apply runs_pub_le_bind0
    | intro _
    | split

theorem handle_opendir_pub (k : Consts) (env : nfs_env) (cmd : fs_cmd_t) :
    runs_pub_le 1 (handle_opendir k env cmd) := by
  unfold handle_opendir
  repeat' first
    | exact runs_pub_le_reply _ _
    | exact runs_pub_le_pure _ _
    | exact runs_pub_assert _
    | exact runs_pub_alloc _
    | exact runs_pub_free _ _
    | exact runs_pub_set_request_id _ _ _
    | exact runs_pub_set_data _ _ _ _
    | exact runs_pub_get_buffer _
    | exact runs_pub_copy_path _ _ _
    | exact runs_pub_memcpy_to_mem _ _ _
    | exact runs_pub_get_nfs
    | exact runs_pub_nfs_init_context _
    | exact runs_pub_nfs_async _ _ _ _
    | exact runs_pub_nfs_set_autoreconnect _
    | exact runs_pub_nfs_closedir _
    | exact runs_pub_nfs_seekdir _ _
    | exact runs_pub_nfs_rewinddir _
    | exact runs_pub_nfs_readdir _ _
    | exact runs_pub_nfs_telldir _ _
    | exact runs_pub_fd_alloc
    | exact runs_pub_fd_set_file _ _
    | exact runs_pub_fd_begin_op_file _
    | exact runs_pub_fd_begin_op_dir _
    | exact runs_pub_fd_end_op _
    | exact runs_pub_fd_unset _
    | exact runs_pub_fd_free _
    | apply runs_pub_le_bind0
    | intro _
    | split

theorem handle_closedir_pub (k : Consts) (env : nfs_env) (cmd : fs_cmd_t) :
    runs_pub_le 1 (handle_closedir k env cmd) := by
  unfold handle_closedir
  repeat' first
    | exact runs_pub_le_reply _ _
    | exact runs_pub_le_pure _ _
    | exact runs_pub_assert _
    | exact runs_pub_alloc _
    | exact runs_pub_free _ _
    | exact runs_pub_set_request_id _ _ _
    | exact runs_pub_set_data _ _ _ _
    | exact runs_pub_get_buffer _
    | exact runs_pub_copy_path _ _ _
    | exact runs_pub_memcpy_to_mem _ _ _
    | exact runs_pub_get_nfs
    | exact runs_pub_nfs_init_context _
    | exact runs_pub_nfs_async _ _ _ _
    | exact runs_pub_nfs_set_autoreconnect _
    | exact runs_pub_nfs_closedir _
    | exact runs_pub_nfs_seekdir _ _
    | exact runs_pub_nfs_rewinddir _
    | exact runs_pub_nfs_readdir _ _
    | exact runs_pub_nfs_telldir _ _
    | exact runs_pub_fd_alloc
    | exact runs_pub_fd_set_file _ _
    | exact runs_pub_fd_begin_op_file _
    | exact runs_pub_fd_begin_op_dir _
    | exact runs_pub_fd_end_op _
    | exact runs_pub_fd_unset _
    | exact runs_pub_fd_free _
    | apply runs_pub_le_bind0
    | intro _
    | split

theorem handle_fsync_pub (k : Consts) (env : nfs_env) (cmd : fs_cmd_t) :
    runs_pub_le 1 (handle_fsync k env cmd) := by
  unfold handle_fsync
  repeat' first
    | exact runs_pub_le_reply _ _
    | exact runs_pub_le_pure _ _
    | exact runs_pub_assert _
    | exact runs_pub_alloc _
    | exact runs_pub_free _ _
    | exact runs_pub_set_request_id _ _ _
    | exact runs_pub_set_data _ _ _ _
    | exact runs_pub_get_buffer _
    | exact runs_pub_copy_path _ _ _
    | exact runs_pub_memcpy_to_mem _ _ _
    | exact runs_pub_get_nfs
    | exact runs_pub_nfs_init_context _
    | exact runs_pub_nfs_async _ _ _ _
    | exact runs_pub_nfs_set_autoreconnect _
    | exact runs_pub_nfs_closedir _
    | exact runs_pub_nfs_seekdir _ _
    | exact runs_pub_nfs_rewinddir _
    | exact runs_pub_nfs_readdir _ _
    | exact runs_pub_nfs_telldir _ _
    | exact runs_pub_fd_alloc
    | exact runs_pub_fd_set_file _ _
    | exact runs_pub_fd_begin_op_file _
    | exact runs_pub_fd_begin_op_dir _
    | exact runs_pub_fd_end_op _
    | exact runs_pub_fd_unset _
    | exact runs_pub_fd_free _
    | apply runs_pub_le_bind0
    | intro _
    | split

theorem handle_readdir_pub (k : Consts) (env : nfs_env) (cmd : fs_cmd_t) :
    runs_pub_le 1 (handle_readdir k env cmd) := by
  unfold handle_readdir
  repeat' first
    | exact runs_pub_le_reply _ _
    | exact runs_pub_le_pure _ _
    | exact runs_pub_assert _
    | exact runs_pub_alloc _
    | exact runs_pub_free _ _
    | exact runs_pub_set_request_id _ _ _
    | exact runs_pub_set_data _ _ _ _
    | exact runs_pub_get_buffer _
    | exact runs_pub_copy_path _ _ _
    | exact runs_pub_memcpy_to_mem _ _ _
    | exact runs_pub_get_nfs
    | exact runs_pub_nfs_init_context _
    | exact runs_pub_nfs_async _ _ _ _
    | exact runs_pub_nfs_set_autoreconnect _
    | exact runs_pub_nfs_closedir _
    | exact runs_pub_nfs_seekdir _ _
    | exact runs_pub_nfs_rewinddir _
    | exact runs_pub_nfs_readdir _ _
    | exact runs_pub_nfs_telldir _ _
    | exact runs_pub_fd_alloc
    | exact runs_pub_fd_set_file _ _
    | exact runs_pub_fd_begin_op_file _
    | exact runs_pub_fd_begin_op_dir _
    | exact runs_pub_fd_end_op _
    | exact runs_pub_fd_unset _
    | exact runs_pub_fd_free _
    | apply runs_pub_le_bind0
    | intro _
    | split

theorem handle_seekdir_pub (k : Consts) (env : nfs_env) (cmd : fs_cmd_t) :
    runs_pub_le 1 (handle_seekdir k env cmd) := by
  unfold handle_seekdir
  repeat' first
    | exact runs_pub_le_reply _ _
    | exact runs_pub_le_pure _ _
    | exact runs_pub_assert _
    | exact runs_pub_alloc _
    | exact runs_pub_free _ _
    | exact runs_pub_set_request_id _ _ _
    | exact runs_pub_set_data _ _ _ _
    | exact runs_pub_get_buffer _
    | exact runs_pub_copy_path _ _ _
    | exact runs_pub_memcpy_to_mem _ _ _
    | exact runs_pub_get_nfs
    | exact runs_pub_nfs_init_context _
    | exact runs_pub_nfs_async _ _ _ _
    | exact runs_pub_nfs_set_autoreconnect _
    | exact runs_pub_nfs_closedir _
    | exact runs_pub_nfs_seekdir _ _
    | exact runs_pub_nfs_rewinddir _
    | exact runs_pub_nfs_readdir _ _
    | exact runs_pub_nfs_telldir _ _
    | exact runs_pub_fd_alloc
    | exact runs_pub_fd_set_file _ _
    | exact runs_pub_fd_begin_op_file _
    | exact runs_pub_fd_begin_op_dir _
    | exact runs_pub_fd_end_op _
    | exact runs_pub_fd_unset _
    | exact runs_pub_fd_free _
    | apply runs_pub_le_bind0
    | intro _
    | split

theorem handle_telldir_pub (k : Consts) (env : nfs_env) (cmd : fs_cmd_t) :
    runs_pub_le 1 (handle_telldir k env cmd) := by
  unfold handle_telldir
  repeat' first
    | exact runs_pub_le_reply _ _
    | exact runs_pub_le_pure _ _
    | exact runs_pub_assert _
    | exact runs_pub_alloc _
    | exact runs_pub_free _ _
    | exact runs_pub_set_request_id _ _ _
    | exact runs_pub_set_data _ _ _ _
    | exact runs_pub_get_buffer _
    | exact runs_pub_copy_path _ _ _
    | exact runs_pub_memcpy_to_mem _ _ _
    | exact runs_pub_get_nfs
    | exact runs_pub_nfs_init_context _
    | exact runs_pub_nfs_async _ _ _ _
    | exact runs_pub_nfs_set_autoreconnect _
    | exact runs_pub_nfs_closedir _
    | exact runs_pub_nfs_seekdir _ _
    | exact runs_pub_nfs_rewinddir _
    | exact runs_pub_nfs_readdir _ _
    | exact runs_pub_nfs_telldir _ _
    | exact runs_pub_fd_alloc
    | exact runs_pub_fd_set_file _ _
    | exact runs_pub_fd_begin_op_file _
    | exact runs_pub_fd_begin_op_dir _
    | exact runs_pub_fd_end_op _
    | exact runs_pub_fd_unset _
    | exact runs_pub_fd_free _
    | apply runs_pub_le_bind0
    | intro _
    | split

theorem handle_rewinddir_pub (k : Consts) (env : nfs_env) (cmd : fs_cmd_t) :
    runs_pub_le 1 (handle_rewinddir k env cmd) := by
  unfold handle_rewinddir
  repeat' first
    | exact runs_pub_le_reply _ _
    | exact runs_pub_le_pure _ _
    | exact runs_pub_assert _
    | exact runs_pub_alloc _
    | exact runs_pub_free _ _
    | exact runs_pub_set_request_id _ _ _
    | exact runs_pub_set_data _ _ _ _
    | exact runs_pub_get_buffer _
    | exact runs_pub_copy_path _ _ _
    | exact runs_pub_memcpy_to_mem _ _ _
    | exact runs_pub_get_nfs
    | exact runs_pub_nfs_init_context _
    | exact runs_pub_nfs_async _ _ _ _
    | exact runs_pub_nfs_set_autoreconnect _
    | exact runs_pub_nfs_closedir _
    | exact runs_pub_nfs_seekdir _ _
    | exact runs_pub_nfs_rewinddir _
    | exact runs_pub_nfs_readdir _ _
    | exact runs_pub_nfs_telldir _ _
    | exact runs_pub_fd_alloc
    | exact runs_pub_fd_set_file _ _
    | exact runs_pub_fd_begin_op_file _
    | exact runs_pub_fd_begin_op_dir _
    | exact runs_pub_fd_end_op _
    | exact runs_pub_fd_unset _
    | exact runs_pub_fd_free _
    | apply runs_pub_le_bind0
    | intro _
    | split

theorem handle_deinitialise_pub (k : Consts) (env : nfs_env) (cmd : fs_cmd_t) :
    runs_pub_le 1 (handle_deinitialise k env cmd) :=
  runs_pub_le_pure 1 ()

theorem process_command_pub (k : Consts) (env : nfs_env) (cmd : fs_cmd_t) :
    runs_pub_le 1 (process_command k env cmd) := by
  unfold process_command
  split
  · exact runs_pub_le_reply _ _
  · rename_i hlt
    unfold FS_NUM_COMMANDS at hlt
    have hcases : cmd.type = 0 ∨ cmd.type = 1 ∨ cmd.type = 2 ∨ cmd.type = 3 ∨ cmd.type = 4 ∨
        cmd.type = 5 ∨ cmd.type = 6 ∨ cmd.type = 7 ∨ cmd.type = 8 ∨ cmd.type = 9 ∨
        cmd.type = 10 ∨ cmd.type = 11 ∨ cmd.type = 12 ∨ cmd.type = 13 ∨ cmd.type = 14 ∨
        cmd.type = 15 ∨ cmd.type = 16 ∨ cmd.type = 17 ∨ cmd.type = 18 ∨ cmd.type = 19 := by
      omega
    rcases hcases with h | h | h | h | h | h | h | h | h | h | h | h | h | h | h | h | h | h |
      h | h
    · rw [h, show cmd_handler 0 = some handle_initialise from rfl]
      exact handle_initialise_pub k env cmd
    · rw [h, show cmd_handler 1 = some handle_deinitialise from rfl]
      exact handle_deinitialise_pub k env cmd
    · rw [h, show cmd_handler 2 = some handle_open from rfl]
      exact handle_open_pub k env cmd
    · rw [h, show cmd_handler 3 = some handle_close from rfl]
      exact handle_close_pub k env cmd
    · rw [h, show cmd_handler 4 = some handle_stat from rfl]
      exact handle_stat_pub k env cmd
    · rw [h, show cmd_handler 5 = some handle_read from rfl]
      exact handle_read_pub k env cmd
    · rw [h, show cmd_handler 6 = some handle_write from rfl]
      exact handle_write_pub k env cmd
    · rw [h, show cmd_handler 7 = some handle_fsize from rfl]
      exact handle_fsize_pub k env cmd
    · rw [h, show cmd_handler 8 = some handle_rename from rfl]
      exact handle_rename_pub k env cmd
    · rw [h, show cmd_handler 9 = some handle_unlink from rfl]
      exact handle_unlink_pub k env cmd
    · rw [h, show cmd_handler 10 = some handle_truncate from rfl]
      exact handle_truncate_pub k env cmd
    · rw [h, show cmd_handler 11 = some handle_mkdir from rfl]
      exact handle_mkdir_pub k env cmd
    · rw [h, show cmd_handler 12 = some handle_rmdir from rfl]
      exact handle_rmdir_pub k env cmd
    · rw [h, show cmd_handler 13 = some handle_opendir from rfl]
      exact handle_opendir_pub k env cmd
    · rw [h, show cmd_handler 14 = some handle_closedir from rfl]
      exact handle_closedir_pub k env cmd
    · rw [h, show cmd_handler 15 = some handle_fsync from rfl]
      exact handle_fsync_pub k env cmd
    · rw [h, show cmd_handler 16 = some handle_readdir from rfl]
      exact handle_readdir_pub k env cmd
    · rw [h, show cmd_handler 17 = some handle_seekdir from rfl]
      exact handle_seekdir_pub k env cmd
    · rw [h, show cmd_handler 18 = some handle_telldir from rfl]
      exact handle_telldir_pub k env cmd
    · rw [h, show cmd_handler 19 = some handle_rewinddir from rfl]
      exact handle_rewinddir_pub k env cmd

theorem runs_pub_read_cmd (k : Consts) (i : Nat) : runs_pub 0 (read_cmd k i) :=
  ⟨fun s _ s' h => by
    obtain ⟨_, rfl⟩ := ok_inj h
    exact Pub_zero rfl rfl rfl⟩

theorem process_commands_loop_pub (k : Consts) (env : Nat → nfs_env) (n : Nat) :
    ∀ (fuel i : Nat), runs_pub_le fuel (process_commands_loop k env n fuel i)
  | 0, _ => runs_pub_le_pure 0 ()
  | fuel + 1, i => by
    unfold process_commands_loop
    split
    · refine runs_pub_le_bind0 (runs_pub_read_cmd k i) fun cmd => ?_
      have h := runs_pub_le_bind (process_command_pub k (env i) cmd)
        (fun _ => process_commands_loop_pub k env n fuel (i + 1))
      rwa [Nat.add_comm] at h
    · exact runs_pub_le_pure _ ()

/-- Whenever `process_commands` returns, the consumer cursor of the command
queue has advanced by `to_consume` and at most `to_consume` completions have
been published. -/
theorem process_commands_partial (k : Consts) (env : Nat → nfs_env) (s s' : State)
    (h : process_commands k env s = .ok ((), s')) :
    s'.command_queue = fs_queue_publish_consumption s.command_queue (to_consume k s) ∧
    ∃ p, p ≤ to_consume k s ∧ s'.notified = s.notified + p ∧
      fs_queue_length_producer s'.completion_queue =
        (fs_queue_length_producer s.completion_queue + p) % U64 := by
  unfold process_commands at h
  dsimp only at h
  obtain ⟨_, t, h1, h2⟩ := bind_eq_ok h
  obtain ⟨p, hp, hpub⟩ := (process_commands_loop_pub k env _ _ 0).run s _ t h1
  obtain ⟨_, rfl⟩ := ok_inj h2
  refine ⟨?_, p, hp, hpub.notified, hpub.length⟩
  show fs_queue_publish_consumption t.command_queue _ = _
  rw [hpub.command_queue]

/-! ## The dispatcher -/

theorem process_command_outcome (k : Consts) (env : nfs_env) (cmd : fs_cmd_t) (s : State)
    (c : Nat) (fl : List Nat)
    (hp : PoolOK k s.continuation_pool s.first_free_cont (c :: fl))
    (hs : fs_queue_length_producer s.completion_queue ≠ k.FS_QUEUE_CAPACITY)
    (henv : ∀ name, env.dirent = some name → name.length ≤ k.FS_MAX_NAME_LENGTH)
    (hty : cmd.type ≠ FS_CMD_DEINITIALISE) :
    wpt (process_command k env cmd) s (fun _ s' => Outcome k s (c :: fl) cmd.id s') := by
  unfold process_command
  split
  · apply wpt_reply (by exact hs)
    exact Outcome.immediate _ rfl rfl rfl rfl rfl hp
  · rename_i hlt
    unfold FS_NUM_COMMANDS at hlt
    unfold FS_CMD_DEINITIALISE at hty
    have hcases : cmd.type = 0 ∨ cmd.type = 2 ∨ cmd.type = 3 ∨ cmd.type = 4 ∨ cmd.type = 5 ∨
        cmd.type = 6 ∨ cmd.type = 7 ∨ cmd.type = 8 ∨ cmd.type = 9 ∨ cmd.type = 10 ∨
        cmd.type = 11 ∨ cmd.type = 12 ∨ cmd.type = 13 ∨ cmd.type = 14 ∨ cmd.type = 15 ∨
        cmd.type = 16 ∨ cmd.type = 17 ∨ cmd.type = 18 ∨ cmd.type = 19 := by omega
    rcases hcases with h | h | h | h | h | h | h | h | h | h | h | h | h | h | h | h | h | h | h
    · rw [h, show cmd_handler 0 = some handle_initialise from rfl]
      exact handle_initialise_outcome k env cmd s c fl hp hs
    · rw [h, show cmd_handler 2 = some handle_open from rfl]
      exact handle_open_outcome k env cmd s c fl hp hs
    · rw [h, show cmd_handler 3 = some handle_close from rfl]
      exact handle_close_outcome k env cmd s c fl hp hs
    · rw [h, show cmd_handler 4 = some handle_stat from rfl]
      exact handle_stat_outcome k env cmd s c fl hp hs
    · rw [h, show cmd_handler 5 = some handle_read from rfl]
      exact handle_read_outcome k env cmd s c fl hp hs
    · rw [h, show cmd_handler 6 = some handle_write from rfl]
      exact handle_write_outcome k env cmd s c fl hp hs
    · rw [h, show cmd_handler 7 = some handle_fsize from rfl]
      exact handle_fsize_outcome k env cmd s c fl hp hs
    · rw [h, show cmd_handler 8 = some handle_rename from rfl]
      exact handle_rename_outcome k env cmd s c fl hp hs
    · rw [h, show cmd_handler 9 = some handle_unlink from rfl]
      exact handle_unlink_outcome k env cmd s c fl hp hs
    · rw [h, show cmd_handler 10 = some handle_truncate from rfl]
      exact handle_truncate_outcome k env cmd s c fl hp hs
    · rw [h, show cmd_handler 11 = some handle_mkdir from rfl]
      exact handle_mkdir_outcome k env cmd s c fl hp hs
    · rw [h, show cmd_handler 12 = some handle_rmdir from rfl]
      exact handle_rmdir_outcome k env cmd s c fl hp hs
    · rw [h, show cmd_handler 13 = some handle_opendir from rfl]
      exact handle_opendir_outcome k env cmd s c fl hp hs
    · rw [h, show cmd_handler 14 = some handle_closedir from rfl]
      exact handle_closedir_outcome k env cmd s c fl hp hs
    · rw [h, show cmd_handler 15 = some handle_fsync from rfl]
      exact handle_fsync_outcome k env cmd s c fl hp hs
    · rw [h, show cmd_handler 16 = some handle_readdir from rfl]
      exact handle_readdir_outcome k env cmd s c fl hp hs henv
    · rw [h, show cmd_handler 17 = some handle_seekdir from rfl]
      exact handle_seekdir_outcome k env cmd s c fl hp hs
    · rw [h, show cmd_handler 18 = some handle_telldir from rfl]
      exact handle_telldir_outcome k env cmd s c fl hp hs
    · rw [h, show cmd_handler 19 = some handle_rewinddir from rfl]
      exact handle_rewinddir_outcome k env cmd s c fl hp hs

theorem process_command_deinitialise (k : Consts) (env : nfs_env) (cmd : fs_cmd_t) (s : State)
    (hty : cmd.type = FS_CMD_DEINITIALISE) : process_command k env cmd s = .ok ((), s) := by
  unfold process_command
  rw [hty, if_neg (by decide), show cmd_handler FS_CMD_DEINITIALISE = some handle_deinitialise from rfl]
  rfl

theorem length_producer_reply (k : Consts) (cmpl : fs_cmpl_t) (s : State)
    (h : fs_queue_length_producer s.completion_queue + 1 < U64) :
    fs_queue_length_producer (reply_state k cmpl s).completion_queue =
      fs_queue_length_producer s.completion_queue + 1 := by
  unfold reply_state fs_queue_publish_production fs_queue_write fs_queue_length_producer
    u64_sub u64_add at *
  dsimp only at *
  unfold U64 at *
  omega

theorem loop_step (k : Consts) (env : nfs_env) (cmd : fs_cmd_t) (s0 s : State)
    (fl0 : List Nat) (j n : Nat)
    (hinv : LoopInv k s0 fl0 j s) (hj : j < n) (hn : n ≤ fl0.length)
    (hq : fs_queue_length_producer s0.completion_queue + n ≤ k.FS_QUEUE_CAPACITY)
    (hQ : k.FS_QUEUE_CAPACITY < U64)
    (henv : ∀ name, env.dirent = some name → name.length ≤ k.FS_MAX_NAME_LENGTH) :
    wpt (process_command k env cmd) s (fun _ s' => LoopInv k s0 fl0 (j + 1) s') := by
  obtain ⟨hcq, p, fl, hp, hnot, hlen, hcount, hpj⟩ := hinv
  by_cases hty : cmd.type = FS_CMD_DEINITIALISE
  · refine ⟨(), s, process_command_deinitialise k env cmd s hty, hcq, p, fl, hp, hnot, hlen,
      by omega, by omega⟩
  · have hfl : fl ≠ [] := by
      intro e; subst e; simp at hcount; omega
    obtain ⟨c, fl', rfl⟩ := List.exists_cons_of_ne_nil hfl
    have hs : fs_queue_length_producer s.completion_queue ≠ k.FS_QUEUE_CAPACITY := by omega
    refine wpt_mono (process_command_outcome k env cmd s c fl' hp hs henv hty) ?_
    intro _ s' ho
    cases ho with
    | immediate cmpl _ hcq' hnot' _ hcmd hp' =>
      refine ⟨hcmd.trans hcq, p + 1, c :: fl', hp', by omega, ?_, by omega, by omega⟩
      rw [hcq', length_producer_reply k cmpl s (by omega)]
      omega
    | deferred c' fl'' pd hfl' _ hcq' hnot' _ hcmd hp' =>
      refine ⟨hcmd.trans hcq, p, fl'', hp', by omega, ?_, ?_, by omega⟩
      · rw [hcq']; exact hlen
      · have : (c :: fl').length = fl''.length + 1 := by rw [hfl']; rfl
        omega

theorem loop_total (k : Consts) (env : Nat → nfs_env) (s0 : State) (fl0 : List Nat) (n : Nat)
    (hn : n ≤ fl0.length)
    (hq : fs_queue_length_producer s0.completion_queue + n ≤ k.FS_QUEUE_CAPACITY)
    (hQ : k.FS_QUEUE_CAPACITY < U64)
    (henv : ∀ i name, (env i).dirent = some name → name.length ≤ k.FS_MAX_NAME_LENGTH) :
    ∀ (fuel i : Nat) (s : State), i + fuel = n → LoopInv k s0 fl0 i s →
      wpt (process_commands_loop k env n fuel i) s (fun _ s' => LoopInv k s0 fl0 n s')
  | 0, i, s, hi, hinv => by
    have : i = n := by omega
    subst this
    exact ⟨(), s, rfl, hinv⟩
  | fuel + 1, i, s, hi, hinv => by
    unfold process_commands_loop
    rw [if_pos (by omega)]
    apply wpt_bind
    refine ⟨_, s, rfl, ?_⟩
    apply wpt_bind
    refine wpt_mono (loop_step k (env i) _ s0 s fl0 i n hinv (by omega) hn hq hQ (henv i)) ?_
    intro _ s' hinv'
    exact loop_total k env s0 fl0 n hn hq hQ henv fuel (i + 1) s' (by omega) hinv'

theorem to_consume_eq (k : Consts) (s : State)
    (hq : fs_queue_length_producer s.completion_queue ≤ k.FS_QUEUE_CAPACITY)
    (hQ : k.FS_QUEUE_CAPACITY < U64) :
    to_consume k s =
      min (fs_queue_length_consumer s.command_queue)
        (k.FS_QUEUE_CAPACITY - fs_queue_length_producer s.completion_queue) := by
  unfold to_consume
  dsimp only
  rw [u64_sub_of_le hQ hq]

theorem process_commands_total (k : Consts) (env : Nat → nfs_env) (s : State) (fl : List Nat)
    (hp : PoolOK k s.continuation_pool s.first_free_cont fl)
    (hfree : to_consume k s ≤ fl.length)
    (hq : fs_queue_length_producer s.completion_queue ≤ k.FS_QUEUE_CAPACITY)
    (hQ : k.FS_QUEUE_CAPACITY < U64)
    (henv : ∀ i name, (env i).dirent = some name → name.length ≤ k.FS_MAX_NAME_LENGTH) :
    ∃ s', process_commands k env s = .ok ((), s') ∧
      s'.command_queue = fs_queue_publish_consumption s.command_queue (to_consume k s) ∧
      ∃ p, p ≤ to_consume k s ∧ s'.notified = s.notified + p ∧
        fs_queue_length_producer s'.completion_queue =
          fs_queue_length_producer s.completion_queue + p := by
  have hn : fs_queue_length_producer s.completion_queue + to_consume k s ≤
      k.FS_QUEUE_CAPACITY := by
    rw [to_consume_eq k s hq hQ]; omega
  have hinv : LoopInv k s fl 0 s := ⟨rfl, 0, fl, hp, rfl, rfl, by omega, by omega⟩
  obtain ⟨_, s1, hrun, hcq, p, fl1, _, hnot, hlen, _, hpn⟩ :=
    loop_total k env s fl (to_consume k s) hfree hn hQ henv (to_consume k s) 0 s (by omega) hinv
  refine ⟨{ s1 with command_queue :=
      fs_queue_publish_consumption s1.command_queue (to_consume k s) }, ?_, ?_, p, hpn, hnot, hlen⟩
  · unfold process_commands
    dsimp only
    rw [bind_ok hrun]
    rfl
  · rw [← hcq]

/-- C3. The number `to_consume` of commands that a run of `process_commands`
consumes is the minimum of `command_count`, the length of the command queue, and
`completion_space`, which is `FS_QUEUE_CAPACITY` minus the length of the
completion queue (a `uint64_t` subtraction), both read at entry. Whenever the
run returns, the consumer cursor of the command queue has advanced by
`to_consume`, nothing else of the command queue has changed, and the number `p`
of completions published during the run is at most `to_consume`. And the run
does return when the pool invariant holds with at least `to_consume` free
continuations, the completion queue holds at most `FS_QUEUE_CAPACITY` entries
and the names that `nfs_readdir` returns are at most `FS_MAX_NAME_LENGTH` bytes
long; `completion_space` is then the difference of the two numbers. -/
theorem process_commands_consumes_min (k : Consts) (env : Nat → nfs_env) (s : State) :
    to_consume k s =
      min (fs_queue_length_consumer s.command_queue)
        (u64_sub k.FS_QUEUE_CAPACITY (fs_queue_length_producer s.completion_queue)) ∧
    (∀ s', process_commands k env s = .ok ((), s') →
      s'.command_queue.head = u64_add s.command_queue.head (to_consume k s) ∧
      s'.command_queue.tail = s.command_queue.tail ∧
      s'.command_queue.buffer = s.command_queue.buffer ∧
      ∃ p, p ≤ to_consume k s ∧ s'.notified = s.notified + p ∧
        fs_queue_length_producer s'.completion_queue =
          (fs_queue_length_producer s.completion_queue + p) % U64) ∧
    (∀ fl : List Nat,
      PoolOK k s.continuation_pool s.first_free_cont fl →
      to_consume k s ≤ fl.length →
      fs_queue_length_producer s.completion_queue ≤ k.FS_QUEUE_CAPACITY →
      k.FS_QUEUE_CAPACITY < U64 →
      (∀ i name, (env i).dirent = some name → name.length ≤ k.FS_MAX_NAME_LENGTH) →
      to_consume k s =
        min (fs_queue_length_consumer s.command_queue)
          (k.FS_QUEUE_CAPACITY - fs_queue_length_producer s.completion_queue) ∧
      ∃ s', process_commands k env s = .ok ((), s') ∧
        ∃ p, p ≤ to_consume k s ∧ s'.notified = s.notified + p ∧
          fs_queue_length_producer s'.completion_queue =
            fs_queue_length_producer s.completion_queue + p) := by
  refine ⟨rfl, ?_, ?_⟩
  · intro s' hrun
    obtain ⟨hcq, hp⟩ := process_commands_partial k env s s' hrun
    refine ⟨?_, ?_, ?_, hp⟩ <;> rw [hcq] <;> rfl
  · intro fl hp hfree hq hQ henv
    obtain ⟨s', hrun, _, hpub⟩ := process_commands_total k env s fl hp hfree hq hQ henv
    exact ⟨to_consume_eq k s hq hQ, s', hrun, hpub⟩

/-- C4, as the specification states it, fails for `DEINITIALISE`: on the server
at startup the handling of a `DEINITIALISE` command returns the state it started
from, so it has neither published a completion nor left a pending submission. -/
theorem deinitialise_produces_no_completion :
    process_command consts_q1 {} { type := FS_CMD_DEINITIALISE, id := 7 } start_q1 =
      .ok ((), start_q1) ∧
    ¬ one_completion_or_one_pending consts_q1 {} { type := FS_CMD_DEINITIALISE, id := 7 }
      start_q1 := by
  have hrun : process_command consts_q1 {} { type := FS_CMD_DEINITIALISE, id := 7 } start_q1 =
      .ok ((), start_q1) := process_command_deinitialise _ _ _ _ rfl
  refine ⟨hrun, ?_⟩
  rintro ⟨s', hs', h⟩
  rw [hrun] at hs'
  have hs : s' = start_q1 := by
    injection hs' with h1
    injection h1 with _ h2
    exact h2.symm
  subst hs
  rcases h with ⟨⟨_, _, hn⟩, _⟩ | ⟨_, p, hp⟩
  · omega
  · have := congrArg List.length hp
    simp at this

/-! ## Initialisation of the pool -/

theorem init_loop_length (k : Consts) :
    ∀ (fuel i : Nat) (pool : List continuation),
      (continuation_pool_init_loop k fuel i pool).length = pool.length
  | 0, _, _ => rfl
  | fuel + 1, i, pool => by
    unfold continuation_pool_init_loop
    split
    · rw [init_loop_length k fuel (i + 1)]; simp
    · rfl

theorem init_loop_getElem? (k : Consts) :
    ∀ (fuel i : Nat) (pool : List continuation), MAX_CONCURRENT_OPS k ≤ i + fuel + 1 →
      ∀ j, (continuation_pool_init_loop k fuel i pool)[j]? =
        (pool[j]?).map (fun c =>
          if i ≤ j ∧ j + 1 < MAX_CONCURRENT_OPS k then
            { c with next_free := some ((j : Int) + 1) }
          else c)
  | 0, i, pool, hf, j => by
    unfold continuation_pool_init_loop
    have : ¬ (i ≤ j ∧ j + 1 < MAX_CONCURRENT_OPS k) := by omega
    simp only [this, if_false]
    cases pool[j]? <;> rfl
  | fuel + 1, i, pool, hf, j => by
    unfold continuation_pool_init_loop
    split
    · rw [init_loop_getElem? k fuel (i + 1) _ (by omega) j, List.getElem?_modify]
      cases hj : pool[j]? with
      | none => rfl
      | some c =>
        by_cases hij : i = j
        · subst hij
          have h1 : ¬ (i + 1 ≤ i ∧ i + 1 < MAX_CONCURRENT_OPS k) := by omega
          have h2 : i ≤ i ∧ i + 1 < MAX_CONCURRENT_OPS k := by omega
          simp [h1, h2]
        · by_cases hc : i ≤ j ∧ j + 1 < MAX_CONCURRENT_OPS k
          · have h1 : i + 1 ≤ j ∧ j + 1 < MAX_CONCURRENT_OPS k := by omega
            simp [hij, hc, h1]
          · have h1 : ¬ (i + 1 ≤ j ∧ j + 1 < MAX_CONCURRENT_OPS k) := by omega
            simp [hij, hc, h1]
    · have : ¬ (i ≤ j ∧ j + 1 < MAX_CONCURRENT_OPS k) := by omega
      simp only [this, if_false]
      cases pool[j]? <;> rfl

theorem init_pool_getElem? (k : Consts) (j : Nat) (hj : j < MAX_CONCURRENT_OPS k) :
    (continuation_pool_init_loop k (MAX_CONCURRENT_OPS k) 0
        (List.replicate (MAX_CONCURRENT_OPS k) {}))[j]? =
      some { next_free := if j + 1 < MAX_CONCURRENT_OPS k then some ((j : Int) + 1) else none } := by
  rw [init_loop_getElem? k _ 0 _ (by omega) j, List.getElem?_replicate, if_pos hj]
  by_cases h : j + 1 < MAX_CONCURRENT_OPS k
  · simp [h]
  · simp [h]

theorem init_pool_chain (k : Consts) :
    ∀ (m i : Nat), i + (m + 1) = MAX_CONCURRENT_OPS k →
      FreeChain (continuation_pool_init_loop k (MAX_CONCURRENT_OPS k) 0
        (List.replicate (MAX_CONCURRENT_OPS k) {})) (some (i : Int)) (List.range' i (m + 1))
  | 0, i, h => by
    refine ⟨rfl, _, init_pool_getElem? k i (by omega), ?_⟩
    have : ¬ (i + 1 < MAX_CONCURRENT_OPS k) := by omega
    simp only [this, if_false]
    rfl
  | m + 1, i, h => by
    refine ⟨rfl, _, init_pool_getElem? k i (by omega), ?_⟩
    have : i + 1 < MAX_CONCURRENT_OPS k := by omega
    simp only [this, if_true]
    exact_mod_cast init_pool_chain k m (i + 1) (by omega)

/-- After `continuation_pool_init` the free list is the whole pool in order. -/
theorem init_pool_ok (k : Consts) (hN : 0 < MAX_CONCURRENT_OPS k) (s : State)
    (hz : s.continuation_pool = List.replicate (MAX_CONCURRENT_OPS k) {}) :
    PoolOK k (continuation_pool_init k s).continuation_pool
      (continuation_pool_init k s).first_free_cont (List.range (MAX_CONCURRENT_OPS k)) := by
  unfold continuation_pool_init
  dsimp only
  rw [hz]
  refine ⟨?_, ?_, List.nodup_range _, fun i hi => List.mem_range.1 hi, ?_⟩
  · rw [init_loop_length]; simp
  · obtain ⟨m, hm⟩ : ∃ m, MAX_CONCURRENT_OPS k = m + 1 := ⟨MAX_CONCURRENT_OPS k - 1, by omega⟩
    rw [List.range_eq_range']
    have := init_pool_chain k m 0 (by omega)
    rw [hm] at this ⊢
    exact_mod_cast this
  · intro i c hi hc
    have hge : MAX_CONCURRENT_OPS k ≤ i := by
      by_contra h
      exact hi (List.mem_range.2 (by omega))
    have hlen := init_loop_length k (MAX_CONCURRENT_OPS k) 0
      (List.replicate (MAX_CONCURRENT_OPS k) ({} : continuation))
    rw [List.getElem?_eq_none (by rw [hlen]; simp; exact hge)] at hc
    cases hc

/-! ## Allocation in reachable pool states -/

theorem pool_reach_inv (k : Consts) (hN : 0 < MAX_CONCURRENT_OPS k) (s : State) (A : List Int)
    (h : PoolReach k s A) :
    ∃ fl, PoolOK k s.continuation_pool s.first_free_cont fl ∧ A.Nodup ∧
      (∀ p, p ∈ A → ∃ i : Nat, p = (i : Int) ∧ i < MAX_CONCURRENT_OPS k ∧ i ∉ fl) ∧
      A.length + fl.length = MAX_CONCURRENT_OPS k := by
  induction h with
  | init s0 hz =>
    exact ⟨_, init_pool_ok k hN s0 hz, List.nodup_nil, fun p hp => absurd hp (List.not_mem_nil p),
      by simp⟩
  | alloc s s' A p _ hrun ih =>
    obtain ⟨fl, hp, hnd, hmem, hlen⟩ := ih
    cases fl with
    | nil =>
      obtain ⟨_, _, h1, hr⟩ := wpt_alloc_none (k := k) (Q := fun r _ => r = none) hp.chain rfl
      subst hr
      rw [h1] at hrun
      cases (ok_inj hrun).1
    | cons c fl' =>
      obtain ⟨_, _, h1, hq⟩ := wpt_alloc
        (Q := fun r t => r = some (c : Int) ∧
          PoolOK k t.continuation_pool t.first_free_cont fl') hp
        (fun pool ff hok => ⟨rfl, hok⟩)
      rw [h1] at hrun
      obtain ⟨hr, hs⟩ := ok_inj hrun
      subst hs
      have hpc : p = (c : Int) := by
        rw [hq.1] at hr; exact (Option.some.inj hr).symm
      subst hpc
      have hcnd := List.nodup_cons.1 hp.nodup
      refine ⟨fl', hq.2, List.nodup_cons.2 ⟨?_, hnd⟩, ?_, ?_⟩
      · intro hin
        obtain ⟨i, hi, _, hnot⟩ := hmem _ hin
        have : c = i := by exact_mod_cast hi
        subst this
        exact hnot (List.mem_cons_self _ _)
      · intro q hq'
        rcases List.mem_cons.1 hq' with rfl | hq'
        · exact ⟨c, rfl, hp.bound c (List.mem_cons_self _ _), hcnd.1⟩
        · obtain ⟨i, hi, hiN, hnot⟩ := hmem q hq'
          exact ⟨i, hi, hiN, fun hm => hnot (List.mem_cons_of_mem _ hm)⟩
      · simp only [List.length_cons] at hlen ⊢
        omega
  | free s s' A p _ hpA hrun ih =>
    obtain ⟨fl, hp, hnd, hmem, hlen⟩ := ih
    obtain ⟨i, rfl, hiN, hnot⟩ := hmem p hpA
    obtain ⟨_, _, h1, hq⟩ := wpt_free
      (Q := fun _ t => PoolOK k t.continuation_pool t.first_free_cont (i :: fl)) hp hiN hnot
      (fun pool ff hok => hok)
    rw [h1] at hrun
    obtain ⟨_, hs⟩ := ok_inj hrun
    subst hs
    refine ⟨i :: fl, hq, hnd.erase _, ?_, ?_⟩
    · intro q hq'
      obtain ⟨hne, hqA⟩ := (List.Nodup.mem_erase_iff hnd).1 hq'
      obtain ⟨j, hj, hjN, hjnot⟩ := hmem q hqA
      refine ⟨j, hj, hjN, ?_⟩
      intro hm
      rcases List.mem_cons.1 hm with rfl | hm
      · exact hne hj
      · exact hjnot hm
    · have h2 := List.length_erase_of_mem hpA
      have h3 : 0 < A.length := List.length_pos_of_mem hpA
      simp only [List.length_cons]
      omega
  | set_request_id s s' A p v _ hpA hrun ih =>
    obtain ⟨fl, hp, hnd, hmem, hlen⟩ := ih
    obtain ⟨i, rfl, hiN, hnot⟩ := hmem p hpA
    obtain ⟨_, _, h1, hq⟩ := wpt_set_request_id (v := v)
      (Q := fun _ t => PoolOK k t.continuation_pool t.first_free_cont fl) hp hiN
      (fun pool hok => hok)
    rw [h1] at hrun
    obtain ⟨_, hs⟩ := ok_inj hrun
    subst hs
    exact ⟨fl, hq, hnd, hmem, hlen⟩
  | set_data s s' A p j v _ hpA hrun ih =>
    obtain ⟨fl, hp, hnd, hmem, hlen⟩ := ih
    obtain ⟨i, rfl, hiN, hnot⟩ := hmem p hpA
    obtain ⟨_, _, h1, hq⟩ := wpt_set_data (j := j) (v := v)
      (Q := fun _ t => PoolOK k t.continuation_pool t.first_free_cont fl) hp hiN
      (fun pool hok => hok)
    rw [h1] at hrun
    obtain ⟨_, hs⟩ := ok_inj hrun
    subst hs
    exact ⟨fl, hq, hnd, hmem, hlen⟩

/-- A duplicate-free list of `n` pointers into a pool of `n` entries holds every
entry. -/
theorem all_allocated_of_length (n : Nat) (A : List Int) (hnd : A.Nodup)
    (hmem : ∀ p, p ∈ A → ∃ i : Nat, p = (i : Int) ∧ i < n) (hlen : A.length = n) :
    ∀ i : Nat, i < n → (i : Int) ∈ A := by
  have hsub : A ⊆ (List.range n).map (fun i : Nat => (i : Int)) := by
    intro p hp
    obtain ⟨i, rfl, hi⟩ := hmem p hp
    exact List.mem_map.2 ⟨i, List.mem_range.2 hi, rfl⟩
  have hperm := (List.subperm_of_subset hnd hsub).perm_of_length_le (by simp [hlen])
  intro i hi
  exact hperm.mem_iff.2 (List.mem_map.2 ⟨i, List.mem_range.2 hi, rfl⟩)

theorem alloc_many_free_list (k : Consts) :
    ∀ (fl : List Nat) (s : State), PoolOK k s.continuation_pool s.first_free_cont fl →
      ∃ s', alloc_many k fl.length s = .ok (List.map (fun i : Nat => some (i : Int)) fl, s') ∧
        PoolOK k s'.continuation_pool s'.first_free_cont []
  | [], s, hp => ⟨s, rfl, hp⟩
  | c :: fl, s, hp => by
    obtain ⟨_, s1, h1, hr, hq⟩ := wpt_alloc
      (Q := fun r t => r = some (c : Int) ∧
        PoolOK k t.continuation_pool t.first_free_cont fl) hp
      (fun pool ff hok => ⟨rfl, hok⟩)
    subst hr
    obtain ⟨s2, h2, hp2⟩ := alloc_many_free_list k fl s1 hq
    refine ⟨s2, ?_, hp2⟩
    simp only [List.length_cons, List.map_cons]
    unfold alloc_many
    rw [bind_ok h1, bind_ok h2]
    rfl

/-- C9. In every pool state reached from `continuation_pool_init` by
`continuation_alloc` and by `continuation_free` of allocated continuations (the
pool having at least one entry), `continuation_alloc` returns; it returns null
iff all `MAX_CONCURRENT_OPS` entries are allocated, and then changes nothing;
otherwise it returns a pool entry that is distinct from every allocated one, and
the `next_free` of that entry is null afterwards. In particular
`MAX_CONCURRENT_OPS` successive allocations after initialisation return pairwise
distinct entries, none null, and the next allocation returns null. -/
theorem continuation_alloc_distinct_or_none (k : Consts) (hN : 0 < MAX_CONCURRENT_OPS k) :
    (∀ (s : State) (A : List Int), PoolReach k s A →
      ∃ r s', continuation_alloc k s = .ok (r, s') ∧
        (r = none ↔ ∀ i : Nat, i < MAX_CONCURRENT_OPS k → (i : Int) ∈ A) ∧
        (r = none ↔ A.length = MAX_CONCURRENT_OPS k) ∧
        (r = none → s' = s) ∧
        (∀ p, r = some p →
          p ∉ A ∧ 0 ≤ p ∧ p < (MAX_CONCURRENT_OPS k : Int) ∧
          ∃ c, s'.continuation_pool[p.toNat]? = some c ∧ c.next_free = none)) ∧
    (∀ s0 : State, s0.continuation_pool = List.replicate (MAX_CONCURRENT_OPS k) {} →
      ∃ ps s', alloc_many k (MAX_CONCURRENT_OPS k) (continuation_pool_init k s0) = .ok (ps, s') ∧
        ps.length = MAX_CONCURRENT_OPS k ∧ ps.Nodup ∧ (∀ r, r ∈ ps → r ≠ none) ∧
        continuation_alloc k s' = .ok (none, s')) := by
  constructor
  · intro s A hreach
    obtain ⟨fl, hp, hnd, hmem, hlen⟩ := pool_reach_inv k hN s A hreach
    cases fl with
    | nil =>
      have hfull : A.length = MAX_CONCURRENT_OPS k := by simpa using hlen
      refine ⟨none, s, ?_, ?_, ?_, fun _ => rfl, fun p hp' => by cases hp'⟩
      · unfold continuation_alloc
        rw [bind_ok (show get_first_free_cont s = .ok (none, s) by
          simp [get_first_free_cont, show s.first_free_cont = none from hp.chain])]
        rfl
      · refine ⟨fun _ => all_allocated_of_length _ A hnd (fun p hp' => ?_) hfull, fun _ => rfl⟩
        obtain ⟨i, hi, hiN, _⟩ := hmem p hp'
        exact ⟨i, hi, hiN⟩
      · exact ⟨fun _ => hfull, fun _ => rfl⟩
    | cons c fl' =>
      have hcN : c < MAX_CONCURRENT_OPS k := hp.bound c (List.mem_cons_self _ _)
      have hcfl : c ∉ fl' := (List.nodup_cons.1 hp.nodup).1
      have hcA : (c : Int) ∉ A := by
        intro hin
        obtain ⟨i, hi, _, hnot⟩ := hmem _ hin
        have : c = i := by exact_mod_cast hi
        subst this
        exact hnot (List.mem_cons_self _ _)
      obtain ⟨_, s1, h1, hr, hq⟩ := wpt_alloc
        (Q := fun r t => r = some (c : Int) ∧
          PoolOK k t.continuation_pool t.first_free_cont fl') hp
        (fun pool ff hok => ⟨rfl, hok⟩)
      subst hr
      refine ⟨some (c : Int), s1, h1, ?_, ?_, fun h => (by cases h), ?_⟩
      · exact ⟨fun h => (by cases h), fun h => absurd (h c hcN) hcA⟩
      · refine ⟨fun h => (by cases h), fun h => ?_⟩
        simp only [List.length_cons] at hlen
        omega
      · intro p hp'
        have : p = (c : Int) := (Option.some.inj hp').symm
        subst this
        refine ⟨hcA, by omega, by exact_mod_cast hcN, ?_⟩
        have hl : c < s1.continuation_pool.length := by rw [hq.len]; exact hcN
        refine ⟨s1.continuation_pool[c], ?_, ?_⟩
        · rw [Int.toNat_ofNat]; exact List.getElem?_eq_getElem hl
        · exact hq.alloc_null c _ hcfl (List.getElem?_eq_getElem hl)
  · intro s0 hz
    have hp := init_pool_ok k hN s0 hz
    obtain ⟨s', hrun, hp'⟩ := alloc_many_free_list k _ _ hp
    rw [List.length_range] at hrun
    refine ⟨_, s', hrun, by simp, ?_, ?_, ?_⟩
    · refine (List.nodup_range _).map ?_
      intro a b hab
      exact_mod_cast Option.some.inj hab
    · intro r hr
      obtain ⟨i, _, rfl⟩ := List.mem_map.1 hr
      simp
    · unfold continuation_alloc
      rw [bind_ok (show get_first_free_cont s' = .ok (none, s') by
        simp [get_first_free_cont, show s'.first_free_cont = none from hp'.chain])]
      rfl

/-! ## What `continuation_free` rejects -/

/-- A pointer outside the pool fails one of the first two assertions of
`continuation_free`. -/
theorem continuation_free_out_of_range (k : Consts) (cont : Option Int) (s : State)
    (h : cont = none ∨ ∃ i : Int, cont = some i ∧ (i < 0 ∨ (MAX_CONCURRENT_OPS k : Int) ≤ i)) :
    continuation_free k cont s = .error Fault.assertion := by
  unfold continuation_free
  rcases h with rfl | ⟨i, rfl, hi | hi⟩
  · exact bind_error rfl
  · refine bind_error ?_
    simp [c_assert, cont_ge_pool, hi]
  · by_cases h0 : 0 ≤ i
    · have h1 : c_assert (cont_ge_pool (some i)) s = .ok ((), s) := by
        simp [c_assert, cont_ge_pool, h0]
      rw [bind_ok h1]
      refine bind_error ?_
      simp [c_assert, cont_lt_pool_end, hi]
    · refine bind_error ?_
      simp [c_assert, cont_ge_pool, h0]

theorem FreeChain_next_ne_none {pool : List continuation} {i : Nat} :
    ∀ {fl : List Nat} {p : Option Int}, FreeChain pool p fl → fl.Nodup → i ∈ fl →
      fl.getLast? ≠ some i → ∃ c, pool[i]? = some c ∧ c.next_free ≠ none
  | [], _, _, _, hi, _ => absurd hi (List.not_mem_nil i)
  | [j], _, _, _, hi, hl => by
    have : i = j := by simpa using hi
    subst this
    exact absurd rfl hl
  | j :: j' :: rest, p, h, hnd, hi, hl => by
    obtain ⟨_, c, hc, hrest⟩ := h
    rcases List.mem_cons.1 hi with rfl | hi'
    · refine ⟨c, hc, ?_⟩
      rw [hrest.1]
      exact Option.some_ne_none _
    · refine FreeChain_next_ne_none hrest (List.nodup_cons.1 hnd).2 hi' ?_
      simpa [List.getLast?_cons_cons] using hl

/-- A free continuation that is not the last entry of the free list fails the
third assertion of `continuation_free`: its `next_free` is not null. -/
theorem continuation_free_of_free_entry (k : Consts) (s : State) (fl : List Nat) (i : Nat)
    (hp : PoolOK k s.continuation_pool s.first_free_cont fl) (hi : i ∈ fl)
    (hl : fl.getLast? ≠ some i) :
    continuation_free k (some (i : Int)) s = .error Fault.assertion := by
  obtain ⟨c, hc, hne⟩ := FreeChain_next_ne_none hp.chain hp.nodup hi hl
  have hiN := hp.bound i hi
  unfold continuation_free
  have h1 : c_assert (cont_ge_pool (some (i : Int))) s = .ok ((), s) := by
    simp [c_assert, cont_ge_pool]
  have h2 : c_assert (cont_lt_pool_end k (some (i : Int))) s = .ok ((), s) := by
    simp [c_assert, cont_lt_pool_end, hiN]
  rw [bind_ok h1, bind_ok h2, bind_ok (cont_read_ok hiN hc)]
  refine bind_error ?_
  cases hn : c.next_free with
  | none => exact absurd hn hne
  | some j => rfl

/-- The last entry of the free list passes all assertions of
`continuation_free` although it is free: its `next_free` is null. -/
theorem continuation_free_of_free_list_tail (k : Consts) (s : State) (fl : List Nat) (i : Nat)
    (hp : PoolOK k s.continuation_pool s.first_free_cont (fl ++ [i])) :
    ∃ c, s.continuation_pool[i]? = some c ∧
      continuation_free k (some (i : Int)) s =
        .ok ((), { s with
          continuation_pool := s.continuation_pool.set i { c with next_free := s.first_free_cont }
          first_free_cont := some (i : Int) }) := by
  have hiN := hp.bound i (by simp)
  have hl : i < s.continuation_pool.length := by rw [hp.len]; exact hiN
  have hnull : ∀ {fl' : List Nat} {p : Option Int}, FreeChain s.continuation_pool p (fl' ++ [i]) →
      ∃ c, s.continuation_pool[i]? = some c ∧ c.next_free = none := by
    intro fl'
    induction fl' with
    | nil =>
      intro p h
      obtain ⟨_, c, hc, hrest⟩ := h
      exact ⟨c, hc, hrest⟩
    | cons j rest ih =>
      intro p h
      obtain ⟨_, c, _, hrest⟩ := h
      exact ih hrest
  obtain ⟨c, hc, hn⟩ := hnull hp.chain
  refine ⟨c, hc, ?_⟩
  unfold continuation_free
  have h1 : c_assert (cont_ge_pool (some (i : Int))) s = .ok ((), s) := by
    simp [c_assert, cont_ge_pool]
  have h2 : c_assert (cont_lt_pool_end k (some (i : Int))) s = .ok ((), s) := by
    simp [c_assert, cont_lt_pool_end, hiN]
  have h3 : c_assert (c.next_free == none) s = .ok ((), s) := by
    simp [c_assert, hn]
  have h4 : get_first_free_cont s = .ok (s.first_free_cont, s) := rfl
  rw [bind_ok h1, bind_ok h2, bind_ok (cont_read_ok hiN hc), bind_ok h3, bind_ok h4,
    bind_ok (cont_write_ok hiN hl)]
  rfl

/-! ## The callback of `DIR_REMOVE` -/

/-- Whatever user pointer it is given, `rmdir_cb` takes the head `c` of the free
list, publishes the request identifier stored in that entry and puts the entry
back: the free list is as before, so the continuation of the submission is not
freed. -/
theorem rmdir_cb_uses_free_list_head (k : Consts) (a : cb_args) (private_data : Option Int)
    (s : State) (c : Nat) (fl : List Nat)
    (hp : PoolOK k s.continuation_pool s.first_free_cont (c :: fl))
    (hs : fs_queue_length_producer s.completion_queue ≠ k.FS_QUEUE_CAPACITY) :
    wpt (rmdir_cb k a private_data) s (fun _ s' =>
      ∃ (cmpl : fs_cmpl_t) (cont : continuation),
        s.continuation_pool[c]? = some cont ∧ cmpl.id = cont.request_id ∧
        s'.completion_queue = (reply_state k cmpl s).completion_queue ∧
        s'.notified = s.notified + 1 ∧
        s'.pending = s.pending ∧
        PoolOK k s'.continuation_pool s'.first_free_cont (c :: fl)) := by
  obtain ⟨cont, hfirst, hc, hcN, hcfl, hok⟩ := PoolOK_alloc hp
  have hl : c < s.continuation_pool.length := lt_length_of_getElem? hc
  unfold rmdir_cb
  apply wpt_bind
  have halloc : continuation_alloc k s = .ok (some (c : Int),
      { s with
        first_free_cont := cont.next_free
        continuation_pool := s.continuation_pool.set c { cont with next_free := none } }) := by
    unfold continuation_alloc
    have h1 : get_first_free_cont s = .ok (some (c : Int), s) := by
      simp [get_first_free_cont, hfirst]
    rw [bind_ok h1]
    simp only [ne_eq, reduceCtorEq, not_false_eq_true, if_true]
    rw [bind_ok (cont_read_ok hcN hc)]
    have h2 : set_first_free_cont cont.next_free s =
        .ok ((), { s with first_free_cont := cont.next_free }) := rfl
    rw [bind_ok h2]
    have h3 := @cont_write_ok k { s with first_free_cont := cont.next_free } c
      { cont with next_free := none } hcN hl
    rw [bind_ok h3]
    rfl
  refine ⟨_, _, halloc, ?_⟩
  apply wpt_bind
  apply wpt_cont_read hcN (by simpa using hl)
  intro cont1 hcont1
  have hcont1' : cont1 = { cont with next_free := none } := by
    have : (s.continuation_pool.set c { cont with next_free := none })[c]? = some cont1 := hcont1
    rw [List.getElem?_set_self hl] at this
    exact (Option.some.inj this).symm
  subst hcont1'
  dsimp only
  apply wpt_bind; apply wpt_free (by exact hok) hcN hcfl; intro pool9 ff9 hp9
  apply wpt_reply (by exact hs)
  exact ⟨_, cont, hc, by split <;> rfl, rfl, rfl, rfl, hp9⟩

/-- With an empty free list `rmdir_cb` dereferences the null pointer that
`continuation_alloc` returns. -/
theorem rmdir_cb_null_dereference (k : Consts) (a : cb_args) (private_data : Option Int)
    (s : State) (h : s.first_free_cont = none) :
    rmdir_cb k a private_data s = .error Fault.invalid_access := by
  unfold rmdir_cb
  have h1 : continuation_alloc k s = .ok (none, s) := by
    unfold continuation_alloc
    rw [bind_ok (show get_first_free_cont s = .ok (none, s) by simp [get_first_free_cont, h])]
    rfl
  rw [bind_ok h1]
  exact bind_error rfl

/-! ## Concrete runs -/

theorem run_cons_ok {k : Consts} {s s' : State} {e : Event} {es : List Event}
    (h2 : step k s e = .ok s') (h1 : enabled k s e = true) : run k s (e :: es) = run k s' es := by
  simp [run, h1, h2]

theorem run_cons_fault {k : Consts} {s : State} {e : Event} {es : List Event} {f : Fault}
    (h2 : step k s e = .error f) (h1 : enabled k s e = true) :
    run k s (e :: es) = some (.error f) := by
  simp [run, h1, h2]

theorem step_a1 : step consts_q1 start_q1 (Event.client_enqueue (cmd_unlink 1)) = .ok run_a1 := rfl

theorem step_a2 : step consts_q1 run_a1 (Event.process env_accept) = .ok run_a2 := rfl

theorem step_a3 : step consts_q1 run_a2 (Event.client_enqueue (cmd_unlink 2)) = .ok run_a3 := rfl

theorem step_a4 : step consts_q1 run_a3 (Event.process env_accept) = .error Fault.assertion := rfl

theorem step_b3 : step consts_q1 run_a2 (Event.client_enqueue (cmd_closedir 2)) = .ok run_b3 := rfl

theorem step_b4 : step consts_q1 run_b3 (Event.process env_accept) = .ok run_b4 := rfl

theorem step_b5 : step consts_q1 run_b4 (Event.callback 0 {}) = .error Fault.assertion := rfl

theorem step_c1 : step consts_q2 start_q2 (Event.client_enqueue (cmd_rmdir 7)) = .ok run_c1 := rfl

theorem step_c2 : step consts_q2 run_c1 (Event.process env_accept) = .ok run_c2 := rfl

theorem step_c3 : step consts_q2 run_c2 (Event.callback 0 {}) = .ok run_c3 := rfl

theorem reachable_a2 : Reachable consts_q1 0x30000000 (fun _ => 0x2f) run_a2 :=
  Reachable.step _ _ _ (Reachable.step _ _ _ Reachable.init
    (show enabled consts_q1 start_q1 (Event.client_enqueue (cmd_unlink 1)) = true from rfl)
    step_a1) (show enabled consts_q1 run_a1 (Event.process env_accept) = true from rfl) step_a2

theorem reachable_c2 : Reachable consts_q2 0x30000000 (fun _ => 0x2f) run_c2 :=
  Reachable.step _ _ _ (Reachable.step _ _ _ Reachable.init
    (show enabled consts_q2 start_q2 (Event.client_enqueue (cmd_rmdir 7)) = true from rfl)
    step_c1) (show enabled consts_q2 run_c1 (Event.process env_accept) = true from rfl) step_c2

theorem start_q1_pool_ok :
    PoolOK consts_q1 start_q1.continuation_pool start_q1.first_free_cont [0] :=
  init_pool_ok consts_q1 (by decide) (boot_state consts_q1 0x30000000 (fun _ => 0x2f)) rfl

/-- C5. The completion of a `DIR_REMOVE` command does not carry the request
identifier of the command. On the server at startup with two queue slots the
client enqueues `DIR_REMOVE` with identifier 7, the dispatcher submits it, and
the callback fires with status 0: the one completion that is published carries
the identifier 0, which `rmdir_cb` has read from the continuation it has freshly
allocated, while the continuation of the submission holds 7. -/
theorem rmdir_completion_carries_stale_id :
    run consts_q2 start_q2
      [Event.client_enqueue (cmd_rmdir 7), Event.process env_accept, Event.callback 0 {}] =
        some (.ok run_c3) ∧
    run_c3.completion_queue.tail = 1 ∧ run_c3.notified = 1 ∧
    run_c3.completion_queue.buffer 0 = { id := 0, status := FS_STATUS_SUCCESS, data := {} } ∧
    (cmd_rmdir 7).id = 7 ∧
    run_c2.pending =
      [{ call := nfs_call.rmdir 0, cb := nfs_cb.rmdir_cb, private_data := some 0 }] ∧
    (run_c2.continuation_pool[0]?).map (fun c => c.request_id) = some 7 :=
  ⟨(run_cons_ok step_c1 rfl).trans ((run_cons_ok step_c2 rfl).trans (run_cons_ok step_c3 rfl)),
    rfl, rfl, rfl, rfl, rfl, rfl⟩

/-- C6. A command that the dispatcher admits can find the continuation pool
empty. With one queue slot, the client enqueues `FILE_REMOVE`, the dispatcher
submits it (one submission is outstanding, the completion queue is empty), the
client enqueues a second `FILE_REMOVE`, and the dispatcher admits it
(`to_consume` is 1): `continuation_alloc` returns null and the handler fails
`assert(cont != NULL)`. -/
theorem admitted_command_finds_pool_empty :
    Reachable consts_q1 0x30000000 (fun _ => 0x2f) run_a3 ∧
    run_a3.pending.length = consts_q1.FS_QUEUE_CAPACITY ∧
    to_consume consts_q1 run_a3 = 1 ∧
    value_of (continuation_alloc consts_q1 run_a3) = .ok none ∧
    step consts_q1 run_a3 (Event.process env_accept) = .error Fault.assertion ∧
    run consts_q1 start_q1
      [Event.client_enqueue (cmd_unlink 1), Event.process env_accept,
       Event.client_enqueue (cmd_unlink 2), Event.process env_accept] =
        some (.error Fault.assertion) :=
  ⟨Reachable.step _ _ _ reachable_a2
      (show enabled consts_q1 run_a2 (Event.client_enqueue (cmd_unlink 2)) = true from rfl) step_a3,
    rfl, rfl, rfl, step_a4,
    (run_cons_ok step_a1 rfl).trans ((run_cons_ok step_a2 rfl).trans
      ((run_cons_ok step_a3 rfl).trans (run_cons_fault step_a4 rfl)))⟩

/-- C7. A callback can find the completion queue full. With one queue slot, the
client enqueues `FILE_REMOVE`, the dispatcher submits it, the client enqueues
`DIR_CLOSE` for a descriptor that is not open, and the dispatcher, seeing an
empty completion queue, handles it and publishes `INVALID_FD`: the completion
queue is full. When the callback of the pending submission fires, its
continuation is freed without a fault and `reply` fails its assertion. -/
theorem callback_finds_completion_queue_full :
    Reachable consts_q1 0x30000000 (fun _ => 0x2f) run_b4 ∧
    fs_queue_length_producer run_b4.completion_queue = consts_q1.FS_QUEUE_CAPACITY ∧
    run_b4.pending =
      [{ call := nfs_call.unlink 0, cb := nfs_cb.unlink_cb, private_data := some 0 }] ∧
    fault_of (continuation_free consts_q1 (some 0) { run_b4 with pending := [] }) = none ∧
    step consts_q1 run_b4 (Event.callback 0 {}) = .error Fault.assertion ∧
    run consts_q1 start_q1
      [Event.client_enqueue (cmd_unlink 1), Event.process env_accept,
       Event.client_enqueue (cmd_closedir 2), Event.process env_accept,
       Event.callback 0 {}] = some (.error Fault.assertion) :=
  ⟨Reachable.step _ _ _ (Reachable.step _ _ _ reachable_a2
      (show enabled consts_q1 run_a2 (Event.client_enqueue (cmd_closedir 2)) = true from rfl)
      step_b3)
      (show enabled consts_q1 run_b3 (Event.process env_accept) = true from rfl) step_b4,
    rfl, rfl, rfl, step_b5,
    (run_cons_ok step_a1 rfl).trans ((run_cons_ok step_a2 rfl).trans
      ((run_cons_ok step_b3 rfl).trans ((run_cons_ok step_b4 rfl).trans
        (run_cons_fault step_b5 rfl))))⟩

/-- C8. After `rmdir_cb` has returned, an allocated continuation is left
without an outstanding submission. In the run of C5 no submission is pending
after the callback, but the free list holds only entry 1 of the two pool
entries: entry 0, the continuation passed to the submission, stays allocated. -/
theorem rmdir_callback_leaks_continuation :
    Reachable consts_q2 0x30000000 (fun _ => 0x2f) run_c3 ∧
    run_c3.pending.length = 0 ∧
    FreeChain run_c3.continuation_pool run_c3.first_free_cont [1] ∧
    allocated_count consts_q2 [1] = 1 ∧
    run_c2.pending.length = 1 ∧
    FreeChain run_c2.continuation_pool run_c2.first_free_cont [1] :=
  ⟨Reachable.step _ _ _ reachable_c2
      (show enabled consts_q2 run_c2 (Event.callback 0 {}) = true from rfl) step_c3,
    rfl, ⟨rfl, _, rfl, rfl⟩, rfl, rfl, ⟨rfl, _, rfl, rfl⟩⟩

/-- C10. A double free of the last entry of the free list is not detected. After
`continuation_pool_init` with two pool entries the free list is entry 0, entry
1; `continuation_free` of entry 1, which is free, passes its assertions and
changes the pool, and of the next three allocations the first and the third
return entry 1. -/
theorem double_free_of_list_tail_undetected :
    FreeChain start_q2.continuation_pool start_q2.first_free_cont [0, 1] ∧
    continuation_free consts_q2 (some 1) start_q2 = .ok ((), run_d1) ∧
    continuation_alloc consts_q2 run_d1 = .ok (some 1, run_d2) ∧
    continuation_alloc consts_q2 run_d2 = .ok (some 0, run_d3) ∧
    continuation_alloc consts_q2 run_d3 = .ok (some 1, run_d4) :=
  ⟨⟨rfl, _, rfl, rfl, _, rfl, rfl⟩, rfl, rfl, rfl, rfl⟩

theorem continuation_alloc_distinct_or_none_witness :
    0 < MAX_CONCURRENT_OPS consts_q2 ∧
    ∃ ps s', alloc_many consts_q2 (MAX_CONCURRENT_OPS consts_q2)
        (continuation_pool_init consts_q2 (boot_state consts_q2 0x30000000 (fun _ => 0x2f))) =
          .ok (ps, s') ∧
      ps.length = MAX_CONCURRENT_OPS consts_q2 ∧ ps.Nodup ∧ (∀ r, r ∈ ps → r ≠ none) ∧
      continuation_alloc consts_q2 s' = .ok (none, s') :=
  ⟨by decide,
   (continuation_alloc_distinct_or_none consts_q2 (by decide)).2
     (boot_state consts_q2 0x30000000 (fun _ => 0x2f)) rfl⟩

theorem process_commands_consumes_min_witness :
    PoolOK consts_q1 run_a1.continuation_pool run_a1.first_free_cont [0] ∧
    to_consume consts_q1 run_a1 ≤ [0].length ∧
    fs_queue_length_producer run_a1.completion_queue ≤ consts_q1.FS_QUEUE_CAPACITY ∧
    consts_q1.FS_QUEUE_CAPACITY < U64 ∧
    to_consume consts_q1 run_a1 =
      min (fs_queue_length_consumer run_a1.command_queue)
        (consts_q1.FS_QUEUE_CAPACITY - fs_queue_length_producer run_a1.completion_queue) ∧
    ∃ s', process_commands consts_q1 env_accept run_a1 = .ok ((), s') ∧
      ∃ p, p ≤ to_consume consts_q1 run_a1 ∧ s'.notified = run_a1.notified + p ∧
        fs_queue_length_producer s'.completion_queue =
          fs_queue_length_producer run_a1.completion_queue + p :=
  ⟨start_q1_pool_ok, by decide, by decide, by decide,
   (process_commands_consumes_min consts_q1 env_accept run_a1).2.2 [0] start_q1_pool_ok
     (by decide) (by decide) (by decide) (fun _ _ h => by cases h)⟩

/-! ## Exact effects of the primitives -/

theorem wpt_of_eq {α : Type} {m : M α} {s s' : State} {a : α} {Q : α → State → Prop}
    (h : m s = .ok (a, s')) (hq : Q a s') : wpt m s Q := ⟨a, s', h, hq⟩

theorem reply_ok {k : Consts} {s : State} (cmpl : fs_cmpl_t)
    (hs : fs_queue_length_producer s.completion_queue ≠ k.FS_QUEUE_CAPACITY) :
    reply k cmpl s = .ok ((), reply_state k cmpl s) := by
  simp [reply, hs]

theorem reply_full {k : Consts} {s : State} (cmpl : fs_cmpl_t)
    (hs : fs_queue_length_producer s.completion_queue = k.FS_QUEUE_CAPACITY) :
    reply k cmpl s = .error Fault.assertion := by
  simp [reply, hs]

theorem set_set_self {α : Type} {l : List α} {i : Nat} {e : α} (a : α) (h : l[i]? = some e) :
    (l.set i a).set i e = l := by
  rw [List.set_set]
  apply List.ext_getElem?
  intro j
  by_cases hij : i = j
  · subst hij
    rw [getElem?_set_of_some h, h]
  · rw [List.getElem?_set_ne hij]

theorem fd_begin_op_file_ok {fd : Nat} {s : State} {e : fd_entry} {h : Nat}
    (he : s.fd_table[fd]? = some e) (hst : e.state = fd_state.file h) :
    fd_begin_op_file fd s =
      .ok ((0, h), { s with fd_table := s.fd_table.set fd { e with counter := e.counter + 1 } }) := by
  simp [fd_begin_op_file, he, hst]

theorem fd_begin_op_dir_ok {fd : Nat} {s : State} {e : fd_entry} {h : Nat}
    (he : s.fd_table[fd]? = some e) (hst : e.state = fd_state.dir h) :
    fd_begin_op_dir fd s =
      .ok ((0, h), { s with fd_table := s.fd_table.set fd { e with counter := e.counter + 1 } }) := by
  simp [fd_begin_op_dir, he, hst]

theorem fd_begin_op_file_fail {fd : Nat} {s : State}
    (h : ∀ e, s.fd_table[fd]? = some e → ∀ hdl, e.state ≠ fd_state.file hdl) :
    fd_begin_op_file fd s = .ok ((-1, NULL), s) := by
  unfold fd_begin_op_file
  cases he : s.fd_table[fd]? with
  | none => rfl
  | some e =>
    dsimp only
    cases hst : e.state with
    | file hdl => exact absurd hst (h e he hdl)
    | free => rfl
    | reserved => rfl
    | dir _ => rfl

theorem fd_begin_op_dir_fail {fd : Nat} {s : State}
    (h : ∀ e, s.fd_table[fd]? = some e → ∀ hdl, e.state ≠ fd_state.dir hdl) :
    fd_begin_op_dir fd s = .ok ((-1, NULL), s) := by
  unfold fd_begin_op_dir
  cases he : s.fd_table[fd]? with
  | none => rfl
  | some e =>
    dsimp only
    cases hst : e.state with
    | dir hdl => exact absurd hst (h e he hdl)
    | free => rfl
    | reserved => rfl
    | file _ => rfl

theorem fd_end_op_ok {fd : Nat} {s : State} {e : fd_entry}
    (he : s.fd_table[fd]? = some e) (hc : 0 < e.counter) :
    fd_end_op fd s =
      .ok ((), { s with fd_table := s.fd_table.set fd { e with counter := e.counter - 1 } }) := by
  simp [fd_end_op, he, hc]

theorem fd_unset_busy {fd : Nat} {s : State} {e : fd_entry}
    (he : s.fd_table[fd]? = some e) (hc : e.counter ≠ 0) :
    fd_unset fd s = .ok (-1, s) := by
  unfold fd_unset
  rw [he]
  dsimp only
  cases e.state <;> simp [hc]

theorem fd_unset_ok {fd : Nat} {s : State} {e : fd_entry}
    (he : s.fd_table[fd]? = some e)
    (hst : (∃ h, e.state = fd_state.file h) ∨ ∃ h, e.state = fd_state.dir h)
    (hc : e.counter = 0) :
    fd_unset fd s =
      .ok (0, { s with fd_table := s.fd_table.set fd { e with state := fd_state.reserved } }) := by
  unfold fd_unset
  rw [he]
  rcases hst with ⟨h, hst⟩ | ⟨h, hst⟩ <;> simp [hst, hc]

theorem fd_free_ok {fd : Nat} {s : State} {e : fd_entry}
    (he : s.fd_table[fd]? = some e) (hst : e.state = fd_state.reserved) :
    fd_free fd s =
      .ok ((), { s with fd_table := s.fd_table.set fd { state := fd_state.free, counter := 0 } }) := by
  simp [fd_free, he, hst]

theorem fd_set_file_ok {fd hdl : Nat} {s : State} {e : fd_entry}
    (he : s.fd_table[fd]? = some e) (hst : e.state = fd_state.reserved) :
    fd_set_file fd hdl s =
      .ok ((), { s with fd_table := s.fd_table.set fd { e with state := fd_state.file hdl } }) := by
  simp [fd_set_file, he, hst]

theorem fd_set_dir_ok {fd hdl : Nat} {s : State} {e : fd_entry}
    (he : s.fd_table[fd]? = some e) (hst : e.state = fd_state.reserved) :
    fd_set_dir fd hdl s =
      .ok ((), { s with fd_table := s.fd_table.set fd { e with state := fd_state.dir hdl } }) := by
  simp [fd_set_dir, he, hst]

theorem fd_alloc_fail {s : State} (h : ∀ e ∈ s.fd_table, e.state ≠ fd_state.free) :
    fd_alloc s = .ok ((-1, 0), s) := by
  unfold fd_alloc
  have : s.fd_table.findIdx? (fun e => e.state == fd_state.free) = none := by
    rw [List.findIdx?_eq_none_iff]
    intro e he
    simpa using h e he
  rw [this]

theorem fd_alloc_ok {s : State} {e : fd_entry} (he : e ∈ s.fd_table)
    (hst : e.state = fd_state.free) :
    ∃ fd e0, s.fd_table[fd]? = some e0 ∧ e0.state = fd_state.free ∧
      fd_alloc s = .ok ((0, fd),
        { s with fd_table := s.fd_table.set fd { state := fd_state.reserved, counter := 0 } }) := by
  unfold fd_alloc
  cases hf : s.fd_table.findIdx? (fun e => e.state == fd_state.free) with
  | none =>
    rw [List.findIdx?_eq_none_iff] at hf
    have := hf e he
    simp [hst] at this
  | some i =>
    obtain ⟨hlt, hp, _⟩ := List.findIdx?_eq_some_iff_getElem.1 hf
    refine ⟨i, s.fd_table[i], List.getElem?_eq_getElem hlt, ?_, rfl⟩
    simpa using hp

theorem nfs_async_accept {env : nfs_env} {s : State} (call : nfs_call) (cb : nfs_cb)
    (pd : Option Int) (h : env.err = 0) :
    nfs_async env call cb pd s =
      .ok (0, { s with
        pending := s.pending ++ [{ call := call, cb := cb, private_data := pd }]
        nfs_calls := s.nfs_calls ++ [call] }) := by
  simp [nfs_async, h]

theorem nfs_async_reject {env : nfs_env} {s : State} (call : nfs_call) (cb : nfs_cb)
    (pd : Option Int) (h : env.err ≠ 0) :
    nfs_async env call cb pd s =
      .ok (env.err, { s with nfs_calls := s.nfs_calls ++ [call] }) := by
  simp [nfs_async, h]

theorem continuation_alloc_ok {k : Consts} {s : State} {c : Nat} {c0 : continuation}
    (hff : s.first_free_cont = some (c : Int)) (hc : s.continuation_pool[c]? = some c0)
    (hcN : c < MAX_CONCURRENT_OPS k) :
    continuation_alloc k s = .ok (some (c : Int),
      { s with
        first_free_cont := c0.next_free
        continuation_pool := s.continuation_pool.set c { c0 with next_free := none } }) := by
  unfold continuation_alloc
  have h1 : get_first_free_cont s = .ok (some (c : Int), s) := by
    simp [get_first_free_cont, hff]
  rw [bind_ok h1]
  simp only [ne_eq, reduceCtorEq, not_false_eq_true, if_true]
  rw [bind_ok (cont_read_ok hcN hc)]
  have h2 : set_first_free_cont c0.next_free s =
      .ok ((), { s with first_free_cont := c0.next_free }) := rfl
  rw [bind_ok h2]
  have h3 := @cont_write_ok k { s with first_free_cont := c0.next_free } c
    { c0 with next_free := none } hcN (lt_length_of_getElem? hc)
  rw [bind_ok h3]
  rfl

theorem cont_set_request_id_ok {k : Consts} {s : State} {c : Nat} {c1 : continuation} (v : Nat)
    (hc : s.continuation_pool[c]? = some c1) (hcN : c < MAX_CONCURRENT_OPS k) :
    cont_set_request_id k (some (c : Int)) v s =
      .ok ((), { s with continuation_pool := s.continuation_pool.set c { c1 with request_id := v } }) := by
  unfold cont_set_request_id
  rw [bind_ok (cont_read_ok hcN hc)]
  exact cont_write_ok hcN (lt_length_of_getElem? hc)

theorem cont_set_data_ok {k : Consts} {s : State} {c : Nat} {c1 : continuation} (j v : Nat)
    (hc : s.continuation_pool[c]? = some c1) (hcN : c < MAX_CONCURRENT_OPS k) :
    cont_set_data k (some (c : Int)) j v s =
      .ok ((), { s with
        continuation_pool := s.continuation_pool.set c { c1 with data := c1.data.set j v } }) := by
  unfold cont_set_data
  rw [bind_ok (cont_read_ok hcN hc)]
  exact cont_write_ok hcN (lt_length_of_getElem? hc)

theorem continuation_free_ok {k : Consts} {s : State} {c : Nat} {c1 : continuation}
    (hc : s.continuation_pool[c]? = some c1) (hcN : c < MAX_CONCURRENT_OPS k)
    (hn : c1.next_free = none) :
    continuation_free k (some (c : Int)) s =
      .ok ((), { s with
        continuation_pool := s.continuation_pool.set c { c1 with next_free := s.first_free_cont }
        first_free_cont := some (c : Int) }) := by
  unfold continuation_free
  have h1 : c_assert (cont_ge_pool (some (c : Int))) s = .ok ((), s) := by
    simp [c_assert, cont_ge_pool]
  have h2 : c_assert (cont_lt_pool_end k (some (c : Int))) s = .ok ((), s) := by
    simp [c_assert, cont_lt_pool_end, hcN]
  have h3 : c_assert (c1.next_free == none) s = .ok ((), s) := by
    simp [c_assert, hn]
  have h4 : get_first_free_cont s = .ok (s.first_free_cont, s) := rfl
  rw [bind_ok h1, bind_ok h2, bind_ok (cont_read_ok hcN hc), bind_ok h3, bind_ok h4,
    bind_ok (cont_write_ok hcN (lt_length_of_getElem? hc))]
  rfl

/-! ## Commands rejected before any resource is taken -/

theorem Rejected_reply_state (k : Consts) (cmpl : fs_cmpl_t) (s : State) :
    Rejected k cmpl s (reply_state k cmpl s) :=
  ⟨rfl, rfl, rfl, rfl, rfl, rfl, rfl⟩

theorem fd_entry_counter_restore (e : fd_entry) :
    ({ ({ e with counter := e.counter + 1 } : fd_entry) with counter := e.counter + 1 - 1 } :
      fd_entry) = e := by
  cases e; simp

/-- Pinning a descriptor and releasing it again leaves the table as it was. -/
theorem fd_table_begin_end {tbl : List fd_entry} {fd : Nat} {e : fd_entry}
    (he : tbl[fd]? = some e) :
    (tbl.set fd { e with counter := e.counter + 1 }).set fd
      { ({ e with counter := e.counter + 1 } : fd_entry) with counter := e.counter + 1 - 1 } =
      tbl := by
  rw [fd_entry_counter_restore]
  exact set_set_self _ he

theorem handle_close_outstanding (k : Consts) (env : nfs_env) (cmd : fs_cmd_t) (s : State)
    (e : fd_entry) (h : Nat)
    (hs : fs_queue_length_producer s.completion_queue ≠ k.FS_QUEUE_CAPACITY)
    (he : s.fd_table[cmd.params.file_close.fd]? = some e) (hst : e.state = fd_state.file h)
    (hn : 0 < e.counter) :
    handle_close k env cmd s = .ok ((), reply_state k
      { id := cmd.id, status := FS_STATUS_OUTSTANDING_OPERATIONS, data := {} } s) := by
  unfold handle_close
  rw [bind_ok (fd_begin_op_file_ok he hst)]
  dsimp only
  rw [if_neg (by decide)]
  rw [bind_ok (fd_end_op_ok (e := { e with counter := e.counter + 1 })
    (getElem?_set_of_some he) (Nat.succ_pos _))]
  dsimp only
  rw [fd_table_begin_end he]
  have hun : fd_unset cmd.params.file_close.fd s = .ok (-1, s) :=
    fd_unset_busy he (by omega)
  rw [bind_ok hun, if_pos (by decide)]
  exact reply_ok _ hs

theorem handle_closedir_outstanding (k : Consts) (env : nfs_env) (cmd : fs_cmd_t) (s : State)
    (e : fd_entry) (h : Nat)
    (hs : fs_queue_length_producer s.completion_queue ≠ k.FS_QUEUE_CAPACITY)
    (he : s.fd_table[cmd.params.dir_close.fd]? = some e) (hst : e.state = fd_state.dir h)
    (hn : 0 < e.counter) :
    handle_closedir k env cmd s = .ok ((), reply_state k
      { id := cmd.id, status := FS_STATUS_OUTSTANDING_OPERATIONS, data := {} } s) := by
  unfold handle_closedir
  rw [bind_ok (fd_begin_op_dir_ok he hst)]
  dsimp only
  rw [if_neg (by decide)]
  rw [bind_ok (fd_end_op_ok (e := { e with counter := e.counter + 1 })
    (getElem?_set_of_some he) (Nat.succ_pos _))]
  dsimp only
  rw [fd_table_begin_end he]
  have hun : fd_unset cmd.params.dir_close.fd s = .ok (-1, s) :=
    fd_unset_busy he (by omega)
  rw [bind_ok hun, if_pos (by decide)]
  exact reply_ok _ hs

/-- C13. For a descriptor that is bound to a file (resp. to a directory) with
operation counter `n > 0`, `handle_close` (resp. `handle_closedir`) returns
having published exactly one completion, with the identifier of the command and
status `OUTSTANDING_OPERATIONS`; it has made no call to the NFS client library
and has left no pending submission, the continuation pool and its free list are
as before, and the descriptor table is as before, so the slot is bound to the
same handle with the same counter `n`. The completion queue has producer space
when the handler starts. -/
theorem close_with_outstanding_operations (k : Consts) (env : nfs_env) (cmd : fs_cmd_t)
    (s : State) (h n : Nat) (hn : 0 < n)
    (hs : fs_queue_length_producer s.completion_queue ≠ k.FS_QUEUE_CAPACITY) :
    (s.fd_table[cmd.params.file_close.fd]? = some { state := fd_state.file h, counter := n } →
      ∃ s', handle_close k env cmd s = .ok ((), s') ∧
        Rejected k { id := cmd.id, status := FS_STATUS_OUTSTANDING_OPERATIONS, data := {} } s s' ∧
        s'.fd_table[cmd.params.file_close.fd]? =
          some { state := fd_state.file h, counter := n }) ∧
    (s.fd_table[cmd.params.dir_close.fd]? = some { state := fd_state.dir h, counter := n } →
      ∃ s', handle_closedir k env cmd s = .ok ((), s') ∧
        Rejected k { id := cmd.id, status := FS_STATUS_OUTSTANDING_OPERATIONS, data := {} } s s' ∧
        s'.fd_table[cmd.params.dir_close.fd]? =
          some { state := fd_state.dir h, counter := n }) :=
  ⟨fun he => ⟨_, handle_close_outstanding k env cmd s _ h hs he rfl hn,
      Rejected_reply_state _ _ _, he⟩,
   fun he => ⟨_, handle_closedir_outstanding k env cmd s _ h hs he rfl hn,
      Rejected_reply_state _ _ _, he⟩⟩

theorem handle_read_invalid_buffer (k : Consts) (env : nfs_env) (cmd : fs_cmd_t) (s : State)
    (hs : fs_queue_length_producer s.completion_queue ≠ k.FS_QUEUE_CAPACITY)
    (hb : ¬ buffer_valid cmd.params.file_read.buf) :
    handle_read k env cmd s = .ok ((), reply_state k
      { id := cmd.id, status := FS_STATUS_INVALID_BUFFER, data := {} } s) := by
  unfold handle_read
  rw [bind_ok (get_buffer_invalid _ s hb), if_pos rfl]
  exact reply_ok _ hs

theorem not_file_bound_ne {tbl : List fd_entry} {fd : Nat} (h : not_file_bound tbl fd) :
    ∀ e, tbl[fd]? = some e → ∀ hdl, e.state ≠ fd_state.file hdl := by
  intro e he hdl hst
  rcases h e he with h1 | h1 | ⟨d, h1⟩ <;> rw [hst] at h1 <;> cases h1

theorem handle_read_invalid_fd (k : Consts) (env : nfs_env) (cmd : fs_cmd_t) (s : State)
    (hs : fs_queue_length_producer s.completion_queue ≠ k.FS_QUEUE_CAPACITY)
    (hcs : 0 < s.client_share)
    (hb : buffer_valid cmd.params.file_read.buf)
    (hfd : not_file_bound s.fd_table cmd.params.file_read.fd) :
    handle_read k env cmd s = .ok ((), reply_state k
      { id := cmd.id, status := FS_STATUS_INVALID_FD, data := {} } s) := by
  unfold handle_read
  rw [bind_ok (get_buffer_valid _ s hb), if_neg (by unfold NULL; omega)]
  rw [bind_ok (fd_begin_op_file_fail (not_file_bound_ne hfd))]
  dsimp only
  rw [if_pos (by decide)]
  exact reply_ok _ hs

/-- C15. For a `READ` command whose buffer descriptor is invalid (`size = 0`,
`offset >= CLIENT_SHARE_SIZE` or `size > CLIENT_SHARE_SIZE - offset`),
`handle_read` publishes status `INVALID_BUFFER`; otherwise, the shared region
lying at a non-null address, if the descriptor does not name a slot bound to a
file it publishes status `INVALID_FD`. In both cases the handler returns having
published exactly that one completion, with the identifier of the command, and
it has made no call to the NFS client library: the pending submissions, the
continuation pool and the descriptor table are as before. The completion queue
has producer space when the handler starts. -/
theorem handle_read_rejects_invalid (k : Consts) (env : nfs_env) (cmd : fs_cmd_t) (s : State)
    (hs : fs_queue_length_producer s.completion_queue ≠ k.FS_QUEUE_CAPACITY) :
    ((cmd.params.file_read.buf.size = 0 ∨
        cmd.params.file_read.buf.offset ≥ CLIENT_SHARE_SIZE ∨
        cmd.params.file_read.buf.size > CLIENT_SHARE_SIZE - cmd.params.file_read.buf.offset) →
      ∃ s', handle_read k env cmd s = .ok ((), s') ∧
        Rejected k { id := cmd.id, status := FS_STATUS_INVALID_BUFFER, data := {} } s s') ∧
    (¬ (cmd.params.file_read.buf.size = 0 ∨
        cmd.params.file_read.buf.offset ≥ CLIENT_SHARE_SIZE ∨
        cmd.params.file_read.buf.size > CLIENT_SHARE_SIZE - cmd.params.file_read.buf.offset) →
      0 < s.client_share → not_file_bound s.fd_table cmd.params.file_read.fd →
      ∃ s', handle_read k env cmd s = .ok ((), s') ∧
        Rejected k { id := cmd.id, status := FS_STATUS_INVALID_FD, data := {} } s s') := by
  constructor
  · intro hb
    refine ⟨_, handle_read_invalid_buffer k env cmd s hs ?_, Rejected_reply_state _ _ _⟩
    unfold buffer_valid
    omega
  · intro hb hcs hfd
    refine ⟨_, handle_read_invalid_fd k env cmd s hs hcs ?_ hfd, Rejected_reply_state _ _ _⟩
    unfold buffer_valid
    omega

/-! ## Code that does not look at the completion queue -/

theorem with_completions_self (s : State) :
    with_completions s s.completion_queue s.notified = s := rfl

theorem ignores_bind {α β : Type} {m : M α} {f : α → M β}
    (hm : ignores_completions m) (hf : ∀ a, ignores_completions (f a)) :
    ignores_completions (m >>= f) := by
  constructor
  intro s q n
  rw [bind_apply, bind_apply, hm.run]
  cases h : m s with
  | error e => rfl
  | ok r =>
    obtain ⟨a, s'⟩ := r
    exact (hf a).run s' q n

theorem ignores_pure {α : Type} (a : α) : ignores_completions (pure a : M α) :=
  ⟨fun _ _ _ => rfl⟩

theorem ignores_assert (b : Bool) : ignores_completions (c_assert b) := by
  constructor
  intro s q n
  cases b <;> rfl

theorem ignores_cont_read (k : Consts) (cont : Option Int) :
    ignores_completions (cont_read k cont) := by
  constructor
  intro s q n
  cases cont with
  | none => rfl
  | some i =>
    unfold cont_read
    dsimp only [with_completions]
    split
    · cases s.continuation_pool[i.toNat]? <;> rfl
    · rfl

theorem ignores_cont_write (k : Consts) (cont : Option Int) (c : continuation) :
    ignores_completions (cont_write k cont c) := by
  constructor
  intro s q n
  cases cont with
  | none => rfl
  | some i =>
    unfold cont_write
    dsimp only [with_completions]
    split <;> rfl

theorem ignores_get_first_free_cont : ignores_completions get_first_free_cont :=
  ⟨fun _ _ _ => rfl⟩

theorem ignores_set_first_free_cont (p : Option Int) :
    ignores_completions (set_first_free_cont p) :=
  ⟨fun _ _ _ => rfl⟩

theorem ignores_alloc (k : Consts) : ignores_completions (continuation_alloc k) := by
  unfold continuation_alloc
  apply ignores_bind ignores_get_first_free_cont
  intro cont
  split
  · apply ignores_bind (ignores_cont_read _ _); intro c
    apply ignores_bind (ignores_set_first_free_cont _); intro _
    apply ignores_bind (ignores_cont_write _ _ _); intro _
    exact ignores_pure _
  · exact ignores_pure _

theorem ignores_free (k : Consts) (cont : Option Int) :
    ignores_completions (continuation_free k cont) := by
  unfold continuation_free
  apply ignores_bind (ignores_assert _); intro _
  apply ignores_bind (ignores_assert _); intro _
  apply ignores_bind (ignores_cont_read _ _); intro c
  apply ignores_bind (ignores_assert _); intro _
  apply ignores_bind ignores_get_first_free_cont; intro _
  apply ignores_bind (ignores_cont_write _ _ _); intro _
  exact ignores_set_first_free_cont _

theorem ignores_set_request_id (k : Consts) (cont : Option Int) (v : Nat) :
    ignores_completions (cont_set_request_id k cont v) := by
  unfold cont_set_request_id
  apply ignores_bind (ignores_cont_read _ _); intro c
  exact ignores_cont_write _ _ _

theorem ignores_set_data (k : Consts) (cont : Option Int) (j v : Nat) :
    ignores_completions (cont_set_data k cont j v) := by
  unfold cont_set_data
  apply ignores_bind (ignores_cont_read _ _); intro c
  exact ignores_cont_write _ _ _

theorem ignores_get_buffer (buf : fs_buffer_t) : ignores_completions (get_buffer buf) := by
  constructor
  intro s q n
  unfold get_buffer
  dsimp only [with_completions]
  split <;> rfl

theorem ignores_path_buffer_fill (slot client_buf size : Nat) :
    ignores_completions (path_buffer_fill slot client_buf size) :=
  ⟨fun _ _ _ => rfl⟩

theorem ignores_copy_path (k : Consts) (slot : Int) (buf : fs_buffer_t) :
    ignores_completions (copy_path k slot buf) := by
  unfold copy_path
  apply ignores_bind (ignores_assert _); intro _
  apply ignores_bind (ignores_get_buffer _); intro _
  split
  · exact ignores_pure _
  · apply ignores_bind (ignores_path_buffer_fill _ _ _); intro _
    exact ignores_pure _

theorem ignores_memcpy_to_mem (dst : Nat) (src : Nat → Nat) (n : Nat) :
    ignores_completions (memcpy_to_mem dst src n) :=
  ⟨fun _ _ _ => rfl⟩

theorem ignores_get_nfs : ignores_completions get_nfs := ⟨fun _ _ _ => rfl⟩

theorem ignores_nfs_init_context (env : nfs_env) :
    ignores_completions (nfs_init_context env) := ⟨fun _ _ _ => rfl⟩

theorem ignores_nfs_sync (call : nfs_call) : ignores_completions (nfs_sync call) :=
  ⟨fun _ _ _ => rfl⟩

theorem ignores_nfs_set_autoreconnect (n : Int) :
    ignores_completions (nfs_set_autoreconnect n) := ignores_nfs_sync _

theorem ignores_nfs_closedir (dir : Nat) : ignores_completions (nfs_closedir dir) :=
  ignores_nfs_sync _

theorem ignores_nfs_seekdir (dir loc : Nat) : ignores_completions (nfs_seekdir dir loc) :=
  ignores_nfs_sync _

theorem ignores_nfs_rewinddir (dir : Nat) : ignores_completions (nfs_rewinddir dir) :=
  ignores_nfs_sync _

theorem ignores_nfs_readdir (env : nfs_env) (dir : Nat) :
    ignores_completions (nfs_readdir env dir) := ⟨fun _ _ _ => rfl⟩

theorem ignores_nfs_telldir (env : nfs_env) (dir : Nat) :
    ignores_completions (nfs_telldir env dir) := ⟨fun _ _ _ => rfl⟩

theorem ignores_nfs_async (env : nfs_env) (call : nfs_call) (cb : nfs_cb) (pd : Option Int) :
    ignores_completions (nfs_async env call cb pd) := by
  constructor
  intro s q n
  unfold nfs_async result_with_completions with_completions
  dsimp only
  split <;> rfl

theorem ignores_fd_alloc : ignores_completions fd_alloc := by
  constructor
  intro s q n
  unfold fd_alloc result_with_completions with_completions
  dsimp only
  cases s.fd_table.findIdx? (fun e => e.state == fd_state.free) <;> rfl

theorem ignores_fd_set_file (fd hdl : Nat) : ignores_completions (fd_set_file fd hdl) := by
  constructor
  intro s q n
  unfold fd_set_file result_with_completions with_completions
  dsimp only
  cases s.fd_table[fd]? with
  | none => rfl
  | some e => dsimp only; cases e.state <;> rfl

theorem ignores_fd_set_dir (fd hdl : Nat) : ignores_completions (fd_set_dir fd hdl) := by
  constructor
  intro s q n
  unfold fd_set_dir result_with_completions with_completions
  dsimp only
  cases s.fd_table[fd]? with
  | none => rfl
  | some e => dsimp only; cases e.state <;> rfl

theorem ignores_fd_begin_op_file (fd : Nat) : ignores_completions (fd_begin_op_file fd) := by
  constructor
  intro s q n
  unfold fd_begin_op_file result_with_completions with_completions
  dsimp only
  cases s.fd_table[fd]? with
  | none => rfl
  | some e => dsimp only; cases e.state <;> rfl

theorem ignores_fd_begin_op_dir (fd : Nat) : ignores_completions (fd_begin_op_dir fd) := by
  constructor
  intro s q n
  unfold fd_begin_op_dir result_with_completions with_completions
  dsimp only
  cases s.fd_table[fd]? with
  | none => rfl
  | some e => dsimp only; cases e.state <;> rfl

theorem ignores_fd_end_op (fd : Nat) : ignores_completions (fd_end_op fd) := by
  constructor
  intro s q n
  unfold fd_end_op result_with_completions with_completions
  dsimp only
  cases s.fd_table[fd]? with
  | none => rfl
  | some e => dsimp only; split <;> rfl

theorem ignores_fd_unset (fd : Nat) : ignores_completions (fd_unset fd) := by
  constructor
  intro s q n
  unfold fd_unset
  dsimp only [with_completions]
  cases s.fd_table[fd]? with
  | none => rfl
  | some e =>
    dsimp only
    cases e.state with
    | free => rfl
    | reserved => rfl
    | file _ => dsimp only; split <;> rfl
    | dir _ => dsimp only; split <;> rfl

theorem ignores_fd_free (fd : Nat) : ignores_completions (fd_free fd) := by
  constructor
  intro s q n
  unfold fd_free result_with_completions with_completions
  dsimp only
  cases s.fd_table[fd]? with
  | none => rfl
  | some e => dsimp only; cases e.state <;> rfl

theorem ignores_read_cmd (k : Consts) (i : Nat) : ignores_completions (read_cmd k i) :=
  ⟨fun _ _ _ => rfl⟩

/-! ## Handlers run the same whatever the completion queue holds -/

theorem fs_queue_produce_append (k : Consts) (q : fs_queue fs_cmpl_t) (l1 l2 : List fs_cmpl_t) :
    fs_queue_produce k q (l1 ++ l2) = fs_queue_produce k (fs_queue_produce k q l1) l2 := by
  unfold fs_queue_produce
  rw [List.foldl_append]

theorem length_produce_le (k : Consts) (l : List fs_cmpl_t) :
    ∀ q : fs_queue fs_cmpl_t,
      fs_queue_length_producer (fs_queue_produce k q l) ≤ fs_queue_length_producer q + l.length := by
  induction l with
  | nil => intro q; exact Nat.le_refl _
  | cons c l ih =>
    intro q
    have h1 := ih (fs_queue_publish_production (fs_queue_write q (fs_queue_idx_empty k q 0) c) 1)
    have h2 : fs_queue_length_producer
        (fs_queue_publish_production (fs_queue_write q (fs_queue_idx_empty k q 0) c) 1) ≤
        fs_queue_length_producer q + 1 := by
      unfold fs_queue_publish_production fs_queue_write fs_queue_length_producer u64_sub u64_add
      dsimp only
      unfold U64
      omega
    have h3 : fs_queue_produce k q (c :: l) =
        fs_queue_produce k
          (fs_queue_publish_production (fs_queue_write q (fs_queue_idx_empty k q 0) c) 1) l := rfl
    rw [h3, List.length_cons]
    omega

theorem bind_eq_error {α β : Type} {m : M α} {f : α → M β} {s : State} {e : Fault}
    (h : (m >>= f) s = .error e) :
    m s = .error e ∨ ∃ a t, m s = .ok (a, t) ∧ f a t = .error e := by
  rw [bind_apply] at h
  cases hm : m s with
  | error e0 =>
    rw [hm] at h
    have h0 : (Except.error e0 : Except Fault (β × State)) = .error e := h
    injection h0 with h0
    subst h0
    exact Or.inl rfl
  | ok r =>
    obtain ⟨a, t⟩ := r
    rw [hm] at h
    exact Or.inr ⟨a, t, rfl, h⟩

theorem blind_of_ignores (k : Consts) {α : Type} {b : Nat} {m : M α}
    (hm : ignores_completions m) : completion_blind k b m := by
  constructor
  intro s q n _ _
  constructor
  · intro a s' h
    have h0 := hm.run s s.completion_queue s.notified
    rw [with_completions_self, h] at h0
    have hs' : s' = with_completions s' s.completion_queue s.notified := (ok_inj h0).2
    refine ⟨[], Nat.zero_le b, ?_, ?_, ?_⟩
    · have h1 := congrArg State.completion_queue hs'
      exact h1
    · have h2 := congrArg State.notified hs'
      exact h2
    · rw [hm.run, h]
      rfl
  · intro f h
    rw [hm.run, h]
    rfl

theorem blind_pure (k : Consts) {α : Type} {b : Nat} (a : α) :
    completion_blind k b (pure a : M α) :=
  blind_of_ignores k (ignores_pure a)

theorem blind_reply (k : Consts) (cmpl : fs_cmpl_t) : completion_blind k 1 (reply k cmpl) := by
  constructor
  intro s q n hs hq
  have hs1 : fs_queue_length_producer s.completion_queue ≠ k.FS_QUEUE_CAPACITY := by omega
  have hq1 : fs_queue_length_producer q ≠ k.FS_QUEUE_CAPACITY := by omega
  have hrun := @reply_ok k s cmpl hs1
  constructor
  · intro a s' h
    rw [hrun] at h
    obtain ⟨_, rfl⟩ := ok_inj h
    refine ⟨[cmpl], Nat.le_refl 1, rfl, rfl, ?_⟩
    have := @reply_ok k (with_completions s q n) cmpl hq1
    rw [this]
    rfl
  · intro f h
    rw [hrun] at h
    cases h

theorem blind_bind (k : Consts) {α β : Type} {b1 b2 : Nat} {m : M α} {f : α → M β}
    (hm : completion_blind k b1 m) (hf : ∀ a, completion_blind k b2 (f a)) :
    completion_blind k (b1 + b2) (m >>= f) := by
  constructor
  intro s q n hs hq
  obtain ⟨hok, herr⟩ := hm.run s q n (by omega) (by omega)
  have hnext : ∀ a s', m s = .ok (a, s') → ∃ l1 : List fs_cmpl_t,
      l1.length ≤ b1 ∧ s'.completion_queue = fs_queue_produce k s.completion_queue l1 ∧
      s'.notified = s.notified + l1.length ∧
      m (with_completions s q n) =
        .ok (a, with_completions s' (fs_queue_produce k q l1) (n + l1.length)) ∧
      fs_queue_length_producer s'.completion_queue + b2 ≤ k.FS_QUEUE_CAPACITY ∧
      fs_queue_length_producer (fs_queue_produce k q l1) + b2 ≤ k.FS_QUEUE_CAPACITY := by
    intro a s' h1
    obtain ⟨l1, hl1, hq1, hn1, hr1⟩ := hok a s' h1
    refine ⟨l1, hl1, hq1, hn1, hr1, ?_, ?_⟩
    · rw [hq1]
      have := length_produce_le k l1 s.completion_queue
      omega
    · have := length_produce_le k l1 q
      omega
  constructor
  · intro c s'' h
    obtain ⟨a, s', h1, h2⟩ := bind_eq_ok h
    obtain ⟨l1, hl1, hq1, hn1, hr1, hs', hq'⟩ := hnext a s' h1
    obtain ⟨l2, hl2, hq2, hn2, hr2⟩ :=
      ((hf a).run s' (fs_queue_produce k q l1) (n + l1.length) hs' hq').1 c s'' h2
    refine ⟨l1 ++ l2, ?_, ?_, ?_, ?_⟩
    · rw [List.length_append]; omega
    · rw [hq2, hq1, fs_queue_produce_append]
    · rw [hn2, hn1, List.length_append]; omega
    · rw [bind_ok hr1, hr2, fs_queue_produce_append, List.length_append, Nat.add_assoc]
  · intro e h
    rcases bind_eq_error h with h1 | ⟨a, s', h1, h2⟩
    · exact bind_error (herr e h1)
    · obtain ⟨l1, _, _, _, hr1, hs', hq'⟩ := hnext a s' h1
      rw [bind_ok hr1]
      exact ((hf a).run s' (fs_queue_produce k q l1) (n + l1.length) hs' hq').2 e h2

theorem blind_bind0 (k : Consts) {α β : Type} {b : Nat} {m : M α} {f : α → M β}
    (hm : ignores_completions m) (hf : ∀ a, completion_blind k b (f a)) :
    completion_blind k b (m >>= f) := by
  have h := blind_bind k (blind_of_ignores k hm : completion_blind k 0 m) hf
  rwa [Nat.zero_add] at h

theorem handle_initialise_blind (k : Consts) (env : nfs_env) (cmd : fs_cmd_t) :
    completion_blind k 1 (handle_initialise k env cmd) := by
  unfold handle_initialise
  repeat' first
    | apply blind_bind0
    | exact blind_reply _ _
    | exact blind_pure _ _
    | exact ignores_assert _
    | exact ignores_alloc _
    | exact ignores_free _ _
    | exact ignores_set_request_id _ _ _
    | exact ignores_set_data _ _ _ _
    | exact ignores_get_buffer _
    | exact ignores_copy_path _ _ _
    | exact ignores_memcpy_to_mem _ _ _
    | exact ignores_get_nfs
    | exact ignores_nfs_init_context _
    | exact ignores_nfs_async _ _ _ _
    | exact ignores_nfs_set_autoreconnect _
    | exact ignores_nfs_closedir _
    | exact ignores_nfs_seekdir _ _
    | exact ignores_nfs_rewinddir _
    | exact ignores_nfs_readdir _ _
    | exact ignores_nfs_telldir _ _
    | exact ignores_fd_alloc
    | exact ignores_fd_set_file _ _
    | exact ignores_fd_begin_op_file _
    | exact ignores_fd_begin_op_dir _
    | exact ignores_fd_end_op _
    | exact ignores_fd_unset _
    | exact ignores_fd_free _
    | intro _
    | split

theorem handle_open_blind (k : Consts) (env : nfs_env) (cmd : fs_cmd_t) :
    completion_blind k 1 (handle_open k env cmd) := by
  unfold handle_open
  repeat' first
    | apply blind_bind0
    | exact blind_reply _ _
    | exact blind_pure _ _
    | exact ignores_assert _
    | exact ignores_alloc _
    | exact ignores_free _ _
    | exact ignores_set_request_id _ _ _
    | exact ignores_set_data _ _ _ _
    | exact ignores_get_buffer _
    | exact ignores_copy_path _ _ _
    | exact ignores_memcpy_to_mem _ _ _
    | exact ignores_get_nfs
    | exact ignores_nfs_init_context _
    | exact ignores_nfs_async _ _ _ _
    | exact ignores_nfs_set_autoreconnect _
    | exact ignores_nfs_closedir _
    | exact ignores_nfs_seekdir _ _
    | exact ignores_nfs_rewinddir _
    | exact ignores_nfs_readdir _ _
    | exact ignores_nfs_telldir _ _
    | exact ignores_fd_alloc
    | exact ignores_fd_set_file _ _
    | exact ignores_fd_begin_op_file _
    | exact ignores_fd_begin_op_dir _
    | exact ignores_fd_end_op _
    | exact ignores_fd_unset _
    | exact ignores_fd_free _
    | intro _
    | split

theorem handle_close_blind (k : Consts) (env : nfs_env) (cmd : fs_cmd_t) :
    completion_blind k 1 (handle_close k env cmd) := by
  unfold handle_close
  repeat' first
    | apply blind_bind0
    | exact blind_reply _ _
    | exact blind_pure _ _
    | exact ignores_assert _
    | exact ignores_alloc _
    | exact ignores_free _ _
    | exact ignores_set_request_id _ _ _
    | exact ignores_set_data _ _ _ _
    | exact ignores_get_buffer _
    | exact ignores_copy_path _ _ _
    | exact ignores_memcpy_to_mem _ _ _
    | exact ignores_get_nfs
    | exact ignores_nfs_init_context _
    | exact ignores_nfs_async _ _ _ _
    | exact ignores_nfs_set_autoreconnect _
    | exact ignores_nfs_closedir _
    | exact ignores_nfs_seekdir _ _
    | exact ignores_nfs_rewinddir _
    | exact ignores_nfs_readdir _ _
    | exact ignores_nfs_telldir _ _
    | exact ignores_fd_alloc
    | exact ignores_fd_set_file _ _
    | exact ignores_fd_begin_op_file _
    | exact ignores_fd_begin_op_dir _
    | exact ignores_fd_end_op _
    | exact ignores_fd_unset _
    | exact ignores_fd_free _
    | intro _
    | split

theorem handle_stat_blind (k : Consts) (env : nfs_env) (cmd : fs_cmd_t) :
    completion_blind k 1 (handle_stat k env cmd) := by
  unfold handle_stat
  repeat' first
    | apply blind_bind0
    | exact blind_reply _ _
    | exact blind_pure _ _
    | exact ignores_assert _
    | exact ignores_alloc _
    | exact ignores_free _ _
    | exact ignores_set_request_id _ _ _
    | exact ignores_set_data _ _ _ _
    | exact ignores_get_buffer _
    | exact ignores_copy_path _ _ _
    | exact ignores_memcpy_to_mem _ _ _
    | exact ignores_get_nfs
    | exact ignores_nfs_init_context _
    | exact ignores_nfs_async _ _ _ _
    | exact ignores_nfs_set_autoreconnect _
    | exact ignores_nfs_closedir _
    | exact ignores_nfs_seekdir _ _
    | exact ignores_nfs_rewinddir _
    | exact ignores_nfs_readdir _ _
    | exact ignores_nfs_telldir _ _
    | exact ignores_fd_alloc
    | exact ignores_fd_set_file _ _
    | exact ignores_fd_begin_op_file _
    | exact ignores_fd_begin_op_dir _
    | exact ignores_fd_end_op _
    | exact ignores_fd_unset _
    | exact ignores_fd_free _
    | intro _
    | split

theorem handle_read_blind (k : Consts) (env : nfs_env) (cmd : fs_cmd_t) :
    completion_blind k 1 (handle_read k env cmd) := by
  unfold handle_read
  repeat' first
    | apply blind_bind0
    | exact blind_reply _ _
    | exact blind_pure _ _
    | exact ignores_assert _
    | exact ignores_alloc _
    | exact ignores_free _ _
    | exact ignores_set_request_id _ _ _
    | exact ignores_set_data _ _ _ _
    | exact ignores_get_buffer _
    | exact ignores_copy_path _ _ _
    | exact ignores_memcpy_to_mem _ _ _
    | exact ignores_get_nfs
    | exact ignores_nfs_init_context _
    | exact ignores_nfs_async _ _ _ _
    | exact ignores_nfs_set_autoreconnect _
    | exact ignores_nfs_closedir _
    | exact ignores_nfs_seekdir _ _
    | exact ignores_nfs_rewinddir _
    | exact ignores_nfs_readdir _ _
    | exact ignores_nfs_telldir _ _
    | exact ignores_fd_alloc
    | exact ignores_fd_set_file _ _
    | exact ignores_fd_begin_op_file _
    | exact ignores_fd_begin_op_dir _
    | exact ignores_fd_end_op _
    | exact ignores_fd_unset _
    | exact ignores_fd_free _
    | intro _
    | split

theorem handle_write_blind (k : Consts) (env : nfs_env) (cmd : fs_cmd_t) :
    completion_blind k 1 (handle_write k env cmd) := by
  unfold handle_write
  repeat' first
    | apply blind_bind0
    | exact blind_reply _ _
    | exact blind_pure _ _
    | exact ignores_assert _
    | exact ignores_alloc _
    | exact ignores_free _ _
    | exact ignores_set_request_id _ _ _
    | exact ignores_set_data _ _ _ _
    | exact ignores_get_buffer _
    | exact ignores_copy_path _ _ _
    | exact ignores_memcpy_to_mem _ _ _
    | exact ignores_get_nfs
    | exact ignores_nfs_init_context _
    | exact ignores_nfs_async _ _ _ _
    | exact ignores_nfs_set_autoreconnect _
    | exact ignores_nfs_closedir _
    | exact ignores_nfs_seekdir _ _
    | exact ignores_nfs_rewinddir _
    | exact ignores_nfs_readdir _ _
    | exact ignores_nfs_telldir _ _
    | exact ignores_fd_alloc
    | exact ignores_fd_set_file _ _
    | exact ignores_fd_begin_op_file _
    | exact ignores_fd_begin_op_dir _
    | exact ignores_fd_end_op _
    | exact ignores_fd_unset _
    | exact ignores_fd_free _
    | intro _
    | split

theorem handle_fsize_blind (k : Consts) (env : nfs_env) (cmd : fs_cmd_t) :
    completion_blind k 1 (handle_fsize k env cmd) := by
  unfold handle_fsize
  repeat' first
    | apply blind_bind0
    | exact blind_reply _ _
    | exact blind_pure _ _
    | exact ignores_assert _
    | exact ignores_alloc _
    | exact ignores_free _ _
    | exact ignores_set_request_id _ _ _
    | exact ignores_set_data _ _ _ _
    | exact ignores_get_buffer _
    | exact ignores_copy_path _ _ _
    | exact ignores_memcpy_to_mem _ _ _
    | exact ignores_get_nfs
    | exact ignores_nfs_init_context _
    | exact ignores_nfs_async _ _ _ _
    | exact ignores_nfs_set_autoreconnect _
    | exact ignores_nfs_closedir _
    | exact ignores_nfs_seekdir _ _
    | exact ignores_nfs_rewinddir _
    | exact ignores_nfs_readdir _ _
    | exact ignores_nfs_telldir _ _
    | exact ignores_fd_alloc
    | exact ignores_fd_set_file _ _
    | exact ignores_fd_begin_op_file _
    | exact ignores_fd_begin_op_dir _
    | exact ignores_fd_end_op _
    | exact ignores_fd_unset _
    | exact ignores_fd_free _
    | intro _
    | split

theorem handle_rename_blind (k : Consts) (env : nfs_env) (cmd : fs_cmd_t) :
    completion_blind k 1 (handle_rename k env cmd) := by
  unfold handle_rename
  repeat' first
    | apply blind_bind0
    | exact blind_reply _ _
    | exact blind_pure _ _
    | exact ignores_assert _
    | exact ignores_alloc _
    | exact ignores_free _ _
    | exact ignores_set_request_id _ _ _
    | exact ignores_set_data _ _ _ _
    | exact ignores_get_buffer _
    | exact ignores_copy_path _ _ _
    | exact ignores_memcpy_to_mem _ _ _
    | exact ignores_get_nfs
    | exact ignores_nfs_init_context _
    | exact ignores_nfs_async _ _ _ _
    | exact ignores_nfs_set_autoreconnect _
    | exact ignores_nfs_closedir _
    | exact ignores_nfs_seekdir _ _
    | exact ignores_nfs_rewinddir _
    | exact ignores_nfs_readdir _ _
    | exact ignores_nfs_telldir _ _
    | exact ignores_fd_alloc
    | exact ignores_fd_set_file _ _
    | exact ignores_fd_begin_op_file _
    | exact ignores_fd_begin_op_dir _
    | exact ignores_fd_end_op _
    | exact ignores_fd_unset _
    | exact ignores_fd_free _
    | intro _
    | split

theorem handle_unlink_blind (k : Consts) (env : nfs_env) (cmd : fs_cmd_t) :
    completion_blind k 1 (handle_unlink k env cmd) := by
  unfold handle_unlink
  repeat' first
    | apply blind_bind0
    | exact blind_reply _ _
    | exact blind_pure _ _
    | exact ignores_assert _
    | exact ignores_alloc _
    | exact ignores_free _ _
    | exact ignores_set_request_id _ _ _
    | exact ignores_set_data _ _ _ _
    | exact ignores_get_buffer _
    | exact ignores_copy_path _ _ _
    | exact ignores_memcpy_to_mem _ _ _
    | exact ignores_get_nfs
    | exact ignores_nfs_init_context _
    | exact ignores_nfs_async _ _ _ _
    | exact ignores_nfs_set_autoreconnect _
    | exact ignores_nfs_closedir _
    | exact ignores_nfs_seekdir _ _
    | exact ignores_nfs_rewinddir _
    | exact ignores_nfs_readdir _ _
    | exact ignores_nfs_telldir _ _
    | exact ignores_fd_alloc
    | exact ignores_fd_set_file _ _
    | exact ignores_fd_begin_op_file _
    | exact ignores_fd_begin_op_dir _
    | exact ignores_fd_end_op _
    | exact ignores_fd_unset _
    | exact ignores_fd_free _
    | intro _
    | split

theorem handle_truncate_blind (k : Consts) (env : nfs_env) (cmd : fs_cmd_t) :
    completion_blind k 1 (handle_truncate k env cmd) := by
  unfold handle_truncate
  repeat' first
    | apply blind_bind0
    | exact blind_reply _ _
    | exact blind_pure _ _
    | exact ignores_assert _
    | exact ignores_alloc _
    | exact ignores_free _ _
    | exact ignores_set_request_id _ _ _
    | exact ignores_set_data _ _ _ _
    | exact ignores_get_buffer _
    | exact ignores_copy_path _ _ _
    | exact ignores_memcpy_to_mem _ _ _
    | exact ignores_get_nfs
    | exact ignores_nfs_init_context _
    | exact ignores_nfs_async _ _ _ _
    | exact ignores_nfs_set_autoreconnect _
    | exact ignores_nfs_closedir _
    | exact ignores_nfs_seekdir _ _
    | exact ignores_nfs_rewinddir _
    | exact ignores_nfs_readdir _ _
    | exact ignores_nfs_telldir _ _
    | exact ignores_fd_alloc
    | exact ignores_fd_set_file _ _
    | exact ignores_fd_begin_op_file _
    | exact ignores_fd_begin_op_dir _
    | exact ignores_fd_end_op _
    | exact ignores_fd_unset _
    | exact ignores_fd_free _
    | intro _
    | split

theorem handle_mkdir_blind (k : Consts) (env : nfs_env) (cmd : fs_cmd_t) :
    completion_blind k 1 (handle_mkdir k env cmd) := by
  unfold handle_mkdir
  repeat' first
    | apply blind_bind0
    | exact blind_reply _ _
    | exact blind_pure _ _
    | exact ignores_assert _
    | exact ignores_alloc _
    | exact ignores_free _ _
    | exact ignores_set_request_id _ _ _
    | exact ignores_set_data _ _ _ _
    | exact ignores_get_buffer _
    | exact ignores_copy_path _ _ _
    | exact ignores_memcpy_to_mem _ _ _
    | exact ignores_get_nfs
    | exact ignores_nfs_init_context _
    | exact ignores_nfs_async _ _ _ _
    | exact ignores_nfs_set_autoreconnect _
    | exact ignores_nfs_closedir _
    | exact ignores_nfs_seekdir _ _
    | exact ignores_nfs_rewinddir _
    | exact ignores_nfs_readdir _ _
    | exact ignores_nfs_telldir _ _
    | exact ignores_fd_alloc
    | exact ignores_fd_set_file _ _
    | exact ignores_fd_begin_op_file _
    | exact ignores_fd_begin_op_dir _
    | exact ignores_fd_end_op _
    | exact ignores_fd_unset _
    | exact ignores_fd_free _
    | intro _
    | split

theorem handle_rmdir_blind (k : Consts) (env : nfs_env) (cmd : fs_cmd_t) :
    completion_blind k 1 (handle_rmdir k env cmd) := by
  unfold handle_rmdir
  repeat' first
    | apply blind_bind0
    | exact blind_reply _ _
    | exact blind_pure _ _
    | exact ignores_assert _
    | exact ignores_alloc _
    | exact ignores_free _ _
    | exact ignores_set_request_id _ _ _
    | exact ignores_set_data _ _ _ _
    | exact ignores_get_buffer _
    | exact ignores_copy_path _ _ _
    | exact ignores_memcpy_to_mem _ _ _
    | exact ignores_get_nfs
    | exact ignores_nfs_init_context _
    | exact ignores_nfs_async _ _ _ _
    | exact ignores_nfs_set_autoreconnect _
    | exact ignores_nfs_closedir _
    | exact ignores_nfs_seekdir _ _
    | exact ignores_nfs_rewinddir _
    | exact ignores_nfs_readdir _ _
    | exact ignores_nfs_telldir _ _
    | exact ignores_fd_alloc
    | exact ignores_fd_set_file _ _
    | exact ignores_fd_begin_op_file _
    | exact ignores_fd_begin_op_dir _
    | exact ignores_fd_end_op _
    | exact ignores_fd_unset _
    | exact ignores_fd_free _
    | intro _
    | split

theorem handle_opendir_blind (k : Consts) (env : nfs_env) (cmd : fs_cmd_t) :
    completion_blind k 1 (handle_opendir k env cmd) := by
  unfold handle_opendir
  repeat' first
    | apply blind_bind0
    | exact blind_reply _ _
    | exact blind_pure _ _
    | exact ignores_assert _
    | exact ignores_alloc _
    | exact ignores_free _ _
    | exact ignores_set_request_id _ _ _
    | exact ignores_set_data _ _ _ _
    | exact ignores_get_buffer _
    | exact ignores_copy_path _ _ _
    | exact ignores_memcpy_to_mem _ _ _
    | exact ignores_get_nfs
    | exact ignores_nfs_init_context _
    | exact ignores_nfs_async _ _ _ _
    | exact ignores_nfs_set_autoreconnect _
    | exact ignores_nfs_closedir _
    | exact ignores_nfs_seekdir _ _
    | exact ignores_nfs_rewinddir _
    | exact ignores_nfs_readdir _ _
    | exact ignores_nfs_telldir _ _
    | exact ignores_fd_alloc
    | exact ignores_fd_set_file _ _
    | exact ignores_fd_begin_op_file _
    | exact ignores_fd_begin_op_dir _
    | exact ignores_fd_end_op _
    | exact ignores_fd_unset _
    | exact ignores_fd_free _
    | intro _
    | split

theorem handle_closedir_blind (k : Consts) (env : nfs_env) (cmd : fs_cmd_t) :
    completion_blind k 1 (handle_closedir k env cmd) := by
  unfold handle_closedir
  repeat' first
    | apply blind_bind0
    | exact blind_reply _ _
    | exact blind_pure _ _
    | exact ignores_assert _
    | exact ignores_alloc _
    | exact ignores_free _ _
    | exact ignores_set_request_id _ _ _
    | exact ignores_set_data _ _ _ _
    | exact ignores_get_buffer _
    | exact ignores_copy_path _ _ _
    | exact ignores_memcpy_to_mem _ _ _
    | exact ignores_get_nfs
    | exact ignores_nfs_init_context _
    | exact ignores_nfs_async _ _ _ _
    | exact ignores_nfs_set_autoreconnect _
    | exact ignores_nfs_closedir _
    | exact ignores_nfs_seekdir _ _
    | exact ignores_nfs_rewinddir _
    | exact ignores_nfs_readdir _ _
    | exact ignores_nfs_telldir _ _
    | exact ignores_fd_alloc
    | exact ignores_fd_set_file _ _
    | exact ignores_fd_begin_op_file _
    | exact ignores_fd_begin_op_dir _
    | exact ignores_fd_end_op _
    | exact ignores_fd_unset _
    | exact ignores_fd_free _
    | intro _
    | split

theorem handle_fsync_blind (k : Consts) (env : nfs_env) (cmd : fs_cmd_t) :
    completion_blind k 1 (handle_fsync k env cmd) := by
  unfold handle_fsync
  repeat' first
    | apply blind_bind0
    | exact blind_reply _ _
    | exact blind_pure _ _
    | exact ignores_assert _
    | exact ignores_alloc _
    | exact ignores_free _ _
    | exact ignores_set_request_id _ _ _
    | exact ignores_set_data _ _ _ _
    | exact ignores_get_buffer _
    | exact ignores_copy_path _ _ _
    | exact ignores_memcpy_to_mem _ _ _
    | exact ignores_get_nfs
    | exact ignores_nfs_init_context _
    | exact ignores_nfs_async _ _ _ _
    | exact ignores_nfs_set_autoreconnect _
    | exact ignores_nfs_closedir _
    | exact ignores_nfs_seekdir _ _
    | exact ignores_nfs_rewinddir _
    | exact ignores_nfs_readdir _ _
    | exact ignores_nfs_telldir _ _
    | exact ignores_fd_alloc
    | exact ignores_fd_set_file _ _
    | exact ignores_fd_begin_op_file _
    | exact ignores_fd_begin_op_dir _
    | exact ignores_fd_end_op _
    | exact ignores_fd_unset _
    | exact ignores_fd_free _
    | intro _
    | split

theorem handle_readdir_blind (k : Consts) (env : nfs_env) (cmd : fs_cmd_t) :
    completion_blind k 1 (handle_readdir k env cmd) := by
  unfold handle_readdir
  repeat' first
    | apply blind_bind0
    | exact blind_reply _ _
    | exact blind_pure _ _
    | exact ignores_assert _
    | exact ignores_alloc _
    | exact ignores_free _ _
    | exact ignores_set_request_id _ _ _
    | exact ignores_set_data _ _ _ _
    | exact ignores_get_buffer _
    | exact ignores_copy_path _ _ _
    | exact ignores_memcpy_to_mem _ _ _
    | exact ignores_get_nfs
    | exact ignores_nfs_init_context _
    | exact ignores_nfs_async _ _ _ _
    | exact ignores_nfs_set_autoreconnect _
    | exact ignores_nfs_closedir _
    | exact ignores_nfs_seekdir _ _
    | exact ignores_nfs_rewinddir _
    | exact ignores_nfs_readdir _ _
    | exact ignores_nfs_telldir _ _
    | exact ignores_fd_alloc
    | exact ignores_fd_set_file _ _
    | exact ignores_fd_begin_op_file _
    | exact ignores_fd_begin_op_dir _
    | exact ignores_fd_end_op _
    | exact ignores_fd_unset _
    | exact ignores_fd_free _
    | intro _
    | split

theorem handle_seekdir_blind (k : Consts) (env : nfs_env) (cmd : fs_cmd_t) :
    completion_blind k 1 (handle_seekdir k env cmd) := by
  unfold handle_seekdir
  repeat' first
    | apply blind_bind0
    | exact blind_reply _ _
    | exact blind_pure _ _
    | exact ignores_assert _
    | exact ignores_alloc _
    | exact ignores_free _ _
    | exact ignores_set_request_id _ _ _
    | exact ignores_set_data _ _ _ _
    | exact ignores_get_buffer _
    | exact ignores_copy_path _ _ _
    | exact ignores_memcpy_to_mem _ _ _
    | exact ignores_get_nfs
    | exact ignores_nfs_init_context _
    | exact ignores_nfs_async _ _ _ _
    | exact ignores_nfs_set_autoreconnect _
    | exact ignores_nfs_closedir _
    | exact ignores_nfs_seekdir _ _
    | exact ignores_nfs_rewinddir _
    | exact ignores_nfs_readdir _ _
    | exact ignores_nfs_telldir _ _
    | exact ignores_fd_alloc
    | exact ignores_fd_set_file _ _
    | exact ignores_fd_begin_op_file _
    | exact ignores_fd_begin_op_dir _
    | exact ignores_fd_end_op _
    | exact ignores_fd_unset _
    | exact ignores_fd_free _
    | intro _
    | split

theorem handle_telldir_blind (k : Consts) (env : nfs_env) (cmd : fs_cmd_t) :
    completion_blind k 1 (handle_telldir k env cmd) := by
  unfold handle_telldir
  repeat' first
    | apply blind_bind0
    | exact blind_reply _ _
    | exact blind_pure _ _
    | exact ignores_assert _
    | exact ignores_alloc _
    | exact ignores_free _ _
    | exact ignores_set_request_id _ _ _
    | exact ignores_set_data _ _ _ _
    | exact ignores_get_buffer _
    | exact ignores_copy_path _ _ _
    | exact ignores_memcpy_to_mem _ _ _
    | exact ignores_get_nfs
    | exact ignores_nfs_init_context _
    | exact ignores_nfs_async _ _ _ _
    | exact ignores_nfs_set_autoreconnect _
    | exact ignores_nfs_closedir _
    | exact ignores_nfs_seekdir _ _
    | exact ignores_nfs_rewinddir _
    | exact ignores_nfs_readdir _ _
    | exact ignores_nfs_telldir _ _
    | exact ignores_fd_alloc
    | exact ignores_fd_set_file _ _
    | exact ignores_fd_begin_op_file _
    | exact ignores_fd_begin_op_dir _
    | exact ignores_fd_end_op _
    | exact ignores_fd_unset _
    | exact ignores_fd_free _
    | intro _
    | split

theorem handle_rewinddir_blind (k : Consts) (env : nfs_env) (cmd : fs_cmd_t) :
    completion_blind k 1 (handle_rewinddir k env cmd) := by
  unfold handle_rewinddir
  repeat' first
    | apply blind_bind0
    | exact blind_reply _ _
    | exact blind_pure _ _
    | exact ignores_assert _
    | exact ignores_alloc _
    | exact ignores_free _ _
    | exact ignores_set_request_id _ _ _
    | exact ignores_set_data _ _ _ _
    | exact ignores_get_buffer _
    | exact ignores_copy_path _ _ _
    | exact ignores_memcpy_to_mem _ _ _
    | exact ignores_get_nfs
    | exact ignores_nfs_init_context _
    | exact ignores_nfs_async _ _ _ _
    | exact ignores_nfs_set_autoreconnect _
    | exact ignores_nfs_closedir _
    | exact ignores_nfs_seekdir _ _
    | exact ignores_nfs_rewinddir _
    | exact ignores_nfs_readdir _ _
    | exact ignores_nfs_telldir _ _
    | exact ignores_fd_alloc
    | exact ignores_fd_set_file _ _
    | exact ignores_fd_begin_op_file _
    | exact ignores_fd_begin_op_dir _
    | exact ignores_fd_end_op _
    | exact ignores_fd_unset _
    | exact ignores_fd_free _
    | intro _
    | split

theorem handle_deinitialise_blind (k : Consts) (env : nfs_env) (cmd : fs_cmd_t) :
    completion_blind k 1 (handle_deinitialise k env cmd) :=
  blind_pure k ()

theorem process_command_blind (k : Consts) (env : nfs_env) (cmd : fs_cmd_t) :
    completion_blind k 1 (process_command k env cmd) := by
  unfold process_command
  split
  · exact blind_reply _ _
  · rename_i hlt
    unfold FS_NUM_COMMANDS at hlt
    have hcases : cmd.type = 0 ∨ cmd.type = 1 ∨ cmd.type = 2 ∨ cmd.type = 3 ∨ cmd.type = 4 ∨
        cmd.type = 5 ∨ cmd.type = 6 ∨ cmd.type = 7 ∨ cmd.type = 8 ∨ cmd.type = 9 ∨
        cmd.type = 10 ∨ cmd.type = 11 ∨ cmd.type = 12 ∨ cmd.type = 13 ∨ cmd.type = 14 ∨
        cmd.type = 15 ∨ cmd.type = 16 ∨ cmd.type = 17 ∨ cmd.type = 18 ∨ cmd.type = 19 := by
      omega
    rcases hcases with h | h | h | h | h | h | h | h | h | h | h | h | h | h | h | h | h | h |
      h | h
    · rw [h, show cmd_handler 0 = some handle_initialise from rfl]
      exact handle_initialise_blind k env cmd
    · rw [h, show cmd_handler 1 = some handle_deinitialise from rfl]
      exact handle_deinitialise_blind k env cmd
    · rw [h, show cmd_handler 2 = some handle_open from rfl]
      exact handle_open_blind k env cmd
    · rw [h, show cmd_handler 3 = some handle_close from rfl]
      exact handle_close_blind k env cmd
    · rw [h, show cmd_handler 4 = some handle_stat from rfl]
      exact handle_stat_blind k env cmd
    · rw [h, show cmd_handler 5 = some handle_read from rfl]
      exact handle_read_blind k env cmd
    · rw [h, show cmd_handler 6 = some handle_write from rfl]
      exact handle_write_blind k env cmd
    · rw [h, show cmd_handler 7 = some handle_fsize from rfl]
      exact handle_fsize_blind k env cmd
    · rw [h, show cmd_handler 8 = some handle_rename from rfl]
      exact handle_rename_blind k env cmd
    · rw [h, show cmd_handler 9 = some handle_unlink from rfl]
      exact handle_unlink_blind k env cmd
    · rw [h, show cmd_handler 10 = some handle_truncate from rfl]
      exact handle_truncate_blind k env cmd
    · rw [h, show cmd_handler 11 = some handle_mkdir from rfl]
      exact handle_mkdir_blind k env cmd
    · rw [h, show cmd_handler 12 = some handle_rmdir from rfl]
      exact handle_rmdir_blind k env cmd
    · rw [h, show cmd_handler 13 = some handle_opendir from rfl]
      exact handle_opendir_blind k env cmd
    · rw [h, show cmd_handler 14 = some handle_closedir from rfl]
      exact handle_closedir_blind k env cmd
    · rw [h, show cmd_handler 15 = some handle_fsync from rfl]
      exact handle_fsync_blind k env cmd
    · rw [h, show cmd_handler 16 = some handle_readdir from rfl]
      exact handle_readdir_blind k env cmd
    · rw [h, show cmd_handler 17 = some handle_seekdir from rfl]
      exact handle_seekdir_blind k env cmd
    · rw [h, show cmd_handler 18 = some handle_telldir from rfl]
      exact handle_telldir_blind k env cmd
    · rw [h, show cmd_handler 19 = some handle_rewinddir from rfl]
      exact handle_rewinddir_blind k env cmd

theorem process_commands_loop_blind (k : Consts) (env : Nat → nfs_env) (n : Nat) :
    ∀ (fuel i : Nat), completion_blind k (n - i) (process_commands_loop k env n fuel i)
  | 0, _ => blind_pure k ()
  | fuel + 1, i => by
    unfold process_commands_loop
    split
    · rename_i hi
      apply blind_bind0 k (ignores_read_cmd k i)
      intro cmd
      have h := blind_bind k (process_command_blind k (env i) cmd)
        (fun _ => process_commands_loop_blind k env n fuel (i + 1))
      have e : 1 + (n - (i + 1)) = n - i := by omega
      rwa [e] at h
    · exact blind_pure k ()

/-! ## Commands of unknown type -/

theorem process_command_invalid (k : Consts) (env : nfs_env) (cmd : fs_cmd_t)
    (hty : cmd.type ≥ FS_NUM_COMMANDS) :
    process_command k env cmd =
      reply k { id := cmd.id, status := FS_STATUS_INVALID_COMMAND, data := {} } := by
  unfold process_command
  rw [if_pos hty]

theorem process_commands_loop_succ (k : Consts) (env : Nat → nfs_env) (n fuel i : Nat)
    (s : State) (hi : i < n) :
    process_commands_loop k env n (fuel + 1) i s =
      (process_command k (env i) (nth_command k s i) >>= fun _ =>
        process_commands_loop k env n fuel (i + 1)) s := by
  rw [process_commands_loop, if_pos hi]
  rfl

/-- The back-pressure of `process_commands`: at entry the completion queue has
producer space for every command of the batch. -/
theorem back_pressure_at_entry (k : Consts) (s : State)
    (hq : fs_queue_length_producer s.completion_queue ≤ k.FS_QUEUE_CAPACITY)
    (hQ : k.FS_QUEUE_CAPACITY < U64) :
    fs_queue_length_producer s.completion_queue + (to_consume k s - 0) ≤
      k.FS_QUEUE_CAPACITY := by
  rw [to_consume_eq k s hq hQ]
  omega

/-- The back-pressure of `process_commands` is kept by every iteration of the
loop: a command publishes at most one completion, and leaves the command queue
alone. -/
theorem back_pressure_kept (k : Consts) (env : nfs_env) (n i : Nat) (s t : State)
    (hi : i < n)
    (hq : fs_queue_length_producer s.completion_queue + (n - i) ≤ k.FS_QUEUE_CAPACITY)
    (h : process_command k env (nth_command k s i) s = .ok ((), t)) :
    fs_queue_length_producer t.completion_queue + (n - (i + 1)) ≤ k.FS_QUEUE_CAPACITY ∧
    t.command_queue = s.command_queue := by
  obtain ⟨j, hj, hpub⟩ := (process_command_pub k env (nth_command k s i)).run s () t h
  refine ⟨?_, hpub.command_queue⟩
  have h1 := hpub.length
  have h2 : (fs_queue_length_producer s.completion_queue + j) % U64 ≤
      fs_queue_length_producer s.completion_queue + j := Nat.mod_le _ _
  omega

/-- C14. For a command in the batch whose type is not in the valid set
(`type >= FS_NUM_COMMANDS`), the loop of `process_commands` calls no handler:
handling it is the call of `reply` alone, whatever the NFS client library would
answer; with producer space in the completion queue this publishes exactly the
completion `{id = cmd.id, status = INVALID_COMMAND, data = 0}` and changes
nothing else. The loop then goes on with the next index in the state so
reached. Under the back-pressure of `process_commands`, which is that the
completion queue has producer space for this command and for every command
that follows it in the batch, the remaining commands are processed exactly as
if the invalid command had not been there: if the rest of the loop returns from
the state before the invalid command, having published the completions `l`, it
returns from the state after it, with the same result in every component but
the completion queue and the count of notifications, and publishes the same
completions `l` behind the `INVALID_COMMAND` completion; and if the rest of the
loop stops in a fault from the state before, it stops in the same fault from
the state after. -/
theorem invalid_command_is_skipped (k : Consts) (env : Nat → nfs_env) (n fuel i : Nat)
    (s : State) (hi : i < n) (hty : (nth_command k s i).type ≥ FS_NUM_COMMANDS)
    (hs : fs_queue_length_producer s.completion_queue ≠ k.FS_QUEUE_CAPACITY) :
    (∀ env' : nfs_env, process_command k env' (nth_command k s i) =
      reply k
        { id := (nth_command k s i).id, status := FS_STATUS_INVALID_COMMAND, data := {} }) ∧
    process_command k (env i) (nth_command k s i) s =
      .ok ((), reply_state k
        { id := (nth_command k s i).id, status := FS_STATUS_INVALID_COMMAND, data := {} } s) ∧
    process_commands_loop k env n (fuel + 1) i s =
      process_commands_loop k env n fuel (i + 1) (reply_state k
        { id := (nth_command k s i).id, status := FS_STATUS_INVALID_COMMAND, data := {} } s) ∧
    (fs_queue_length_producer s.completion_queue + (n - i) ≤ k.FS_QUEUE_CAPACITY →
      (∀ t, process_commands_loop k env n fuel (i + 1) s = .ok ((), t) →
        ∃ l : List fs_cmpl_t,
          l.length ≤ n - (i + 1) ∧
          t.completion_queue = fs_queue_produce k s.completion_queue l ∧
          t.notified = s.notified + l.length ∧
          process_commands_loop k env n fuel (i + 1) (reply_state k
              { id := (nth_command k s i).id, status := FS_STATUS_INVALID_COMMAND, data := {} }
              s) =
            .ok ((), with_completions t
              (fs_queue_produce k (reply_state k
                { id := (nth_command k s i).id, status := FS_STATUS_INVALID_COMMAND,
                  data := {} }
                s).completion_queue l)
              (s.notified + 1 + l.length))) ∧
      (∀ f, process_commands_loop k env n fuel (i + 1) s = .error f →
        process_commands_loop k env n fuel (i + 1) (reply_state k
            { id := (nth_command k s i).id, status := FS_STATUS_INVALID_COMMAND, data := {} }
            s) = .error f)) := by
  have h1 : ∀ env' : nfs_env, process_command k env' (nth_command k s i) =
      reply k
        { id := (nth_command k s i).id, status := FS_STATUS_INVALID_COMMAND, data := {} } :=
    fun env' => process_command_invalid k env' _ hty
  have h2 : process_command k (env i) (nth_command k s i) s =
      .ok ((), reply_state k
        { id := (nth_command k s i).id, status := FS_STATUS_INVALID_COMMAND, data := {} } s) := by
    rw [h1]
    exact reply_ok _ hs
  refine ⟨h1, h2, ?_, ?_⟩
  · rw [process_commands_loop_succ k env n fuel i s hi, bind_ok h2]
  · intro hq
    have hq1 := (back_pressure_kept k (env i) n i s _ hi hq h2).1
    have h := (process_commands_loop_blind k env n fuel (i + 1)).run s
      (reply_state k
        { id := (nth_command k s i).id, status := FS_STATUS_INVALID_COMMAND, data := {} }
        s).completion_queue (s.notified + 1) (by omega) hq1
    exact ⟨fun t ht => h.1 () t ht, h.2⟩

/-! ## Handlers that reach the submission -/

theorem wpt_fd_alloc_free {s : State} {e : fd_entry} {Q : Int × Nat → State → Prop}
    (he : e ∈ s.fd_table) (hst : e.state = fd_state.free)
    (h : ∀ fd e0, s.fd_table[fd]? = some e0 → e0.state = fd_state.free →
      Q (0, fd) { s with
        fd_table := s.fd_table.set fd { state := fd_state.reserved, counter := 0 } }) :
    wpt fd_alloc s Q := by
  obtain ⟨fd, e0, he0, hst0, heq⟩ := fd_alloc_ok he hst
  exact ⟨_, _, heq, h fd e0 he0 hst0⟩

theorem wpt_nfs_async_cases {env : nfs_env} {call : nfs_call} {cb : nfs_cb} {pd : Option Int}
    {s : State} {Q : Int → State → Prop}
    (h0 : env.err = 0 → Q 0 { s with
      pending := s.pending ++ [{ call := call, cb := cb, private_data := pd }]
      nfs_calls := s.nfs_calls ++ [call] })
    (h1 : env.err ≠ 0 → Q env.err { s with nfs_calls := s.nfs_calls ++ [call] }) :
    wpt (nfs_async env call cb pd) s Q := by
  by_cases h : env.err = 0
  · exact wpt_of_eq (nfs_async_accept call cb pd h) (h0 h)
  · exact wpt_of_eq (nfs_async_reject call cb pd h) (h1 h)

theorem open_posix_flags_eq (k : Consts) (flags : Nat) :
    (if flags &&& k.FS_OPEN_FLAGS_CREATE ≠ 0 then
      (if flags &&& k.FS_OPEN_FLAGS_READ_WRITE ≠ 0 then
        (if flags &&& k.FS_OPEN_FLAGS_WRITE_ONLY ≠ 0 then
          (if flags &&& k.FS_OPEN_FLAGS_READ_ONLY ≠ 0 then 0 ||| k.O_RDONLY else 0) |||
            k.O_WRONLY
        else (if flags &&& k.FS_OPEN_FLAGS_READ_ONLY ≠ 0 then 0 ||| k.O_RDONLY else 0)) |||
          k.O_RDWR
      else
        (if flags &&& k.FS_OPEN_FLAGS_WRITE_ONLY ≠ 0 then
          (if flags &&& k.FS_OPEN_FLAGS_READ_ONLY ≠ 0 then 0 ||| k.O_RDONLY else 0) |||
            k.O_WRONLY
        else (if flags &&& k.FS_OPEN_FLAGS_READ_ONLY ≠ 0 then 0 ||| k.O_RDONLY else 0))) |||
        k.O_CREAT
    else
      (if flags &&& k.FS_OPEN_FLAGS_READ_WRITE ≠ 0 then
        (if flags &&& k.FS_OPEN_FLAGS_WRITE_ONLY ≠ 0 then
          (if flags &&& k.FS_OPEN_FLAGS_READ_ONLY ≠ 0 then 0 ||| k.O_RDONLY else 0) |||
            k.O_WRONLY
        else (if flags &&& k.FS_OPEN_FLAGS_READ_ONLY ≠ 0 then 0 ||| k.O_RDONLY else 0)) |||
          k.O_RDWR
      else
        (if flags &&& k.FS_OPEN_FLAGS_WRITE_ONLY ≠ 0 then
          (if flags &&& k.FS_OPEN_FLAGS_READ_ONLY ≠ 0 then 0 ||| k.O_RDONLY else 0) |||
            k.O_WRONLY
        else (if flags &&& k.FS_OPEN_FLAGS_READ_ONLY ≠ 0 then 0 ||| k.O_RDONLY else 0)))) =
      open_flags_translation k flags := by
  unfold open_flags_translation open_flag_translations
  by_cases h1 : flags &&& k.FS_OPEN_FLAGS_READ_ONLY = 0 <;>
  by_cases h2 : flags &&& k.FS_OPEN_FLAGS_WRITE_ONLY = 0 <;>
  by_cases h3 : flags &&& k.FS_OPEN_FLAGS_READ_WRITE = 0 <;>
  by_cases h4 : flags &&& k.FS_OPEN_FLAGS_CREATE = 0 <;>
  simp [List.filter, h1, h2, h3, h4]

theorem handle_open_submits (k : Consts) (env : nfs_env) (cmd : fs_cmd_t) (s : State)
    (c : Nat) (fl : List Nat)
    (hp : PoolOK k s.continuation_pool s.first_free_cont (c :: fl))
    (hs : fs_queue_length_producer s.completion_queue ≠ k.FS_QUEUE_CAPACITY)
    (hcs : 0 < s.client_share)
    (hpath : path_ok k cmd.params.file_open.path)
    (e : fd_entry) (he : e ∈ s.fd_table) (hst : e.state = fd_state.free) :
    wpt (handle_open k env cmd) s (fun _ s' =>
      s'.nfs_calls = s.nfs_calls ++
        [nfs_call.open2 0 (open_flags_translation k cmd.params.file_open.flags) 0o644]) := by
  obtain ⟨c0, hff, hc, hcN, hcfl, hok⟩ := PoolOK_alloc hp
  unfold handle_open
  apply wpt_bind
  apply wpt_of_eq (copy_path_accept k 0 (Or.inl rfl) _ s hcs hpath.1 hpath.2)
  dsimp only
  apply wpt_bind
  apply wpt_fd_alloc_free (by exact he) hst
  intro fd e0 he0 hst0
  dsimp only
  rw [if_neg (by decide)]
  apply wpt_bind
  apply wpt_of_eq (continuation_alloc_ok (by exact hff) (by exact hc) hcN)
  apply wpt_bind; apply wpt_assert rfl
  apply wpt_bind
  apply wpt_of_eq (cont_set_request_id_ok _ (getElem?_set_of_some hc) hcN)
  apply wpt_bind
  apply wpt_of_eq (cont_set_data_ok _ _ (getElem?_set_of_some (getElem?_set_of_some hc)) hcN)
  apply wpt_bind
  apply wpt_nfs_async_cases
  · intro herr
    rw [if_neg (by simp)]
    apply wpt_pure
    show s.nfs_calls ++ [_] = _
    rw [open_posix_flags_eq]
    rfl
  · intro herr
    rw [if_pos herr]
    apply wpt_bind
    apply wpt_of_eq (continuation_free_ok
      (getElem?_set_of_some (getElem?_set_of_some (getElem?_set_of_some hc))) hcN rfl)
    apply wpt_bind
    apply wpt_of_eq (fd_free_ok (e := { state := fd_state.reserved, counter := 0 })
      (getElem?_set_of_some he0) rfl)
    apply wpt_reply (by exact hs)
    show s.nfs_calls ++ [_] = _
    rw [open_posix_flags_eq]
    rfl

/-! ## Rejected submissions are rolled back -/

theorem list_set_eq_self {α : Type} {l : List α} {i : Nat} {e : α} (h : l[i]? = some e) :
    l.set i e = l := by
  apply List.ext_getElem?
  intro j
  by_cases hij : i = j
  · subst hij
    rw [getElem?_set_of_some h, h]
  · rw [List.getElem?_set_ne hij]

theorem rolled_back_pool {P : List continuation} {c : Nat} {c0 : continuation}
    {ff : Option Int} (a : continuation) (hc : P[c]? = some c0)
    (ha : a.next_free = c0.next_free) (hff : ff = some (c : Int)) :
    (P.set c a).map continuation.next_free = P.map continuation.next_free ∧
    ∀ i : Nat, ff ≠ some (i : Int) → (P.set c a)[i]? = P[i]? := by
  constructor
  · apply List.ext_getElem?
    intro j
    rw [List.getElem?_map, List.getElem?_map]
    by_cases hcj : c = j
    · subst hcj
      rw [getElem?_set_of_some hc, hc]
      simp [ha]
    · rw [List.getElem?_set_ne hcj]
  · intro i hi
    have : c ≠ i := by
      intro e; subst e; exact hi hff
    rw [List.getElem?_set_ne this]

/-- Reserving a free slot and freeing it again leaves a well-formed table as it
was. -/
theorem fd_table_alloc_free {tbl : List fd_entry} {fd : Nat} {e0 : fd_entry}
    (hwf : fd_table_wf tbl) (he0 : tbl[fd]? = some e0) (hst0 : e0.state = fd_state.free) :
    (tbl.set fd { state := fd_state.reserved, counter := 0 }).set fd
      { state := fd_state.free, counter := 0 } = tbl := by
  have hcnt : e0.counter = 0 := hwf e0 (List.mem_iff_getElem?.2 ⟨fd, he0⟩) hst0
  have : e0 = { state := fd_state.free, counter := 0 } := by
    cases e0; simp_all
  rw [this] at he0
  exact set_set_self _ he0

/-- Unbinding an idle file slot and binding it to the same handle again leaves
the table as it was. -/
theorem fd_table_unset_set_file {tbl : List fd_entry} {fd h : Nat} {e : fd_entry}
    (he : tbl[fd]? = some e) (hst : e.state = fd_state.file h) :
    (tbl.set fd { e with state := fd_state.reserved }).set fd
      { ({ e with state := fd_state.reserved } : fd_entry) with state := fd_state.file h } =
      tbl := by
  have : ({ ({ e with state := fd_state.reserved } : fd_entry) with
      state := fd_state.file h } : fd_entry) = e := by
    cases e; simp_all
  rw [this]
  exact set_set_self _ he

theorem handle_stat_rejected (k : Consts) (env : nfs_env) (cmd : fs_cmd_t) (s : State)
    (c : Nat) (fl : List Nat)
    (hp : PoolOK k s.continuation_pool s.first_free_cont (c :: fl))
    (hs : fs_queue_length_producer s.completion_queue ≠ k.FS_QUEUE_CAPACITY)
    (hcs : 0 < s.client_share)
    (hpath0 : path_ok k cmd.params.stat.path)
    (hbuf : buffer_valid cmd.params.stat.buf)
    (hsz : k.sizeof_fs_stat_t ≤ cmd.params.stat.buf.size)
    (hrej : env.err ≠ 0) :
    wpt (handle_stat k env cmd) s (fun _ s' => RolledBack k cmd.id s s') := by
  obtain ⟨c0, hff, hc, hcN, hcfl, hok⟩ := PoolOK_alloc hp
  unfold handle_stat
  apply wpt_bind
  apply wpt_of_eq (copy_path_accept k 0 (Or.inl rfl) _ _ (by exact hcs) hpath0.1 hpath0.2)
  dsimp only
  apply wpt_bind
  apply wpt_of_eq (get_buffer_valid _ _ hbuf)
  dsimp only
  rw [if_neg (by unfold NULL; omega)]
  apply wpt_bind
  apply wpt_of_eq (continuation_alloc_ok (by exact hff) (by exact hc) hcN)
  dsimp only
  apply wpt_bind; apply wpt_assert rfl
  apply wpt_bind
  apply wpt_of_eq (cont_set_request_id_ok _ (getElem?_set_of_some hc) hcN)
  dsimp only
  apply wpt_bind
  apply wpt_of_eq (cont_set_data_ok _ _ (getElem?_set_of_some (getElem?_set_of_some hc)) hcN)
  dsimp only
  apply wpt_bind
  apply wpt_of_eq (nfs_async_reject _ _ _ hrej)
  dsimp only
  rw [if_pos hrej]
  apply wpt_bind
  apply wpt_of_eq (continuation_free_ok (getElem?_set_of_some (getElem?_set_of_some (getElem?_set_of_some hc))) hcN rfl)
  dsimp only
  apply wpt_reply (by exact hs)
  refine ⟨rfl, rfl, rfl, hff.symm, ?_, ?_, rfl, ⟨_, rfl⟩⟩
  · dsimp only [reply_state]
    simp only [List.set_set]
    refine (rolled_back_pool _ hc ?_ hff).1
    rfl
  · dsimp only [reply_state]
    simp only [List.set_set]
    refine (rolled_back_pool _ hc ?_ hff).2
    rfl

theorem handle_fsize_rejected (k : Consts) (env : nfs_env) (cmd : fs_cmd_t) (s : State)
    (c : Nat) (fl : List Nat)
    (hp : PoolOK k s.continuation_pool s.first_free_cont (c :: fl))
    (hs : fs_queue_length_producer s.completion_queue ≠ k.FS_QUEUE_CAPACITY)
    (e : fd_entry) (h : Nat) (he : s.fd_table[cmd.params.file_size.fd]? = some e)
    (hst : e.state = fd_state.file h)
    (hrej : env.err ≠ 0) :
    wpt (handle_fsize k env cmd) s (fun _ s' => RolledBack k cmd.id s s') := by
  obtain ⟨c0, hff, hc, hcN, hcfl, hok⟩ := PoolOK_alloc hp
  unfold handle_fsize
  apply wpt_bind
  apply wpt_of_eq (fd_begin_op_file_ok (by exact he) hst)
  dsimp only
  rw [if_neg (by decide)]
  apply wpt_bind
  apply wpt_of_eq (continuation_alloc_ok (by exact hff) (by exact hc) hcN)
  dsimp only
  apply wpt_bind; apply wpt_assert rfl
  apply wpt_bind
  apply wpt_of_eq (cont_set_request_id_ok _ (getElem?_set_of_some hc) hcN)
  dsimp only
  apply wpt_bind
  apply wpt_of_eq (cont_set_data_ok _ _ (getElem?_set_of_some (getElem?_set_of_some hc)) hcN)
  dsimp only
  apply wpt_bind
  apply wpt_of_eq (nfs_async_reject _ _ _ hrej)
  dsimp only
  rw [if_pos hrej]
  apply wpt_bind
  apply wpt_of_eq (continuation_free_ok (getElem?_set_of_some (getElem?_set_of_some (getElem?_set_of_some hc))) hcN rfl)
  dsimp only
  apply wpt_bind
  apply wpt_of_eq (fd_end_op_ok (e := { e with counter := e.counter + 1 })
    (getElem?_set_of_some he) (Nat.succ_pos _))
  dsimp only
  apply wpt_reply (by exact hs)
  refine ⟨rfl, rfl, fd_table_begin_end he, hff.symm, ?_, ?_, rfl, ⟨_, rfl⟩⟩
  · dsimp only [reply_state]
    simp only [List.set_set]
    refine (rolled_back_pool _ hc ?_ hff).1
    rfl
  · dsimp only [reply_state]
    simp only [List.set_set]
    refine (rolled_back_pool _ hc ?_ hff).2
    rfl

theorem handle_open_rejected (k : Consts) (env : nfs_env) (cmd : fs_cmd_t) (s : State)
    (c : Nat) (fl : List Nat)
    (hp : PoolOK k s.continuation_pool s.first_free_cont (c :: fl))
    (hs : fs_queue_length_producer s.completion_queue ≠ k.FS_QUEUE_CAPACITY)
    (hcs : 0 < s.client_share)
    (hpath0 : path_ok k cmd.params.file_open.path)
    (hwf : fd_table_wf s.fd_table)
    (e : fd_entry) (he : e ∈ s.fd_table) (hst : e.state = fd_state.free)
    (hrej : env.err ≠ 0) :
    wpt (handle_open k env cmd) s (fun _ s' => RolledBack k cmd.id s s') := by
  obtain ⟨c0, hff, hc, hcN, hcfl, hok⟩ := PoolOK_alloc hp
  unfold handle_open
  apply wpt_bind
  apply wpt_of_eq (copy_path_accept k 0 (Or.inl rfl) _ _ (by exact hcs) hpath0.1 hpath0.2)
  dsimp only
  apply wpt_bind
  apply wpt_fd_alloc_free (by exact he) hst
  intro fd e0 he0 hst0
  dsimp only
  rw [if_neg (by decide)]
  apply wpt_bind
  apply wpt_of_eq (continuation_alloc_ok (by exact hff) (by exact hc) hcN)
  dsimp only
  apply wpt_bind; apply wpt_assert rfl
  apply wpt_bind
  apply wpt_of_eq (cont_set_request_id_ok _ (getElem?_set_of_some hc) hcN)
  dsimp only
  apply wpt_bind
  apply wpt_of_eq (cont_set_data_ok _ _ (getElem?_set_of_some (getElem?_set_of_some hc)) hcN)
  dsimp only
  apply wpt_bind
  apply wpt_of_eq (nfs_async_reject _ _ _ hrej)
  dsimp only
  rw [if_pos hrej]
  apply wpt_bind
  apply wpt_of_eq (continuation_free_ok (getElem?_set_of_some (getElem?_set_of_some (getElem?_set_of_some hc))) hcN rfl)
  dsimp only
  apply wpt_bind
  apply wpt_of_eq (fd_free_ok (e := { state := fd_state.reserved, counter := 0 })
    (getElem?_set_of_some he0) rfl)
  dsimp only
  apply wpt_reply (by exact hs)
  refine ⟨rfl, rfl, fd_table_alloc_free hwf he0 hst0, hff.symm, ?_, ?_, rfl, ⟨_, rfl⟩⟩
  · dsimp only [reply_state]
    simp only [List.set_set]
    refine (rolled_back_pool _ hc ?_ hff).1
    rfl
  · dsimp only [reply_state]
    simp only [List.set_set]
    refine (rolled_back_pool _ hc ?_ hff).2
    rfl

theorem handle_close_rejected (k : Consts) (env : nfs_env) (cmd : fs_cmd_t) (s : State)
    (c : Nat) (fl : List Nat)
    (hp : PoolOK k s.continuation_pool s.first_free_cont (c :: fl))
    (hs : fs_queue_length_producer s.completion_queue ≠ k.FS_QUEUE_CAPACITY)
    (e : fd_entry) (h : Nat) (he : s.fd_table[cmd.params.file_close.fd]? = some e)
    (hst : e.state = fd_state.file h) (hcnt : e.counter = 0)
    (hrej : env.err ≠ 0) :
    wpt (handle_close k env cmd) s (fun _ s' => RolledBack k cmd.id s s') := by
  obtain ⟨c0, hff, hc, hcN, hcfl, hok⟩ := PoolOK_alloc hp
  unfold handle_close
  apply wpt_bind
  apply wpt_of_eq (fd_begin_op_file_ok (by exact he) hst)
  dsimp only
  rw [if_neg (by decide)]
  apply wpt_bind
  apply wpt_of_eq (fd_end_op_ok (e := { e with counter := e.counter + 1 })
    (getElem?_set_of_some he) (Nat.succ_pos _))
  dsimp only
  rw [fd_table_begin_end he]
  apply wpt_bind
  apply wpt_of_eq (fd_unset_ok (by exact he) (Or.inl ⟨h, hst⟩) hcnt)
  dsimp only
  rw [if_neg (by decide)]
  apply wpt_bind
  apply wpt_of_eq (continuation_alloc_ok (by exact hff) (by exact hc) hcN)
  dsimp only
  apply wpt_bind; apply wpt_assert rfl
  apply wpt_bind
  apply wpt_of_eq (cont_set_request_id_ok _ (getElem?_set_of_some hc) hcN)
  dsimp only
  apply wpt_bind
  apply wpt_of_eq (cont_set_data_ok _ _ (getElem?_set_of_some (getElem?_set_of_some hc)) hcN)
  dsimp only
  apply wpt_bind
  apply wpt_of_eq (cont_set_data_ok _ _ (getElem?_set_of_some (getElem?_set_of_some (getElem?_set_of_some hc))) hcN)
  dsimp only
  apply wpt_bind
  apply wpt_of_eq (nfs_async_reject _ _ _ hrej)
  dsimp only
  rw [if_pos hrej]
  apply wpt_bind
  apply wpt_of_eq (continuation_free_ok (getElem?_set_of_some (getElem?_set_of_some (getElem?_set_of_some (getElem?_set_of_some hc)))) hcN rfl)
  dsimp only
  apply wpt_bind
  apply wpt_of_eq (fd_set_file_ok (e := { e with state := fd_state.reserved })
    (getElem?_set_of_some he) rfl)
  dsimp only
  apply wpt_reply (by exact hs)
  refine ⟨rfl, rfl, fd_table_unset_set_file he hst, hff.symm, ?_, ?_, rfl, ⟨_, rfl⟩⟩
  · dsimp only [reply_state]
    simp only [List.set_set]
    refine (rolled_back_pool _ hc ?_ hff).1
    rfl
  · dsimp only [reply_state]
    simp only [List.set_set]
    refine (rolled_back_pool _ hc ?_ hff).2
    rfl

theorem handle_read_rejected (k : Consts) (env : nfs_env) (cmd : fs_cmd_t) (s : State)
    (c : Nat) (fl : List Nat)
    (hp : PoolOK k s.continuation_pool s.first_free_cont (c :: fl))
    (hs : fs_queue_length_producer s.completion_queue ≠ k.FS_QUEUE_CAPACITY)
    (hcs : 0 < s.client_share)
    (hbuf : buffer_valid cmd.params.file_read.buf)
    (e : fd_entry) (h : Nat) (he : s.fd_table[cmd.params.file_read.fd]? = some e)
    (hst : e.state = fd_state.file h)
    (hrej : env.err ≠ 0) :
    wpt (handle_read k env cmd) s (fun _ s' => RolledBack k cmd.id s s') := by
  obtain ⟨c0, hff, hc, hcN, hcfl, hok⟩ := PoolOK_alloc hp
  unfold handle_read
  apply wpt_bind
  apply wpt_of_eq (get_buffer_valid _ _ hbuf)
  dsimp only
  rw [if_neg (by unfold NULL; omega)]
  apply wpt_bind
  apply wpt_of_eq (fd_begin_op_file_ok (by exact he) hst)
  dsimp only
  rw [if_neg (by decide)]
  apply wpt_bind
  apply wpt_of_eq (continuation_alloc_ok (by exact hff) (by exact hc) hcN)
  dsimp only
  apply wpt_bind; apply wpt_assert rfl
  apply wpt_bind
  apply wpt_of_eq (cont_set_request_id_ok _ (getElem?_set_of_some hc) hcN)
  dsimp only
  apply wpt_bind
  apply wpt_of_eq (cont_set_data_ok _ _ (getElem?_set_of_some (getElem?_set_of_some hc)) hcN)
  dsimp only
  apply wpt_bind
  apply wpt_of_eq (cont_set_data_ok _ _ (getElem?_set_of_some (getElem?_set_of_some (getElem?_set_of_some hc))) hcN)
  dsimp only
  apply wpt_bind
  apply wpt_of_eq (nfs_async_reject _ _ _ hrej)
  dsimp only
  rw [if_pos hrej]
  apply wpt_bind
  apply wpt_of_eq (continuation_free_ok (getElem?_set_of_some (getElem?_set_of_some (getElem?_set_of_some (getElem?_set_of_some hc)))) hcN rfl)
  dsimp only
  apply wpt_bind
  apply wpt_of_eq (fd_end_op_ok (e := { e with counter := e.counter + 1 })
    (getElem?_set_of_some he) (Nat.succ_pos _))
  dsimp only
  apply wpt_reply (by exact hs)
  refine ⟨rfl, rfl, fd_table_begin_end he, hff.symm, ?_, ?_, rfl, ⟨_, rfl⟩⟩
  · dsimp only [reply_state]
    simp only [List.set_set]
    refine (rolled_back_pool _ hc ?_ hff).1
    rfl
  · dsimp only [reply_state]
    simp only [List.set_set]
    refine (rolled_back_pool _ hc ?_ hff).2
    rfl

theorem handle_write_rejected (k : Consts) (env : nfs_env) (cmd : fs_cmd_t) (s : State)
    (c : Nat) (fl : List Nat)
    (hp : PoolOK k s.continuation_pool s.first_free_cont (c :: fl))
    (hs : fs_queue_length_producer s.completion_queue ≠ k.FS_QUEUE_CAPACITY)
    (hcs : 0 < s.client_share)
    (hbuf : buffer_valid cmd.params.file_write.buf)
    (e : fd_entry) (h : Nat) (he : s.fd_table[cmd.params.file_write.fd]? = some e)
    (hst : e.state = fd_state.file h)
    (hrej : env.err ≠ 0) :
    wpt (handle_write k env cmd) s (fun _ s' => RolledBack k cmd.id s s') := by
  obtain ⟨c0, hff, hc, hcN, hcfl, hok⟩ := PoolOK_alloc hp
  unfold handle_write
  apply wpt_bind
  apply wpt_of_eq (get_buffer_valid _ _ hbuf)
  dsimp only
  rw [if_neg (by unfold NULL; omega)]
  apply wpt_bind
  apply wpt_of_eq (fd_begin_op_file_ok (by exact he) hst)
  dsimp only
  rw [if_neg (by decide)]
  apply wpt_bind
  apply wpt_of_eq (continuation_alloc_ok (by exact hff) (by exact hc) hcN)
  dsimp only
  apply wpt_bind; apply wpt_assert rfl
  apply wpt_bind
  apply wpt_of_eq (cont_set_request_id_ok _ (getElem?_set_of_some hc) hcN)
  dsimp only
  apply wpt_bind
  apply wpt_of_eq (cont_set_data_ok _ _ (getElem?_set_of_some (getElem?_set_of_some hc)) hcN)
  dsimp only
  apply wpt_bind
  apply wpt_of_eq (nfs_async_reject _ _ _ hrej)
  dsimp only
  rw [if_pos hrej]
  apply wpt_bind
  apply wpt_of_eq (continuation_free_ok (getElem?_set_of_some (getElem?_set_of_some (getElem?_set_of_some hc))) hcN rfl)
  dsimp only
  apply wpt_bind
  apply wpt_of_eq (fd_end_op_ok (e := { e with counter := e.counter + 1 })
    (getElem?_set_of_some he) (Nat.succ_pos _))
  dsimp only
  apply wpt_reply (by exact hs)
  refine ⟨rfl, rfl, fd_table_begin_end he, hff.symm, ?_, ?_, rfl, ⟨_, rfl⟩⟩
  · dsimp only [reply_state]
    simp only [List.set_set]
    refine (rolled_back_pool _ hc ?_ hff).1
    rfl
  · dsimp only [reply_state]
    simp only [List.set_set]
    refine (rolled_back_pool _ hc ?_ hff).2
    rfl

theorem handle_rename_rejected (k : Consts) (env : nfs_env) (cmd : fs_cmd_t) (s : State)
    (c : Nat) (fl : List Nat)
    (hp : PoolOK k s.continuation_pool s.first_free_cont (c :: fl))
    (hs : fs_queue_length_producer s.completion_queue ≠ k.FS_QUEUE_CAPACITY)
    (hcs : 0 < s.client_share)
    (hpath0 : path_ok k cmd.params.rename.old_path)
    (hpath1 : path_ok k cmd.params.rename.new_path)
    (hrej : env.err ≠ 0) :
    wpt (handle_rename k env cmd) s (fun _ s' => RolledBack k cmd.id s s') := by
  obtain ⟨c0, hff, hc, hcN, hcfl, hok⟩ := PoolOK_alloc hp
  unfold handle_rename
  apply wpt_bind
  apply wpt_of_eq (copy_path_accept k 0 (Or.inl rfl) _ _ (by exact hcs) hpath0.1 hpath0.2)
  dsimp only
  apply wpt_bind
  apply wpt_of_eq (copy_path_accept k 1 (Or.inr rfl) _ _ (by exact hcs) hpath1.1 hpath1.2)
  dsimp only
  apply wpt_bind
  apply wpt_of_eq (continuation_alloc_ok (by exact hff) (by exact hc) hcN)
  dsimp only
  apply wpt_bind; apply wpt_assert rfl
  apply wpt_bind
  apply wpt_of_eq (cont_set_request_id_ok _ (getElem?_set_of_some hc) hcN)
  dsimp only
  apply wpt_bind
  apply wpt_of_eq (nfs_async_reject _ _ _ hrej)
  dsimp only
  rw [if_pos hrej]
  apply wpt_bind
  apply wpt_of_eq (continuation_free_ok (getElem?_set_of_some (getElem?_set_of_some hc)) hcN rfl)
  dsimp only
  apply wpt_reply (by exact hs)
  refine ⟨rfl, rfl, rfl, hff.symm, ?_, ?_, rfl, ⟨_, rfl⟩⟩
  · dsimp only [reply_state]
    simp only [List.set_set]
    refine (rolled_back_pool _ hc ?_ hff).1
    rfl
  · dsimp only [reply_state]
    simp only [List.set_set]
    refine (rolled_back_pool _ hc ?_ hff).2
    rfl

theorem handle_unlink_rejected (k : Consts) (env : nfs_env) (cmd : fs_cmd_t) (s : State)
    (c : Nat) (fl : List Nat)
    (hp : PoolOK k s.continuation_pool s.first_free_cont (c :: fl))
    (hs : fs_queue_length_producer s.completion_queue ≠ k.FS_QUEUE_CAPACITY)
    (hcs : 0 < s.client_share)
    (hpath0 : path_ok k cmd.params.file_remove.path)
    (hrej : env.err ≠ 0) :
    wpt (handle_unlink k env cmd) s (fun _ s' => RolledBack k cmd.id s s') := by
  obtain ⟨c0, hff, hc, hcN, hcfl, hok⟩ := PoolOK_alloc hp
  unfold handle_unlink
  apply wpt_bind
  apply wpt_of_eq (copy_path_accept k 0 (Or.inl rfl) _ _ (by exact hcs) hpath0.1 hpath0.2)
  dsimp only
  apply wpt_bind
  apply wpt_of_eq (continuation_alloc_ok (by exact hff) (by exact hc) hcN)
  dsimp only
  apply wpt_bind; apply wpt_assert rfl
  apply wpt_bind
  apply wpt_of_eq (cont_set_request_id_ok _ (getElem?_set_of_some hc) hcN)
  dsimp only
  apply wpt_bind
  apply wpt_of_eq (nfs_async_reject _ _ _ hrej)
  dsimp only
  rw [if_pos hrej]
  apply wpt_bind
  apply wpt_of_eq (continuation_free_ok (getElem?_set_of_some (getElem?_set_of_some hc)) hcN rfl)
  dsimp only
  apply wpt_reply (by exact hs)
  refine ⟨rfl, rfl, rfl, hff.symm, ?_, ?_, rfl, ⟨_, rfl⟩⟩
  · dsimp only [reply_state]
    simp only [List.set_set]
    refine (rolled_back_pool _ hc ?_ hff).1
    rfl
  · dsimp only [reply_state]
    simp only [List.set_set]
    refine (rolled_back_pool _ hc ?_ hff).2
    rfl

theorem handle_fsync_rejected (k : Consts) (env : nfs_env) (cmd : fs_cmd_t) (s : State)
    (c : Nat) (fl : List Nat)
    (hp : PoolOK k s.continuation_pool s.first_free_cont (c :: fl))
    (hs : fs_queue_length_producer s.completion_queue ≠ k.FS_QUEUE_CAPACITY)
    (e : fd_entry) (h : Nat) (he : s.fd_table[cmd.params.file_sync.fd]? = some e)
    (hst : e.state = fd_state.file h)
    (hrej : env.err ≠ 0) :
    wpt (handle_fsync k env cmd) s (fun _ s' => RolledBack k cmd.id s s') := by
  obtain ⟨c0, hff, hc, hcN, hcfl, hok⟩ := PoolOK_alloc hp
  unfold handle_fsync
  apply wpt_bind
  apply wpt_of_eq (fd_begin_op_file_ok (by exact he) hst)
  dsimp only
  rw [if_neg (by decide)]
  apply wpt_bind
  apply wpt_of_eq (continuation_alloc_ok (by exact hff) (by exact hc) hcN)
  dsimp only
  apply wpt_bind; apply wpt_assert rfl
  apply wpt_bind
  apply wpt_of_eq (cont_set_request_id_ok _ (getElem?_set_of_some hc) hcN)
  dsimp only
  apply wpt_bind
  apply wpt_of_eq (cont_set_data_ok _ _ (getElem?_set_of_some (getElem?_set_of_some hc)) hcN)
  dsimp only
  apply wpt_bind
  apply wpt_of_eq (nfs_async_reject _ _ _ hrej)
  dsimp only
  rw [if_pos hrej]
  apply wpt_bind
  apply wpt_of_eq (continuation_free_ok (getElem?_set_of_some (getElem?_set_of_some (getElem?_set_of_some hc))) hcN rfl)
  dsimp only
  apply wpt_bind
  apply wpt_of_eq (fd_end_op_ok (e := { e with counter := e.counter + 1 })
    (getElem?_set_of_some he) (Nat.succ_pos _))
  dsimp only
  apply wpt_reply (by exact hs)
  refine ⟨rfl, rfl, fd_table_begin_end he, hff.symm, ?_, ?_, rfl, ⟨_, rfl⟩⟩
  · dsimp only [reply_state]
    simp only [List.set_set]
    refine (rolled_back_pool _ hc ?_ hff).1
    rfl
  · dsimp only [reply_state]
    simp only [List.set_set]
    refine (rolled_back_pool _ hc ?_ hff).2
    rfl

theorem handle_truncate_rejected (k : Consts) (env : nfs_env) (cmd : fs_cmd_t) (s : State)
    (c : Nat) (fl : List Nat)
    (hp : PoolOK k s.continuation_pool s.first_free_cont (c :: fl))
    (hs : fs_queue_length_producer s.completion_queue ≠ k.FS_QUEUE_CAPACITY)
    (e : fd_entry) (h : Nat) (he : s.fd_table[cmd.params.file_truncate.fd]? = some e)
    (hst : e.state = fd_state.file h)
    (hrej : env.err ≠ 0) :
    wpt (handle_truncate k env cmd) s (fun _ s' => RolledBack k cmd.id s s') := by
  obtain ⟨c0, hff, hc, hcN, hcfl, hok⟩ := PoolOK_alloc hp
  unfold handle_truncate
  apply wpt_bind
  apply wpt_of_eq (fd_begin_op_file_ok (by exact he) hst)
  dsimp only
  rw [if_neg (by decide)]
  apply wpt_bind
  apply wpt_of_eq (continuation_alloc_ok (by exact hff) (by exact hc) hcN)
  dsimp only
  apply wpt_bind; apply wpt_assert rfl
  apply wpt_bind
  apply wpt_of_eq (cont_set_request_id_ok _ (getElem?_set_of_some hc) hcN)
  dsimp only
  apply wpt_bind
  apply wpt_of_eq (cont_set_data_ok _ _ (getElem?_set_of_some (getElem?_set_of_some hc)) hcN)
  dsimp only
  apply wpt_bind
  apply wpt_of_eq (nfs_async_reject _ _ _ hrej)
  dsimp only
  rw [if_pos hrej]
  apply wpt_bind
  apply wpt_of_eq (continuation_free_ok (getElem?_set_of_some (getElem?_set_of_some (getElem?_set_of_some hc))) hcN rfl)
  dsimp only
  apply wpt_bind
  apply wpt_of_eq (fd_end_op_ok (e := { e with counter := e.counter + 1 })
    (getElem?_set_of_some he) (Nat.succ_pos _))
  dsimp only
  apply wpt_reply (by exact hs)
  refine ⟨rfl, rfl, fd_table_begin_end he, hff.symm, ?_, ?_, rfl, ⟨_, rfl⟩⟩
  · dsimp only [reply_state]
    simp only [List.set_set]
    refine (rolled_back_pool _ hc ?_ hff).1
    rfl
  · dsimp only [reply_state]
    simp only [List.set_set]
    refine (rolled_back_pool _ hc ?_ hff).2
    rfl

theorem handle_mkdir_rejected (k : Consts) (env : nfs_env) (cmd : fs_cmd_t) (s : State)
    (c : Nat) (fl : List Nat)
    (hp : PoolOK k s.continuation_pool s.first_free_cont (c :: fl))
    (hs : fs_queue_length_producer s.completion_queue ≠ k.FS_QUEUE_CAPACITY)
    (hcs : 0 < s.client_share)
    (hpath0 : path_ok k cmd.params.dir_create.path)
    (hrej : env.err ≠ 0) :
    wpt (handle_mkdir k env cmd) s (fun _ s' => RolledBack k cmd.id s s') := by
  obtain ⟨c0, hff, hc, hcN, hcfl, hok⟩ := PoolOK_alloc hp
  unfold handle_mkdir
  apply wpt_bind
  apply wpt_of_eq (copy_path_accept k 0 (Or.inl rfl) _ _ (by exact hcs) hpath0.1 hpath0.2)
  dsimp only
  apply wpt_bind
  apply wpt_of_eq (continuation_alloc_ok (by exact hff) (by exact hc) hcN)
  dsimp only
  apply wpt_bind; apply wpt_assert rfl
  apply wpt_bind
  apply wpt_of_eq (cont_set_request_id_ok _ (getElem?_set_of_some hc) hcN)
  dsimp only
  apply wpt_bind
  apply wpt_of_eq (nfs_async_reject _ _ _ hrej)
  dsimp only
  rw [if_pos hrej]
  apply wpt_bind
  apply wpt_of_eq (continuation_free_ok (getElem?_set_of_some (getElem?_set_of_some hc)) hcN rfl)
  dsimp only
  apply wpt_reply (by exact hs)
  refine ⟨rfl, rfl, rfl, hff.symm, ?_, ?_, rfl, ⟨_, rfl⟩⟩
  · dsimp only [reply_state]
    simp only [List.set_set]
    refine (rolled_back_pool _ hc ?_ hff).1
    rfl
  · dsimp only [reply_state]
    simp only [List.set_set]
    refine (rolled_back_pool _ hc ?_ hff).2
    rfl

theorem handle_rmdir_rejected (k : Consts) (env : nfs_env) (cmd : fs_cmd_t) (s : State)
    (c : Nat) (fl : List Nat)
    (hp : PoolOK k s.continuation_pool s.first_free_cont (c :: fl))
    (hs : fs_queue_length_producer s.completion_queue ≠ k.FS_QUEUE_CAPACITY)
    (hcs : 0 < s.client_share)
    (hpath0 : path_ok k cmd.params.dir_remove.path)
    (hrej : env.err ≠ 0) :
    wpt (handle_rmdir k env cmd) s (fun _ s' => RolledBack k cmd.id s s') := by
  obtain ⟨c0, hff, hc, hcN, hcfl, hok⟩ := PoolOK_alloc hp
  unfold handle_rmdir
  apply wpt_bind
  apply wpt_of_eq (copy_path_accept k 0 (Or.inl rfl) _ _ (by exact hcs) hpath0.1 hpath0.2)
  dsimp only
  apply wpt_bind
  apply wpt_of_eq (continuation_alloc_ok (by exact hff) (by exact hc) hcN)
  dsimp only
  apply wpt_bind; apply wpt_assert rfl
  apply wpt_bind
  apply wpt_of_eq (cont_set_request_id_ok _ (getElem?_set_of_some hc) hcN)
  dsimp only
  apply wpt_bind
  apply wpt_of_eq (nfs_async_reject _ _ _ hrej)
  dsimp only
  rw [if_pos hrej]
  apply wpt_bind
  apply wpt_of_eq (continuation_free_ok (getElem?_set_of_some (getElem?_set_of_some hc)) hcN rfl)
  dsimp only
  apply wpt_reply (by exact hs)
  refine ⟨rfl, rfl, rfl, hff.symm, ?_, ?_, rfl, ⟨_, rfl⟩⟩
  · dsimp only [reply_state]
    simp only [List.set_set]
    refine (rolled_back_pool _ hc ?_ hff).1
    rfl
  · dsimp only [reply_state]
    simp only [List.set_set]
    refine (rolled_back_pool _ hc ?_ hff).2
    rfl

theorem handle_opendir_rejected (k : Consts) (env : nfs_env) (cmd : fs_cmd_t) (s : State)
    (c : Nat) (fl : List Nat)
    (hp : PoolOK k s.continuation_pool s.first_free_cont (c :: fl))
    (hs : fs_queue_length_producer s.completion_queue ≠ k.FS_QUEUE_CAPACITY)
    (hcs : 0 < s.client_share)
    (hpath0 : path_ok k cmd.params.dir_open.path)
    (hwf : fd_table_wf s.fd_table)
    (e : fd_entry) (he : e ∈ s.fd_table) (hst : e.state = fd_state.free)
    (hrej : env.err ≠ 0) :
    wpt (handle_opendir k env cmd) s (fun _ s' => RolledBack k cmd.id s s') := by
  obtain ⟨c0, hff, hc, hcN, hcfl, hok⟩ := PoolOK_alloc hp
  unfold handle_opendir
  apply wpt_bind
  apply wpt_of_eq (copy_path_accept k 0 (Or.inl rfl) _ _ (by exact hcs) hpath0.1 hpath0.2)
  dsimp only
  apply wpt_bind
  apply wpt_fd_alloc_free (by exact he) hst
  intro fd e0 he0 hst0
  dsimp only
  rw [if_neg (by decide)]
  apply wpt_bind
  apply wpt_of_eq (continuation_alloc_ok (by exact hff) (by exact hc) hcN)
  dsimp only
  apply wpt_bind; apply wpt_assert rfl
  apply wpt_bind
  apply wpt_of_eq (cont_set_request_id_ok _ (getElem?_set_of_some hc) hcN)
  dsimp only
  apply wpt_bind
  apply wpt_of_eq (cont_set_data_ok _ _ (getElem?_set_of_some (getElem?_set_of_some hc)) hcN)
  dsimp only
  apply wpt_bind
  apply wpt_of_eq (nfs_async_reject _ _ _ hrej)
  dsimp only
  rw [if_pos hrej]
  apply wpt_bind
  apply wpt_of_eq (continuation_free_ok (getElem?_set_of_some (getElem?_set_of_some (getElem?_set_of_some hc))) hcN rfl)
  dsimp only
  apply wpt_bind
  apply wpt_of_eq (fd_free_ok (e := { state := fd_state.reserved, counter := 0 })
    (getElem?_set_of_some he0) rfl)
  dsimp only
  apply wpt_reply (by exact hs)
  refine ⟨rfl, rfl, fd_table_alloc_free hwf he0 hst0, hff.symm, ?_, ?_, rfl, ⟨_, rfl⟩⟩
  · dsimp only [reply_state]
    simp only [List.set_set]
    refine (rolled_back_pool _ hc ?_ hff).1
    rfl
  · dsimp only [reply_state]
    simp only [List.set_set]
    refine (rolled_back_pool _ hc ?_ hff).2
    rfl

/-! ## Rolled-back submissions and the flags of `OPEN` -/

theorem process_command_of_type (k : Consts) (env : nfs_env) (cmd : fs_cmd_t) (s : State)
    (n : Nat) (handler : Consts → nfs_env → fs_cmd_t → M Unit)
    (hty : cmd.type = n) (hn : n < FS_NUM_COMMANDS) (hh : cmd_handler n = some handler) :
    process_command k env cmd s = handler k env cmd s := by
  unfold process_command
  rw [hty, if_neg (by omega), hh]

/-- C11 (counterexample). `FILE_REMOVE` with identifier 7 and a valid path, handled
at startup with one pool entry, the submission being rejected: validation and
resource acquisition succeed, the handler returns, and the continuation pool
after it differs from the pool before it, its entry holding the request
identifier 7 instead of 0. -/
theorem rejected_submission_changes_pool_entry :
    acquisition_succeeds consts_q1 (cmd_unlink 7) start_q1 ∧
    env_reject.err ≠ 0 ∧
    ∃ s', process_command consts_q1 env_reject (cmd_unlink 7) start_q1 = .ok ((), s') ∧
      s'.continuation_pool ≠ start_q1.continuation_pool := by
  refine ⟨?_, by decide, run_e1, rfl, by decide⟩
  refine Or.inr (Or.inr (Or.inr (Or.inr (Or.inr (Or.inr (Or.inr (Or.inl ⟨rfl, ?_, ?_⟩)))))))
  · unfold buffer_valid; decide
  · decide

/-- C11 (amended). For every asynchronous handler operating on the pool and the
descriptor table (stat, size, open, close, read, write, rename, remove, sync,
truncate, mkdir, rmdir, opendir) and every pre-state in which validation and
resource acquisition succeed (the shared region lies at a non-null address, a
continuation is free, the descriptor table is well formed and the completion
queue has producer space), if the NFS submission is rejected synchronously then
the handler returns, the descriptor table after it equals the table before it,
the free list of the continuation pool after it equals the free list before it
(its head and the `next_free` link of every entry), every pool entry but the head
of the free list is unchanged, no submission is pending in addition, and exactly
one completion `{id = cmd.id, status = ERROR}` is published. -/
theorem rejected_submission_is_rolled_back (k : Consts) (env : nfs_env) (cmd : fs_cmd_t)
    (s : State) (c : Nat) (fl : List Nat)
    (hp : PoolOK k s.continuation_pool s.first_free_cont (c :: fl))
    (hs : fs_queue_length_producer s.completion_queue ≠ k.FS_QUEUE_CAPACITY)
    (hcs : 0 < s.client_share)
    (hwf : fd_table_wf s.fd_table)
    (hacq : acquisition_succeeds k cmd s)
    (hrej : env.err ≠ 0) :
    ∃ s', process_command k env cmd s = .ok ((), s') ∧ RolledBack k cmd.id s s' := by
  have key : ∀ (handler : Consts → nfs_env → fs_cmd_t → M Unit) (n : Nat),
      cmd.type = n → n < FS_NUM_COMMANDS → cmd_handler n = some handler →
      wpt (handler k env cmd) s (fun _ s' => RolledBack k cmd.id s s') →
      ∃ s', process_command k env cmd s = .ok ((), s') ∧ RolledBack k cmd.id s s' := by
    intro handler n hty hn hh hw
    obtain ⟨u, s', hrun, hq⟩ := hw
    exact ⟨s', by rw [process_command_of_type k env cmd s n handler hty hn hh, hrun], hq⟩
  rcases hacq with ⟨hty, h0, hb, hsz⟩ | ⟨hty, e, h, he, hst⟩ | ⟨hty, h0, e, he, hst⟩ |
    ⟨hty, e, h, he, hst, hcnt⟩ | ⟨hty, hb, e, h, he, hst⟩ | ⟨hty, hb, e, h, he, hst⟩ |
    ⟨hty, h0, h1⟩ | ⟨hty, h0⟩ | ⟨hty, e, h, he, hst⟩ | ⟨hty, e, h, he, hst⟩ | ⟨hty, h0⟩ |
    ⟨hty, h0⟩ | ⟨hty, h0, e, he, hst⟩
  · exact key handle_stat _ hty (by decide) rfl
      (handle_stat_rejected k env cmd s c fl hp hs hcs h0 hb hsz hrej)
  · exact key handle_fsize _ hty (by decide) rfl
      (handle_fsize_rejected k env cmd s c fl hp hs e h he hst hrej)
  · exact key handle_open _ hty (by decide) rfl
      (handle_open_rejected k env cmd s c fl hp hs hcs h0 hwf e he hst hrej)
  · exact key handle_close _ hty (by decide) rfl
      (handle_close_rejected k env cmd s c fl hp hs e h he hst hcnt hrej)
  · exact key handle_read _ hty (by decide) rfl
      (handle_read_rejected k env cmd s c fl hp hs hcs hb e h he hst hrej)
  · exact key handle_write _ hty (by decide) rfl
      (handle_write_rejected k env cmd s c fl hp hs hcs hb e h he hst hrej)
  · exact key handle_rename _ hty (by decide) rfl
      (handle_rename_rejected k env cmd s c fl hp hs hcs h0 h1 hrej)
  · exact key handle_unlink _ hty (by decide) rfl
      (handle_unlink_rejected k env cmd s c fl hp hs hcs h0 hrej)
  · exact key handle_fsync _ hty (by decide) rfl
      (handle_fsync_rejected k env cmd s c fl hp hs e h he hst hrej)
  · exact key handle_truncate _ hty (by decide) rfl
      (handle_truncate_rejected k env cmd s c fl hp hs e h he hst hrej)
  · exact key handle_mkdir _ hty (by decide) rfl
      (handle_mkdir_rejected k env cmd s c fl hp hs hcs h0 hrej)
  · exact key handle_rmdir _ hty (by decide) rfl
      (handle_rmdir_rejected k env cmd s c fl hp hs hcs h0 hrej)
  · exact key handle_opendir _ hty (by decide) rfl
      (handle_opendir_rejected k env cmd s c fl hp hs hcs h0 hwf e he hst hrej)

theorem open_flags_translation_eq (k : Consts) (flags : Nat) :
    open_flags_translation k flags =
      (if flags &&& k.FS_OPEN_FLAGS_READ_ONLY ≠ 0 then k.O_RDONLY else 0) |||
      (if flags &&& k.FS_OPEN_FLAGS_WRITE_ONLY ≠ 0 then k.O_WRONLY else 0) |||
      (if flags &&& k.FS_OPEN_FLAGS_READ_WRITE ≠ 0 then k.O_RDWR else 0) |||
      (if flags &&& k.FS_OPEN_FLAGS_CREATE ≠ 0 then k.O_CREAT else 0) := by
  unfold open_flags_translation open_flag_translations
  by_cases h1 : flags &&& k.FS_OPEN_FLAGS_READ_ONLY = 0 <;>
  by_cases h2 : flags &&& k.FS_OPEN_FLAGS_WRITE_ONLY = 0 <;>
  by_cases h3 : flags &&& k.FS_OPEN_FLAGS_READ_WRITE = 0 <;>
  by_cases h4 : flags &&& k.FS_OPEN_FLAGS_CREATE = 0 <;>
  simp [List.filter, h1, h2, h3, h4]

/-- C16. For every `OPEN` command that reaches the submission (its path is
accepted, a descriptor slot is free and a continuation is free), `handle_open`
returns having made exactly one call to the NFS client library, the open of the
copied path, and the POSIX flags passed are exactly the bitwise OR, over the
flags set in `params.flags`, of the translations `READ_ONLY -> O_RDONLY`,
`WRITE_ONLY -> O_WRONLY`, `READ_WRITE -> O_RDWR`, `CREATE -> O_CREAT`, and the
mode passed is `0644`; this holds whether the library accepts the submission or
rejects it. -/
theorem open_passes_translated_flags (k : Consts) (env : nfs_env) (cmd : fs_cmd_t) (s : State)
    (c : Nat) (fl : List Nat)
    (hp : PoolOK k s.continuation_pool s.first_free_cont (c :: fl))
    (hs : fs_queue_length_producer s.completion_queue ≠ k.FS_QUEUE_CAPACITY)
    (hcs : 0 < s.client_share)
    (hpath : path_ok k cmd.params.file_open.path)
    (hfree : ∃ e, e ∈ s.fd_table ∧ e.state = fd_state.free) :
    (∃ s', handle_open k env cmd s = .ok ((), s') ∧
      s'.nfs_calls = s.nfs_calls ++
        [nfs_call.open2 0 (open_flags_translation k cmd.params.file_open.flags) 0o644]) ∧
    open_flags_translation k cmd.params.file_open.flags =
      (if cmd.params.file_open.flags &&& k.FS_OPEN_FLAGS_READ_ONLY ≠ 0 then k.O_RDONLY else 0) |||
      (if cmd.params.file_open.flags &&& k.FS_OPEN_FLAGS_WRITE_ONLY ≠ 0 then k.O_WRONLY else 0) |||
      (if cmd.params.file_open.flags &&& k.FS_OPEN_FLAGS_READ_WRITE ≠ 0 then k.O_RDWR else 0) |||
      (if cmd.params.file_open.flags &&& k.FS_OPEN_FLAGS_CREATE ≠ 0 then k.O_CREAT else 0) := by
  obtain ⟨e, he, hst⟩ := hfree
  obtain ⟨u, s', hrun, hq⟩ := handle_open_submits k env cmd s c fl hp hs hcs hpath e he hst
  exact ⟨⟨s', hrun, hq⟩, open_flags_translation_eq k _⟩

/-! ## Partial correctness -/

theorem wlp_of_wpt {α : Type} {m : M α} {s : State} {Q : α → State → Prop}
    (h : wpt m s Q) : wlp m s Q := by
  obtain ⟨a, s', hm, hq⟩ := h
  constructor
  intro b t hb
  rw [hm] at hb
  obtain ⟨rfl, rfl⟩ := ok_inj hb
  exact hq

theorem wlp_bind {α β : Type} {m : M α} {f : α → M β} {s : State} {Q : β → State → Prop}
    (h : wlp m s (fun a s' => wlp (f a) s' Q)) : wlp (m >>= f) s Q := by
  constructor
  intro b u hb
  obtain ⟨a, t, hm, hf⟩ := bind_eq_ok hb
  exact (h.run a t hm).run b u hf

theorem wlp_pure {α : Type} {a : α} {s : State} {Q : α → State → Prop} (h : Q a s) :
    wlp (pure a) s Q := wlp_of_wpt (wpt_pure h)

theorem wlp_reply {k : Consts} {cmpl : fs_cmpl_t} {s : State} {Q : Unit → State → Prop}
    (h : fs_queue_length_producer s.completion_queue ≠ k.FS_QUEUE_CAPACITY →
      Q () (reply_state k cmpl s)) : wlp (reply k cmpl) s Q := by
  constructor
  intro a s' hr
  by_cases hs : fs_queue_length_producer s.completion_queue ≠ k.FS_QUEUE_CAPACITY
  · rw [reply_ok cmpl hs] at hr
    obtain ⟨rfl, rfl⟩ := ok_inj hr
    exact h hs
  · rw [reply_full cmpl (not_not.1 hs)] at hr
    cases hr

theorem wlp_assert {b : Bool} {s : State} {Q : Unit → State → Prop}
    (h : b = true → Q () s) : wlp (c_assert b) s Q := by
  constructor
  intro a s' hr
  cases b with
  | true => obtain ⟨rfl, rfl⟩ := ok_inj hr; exact h rfl
  | false => cases hr

theorem wlp_get_buffer {buf : fs_buffer_t} {s : State} {Q : Nat → State → Prop}
    (h : ∀ r, Q r s) : wlp (get_buffer buf) s Q := wlp_of_wpt (wpt_get_buffer h)

theorem wlp_copy_path {k : Consts} {slot : Int} {buf : fs_buffer_t} {s : State}
    {Q : Option Nat → State → Prop}
    (h : ∀ r pb, Q r { s with path_buffer := pb }) : wlp (copy_path k slot buf) s Q := by
  unfold copy_path
  apply wlp_bind
  apply wlp_assert; intro _
  apply wlp_bind
  apply wlp_get_buffer
  intro r
  split
  · exact wlp_pure (h none s.path_buffer)
  · apply wlp_bind
    constructor
    intro a s' hr
    obtain ⟨rfl, rfl⟩ := ok_inj hr
    exact wlp_pure (h _ _)

/-- The code `m` changes nothing but the continuation pool and its free list. -/
theorem pool_only_bind {α β : Type} {m : M α} {f : α → M β}
    (hm : ∀ s a s', m s = .ok (a, s') →
      s' = { s with continuation_pool := s'.continuation_pool,
                    first_free_cont := s'.first_free_cont })
    (hf : ∀ x s a s', f x s = .ok (a, s') →
      s' = { s with continuation_pool := s'.continuation_pool,
                    first_free_cont := s'.first_free_cont }) :
    ∀ s a s', (m >>= f) s = .ok (a, s') →
      s' = { s with continuation_pool := s'.continuation_pool,
                    first_free_cont := s'.first_free_cont } := by
  intro s b u hb
  obtain ⟨a, t, h1, h2⟩ := bind_eq_ok hb
  have e1 := hm s a t h1
  have e2 := hf a t b u h2
  rw [e2, e1]

theorem pool_only_cont_read (k : Consts) (cont : Option Int) :
    ∀ s a s', cont_read k cont s = .ok (a, s') →
      s' = { s with continuation_pool := s'.continuation_pool,
                    first_free_cont := s'.first_free_cont } := by
  intro s a s' h
  unfold cont_read at h
  cases cont with
  | none => cases h
  | some i =>
    dsimp only at h
    split at h
    · cases hc : s.continuation_pool[i.toNat]? with
      | none => rw [hc] at h; cases h
      | some c => rw [hc] at h; obtain ⟨_, rfl⟩ := ok_inj h; rfl
    · cases h

theorem pool_only_cont_write (k : Consts) (cont : Option Int) (c : continuation) :
    ∀ s a s', cont_write k cont c s = .ok (a, s') →
      s' = { s with continuation_pool := s'.continuation_pool,
                    first_free_cont := s'.first_free_cont } := by
  intro s a s' h
  unfold cont_write at h
  cases cont with
  | none => cases h
  | some i =>
    dsimp only at h
    split at h
    · obtain ⟨_, rfl⟩ := ok_inj h; rfl
    · cases h

theorem pool_only_assert (b : Bool) :
    ∀ s a s', c_assert b s = .ok (a, s') →
      s' = { s with continuation_pool := s'.continuation_pool,
                    first_free_cont := s'.first_free_cont } := by
  intro s a s' h
  cases b with
  | true => obtain ⟨_, rfl⟩ := ok_inj h; rfl
  | false => cases h

theorem pool_only_eq {α : Type} {m : M α} (hm : ∀ s, ∃ a s', m s = .ok (a, s') ∧
      s' = { s with continuation_pool := s'.continuation_pool,
                    first_free_cont := s'.first_free_cont }) :
    ∀ s a s', m s = .ok (a, s') →
      s' = { s with continuation_pool := s'.continuation_pool,
                    first_free_cont := s'.first_free_cont } := by
  intro s a s' h
  obtain ⟨b, t, ht, e⟩ := hm s
  rw [ht] at h
  obtain ⟨_, rfl⟩ := ok_inj h
  exact e

theorem pool_only_alloc (k : Consts) :
    ∀ s a s', continuation_alloc k s = .ok (a, s') →
      s' = { s with continuation_pool := s'.continuation_pool,
                    first_free_cont := s'.first_free_cont } := by
  unfold continuation_alloc
  apply pool_only_bind (pool_only_eq (fun s => ⟨_, _, rfl, rfl⟩))
  intro cont
  split
  · apply pool_only_bind (pool_only_cont_read _ _); intro c
    apply pool_only_bind (pool_only_eq (fun s => ⟨_, _, rfl, rfl⟩)); intro _
    apply pool_only_bind (pool_only_cont_write _ _ _); intro _
    exact pool_only_eq (fun s => ⟨_, _, rfl, rfl⟩)
  · exact pool_only_eq (fun s => ⟨_, _, rfl, rfl⟩)

theorem pool_only_free (k : Consts) (cont : Option Int) :
    ∀ s a s', continuation_free k cont s = .ok (a, s') →
      s' = { s with continuation_pool := s'.continuation_pool,
                    first_free_cont := s'.first_free_cont } := by
  unfold continuation_free
  apply pool_only_bind (pool_only_assert _); intro _
  apply pool_only_bind (pool_only_assert _); intro _
  apply pool_only_bind (pool_only_cont_read _ _); intro c
  apply pool_only_bind (pool_only_assert _); intro _
  apply pool_only_bind (pool_only_eq (fun s => ⟨_, _, rfl, rfl⟩)); intro _
  apply pool_only_bind (pool_only_cont_write _ _ _); intro _
  exact pool_only_eq (fun s => ⟨_, _, rfl, rfl⟩)

theorem pool_only_set_request_id (k : Consts) (cont : Option Int) (v : Nat) :
    ∀ s a s', cont_set_request_id k cont v s = .ok (a, s') →
      s' = { s with continuation_pool := s'.continuation_pool,
                    first_free_cont := s'.first_free_cont } := by
  unfold cont_set_request_id
  apply pool_only_bind (pool_only_cont_read _ _); intro c
  exact pool_only_cont_write _ _ _

theorem pool_only_set_data (k : Consts) (cont : Option Int) (j v : Nat) :
    ∀ s a s', cont_set_data k cont j v s = .ok (a, s') →
      s' = { s with continuation_pool := s'.continuation_pool,
                    first_free_cont := s'.first_free_cont } := by
  unfold cont_set_data
  apply pool_only_bind (pool_only_cont_read _ _); intro c
  exact pool_only_cont_write _ _ _

theorem wlp_pool_only {α : Type} {m : M α} {s : State} {Q : α → State → Prop}
    (hm : ∀ s a s', m s = .ok (a, s') →
      s' = { s with continuation_pool := s'.continuation_pool,
                    first_free_cont := s'.first_free_cont })
    (h : ∀ r pool ff, Q r { s with continuation_pool := pool, first_free_cont := ff }) :
    wlp m s Q := by
  constructor
  intro a s' hr
  have e := hm s a s' hr
  have := h a s'.continuation_pool s'.first_free_cont
  rwa [← e] at this

theorem wlp_alloc {k : Consts} {s : State} {Q : Option Int → State → Prop}
    (h : ∀ r pool ff, Q r { s with continuation_pool := pool, first_free_cont := ff }) :
    wlp (continuation_alloc k) s Q := wlp_pool_only (pool_only_alloc k) h

theorem wlp_free {k : Consts} {cont : Option Int} {s : State} {Q : Unit → State → Prop}
    (h : ∀ pool ff, Q () { s with continuation_pool := pool, first_free_cont := ff }) :
    wlp (continuation_free k cont) s Q :=
  wlp_pool_only (pool_only_free k cont) (fun _ => h)

theorem wlp_set_request_id {k : Consts} {cont : Option Int} {v : Nat} {s : State}
    {Q : Unit → State → Prop}
    (h : ∀ pool ff, Q () { s with continuation_pool := pool, first_free_cont := ff }) :
    wlp (cont_set_request_id k cont v) s Q :=
  wlp_pool_only (pool_only_set_request_id k cont v) (fun _ => h)

theorem wlp_set_data {k : Consts} {cont : Option Int} {j v : Nat} {s : State}
    {Q : Unit → State → Prop}
    (h : ∀ pool ff, Q () { s with continuation_pool := pool, first_free_cont := ff }) :
    wlp (cont_set_data k cont j v) s Q :=
  wlp_pool_only (pool_only_set_data k cont j v) (fun _ => h)

theorem wlp_cont_read {k : Consts} {cont : Option Int} {s : State}
    {Q : continuation → State → Prop}
    (h : ∀ (i : Int) c, cont = some i → 0 ≤ i → i < (MAX_CONCURRENT_OPS k : Int) →
      s.continuation_pool[i.toNat]? = some c → Q c s) :
    wlp (cont_read k cont) s Q := by
  constructor
  intro a s' hr
  unfold cont_read at hr
  cases cont with
  | none => cases hr
  | some i =>
    dsimp only at hr
    split at hr
    · rename_i hi
      cases hc : s.continuation_pool[i.toNat]? with
      | none => rw [hc] at hr; cases hr
      | some c =>
        rw [hc] at hr
        obtain ⟨rfl, rfl⟩ := ok_inj hr
        exact h i c rfl hi.1 hi.2 hc
    · cases hr

theorem wlp_nfs_async {env : nfs_env} {call : nfs_call} {cb : nfs_cb} {pd : Option Int}
    {s : State} {Q : Int → State → Prop}
    (h0 : Q 0 { s with
      pending := s.pending ++ [{ call := call, cb := cb, private_data := pd }]
      nfs_calls := s.nfs_calls ++ [call] })
    (h1 : ∀ e, e ≠ 0 → Q e { s with nfs_calls := s.nfs_calls ++ [call] }) :
    wlp (nfs_async env call cb pd) s Q := wlp_of_wpt (wpt_nfs_async h0 h1)

theorem wlp_fd_begin_op_file {fd : Nat} {s : State} {Q : Int × Nat → State → Prop}
    (hfail : ∀ r, r.1 ≠ 0 → Q r s)
    (hok : ∀ h e, s.fd_table[fd]? = some e → e.state = fd_state.file h →
      Q (0, h) { s with fd_table := s.fd_table.set fd { e with counter := e.counter + 1 } }) :
    wlp (fd_begin_op_file fd) s Q := wlp_of_wpt (wpt_fd_begin_op_file hfail hok)

theorem wlp_fd_begin_op_dir {fd : Nat} {s : State} {Q : Int × Nat → State → Prop}
    (hfail : ∀ r, r.1 ≠ 0 → Q r s)
    (hok : ∀ h e, s.fd_table[fd]? = some e → e.state = fd_state.dir h →
      Q (0, h) { s with fd_table := s.fd_table.set fd { e with counter := e.counter + 1 } }) :
    wlp (fd_begin_op_dir fd) s Q := wlp_of_wpt (wpt_fd_begin_op_dir hfail hok)

theorem wlp_fd_end_op {fd : Nat} {s : State} {e : fd_entry} {Q : Unit → State → Prop}
    (he : s.fd_table[fd]? = some e)
    (h : Q () { s with fd_table := s.fd_table.set fd { e with counter := e.counter - 1 } }) :
    wlp (fd_end_op fd) s Q := by
  constructor
  intro a s' hr
  unfold fd_end_op at hr
  rw [he] at hr
  dsimp only at hr
  split at hr
  · obtain ⟨rfl, rfl⟩ := ok_inj hr; exact h
  · cases hr

theorem wlp_fd_unset {fd : Nat} {s : State} {Q : Int → State → Prop}
    (hfail : ∀ r, r ≠ 0 → Q r s)
    (hok : ∀ e, s.fd_table[fd]? = some e →
      Q 0 { s with fd_table := s.fd_table.set fd { e with state := fd_state.reserved } }) :
    wlp (fd_unset fd) s Q := wlp_of_wpt (wpt_fd_unset hfail hok)

theorem wlp_fd_free {fd : Nat} {s : State} {Q : Unit → State → Prop}
    (h : Q () { s with fd_table := s.fd_table.set fd { state := fd_state.free, counter := 0 } }) :
    wlp (fd_free fd) s Q := by
  constructor
  intro a s' hr
  unfold fd_free at hr
  cases he : s.fd_table[fd]? with
  | none => rw [he] at hr; cases hr
  | some e =>
    rw [he] at hr
    dsimp only at hr
    cases hst : e.state <;> rw [hst] at hr <;>
      first
      | (obtain ⟨rfl, rfl⟩ := ok_inj hr; exact h)
      | cases hr

theorem wlp_fd_set_file {fd hdl : Nat} {s : State} {e : fd_entry} {Q : Unit → State → Prop}
    (he : s.fd_table[fd]? = some e)
    (h : Q () { s with fd_table := s.fd_table.set fd { e with state := fd_state.file hdl } }) :
    wlp (fd_set_file fd hdl) s Q := by
  constructor
  intro a s' hr
  unfold fd_set_file at hr
  rw [he] at hr
  dsimp only at hr
  cases hst : e.state <;> rw [hst] at hr <;>
    first
    | (obtain ⟨rfl, rfl⟩ := ok_inj hr; exact h)
    | cases hr

theorem wlp_fd_set_dir {fd hdl : Nat} {s : State} {e : fd_entry} {Q : Unit → State → Prop}
    (he : s.fd_table[fd]? = some e)
    (h : Q () { s with fd_table := s.fd_table.set fd { e with state := fd_state.dir hdl } }) :
    wlp (fd_set_dir fd hdl) s Q := by
  constructor
  intro a s' hr
  unfold fd_set_dir at hr
  rw [he] at hr
  dsimp only at hr
  cases hst : e.state <;> rw [hst] at hr <;>
    first
    | (obtain ⟨rfl, rfl⟩ := ok_inj hr; exact h)
    | cases hr

theorem wlp_fd_alloc {s : State} {Q : Int × Nat → State → Prop}
    (hfail : ∀ r, r.1 ≠ 0 → Q r s)
    (hok : ∀ fd, fd < s.fd_table.length →
      Q (0, fd) { s with
        fd_table := s.fd_table.set fd { state := fd_state.reserved, counter := 0 } }) :
    wlp fd_alloc s Q := wlp_of_wpt (wpt_fd_alloc hfail hok)

theorem wlp_memcpy_to_mem {dst n : Nat} {src : Nat → Nat} {s : State} {Q : Unit → State → Prop}
    (h : ∀ m, Q () { s with mem := m }) : wlp (memcpy_to_mem dst src n) s Q :=
  wlp_of_wpt (wpt_memcpy_to_mem h)

theorem wlp_get_nfs {s : State} {Q : Bool → State → Prop} (h : Q s.nfs s) : wlp get_nfs s Q :=
  wlp_of_wpt (wpt_get_nfs h)

theorem wlp_nfs_init_context {env : nfs_env} {s : State} {Q : Unit → State → Prop}
    (h : Q () { s with
      nfs := env.init_context_ok
      nfs_calls := s.nfs_calls ++ [nfs_call.init_context] }) :
    wlp (nfs_init_context env) s Q := wlp_of_wpt (wpt_nfs_init_context h)

theorem wlp_nfs_set_autoreconnect {n : Int} {s : State} {Q : Unit → State → Prop}
    (h : Q () { s with nfs_calls := s.nfs_calls ++ [nfs_call.set_autoreconnect n] }) :
    wlp (nfs_set_autoreconnect n) s Q := wlp_of_wpt (wpt_nfs_set_autoreconnect h)

theorem wlp_nfs_closedir {dir : Nat} {s : State} {Q : Unit → State → Prop}
    (h : Q () { s with nfs_calls := s.nfs_calls ++ [nfs_call.closedir dir] }) :
    wlp (nfs_closedir dir) s Q := wlp_of_wpt (wpt_nfs_closedir h)

theorem wlp_nfs_readdir {env : nfs_env} {dir : Nat} {s : State}
    {Q : Option (List Nat) → State → Prop}
    (h : Q env.dirent { s with nfs_calls := s.nfs_calls ++ [nfs_call.readdir dir] }) :
    wlp (nfs_readdir env dir) s Q := wlp_of_wpt (wpt_nfs_readdir h)

theorem wlp_nfs_seekdir {dir loc : Nat} {s : State} {Q : Unit → State → Prop}
    (h : Q () { s with nfs_calls := s.nfs_calls ++ [nfs_call.seekdir dir loc] }) :
    wlp (nfs_seekdir dir loc) s Q := wlp_of_wpt (wpt_nfs_seekdir h)

theorem wlp_nfs_telldir {env : nfs_env} {dir : Nat} {s : State} {Q : Nat → State → Prop}
    (h : Q env.telldir { s with nfs_calls := s.nfs_calls ++ [nfs_call.telldir dir] }) :
    wlp (nfs_telldir env dir) s Q := wlp_of_wpt (wpt_nfs_telldir h)

theorem wlp_nfs_rewinddir {dir : Nat} {s : State} {Q : Unit → State → Prop}
    (h : Q () { s with nfs_calls := s.nfs_calls ++ [nfs_call.rewinddir dir] }) :
    wlp (nfs_rewinddir dir) s Q := wlp_of_wpt (wpt_nfs_rewinddir h)

/-! ## Which completion a state holds -/

theorem reply_state_cmpl_inj {k : Consts} {c1 c2 : fs_cmpl_t} {s t : State}
    (hq : t.completion_queue = s.completion_queue)
    (h : (reply_state k c1 t).completion_queue = (reply_state k c2 s).completion_queue) :
    c1 = c2 := by
  unfold reply_state fs_queue_publish_production fs_queue_write at h
  dsimp only at h
  rw [hq] at h
  have hb := congrArg fs_queue.buffer h
  dsimp only at hb
  have := congrFun hb (fs_queue_idx_empty k s.completion_queue 0)
  simpa using this

theorem NoLeak_clean {k : Consts} {s t : State} (cmpl : fs_cmpl_t)
    (h1 : t.continuation_pool = s.continuation_pool)
    (h2 : t.first_free_cont = s.first_free_cont)
    (h3 : t.fd_table = s.fd_table) (h4 : t.pending = s.pending)
    (h5 : t.nfs_calls = s.nfs_calls) : NoLeak k s (reply_state k cmpl t) :=
  fun _ _ _ => ⟨h1, h2, h3, h4, h5⟩

theorem NoLeak_status {k : Consts} {s t : State} (cmpl : fs_cmpl_t)
    (hq : t.completion_queue = s.completion_queue)
    (hst : validation_class cmpl.status = false) : NoLeak k s (reply_state k cmpl t) := by
  intro c hpub hval
  have := reply_state_cmpl_inj hq hpub.1
  subst this
  rw [hst] at hval
  cases hval

theorem NoLeak_none {k : Consts} {s t : State} (hn : t.notified = s.notified) :
    NoLeak k s t := by
  intro c hpub _
  have := hpub.2
  omega

/-! ## Rejected commands leave no trace -/

set_option linter.unreachableTactic false
set_option linter.unusedTactic false

theorem handle_unlink_no_leak (k : Consts) (env : nfs_env) (cmd : fs_cmd_t) (s : State) :
    wlp (handle_unlink k env cmd) s (fun _ s' => NoLeak k s s') := by
  unfold handle_unlink
  apply wlp_bind; apply wlp_copy_path; intro r pb
  cases r with
  | none =>
    dsimp only
    apply wlp_reply; intro _
    first
      | exact NoLeak_clean _ rfl rfl rfl rfl rfl
      | exact NoLeak_clean _ rfl rfl (fd_table_begin_end he) rfl rfl
      | exact NoLeak_status _ rfl rfl
  | some path =>
    dsimp only
    apply wlp_bind; apply wlp_alloc; intro cont pool1 ff1
    apply wlp_bind; apply wlp_assert; intro _
    apply wlp_bind; apply wlp_set_request_id; intro pool2 ffpool2
    apply wlp_bind; apply wlp_nfs_async
    · simp only [ne_eq, not_true_eq_false, if_false]
      apply wlp_pure
      exact NoLeak_none rfl
    · intro err herr
      simp only [ne_eq, herr, not_false_eq_true, if_true]
      apply wlp_bind; apply wlp_free; intro pool9 ff9
      apply wlp_reply; intro _
      first
        | exact NoLeak_clean _ rfl rfl rfl rfl rfl
        | exact NoLeak_clean _ rfl rfl (fd_table_begin_end he) rfl rfl
        | exact NoLeak_status _ rfl rfl

theorem handle_mkdir_no_leak (k : Consts) (env : nfs_env) (cmd : fs_cmd_t) (s : State) :
    wlp (handle_mkdir k env cmd) s (fun _ s' => NoLeak k s s') := by
  unfold handle_mkdir
  apply wlp_bind; apply wlp_copy_path; intro r pb
  cases r with
  | none =>
    dsimp only
    apply wlp_reply; intro _
    first
      | exact NoLeak_clean _ rfl rfl rfl rfl rfl
      | exact NoLeak_clean _ rfl rfl (fd_table_begin_end he) rfl rfl
      | exact NoLeak_status _ rfl rfl
  | some path =>
    dsimp only
    apply wlp_bind; apply wlp_alloc; intro cont pool1 ff1
    apply wlp_bind; apply wlp_assert; intro _
    apply wlp_bind; apply wlp_set_request_id; intro pool2 ffpool2
    apply wlp_bind; apply wlp_nfs_async
    · simp only [ne_eq, not_true_eq_false, if_false]
      apply wlp_pure
      exact NoLeak_none rfl
    · intro err herr
      simp only [ne_eq, herr, not_false_eq_true, if_true]
      apply wlp_bind; apply wlp_free; intro pool9 ff9
      apply wlp_reply; intro _
      first
        | exact NoLeak_clean _ rfl rfl rfl rfl rfl
        | exact NoLeak_clean _ rfl rfl (fd_table_begin_end he) rfl rfl
        | exact NoLeak_status _ rfl rfl

theorem handle_rmdir_no_leak (k : Consts) (env : nfs_env) (cmd : fs_cmd_t) (s : State) :
    wlp (handle_rmdir k env cmd) s (fun _ s' => NoLeak k s s') := by
  unfold handle_rmdir
  apply wlp_bind; apply wlp_copy_path; intro r pb
  cases r with
  | none =>
    dsimp only
    apply wlp_reply; intro _
    first
      | exact NoLeak_clean _ rfl rfl rfl rfl rfl
      | exact NoLeak_clean _ rfl rfl (fd_table_begin_end he) rfl rfl
      | exact NoLeak_status _ rfl rfl
  | some path =>
    dsimp only
    apply wlp_bind; apply wlp_alloc; intro cont pool1 ff1
    apply wlp_bind; apply wlp_assert; intro _
    apply wlp_bind; apply wlp_set_request_id; intro pool2 ffpool2
    apply wlp_bind; apply wlp_nfs_async
    · simp only [ne_eq, not_true_eq_false, if_false]
      apply wlp_pure
      exact NoLeak_none rfl
    · intro err herr
      simp only [ne_eq, herr, not_false_eq_true, if_true]
      apply wlp_bind; apply wlp_free; intro pool9 ff9
      apply wlp_reply; intro _
      first
        | exact NoLeak_clean _ rfl rfl rfl rfl rfl
        | exact NoLeak_clean _ rfl rfl (fd_table_begin_end he) rfl rfl
        | exact NoLeak_status _ rfl rfl

theorem handle_stat_no_leak (k : Consts) (env : nfs_env) (cmd : fs_cmd_t) (s : State) :
    wlp (handle_stat k env cmd) s (fun _ s' => NoLeak k s s') := by
  unfold handle_stat
  apply wlp_bind; apply wlp_copy_path; intro r pb
  cases r with
  | none =>
    dsimp only
    apply wlp_reply; intro _
    first
      | exact NoLeak_clean _ rfl rfl rfl rfl rfl
      | exact NoLeak_clean _ rfl rfl (fd_table_begin_end he) rfl rfl
      | exact NoLeak_status _ rfl rfl
  | some path =>
    dsimp only
    apply wlp_bind; apply wlp_get_buffer; intro buf
    split
    ·
      apply wlp_reply; intro _
      first
        | exact NoLeak_clean _ rfl rfl rfl rfl rfl
        | exact NoLeak_clean _ rfl rfl (fd_table_begin_end he) rfl rfl
        | exact NoLeak_status _ rfl rfl
    ·
      apply wlp_bind; apply wlp_alloc; intro cont pool1 ff1
      apply wlp_bind; apply wlp_assert; intro _
      apply wlp_bind; apply wlp_set_request_id; intro pool2 ffpool2
      apply wlp_bind; apply wlp_set_data; intro pool3 ffpool3
      apply wlp_bind; apply wlp_nfs_async
      · simp only [ne_eq, not_true_eq_false, if_false]
        apply wlp_pure
        exact NoLeak_none rfl
      · intro err herr
        simp only [ne_eq, herr, not_false_eq_true, if_true]
        apply wlp_bind; apply wlp_free; intro pool9 ff9
        apply wlp_reply; intro _
        first
          | exact NoLeak_clean _ rfl rfl rfl rfl rfl
          | exact NoLeak_clean _ rfl rfl (fd_table_begin_end he) rfl rfl
          | exact NoLeak_status _ rfl rfl

theorem handle_rename_no_leak (k : Consts) (env : nfs_env) (cmd : fs_cmd_t) (s : State) :
    wlp (handle_rename k env cmd) s (fun _ s' => NoLeak k s s') := by
  unfold handle_rename
  apply wlp_bind; apply wlp_copy_path; intro r0 pb0
  apply wlp_bind; apply wlp_copy_path; intro r1 pb1
  cases r0 with
  | none =>
    dsimp only
    apply wlp_reply; intro _
    first
      | exact NoLeak_clean _ rfl rfl rfl rfl rfl
      | exact NoLeak_clean _ rfl rfl (fd_table_begin_end he) rfl rfl
      | exact NoLeak_status _ rfl rfl
  | some old_path =>
    cases r1 with
    | none =>
      dsimp only
      apply wlp_reply; intro _
      first
        | exact NoLeak_clean _ rfl rfl rfl rfl rfl
        | exact NoLeak_clean _ rfl rfl (fd_table_begin_end he) rfl rfl
        | exact NoLeak_status _ rfl rfl
    | some new_path =>
      dsimp only
      apply wlp_bind; apply wlp_alloc; intro cont pool1 ff1
      apply wlp_bind; apply wlp_assert; intro _
      apply wlp_bind; apply wlp_set_request_id; intro pool2 ffpool2
      apply wlp_bind; apply wlp_nfs_async
      · simp only [ne_eq, not_true_eq_false, if_false]
        apply wlp_pure
        exact NoLeak_none rfl
      · intro err herr
        simp only [ne_eq, herr, not_false_eq_true, if_true]
        apply wlp_bind; apply wlp_free; intro pool9 ff9
        apply wlp_reply; intro _
        first
          | exact NoLeak_clean _ rfl rfl rfl rfl rfl
          | exact NoLeak_clean _ rfl rfl (fd_table_begin_end he) rfl rfl
          | exact NoLeak_status _ rfl rfl

theorem handle_fsize_no_leak (k : Consts) (env : nfs_env) (cmd : fs_cmd_t) (s : State) :
    wlp (handle_fsize k env cmd) s (fun _ s' => NoLeak k s s') := by
  unfold handle_fsize
  apply wlp_bind; apply wlp_fd_begin_op_file
  · intro r hr
    obtain ⟨err, fh⟩ := r
    dsimp only at hr ⊢
    rw [if_pos hr]
    apply wlp_reply; intro _
    first
      | exact NoLeak_clean _ rfl rfl rfl rfl rfl
      | exact NoLeak_clean _ rfl rfl (fd_table_begin_end he) rfl rfl
      | exact NoLeak_status _ rfl rfl
  · intro fh e he hst
    dsimp only
    rw [if_neg (by decide)]
    apply wlp_bind; apply wlp_alloc; intro cont pool1 ff1
    apply wlp_bind; apply wlp_assert; intro _
    apply wlp_bind; apply wlp_set_request_id; intro pool2 ffpool2
    apply wlp_bind; apply wlp_set_data; intro pool3 ffpool3
    apply wlp_bind; apply wlp_nfs_async
    · simp only [ne_eq, not_true_eq_false, if_false]
      apply wlp_pure
      exact NoLeak_none rfl
    · intro err herr
      simp only [ne_eq, herr, not_false_eq_true, if_true]
      apply wlp_bind; apply wlp_free; intro pool9 ff9
      apply wlp_bind; apply wlp_fd_end_op (e := { e with counter := e.counter + 1 }) (getElem?_set_of_some he)
      apply wlp_reply; intro _
      first
        | exact NoLeak_clean _ rfl rfl rfl rfl rfl
        | exact NoLeak_clean _ rfl rfl (fd_table_begin_end he) rfl rfl
        | exact NoLeak_status _ rfl rfl

theorem handle_read_no_leak (k : Consts) (env : nfs_env) (cmd : fs_cmd_t) (s : State) :
    wlp (handle_read k env cmd) s (fun _ s' => NoLeak k s s') := by
  unfold handle_read
  apply wlp_bind; apply wlp_get_buffer; intro buf
  split
  ·
    apply wlp_reply; intro _
    first
      | exact NoLeak_clean _ rfl rfl rfl rfl rfl
      | exact NoLeak_clean _ rfl rfl (fd_table_begin_end he) rfl rfl
      | exact NoLeak_status _ rfl rfl
  ·
    apply wlp_bind; apply wlp_fd_begin_op_file
    · intro r hr
      obtain ⟨err, fh⟩ := r
      dsimp only at hr ⊢
      rw [if_pos hr]
      apply wlp_reply; intro _
      first
        | exact NoLeak_clean _ rfl rfl rfl rfl rfl
        | exact NoLeak_clean _ rfl rfl (fd_table_begin_end he) rfl rfl
        | exact NoLeak_status _ rfl rfl
    · intro fh e he hst
      dsimp only
      rw [if_neg (by decide)]
      apply wlp_bind; apply wlp_alloc; intro cont pool1 ff1
      apply wlp_bind; apply wlp_assert; intro _
      apply wlp_bind; apply wlp_set_request_id; intro pool2 ffpool2
      apply wlp_bind; apply wlp_set_data; intro pool3 ffpool3
      apply wlp_bind; apply wlp_set_data; intro pool4 ffpool4
      apply wlp_bind; apply wlp_nfs_async
      · simp only [ne_eq, not_true_eq_false, if_false]
        apply wlp_pure
        exact NoLeak_none rfl
      · intro err herr
        simp only [ne_eq, herr, not_false_eq_true, if_true]
        apply wlp_bind; apply wlp_free; intro pool9 ff9
        apply wlp_bind; apply wlp_fd_end_op (e := { e with counter := e.counter + 1 }) (getElem?_set_of_some he)
        apply wlp_reply; intro _
        first
          | exact NoLeak_clean _ rfl rfl rfl rfl rfl
          | exact NoLeak_clean _ rfl rfl (fd_table_begin_end he) rfl rfl
          | exact NoLeak_status _ rfl rfl

theorem handle_write_no_leak (k : Consts) (env : nfs_env) (cmd : fs_cmd_t) (s : State) :
    wlp (handle_write k env cmd) s (fun _ s' => NoLeak k s s') := by
  unfold handle_write
  apply wlp_bind; apply wlp_get_buffer; intro buf
  split
  ·
    apply wlp_reply; intro _
    first
      | exact NoLeak_clean _ rfl rfl rfl rfl rfl
      | exact NoLeak_clean _ rfl rfl (fd_table_begin_end he) rfl rfl
      | exact NoLeak_status _ rfl rfl
  ·
    apply wlp_bind; apply wlp_fd_begin_op_file
    · intro r hr
      obtain ⟨err, fh⟩ := r
      dsimp only at hr ⊢
      rw [if_pos hr]
      apply wlp_reply; intro _
      first
        | exact NoLeak_clean _ rfl rfl rfl rfl rfl
        | exact NoLeak_clean _ rfl rfl (fd_table_begin_end he) rfl rfl
        | exact NoLeak_status _ rfl rfl
    · intro fh e he hst
      dsimp only
      rw [if_neg (by decide)]
      apply wlp_bind; apply wlp_alloc; intro cont pool1 ff1
      apply wlp_bind; apply wlp_assert; intro _
      apply wlp_bind; apply wlp_set_request_id; intro pool2 ffpool2
      apply wlp_bind; apply wlp_set_data; intro pool3 ffpool3
      apply wlp_bind; apply wlp_nfs_async
      · simp only [ne_eq, not_true_eq_false, if_false]
        apply wlp_pure
        exact NoLeak_none rfl
      · intro err herr
        simp only [ne_eq, herr, not_false_eq_true, if_true]
        apply wlp_bind; apply wlp_free; intro pool9 ff9
        apply wlp_bind; apply wlp_fd_end_op (e := { e with counter := e.counter + 1 }) (getElem?_set_of_some he)
        apply wlp_reply; intro _
        first
          | exact NoLeak_clean _ rfl rfl rfl rfl rfl
          | exact NoLeak_clean _ rfl rfl (fd_table_begin_end he) rfl rfl
          | exact NoLeak_status _ rfl rfl

theorem handle_fsync_no_leak (k : Consts) (env : nfs_env) (cmd : fs_cmd_t) (s : State) :
    wlp (handle_fsync k env cmd) s (fun _ s' => NoLeak k s s') := by
  unfold handle_fsync
  apply wlp_bind; apply wlp_fd_begin_op_file
  · intro r hr
    obtain ⟨err, fh⟩ := r
    dsimp only at hr ⊢
    rw [if_pos hr]
    apply wlp_reply; intro _
    first
      | exact NoLeak_clean _ rfl rfl rfl rfl rfl
      | exact NoLeak_clean _ rfl rfl (fd_table_begin_end he) rfl rfl
      | exact NoLeak_status _ rfl rfl
  · intro fh e he hst
    dsimp only
    rw [if_neg (by decide)]
    apply wlp_bind; apply wlp_alloc; intro cont pool1 ff1
    apply wlp_bind; apply wlp_assert; intro _
    apply wlp_bind; apply wlp_set_request_id; intro pool2 ffpool2
    apply wlp_bind; apply wlp_set_data; intro pool3 ffpool3
    apply wlp_bind; apply wlp_nfs_async
    · simp only [ne_eq, not_true_eq_false, if_false]
      apply wlp_pure
      exact NoLeak_none rfl
    · intro err herr
      simp only [ne_eq, herr, not_false_eq_true, if_true]
      apply wlp_bind; apply wlp_free; intro pool9 ff9
      apply wlp_bind; apply wlp_fd_end_op (e := { e with counter := e.counter + 1 }) (getElem?_set_of_some he)
      apply wlp_reply; intro _
      first
        | exact NoLeak_clean _ rfl rfl rfl rfl rfl
        | exact NoLeak_clean _ rfl rfl (fd_table_begin_end he) rfl rfl
        | exact NoLeak_status _ rfl rfl

theorem handle_truncate_no_leak (k : Consts) (env : nfs_env) (cmd : fs_cmd_t) (s : State) :
    wlp (handle_truncate k env cmd) s (fun _ s' => NoLeak k s s') := by
  unfold handle_truncate
  apply wlp_bind; apply wlp_fd_begin_op_file
  · intro r hr
    obtain ⟨err, fh⟩ := r
    dsimp only at hr ⊢
    rw [if_pos hr]
    apply wlp_reply; intro _
    first
      | exact NoLeak_clean _ rfl rfl rfl rfl rfl
      | exact NoLeak_clean _ rfl rfl (fd_table_begin_end he) rfl rfl
      | exact NoLeak_status _ rfl rfl
  · intro fh e he hst
    dsimp only
    rw [if_neg (by decide)]
    apply wlp_bind; apply wlp_alloc; intro cont pool1 ff1
    apply wlp_bind; apply wlp_assert; intro _
    apply wlp_bind; apply wlp_set_request_id; intro pool2 ffpool2
    apply wlp_bind; apply wlp_set_data; intro pool3 ffpool3
    apply wlp_bind; apply wlp_nfs_async
    · simp only [ne_eq, not_true_eq_false, if_false]
      apply wlp_pure
      exact NoLeak_none rfl
    · intro err herr
      simp only [ne_eq, herr, not_false_eq_true, if_true]
      apply wlp_bind; apply wlp_free; intro pool9 ff9
      apply wlp_bind; apply wlp_fd_end_op (e := { e with counter := e.counter + 1 }) (getElem?_set_of_some he)
      apply wlp_reply; intro _
      first
        | exact NoLeak_clean _ rfl rfl rfl rfl rfl
        | exact NoLeak_clean _ rfl rfl (fd_table_begin_end he) rfl rfl
        | exact NoLeak_status _ rfl rfl

theorem handle_open_no_leak (k : Consts) (env : nfs_env) (cmd : fs_cmd_t) (s : State) :
    wlp (handle_open k env cmd) s (fun _ s' => NoLeak k s s') := by
  unfold handle_open
  apply wlp_bind; apply wlp_copy_path; intro r pb
  cases r with
  | none =>
    dsimp only
    apply wlp_reply; intro _
    first
      | exact NoLeak_clean _ rfl rfl rfl rfl rfl
      | exact NoLeak_clean _ rfl rfl (fd_table_begin_end he) rfl rfl
      | exact NoLeak_status _ rfl rfl
  | some path =>
    dsimp only
    apply wlp_bind; apply wlp_fd_alloc
    · intro r hr
      obtain ⟨err, fd⟩ := r
      dsimp only at hr ⊢
      rw [if_pos hr]
      apply wlp_reply; intro _
      first
        | exact NoLeak_clean _ rfl rfl rfl rfl rfl
        | exact NoLeak_clean _ rfl rfl (fd_table_begin_end he) rfl rfl
        | exact NoLeak_status _ rfl rfl
    · intro fd hfd
      dsimp only
      rw [if_neg (by decide)]
      apply wlp_bind; apply wlp_alloc; intro cont pool1 ff1
      apply wlp_bind; apply wlp_assert; intro _
      apply wlp_bind; apply wlp_set_request_id; intro pool2 ffpool2
      apply wlp_bind; apply wlp_set_data; intro pool3 ffpool3
      dsimp only
      apply wlp_bind; apply wlp_nfs_async
      · simp only [ne_eq, not_true_eq_false, if_false]
        apply wlp_pure
        exact NoLeak_none rfl
      · intro err herr
        simp only [ne_eq, herr, not_false_eq_true, if_true]
        apply wlp_bind; apply wlp_free; intro pool9 ff9
        apply wlp_bind; apply wlp_fd_free
        apply wlp_reply; intro _
        first
          | exact NoLeak_clean _ rfl rfl rfl rfl rfl
          | exact NoLeak_clean _ rfl rfl (fd_table_begin_end he) rfl rfl
          | exact NoLeak_status _ rfl rfl

theorem handle_opendir_no_leak (k : Consts) (env : nfs_env) (cmd : fs_cmd_t) (s : State) :
    wlp (handle_opendir k env cmd) s (fun _ s' => NoLeak k s s') := by
  unfold handle_opendir
  apply wlp_bind; apply wlp_copy_path; intro r pb
  cases r with
  | none =>
    dsimp only
    apply wlp_reply; intro _
    first
      | exact NoLeak_clean _ rfl rfl rfl rfl rfl
      | exact NoLeak_clean _ rfl rfl (fd_table_begin_end he) rfl rfl
      | exact NoLeak_status _ rfl rfl
  | some path =>
    dsimp only
    apply wlp_bind; apply wlp_fd_alloc
    · intro r hr
      obtain ⟨err, fd⟩ := r
      dsimp only at hr ⊢
      rw [if_pos hr]
      apply wlp_reply; intro _
      first
        | exact NoLeak_clean _ rfl rfl rfl rfl rfl
        | exact NoLeak_clean _ rfl rfl (fd_table_begin_end he) rfl rfl
        | exact NoLeak_status _ rfl rfl
    · intro fd hfd
      dsimp only
      rw [if_neg (by decide)]
      apply wlp_bind; apply wlp_alloc; intro cont pool1 ff1
      apply wlp_bind; apply wlp_assert; intro _
      apply wlp_bind; apply wlp_set_request_id; intro pool2 ffpool2
      apply wlp_bind; apply wlp_set_data; intro pool3 ffpool3
      dsimp only
      apply wlp_bind; apply wlp_nfs_async
      · simp only [ne_eq, not_true_eq_false, if_false]
        apply wlp_pure
        exact NoLeak_none rfl
      · intro err herr
        simp only [ne_eq, herr, not_false_eq_true, if_true]
        apply wlp_bind; apply wlp_free; intro pool9 ff9
        apply wlp_bind; apply wlp_fd_free
        apply wlp_reply; intro _
        first
          | exact NoLeak_clean _ rfl rfl rfl rfl rfl
          | exact NoLeak_clean _ rfl rfl (fd_table_begin_end he) rfl rfl
          | exact NoLeak_status _ rfl rfl

theorem handle_close_no_leak (k : Consts) (env : nfs_env) (cmd : fs_cmd_t) (s : State) :
    wlp (handle_close k env cmd) s (fun _ s' => NoLeak k s s') := by
  unfold handle_close
  apply wlp_bind; apply wlp_fd_begin_op_file
  · intro r hr
    obtain ⟨err, fh⟩ := r
    dsimp only at hr ⊢
    rw [if_pos hr]
    apply wlp_reply; intro _
    first
      | exact NoLeak_clean _ rfl rfl rfl rfl rfl
      | exact NoLeak_clean _ rfl rfl (fd_table_begin_end he) rfl rfl
      | exact NoLeak_status _ rfl rfl
  · intro fh e he hst
    dsimp only
    rw [if_neg (by decide)]
    apply wlp_bind
    apply wlp_fd_end_op (e := { e with counter := e.counter + 1 }) (getElem?_set_of_some he)
    apply wlp_bind; apply wlp_fd_unset
    · intro r hr
      rw [if_pos hr]
      apply wlp_reply; intro _
      first
        | exact NoLeak_clean _ rfl rfl rfl rfl rfl
        | exact NoLeak_clean _ rfl rfl (fd_table_begin_end he) rfl rfl
        | exact NoLeak_status _ rfl rfl
    · intro e2 he2
      rw [if_neg (by decide)]
      apply wlp_bind; apply wlp_alloc; intro cont pool1 ff1
      apply wlp_bind; apply wlp_assert; intro _
      apply wlp_bind; apply wlp_set_request_id; intro pool2 ffpool2
      apply wlp_bind; apply wlp_set_data; intro pool3 ffpool3
      apply wlp_bind; apply wlp_set_data; intro pool4 ffpool4
      apply wlp_bind; apply wlp_nfs_async
      · simp only [ne_eq, not_true_eq_false, if_false]
        apply wlp_pure
        exact NoLeak_none rfl
      · intro err herr
        simp only [ne_eq, herr, not_false_eq_true, if_true]
        apply wlp_bind; apply wlp_free; intro pool9 ff9
        apply wlp_bind; apply wlp_fd_set_file (e := { e2 with state := fd_state.reserved }) (getElem?_set_of_some he2)
        apply wlp_reply; intro _
        first
          | exact NoLeak_clean _ rfl rfl rfl rfl rfl
          | exact NoLeak_clean _ rfl rfl (fd_table_begin_end he) rfl rfl
          | exact NoLeak_status _ rfl rfl

theorem handle_closedir_no_leak (k : Consts) (env : nfs_env) (cmd : fs_cmd_t) (s : State) :
    wlp (handle_closedir k env cmd) s (fun _ s' => NoLeak k s s') := by
  unfold handle_closedir
  apply wlp_bind; apply wlp_fd_begin_op_dir
  · intro r hr
    obtain ⟨err, fh⟩ := r
    dsimp only at hr ⊢
    rw [if_pos hr]
    apply wlp_reply; intro _
    first
      | exact NoLeak_clean _ rfl rfl rfl rfl rfl
      | exact NoLeak_clean _ rfl rfl (fd_table_begin_end he) rfl rfl
      | exact NoLeak_status _ rfl rfl
  · intro fh e he hst
    dsimp only
    rw [if_neg (by decide)]
    apply wlp_bind
    apply wlp_fd_end_op (e := { e with counter := e.counter + 1 }) (getElem?_set_of_some he)
    apply wlp_bind; apply wlp_fd_unset
    · intro r hr
      rw [if_pos hr]
      apply wlp_reply; intro _
      first
        | exact NoLeak_clean _ rfl rfl rfl rfl rfl
        | exact NoLeak_clean _ rfl rfl (fd_table_begin_end he) rfl rfl
        | exact NoLeak_status _ rfl rfl
    · intro e2 he2
      rw [if_neg (by decide)]
      apply wlp_bind; apply wlp_nfs_closedir
      apply wlp_bind
      apply wlp_fd_free
      apply wlp_reply; intro _
      first
        | exact NoLeak_clean _ rfl rfl rfl rfl rfl
        | exact NoLeak_clean _ rfl rfl (fd_table_begin_end he) rfl rfl
        | exact NoLeak_status _ rfl rfl

theorem handle_seekdir_no_leak (k : Consts) (env : nfs_env) (cmd : fs_cmd_t) (s : State) :
    wlp (handle_seekdir k env cmd) s (fun _ s' => NoLeak k s s') := by
  unfold handle_seekdir
  apply wlp_bind; apply wlp_fd_begin_op_dir
  · intro r hr
    obtain ⟨err, fh⟩ := r
    dsimp only at hr ⊢
    rw [if_pos hr]
    apply wlp_reply; intro _
    first
      | exact NoLeak_clean _ rfl rfl rfl rfl rfl
      | exact NoLeak_clean _ rfl rfl (fd_table_begin_end he) rfl rfl
      | exact NoLeak_status _ rfl rfl
  · intro fh e he hst
    dsimp only
    rw [if_neg (by decide)]
    apply wlp_bind; apply wlp_nfs_seekdir
    apply wlp_bind
    apply wlp_fd_end_op (e := { e with counter := e.counter + 1 }) (getElem?_set_of_some he)
    apply wlp_reply; intro _
    first
      | exact NoLeak_clean _ rfl rfl rfl rfl rfl
      | exact NoLeak_clean _ rfl rfl (fd_table_begin_end he) rfl rfl
      | exact NoLeak_status _ rfl rfl

theorem handle_telldir_no_leak (k : Consts) (env : nfs_env) (cmd : fs_cmd_t) (s : State) :
    wlp (handle_telldir k env cmd) s (fun _ s' => NoLeak k s s') := by
  unfold handle_telldir
  apply wlp_bind; apply wlp_fd_begin_op_dir
  · intro r hr
    obtain ⟨err, fh⟩ := r
    dsimp only at hr ⊢
    rw [if_pos hr]
    apply wlp_reply; intro _
    first
      | exact NoLeak_clean _ rfl rfl rfl rfl rfl
      | exact NoLeak_clean _ rfl rfl (fd_table_begin_end he) rfl rfl
      | exact NoLeak_status _ rfl rfl
  · intro fh e he hst
    dsimp only
    rw [if_neg (by decide)]
    apply wlp_bind; apply wlp_nfs_telldir
    apply wlp_bind
    apply wlp_fd_end_op (e := { e with counter := e.counter + 1 }) (getElem?_set_of_some he)
    apply wlp_reply; intro _
    first
      | exact NoLeak_clean _ rfl rfl rfl rfl rfl
      | exact NoLeak_clean _ rfl rfl (fd_table_begin_end he) rfl rfl
      | exact NoLeak_status _ rfl rfl

theorem handle_rewinddir_no_leak (k : Consts) (env : nfs_env) (cmd : fs_cmd_t) (s : State) :
    wlp (handle_rewinddir k env cmd) s (fun _ s' => NoLeak k s s') := by
  unfold handle_rewinddir
  apply wlp_bind; apply wlp_fd_begin_op_dir
  · intro r hr
    obtain ⟨err, fh⟩ := r
    dsimp only at hr ⊢
    rw [if_pos hr]
    apply wlp_reply; intro _
    first
      | exact NoLeak_clean _ rfl rfl rfl rfl rfl
      | exact NoLeak_clean _ rfl rfl (fd_table_begin_end he) rfl rfl
      | exact NoLeak_status _ rfl rfl
  · intro fh e he hst
    dsimp only
    rw [if_neg (by decide)]
    apply wlp_bind; apply wlp_nfs_rewinddir
    apply wlp_bind
    apply wlp_fd_end_op (e := { e with counter := e.counter + 1 }) (getElem?_set_of_some he)
    apply wlp_reply; intro _
    first
      | exact NoLeak_clean _ rfl rfl rfl rfl rfl
      | exact NoLeak_clean _ rfl rfl (fd_table_begin_end he) rfl rfl
      | exact NoLeak_status _ rfl rfl

theorem handle_readdir_no_leak (k : Consts) (env : nfs_env) (cmd : fs_cmd_t) (s : State) :
    wlp (handle_readdir k env cmd) s (fun _ s' => NoLeak k s s') := by
  unfold handle_readdir
  apply wlp_bind; apply wlp_get_buffer; intro buf
  split
  ·
    apply wlp_reply; intro _
    first
      | exact NoLeak_clean _ rfl rfl rfl rfl rfl
      | exact NoLeak_clean _ rfl rfl (fd_table_begin_end he) rfl rfl
      | exact NoLeak_status _ rfl rfl
  · apply wlp_bind; apply wlp_fd_begin_op_dir
    · intro r hr
      obtain ⟨err, fh⟩ := r
      dsimp only at hr ⊢
      rw [if_pos hr]
      apply wlp_reply; intro _
      first
        | exact NoLeak_clean _ rfl rfl rfl rfl rfl
        | exact NoLeak_clean _ rfl rfl (fd_table_begin_end he) rfl rfl
        | exact NoLeak_status _ rfl rfl
    · intro fh e he hst
      dsimp only
      rw [if_neg (by decide)]
      apply wlp_bind; apply wlp_nfs_readdir
      cases hd : env.dirent with
      | none =>
        dsimp only
        apply wlp_bind
        apply wlp_fd_end_op (e := { e with counter := e.counter + 1 }) (getElem?_set_of_some he)
        apply wlp_reply; intro _
        first
          | exact NoLeak_clean _ rfl rfl rfl rfl rfl
          | exact NoLeak_clean _ rfl rfl (fd_table_begin_end he) rfl rfl
          | exact NoLeak_status _ rfl rfl
      | some name =>
        dsimp only
        apply wlp_bind; apply wlp_assert; intro _
        apply wlp_bind; apply wlp_memcpy_to_mem; intro m
        apply wlp_bind
        apply wlp_fd_end_op (e := { e with counter := e.counter + 1 }) (getElem?_set_of_some he)
        apply wlp_reply; intro _
        first
          | exact NoLeak_clean _ rfl rfl rfl rfl rfl
          | exact NoLeak_clean _ rfl rfl (fd_table_begin_end he) rfl rfl
          | exact NoLeak_status _ rfl rfl

theorem handle_initialise_no_leak (k : Consts) (env : nfs_env) (cmd : fs_cmd_t) (s : State) :
    wlp (handle_initialise k env cmd) s (fun _ s' => NoLeak k s s') := by
  unfold handle_initialise
  apply wlp_bind; apply wlp_get_nfs
  cases hn : s.nfs with
  | true =>
    simp only [if_true]
    apply wlp_reply; intro _
    first
      | exact NoLeak_clean _ rfl rfl rfl rfl rfl
      | exact NoLeak_clean _ rfl rfl (fd_table_begin_end he) rfl rfl
      | exact NoLeak_status _ rfl rfl
  | false =>
    simp only [Bool.false_eq_true, if_false]
    apply wlp_bind; apply wlp_nfs_init_context
    apply wlp_bind; apply wlp_get_nfs
    cases hi : env.init_context_ok with
    | false =>
      simp only [Bool.not_false, if_true]
      apply wlp_reply; intro _
      first
        | exact NoLeak_clean _ rfl rfl rfl rfl rfl
        | exact NoLeak_clean _ rfl rfl (fd_table_begin_end he) rfl rfl
        | exact NoLeak_status _ rfl rfl
    | true =>
      simp only [Bool.not_true, Bool.false_eq_true, if_false]
      apply wlp_bind; apply wlp_alloc; intro cont pool1 ff1
      apply wlp_bind; apply wlp_assert; intro _
      apply wlp_bind; apply wlp_set_request_id; intro pool2 ffpool2
      apply wlp_bind; apply wlp_nfs_set_autoreconnect
      apply wlp_bind; apply wlp_nfs_async
      · simp only [ne_eq, not_true_eq_false, if_false]
        apply wlp_pure
        exact NoLeak_none rfl
      · intro err herr
        simp only [ne_eq, herr, not_false_eq_true, if_true]
        apply wlp_bind; apply wlp_free; intro pool9 ff9
        apply wlp_reply; intro _
        first
          | exact NoLeak_clean _ rfl rfl rfl rfl rfl
          | exact NoLeak_clean _ rfl rfl (fd_table_begin_end he) rfl rfl
          | exact NoLeak_status _ rfl rfl

/-! ## Every handler of the table -/

theorem handle_deinitialise_no_leak (k : Consts) (env : nfs_env) (cmd : fs_cmd_t) (s : State) :
    wlp (handle_deinitialise k env cmd) s (fun _ s' => NoLeak k s s') :=
  wlp_pure (NoLeak_none rfl)

theorem cmd_handler_none (n : Nat) (h : FS_NUM_COMMANDS ≤ n) : cmd_handler n = none := by
  unfold FS_NUM_COMMANDS at h
  unfold cmd_handler FS_CMD_INITIALISE FS_CMD_DEINITIALISE FS_CMD_FILE_OPEN FS_CMD_FILE_CLOSE
    FS_CMD_STAT FS_CMD_FILE_READ FS_CMD_FILE_WRITE FS_CMD_FILE_SIZE FS_CMD_RENAME
    FS_CMD_FILE_REMOVE FS_CMD_FILE_TRUNCATE FS_CMD_DIR_CREATE FS_CMD_DIR_REMOVE FS_CMD_DIR_OPEN
    FS_CMD_DIR_CLOSE FS_CMD_FILE_SYNC FS_CMD_DIR_READ FS_CMD_DIR_SEEK FS_CMD_DIR_TELL
    FS_CMD_DIR_REWIND
  repeat rw [if_neg (by omega)]

theorem handler_no_leak (k : Consts) (env : nfs_env) (cmd : fs_cmd_t) (s : State) (n : Nat)
    (handler : Consts → nfs_env → fs_cmd_t → M Unit) (hh : cmd_handler n = some handler) :
    wlp (handler k env cmd) s (fun _ s' => NoLeak k s s') := by
  have hlt : n < FS_NUM_COMMANDS := by
    rcases Nat.lt_or_ge n FS_NUM_COMMANDS with h | h
    · exact h
    · rw [cmd_handler_none n h] at hh; cases hh
  unfold FS_NUM_COMMANDS at hlt
  interval_cases n
  · have e : some handle_initialise = some handler := hh
    rw [← Option.some.inj e]
    exact handle_initialise_no_leak k env cmd s
  · have e : some handle_deinitialise = some handler := hh
    rw [← Option.some.inj e]
    exact handle_deinitialise_no_leak k env cmd s
  · have e : some handle_open = some handler := hh
    rw [← Option.some.inj e]
    exact handle_open_no_leak k env cmd s
  · have e : some handle_close = some handler := hh
    rw [← Option.some.inj e]
    exact handle_close_no_leak k env cmd s
  · have e : some handle_stat = some handler := hh
    rw [← Option.some.inj e]
    exact handle_stat_no_leak k env cmd s
  · have e : some handle_read = some handler := hh
    rw [← Option.some.inj e]
    exact handle_read_no_leak k env cmd s
  · have e : some handle_write = some handler := hh
    rw [← Option.some.inj e]
    exact handle_write_no_leak k env cmd s
  · have e : some handle_fsize = some handler := hh
    rw [← Option.some.inj e]
    exact handle_fsize_no_leak k env cmd s
  · have e : some handle_rename = some handler := hh
    rw [← Option.some.inj e]
    exact handle_rename_no_leak k env cmd s
  · have e : some handle_unlink = some handler := hh
    rw [← Option.some.inj e]
    exact handle_unlink_no_leak k env cmd s
  · have e : some handle_truncate = some handler := hh
    rw [← Option.some.inj e]
    exact handle_truncate_no_leak k env cmd s
  · have e : some handle_mkdir = some handler := hh
    rw [← Option.some.inj e]
    exact handle_mkdir_no_leak k env cmd s
  · have e : some handle_rmdir = some handler := hh
    rw [← Option.some.inj e]
    exact handle_rmdir_no_leak k env cmd s
  · have e : some handle_opendir = some handler := hh
    rw [← Option.some.inj e]
    exact handle_opendir_no_leak k env cmd s
  · have e : some handle_closedir = some handler := hh
    rw [← Option.some.inj e]
    exact handle_closedir_no_leak k env cmd s
  · have e : some handle_fsync = some handler := hh
    rw [← Option.some.inj e]
    exact handle_fsync_no_leak k env cmd s
  · have e : some handle_readdir = some handler := hh
    rw [← Option.some.inj e]
    exact handle_readdir_no_leak k env cmd s
  · have e : some handle_seekdir = some handler := hh
    rw [← Option.some.inj e]
    exact handle_seekdir_no_leak k env cmd s
  · have e : some handle_telldir = some handler := hh
    rw [← Option.some.inj e]
    exact handle_telldir_no_leak k env cmd s
  · have e : some handle_rewinddir = some handler := hh
    rw [← Option.some.inj e]
    exact handle_rewinddir_no_leak k env cmd s

/-- C18. For every handler of the table and every command, whenever the handler
returns having published a completion of a validation-class status
(`INVALID_PATH`, `INVALID_BUFFER`, `INVALID_FD`, `ALLOCATION_ERROR`,
`OUTSTANDING_OPERATIONS`), the continuation pool with its free list and the
descriptor table after the handler are equal to those before it, no submission
is pending in addition and no call has been made to the NFS client library: a
rejected command leaks no continuation, no descriptor slot and no
operation-counter increment. -/
theorem rejected_command_leaks_nothing (k : Consts) (env : nfs_env) (cmd : fs_cmd_t)
    (s s' : State) (n : Nat) (handler : Consts → nfs_env → fs_cmd_t → M Unit)
    (cmpl : fs_cmpl_t)
    (hh : cmd_handler n = some handler)
    (hrun : handler k env cmd s = .ok ((), s'))
    (hpub : publishes k cmpl s s')
    (hval : validation_class cmpl.status = true) :
    s'.continuation_pool = s.continuation_pool ∧
    s'.first_free_cont = s.first_free_cont ∧
    s'.fd_table = s.fd_table ∧
    s'.pending = s.pending ∧
    s'.nfs_calls = s.nfs_calls := by
  have h := (handler_no_leak k env cmd s n handler hh).run () s' hrun cmpl hpub hval
  exact ⟨h.continuation_pool, h.first_free_cont, h.fd_table, h.pending, h.nfs_calls⟩

/-! ## Reading a directory -/

theorem c_assert_true {b : Bool} (h : b = true) (s : State) : c_assert b s = .ok ((), s) := by
  subst h; rfl

theorem memcpy_to_mem_ok (dst : Nat) (src : Nat → Nat) (n : Nat) (s : State) :
    memcpy_to_mem dst src n s =
      .ok ((), { s with
        mem := fun a => if dst ≤ a ∧ a < dst + n then src (a - dst) else s.mem a }) := rfl

theorem handle_readdir_small_buffer (k : Consts) (env : nfs_env) (cmd : fs_cmd_t) (s : State)
    (hs : fs_queue_length_producer s.completion_queue ≠ k.FS_QUEUE_CAPACITY)
    (hsz : cmd.params.dir_read.buf.size < k.FS_MAX_NAME_LENGTH) :
    handle_readdir k env cmd s = .ok ((), reply_state k
      { id := cmd.id, status := FS_STATUS_INVALID_BUFFER, data := {} } s) := by
  unfold handle_readdir
  obtain ⟨p, hp⟩ := get_buffer_state cmd.params.dir_read.buf s
  rw [bind_ok hp, if_pos (Or.inr hsz)]
  exact reply_ok _ hs

theorem handle_readdir_end (k : Consts) (env : nfs_env) (cmd : fs_cmd_t) (s : State)
    (e : fd_entry) (h : Nat)
    (hs : fs_queue_length_producer s.completion_queue ≠ k.FS_QUEUE_CAPACITY)
    (hcs : 0 < s.client_share)
    (hb : buffer_valid cmd.params.dir_read.buf)
    (hsz : k.FS_MAX_NAME_LENGTH ≤ cmd.params.dir_read.buf.size)
    (he : s.fd_table[cmd.params.dir_read.fd]? = some e) (hst : e.state = fd_state.dir h)
    (hd : env.dirent = none) :
    handle_readdir k env cmd s = .ok ((), reply_state k
      { id := cmd.id, status := FS_STATUS_END_OF_DIRECTORY, data := {} }
      { s with nfs_calls := s.nfs_calls ++ [nfs_call.readdir h] }) := by
  unfold handle_readdir
  rw [bind_ok (get_buffer_valid _ s hb), if_neg (by unfold NULL; omega)]
  rw [bind_ok (fd_begin_op_dir_ok he hst)]
  dsimp only
  rw [if_neg (by decide)]
  have hr : nfs_readdir env h
      { s with fd_table :=
        s.fd_table.set cmd.params.dir_read.fd { e with counter := e.counter + 1 } } =
      .ok (none, { s with
        fd_table := s.fd_table.set cmd.params.dir_read.fd { e with counter := e.counter + 1 }
        nfs_calls := s.nfs_calls ++ [nfs_call.readdir h] }) := by
    unfold nfs_readdir
    rw [hd]
  rw [bind_ok hr]
  dsimp only
  rw [bind_ok (fd_end_op_ok (e := { e with counter := e.counter + 1 })
    (getElem?_set_of_some he) (Nat.succ_pos _))]
  dsimp only
  rw [fd_table_begin_end he]
  exact reply_ok _ hs

theorem handle_readdir_entry (k : Consts) (env : nfs_env) (cmd : fs_cmd_t) (s : State)
    (e : fd_entry) (h : Nat) (name : List Nat)
    (hs : fs_queue_length_producer s.completion_queue ≠ k.FS_QUEUE_CAPACITY)
    (hcs : 0 < s.client_share)
    (hb : buffer_valid cmd.params.dir_read.buf)
    (hsz : k.FS_MAX_NAME_LENGTH ≤ cmd.params.dir_read.buf.size)
    (he : s.fd_table[cmd.params.dir_read.fd]? = some e) (hst : e.state = fd_state.dir h)
    (hd : env.dirent = some name) (hlen : name.length ≤ k.FS_MAX_NAME_LENGTH) :
    handle_readdir k env cmd s = .ok ((), reply_state k
      { id := cmd.id, status := FS_STATUS_SUCCESS,
        data := { dir_read_path_len := name.length } }
      { s with
        nfs_calls := s.nfs_calls ++ [nfs_call.readdir h]
        mem := fun a =>
          if s.client_share + cmd.params.dir_read.buf.offset ≤ a ∧
              a < s.client_share + cmd.params.dir_read.buf.offset + name.length then
            name.getD (a - (s.client_share + cmd.params.dir_read.buf.offset)) 0
          else s.mem a }) := by
  unfold handle_readdir
  rw [bind_ok (get_buffer_valid _ s hb), if_neg (by unfold NULL; omega)]
  rw [bind_ok (fd_begin_op_dir_ok he hst)]
  dsimp only
  rw [if_neg (by decide)]
  have hr : nfs_readdir env h
      { s with fd_table :=
        s.fd_table.set cmd.params.dir_read.fd { e with counter := e.counter + 1 } } =
      .ok (some name, { s with
        fd_table := s.fd_table.set cmd.params.dir_read.fd { e with counter := e.counter + 1 }
        nfs_calls := s.nfs_calls ++ [nfs_call.readdir h] }) := by
    unfold nfs_readdir
    rw [hd]
  rw [bind_ok hr]
  dsimp only
  rw [bind_ok (c_assert_true (decide_eq_true hlen) _)]
  rw [bind_ok (memcpy_to_mem_ok _ _ _ _)]
  dsimp only
  rw [bind_ok (fd_end_op_ok (e := { e with counter := e.counter + 1 })
    (getElem?_set_of_some he) (Nat.succ_pos _))]
  dsimp only
  rw [fd_table_begin_end he]
  exact reply_ok _ hs

theorem handle_readdir_long_name (k : Consts) (env : nfs_env) (cmd : fs_cmd_t) (s : State)
    (e : fd_entry) (h : Nat) (name : List Nat)
    (hcs : 0 < s.client_share)
    (hb : buffer_valid cmd.params.dir_read.buf)
    (hsz : k.FS_MAX_NAME_LENGTH ≤ cmd.params.dir_read.buf.size)
    (he : s.fd_table[cmd.params.dir_read.fd]? = some e) (hst : e.state = fd_state.dir h)
    (hd : env.dirent = some name) (hlen : k.FS_MAX_NAME_LENGTH < name.length) :
    handle_readdir k env cmd s = .error Fault.assertion := by
  unfold handle_readdir
  rw [bind_ok (get_buffer_valid _ s hb), if_neg (by unfold NULL; omega)]
  rw [bind_ok (fd_begin_op_dir_ok he hst)]
  dsimp only
  rw [if_neg (by decide)]
  have hr : nfs_readdir env h
      { s with fd_table :=
        s.fd_table.set cmd.params.dir_read.fd { e with counter := e.counter + 1 } } =
      .ok (some name, { s with
        fd_table := s.fd_table.set cmd.params.dir_read.fd { e with counter := e.counter + 1 }
        nfs_calls := s.nfs_calls ++ [nfs_call.readdir h] }) := by
    unfold nfs_readdir
    rw [hd]
  rw [bind_ok hr]
  dsimp only
  apply bind_error
  unfold c_assert
  rw [if_neg]
  simp
  omega

/-! ## Closing a file -/

theorem NoSuccess_status {k : Consts} {s t : State} (cmpl : fs_cmpl_t)
    (hq : t.completion_queue = s.completion_queue)
    (hst : cmpl.status ≠ FS_STATUS_SUCCESS) : NoSuccess k s (reply_state k cmpl t) := by
  intro c hpub
  have := reply_state_cmpl_inj hq hpub.1
  subst this
  exact hst

theorem NoSuccess_none {k : Consts} {s t : State} (hn : t.notified = s.notified) :
    NoSuccess k s t := by
  intro c hpub
  have := hpub.2
  omega

theorem handle_close_no_success (k : Consts) (env : nfs_env) (cmd : fs_cmd_t) (s : State) :
    wlp (handle_close k env cmd) s (fun _ s' => NoSuccess k s s') := by
  unfold handle_close
  apply wlp_bind; apply wlp_fd_begin_op_file
  · intro r hr
    obtain ⟨err, fh⟩ := r
    dsimp only at hr ⊢
    rw [if_pos hr]
    apply wlp_reply; intro _
    exact NoSuccess_status _ rfl (by intro h; cases h)
  · intro fh e he hst
    dsimp only
    rw [if_neg (by decide)]
    apply wlp_bind
    apply wlp_fd_end_op (e := { e with counter := e.counter + 1 }) (getElem?_set_of_some he)
    apply wlp_bind; apply wlp_fd_unset
    · intro r hr
      rw [if_pos hr]
      apply wlp_reply; intro _
      exact NoSuccess_status _ rfl (by intro h; cases h)
    · intro e2 he2
      rw [if_neg (by decide)]
      apply wlp_bind; apply wlp_alloc; intro cont pool1 ff1
      apply wlp_bind; apply wlp_assert; intro _
      apply wlp_bind; apply wlp_set_request_id; intro pool2 ffpool2
      apply wlp_bind; apply wlp_set_data; intro pool3 ffpool3
      apply wlp_bind; apply wlp_set_data; intro pool4 ffpool4
      apply wlp_bind; apply wlp_nfs_async
      · simp only [ne_eq, not_true_eq_false, if_false]
        apply wlp_pure
        exact NoSuccess_none rfl
      · intro err herr
        simp only [ne_eq, herr, not_false_eq_true, if_true]
        apply wlp_bind; apply wlp_free; intro pool9 ff9
        apply wlp_bind; apply wlp_fd_set_file (e := { e2 with state := fd_state.reserved }) (getElem?_set_of_some he2)
        apply wlp_reply; intro _
        exact NoSuccess_status _ rfl (by intro h; cases h)

theorem getD_set_set_0 (l : List Nat) (x y : Nat) (hl : 2 ≤ l.length) :
    ((l.set 0 x).set 1 y).getD 0 0 = x := by
  match l, hl with
  | _ :: _ :: _, _ => rfl

theorem getD_set_set_1 (l : List Nat) (x y : Nat) (hl : 2 ≤ l.length) :
    ((l.set 0 x).set 1 y).getD 1 0 = y := by
  match l, hl with
  | _ :: _ :: _, _ => rfl

theorem handle_close_submits (k : Consts) (env : nfs_env) (cmd : fs_cmd_t) (s : State)
    (c : Nat) (fl : List Nat) (e : fd_entry) (h : Nat)
    (hp : PoolOK k s.continuation_pool s.first_free_cont (c :: fl))
    (hdata : ∀ c0, s.continuation_pool[c]? = some c0 → 2 ≤ c0.data.length)
    (he : s.fd_table[cmd.params.file_close.fd]? = some e)
    (hst : e.state = fd_state.file h) (hcnt : e.counter = 0)
    (henv : env.err = 0) :
    wpt (handle_close k env cmd) s (fun _ s1 =>
      s1.pending = s.pending ++
        [{ call := nfs_call.close h, cb := nfs_cb.close_cb, private_data := some (c : Int) }] ∧
      s1.completion_queue = s.completion_queue ∧
      s1.notified = s.notified ∧
      s1.nfs_calls = s.nfs_calls ++ [nfs_call.close h] ∧
      s1.fd_table = s.fd_table.set cmd.params.file_close.fd { e with state := fd_state.reserved } ∧
      (∃ cont, s1.continuation_pool[c]? = some cont ∧ cont.request_id = cmd.id ∧
        cont.data.getD 0 0 = cmd.params.file_close.fd ∧ cont.data.getD 1 0 = h ∧
        cont.next_free = none) ∧
      PoolOK k s1.continuation_pool s1.first_free_cont fl) := by
  obtain ⟨c0, hff, hc, hcN, hcfl, hok⟩ := PoolOK_alloc hp
  have hlen := hdata c0 hc
  unfold handle_close
  apply wpt_bind
  apply wpt_of_eq (fd_begin_op_file_ok (by exact he) hst)
  dsimp only
  rw [if_neg (by decide)]
  apply wpt_bind
  apply wpt_of_eq (fd_end_op_ok (e := { e with counter := e.counter + 1 })
    (getElem?_set_of_some he) (Nat.succ_pos _))
  dsimp only
  rw [fd_table_begin_end he]
  apply wpt_bind
  apply wpt_of_eq (fd_unset_ok (by exact he) (Or.inl ⟨h, hst⟩) hcnt)
  dsimp only
  rw [if_neg (by decide)]
  apply wpt_bind
  apply wpt_of_eq (continuation_alloc_ok (by exact hff) (by exact hc) hcN)
  dsimp only
  apply wpt_bind; apply wpt_assert rfl
  apply wpt_bind
  apply wpt_of_eq (cont_set_request_id_ok _ (getElem?_set_of_some hc) hcN)
  dsimp only
  apply wpt_bind
  apply wpt_of_eq (cont_set_data_ok _ _ (getElem?_set_of_some (getElem?_set_of_some hc)) hcN)
  dsimp only
  apply wpt_bind
  apply wpt_of_eq (cont_set_data_ok _ _
    (getElem?_set_of_some (getElem?_set_of_some (getElem?_set_of_some hc))) hcN)
  dsimp only
  apply wpt_bind
  apply wpt_of_eq (nfs_async_accept _ _ _ henv)
  dsimp only
  rw [if_neg (by simp)]
  apply wpt_pure
  refine ⟨rfl, rfl, rfl, rfl, rfl, ?_, ?_⟩
  · refine ⟨_, getElem?_set_of_some (getElem?_set_of_some
      (getElem?_set_of_some (getElem?_set_of_some hc))), rfl, ?_, ?_, rfl⟩
    · exact getD_set_set_0 _ _ _ hlen
    · exact getD_set_set_1 _ _ _ hlen
  · exact PoolOK_set_same_next _
      (PoolOK_set_same_next _
        (PoolOK_set_same_next _ hok (getElem?_set_of_some hc) rfl)
        (getElem?_set_of_some (getElem?_set_of_some hc)) rfl)
      (getElem?_set_of_some (getElem?_set_of_some (getElem?_set_of_some hc))) rfl

theorem close_cb_success (k : Consts) (a : cb_args) (t : State) (c : Nat) (cont : continuation)
    (ent : fd_entry)
    (hc : t.continuation_pool[c]? = some cont) (hcN : c < MAX_CONCURRENT_OPS k)
    (hn : cont.next_free = none)
    (hent : t.fd_table[cont.data.getD 0 0]? = some ent) (hres : ent.state = fd_state.reserved)
    (hs : fs_queue_length_producer t.completion_queue ≠ k.FS_QUEUE_CAPACITY)
    (ha : a.status = 0) :
    close_cb k a (some (c : Int)) t = .ok ((), reply_state k
      { id := cont.request_id, status := FS_STATUS_SUCCESS, data := {} }
      { t with
        fd_table := t.fd_table.set (cont.data.getD 0 0) { state := fd_state.free, counter := 0 }
        continuation_pool := t.continuation_pool.set c { cont with next_free := t.first_free_cont }
        first_free_cont := some (c : Int) }) := by
  unfold close_cb
  rw [bind_ok (cont_read_ok hcN hc)]
  dsimp only
  rw [if_pos ha]
  rw [bind_ok (fd_free_ok hent hres)]
  rw [bind_ok (continuation_free_ok (by exact hc) hcN hn)]
  exact reply_ok _ hs

theorem close_cb_failure (k : Consts) (a : cb_args) (t : State) (c : Nat) (cont : continuation)
    (ent : fd_entry)
    (hc : t.continuation_pool[c]? = some cont) (hcN : c < MAX_CONCURRENT_OPS k)
    (hn : cont.next_free = none)
    (hent : t.fd_table[cont.data.getD 0 0]? = some ent) (hres : ent.state = fd_state.reserved)
    (hs : fs_queue_length_producer t.completion_queue ≠ k.FS_QUEUE_CAPACITY)
    (ha : a.status ≠ 0) :
    close_cb k a (some (c : Int)) t = .ok ((), reply_state k
      { id := cont.request_id, status := FS_STATUS_ERROR, data := {} }
      { t with
        fd_table := t.fd_table.set (cont.data.getD 0 0)
          { ent with state := fd_state.file (cont.data.getD 1 0) }
        continuation_pool := t.continuation_pool.set c { cont with next_free := t.first_free_cont }
        first_free_cont := some (c : Int) }) := by
  unfold close_cb
  rw [bind_ok (cont_read_ok hcN hc)]
  dsimp only
  rw [if_neg ha]
  rw [bind_ok (fd_set_file_ok hent hres)]
  rw [bind_ok (continuation_free_ok (by exact hc) hcN hn)]
  exact reply_ok _ hs

/-- A free slot can be allocated: `alloc` succeeds and takes a slot of index at
most `fd`. -/
theorem fd_alloc_of_free {s : State} {fd : Nat} {e : fd_entry}
    (he : s.fd_table[fd]? = some e) (hst : e.state = fd_state.free) :
    ∃ fd' u, fd_alloc s = .ok ((0, fd'), u) ∧ fd' ≤ fd ∧
      u.fd_table[fd']? = some { state := fd_state.reserved, counter := 0 } := by
  unfold fd_alloc
  cases hf : s.fd_table.findIdx? (fun e => e.state == fd_state.free) with
  | none =>
    rw [List.findIdx?_eq_none_iff] at hf
    have := hf e (List.mem_iff_getElem?.2 ⟨fd, he⟩)
    simp [hst] at this
  | some i =>
    obtain ⟨hlt, hp, hmin⟩ := List.findIdx?_eq_some_iff_getElem.1 hf
    refine ⟨i, _, rfl, ?_, List.getElem?_set_self hlt⟩
    rcases Nat.lt_or_ge fd i with hlt' | hge
    · exfalso
      have hfd : fd < s.fd_table.length := lt_length_of_getElem? he
      have h1 := hmin fd hlt'
      have h2 : s.fd_table[fd] = e := by
        have := List.getElem?_eq_getElem hfd
        rw [he] at this
        exact (Option.some.inj this).symm
      rw [h2] at h1
      simp [hst] at h1
    · exact hge

/-! ## The callback of `CLOSE` and the entries of a directory -/

/-- C12. For a descriptor bound to the file handle `h` with operation counter 0,
`handle_close` (the NFS client library accepting the submission) returns with one
more pending submission, the close of `h` with callback `close_cb`, and nothing
published; the slot is reserved meanwhile. When the callback then runs in a state
where the continuation and the slot are as the handler left them and the
completion queue has producer space, it returns, and: if it reports success
(status 0) the published completion carries the request identifier and status
`SUCCESS` and the slot is free, so that a later `alloc` succeeds and takes a slot
of index at most `fd`; if it reports failure the completion carries status
`ERROR` and the slot is again bound to the file handle `h` with counter 0. A
completion of status `SUCCESS` is published by the callback only with the slot
freed, and never by `handle_close` itself. -/
theorem close_callback_frees_or_restores (k : Consts) (env : nfs_env) (cmd : fs_cmd_t)
    (s : State) (c : Nat) (fl : List Nat) (h : Nat) (a : cb_args)
    (hslot : s.fd_table[cmd.params.file_close.fd]? =
      some { state := fd_state.file h, counter := 0 })
    (hp : PoolOK k s.continuation_pool s.first_free_cont (c :: fl))
    (hdata : ∀ c0, s.continuation_pool[c]? = some c0 → c0.data.length = 4)
    (henv : env.err = 0) :
    (∃ s1, handle_close k env cmd s = .ok ((), s1) ∧
      s1.pending = s.pending ++
        [{ call := nfs_call.close h, cb := nfs_cb.close_cb, private_data := some (c : Int) }] ∧
      s1.completion_queue = s.completion_queue ∧
      s1.notified = s.notified ∧
      s1.fd_table[cmd.params.file_close.fd]? =
        some { state := fd_state.reserved, counter := 0 } ∧
      ∀ t : State,
        t.continuation_pool[c]? = s1.continuation_pool[c]? →
        t.fd_table[cmd.params.file_close.fd]? = s1.fd_table[cmd.params.file_close.fd]? →
        fs_queue_length_producer t.completion_queue ≠ k.FS_QUEUE_CAPACITY →
        ∃ t', close_cb k a (some (c : Int)) t = .ok ((), t') ∧
          (a.status = 0 →
            publishes k { id := cmd.id, status := FS_STATUS_SUCCESS, data := {} } t t' ∧
            t'.fd_table[cmd.params.file_close.fd]? =
              some { state := fd_state.free, counter := 0 } ∧
            ∃ fd' u, fd_alloc t' = .ok ((0, fd'), u) ∧ fd' ≤ cmd.params.file_close.fd ∧
              u.fd_table[fd']? = some { state := fd_state.reserved, counter := 0 }) ∧
          (a.status ≠ 0 →
            publishes k { id := cmd.id, status := FS_STATUS_ERROR, data := {} } t t' ∧
            t'.fd_table[cmd.params.file_close.fd]? =
              some { state := fd_state.file h, counter := 0 }) ∧
          (∀ cmpl, publishes k cmpl t t' → cmpl.status = FS_STATUS_SUCCESS →
            t'.fd_table[cmd.params.file_close.fd]? =
              some { state := fd_state.free, counter := 0 })) ∧
    (∀ (env' : nfs_env) (s0 s0' : State) (cmpl : fs_cmpl_t),
      handle_close k env' cmd s0 = .ok ((), s0') → publishes k cmpl s0 s0' →
      cmpl.status ≠ FS_STATUS_SUCCESS) := by
  have hcN : c < MAX_CONCURRENT_OPS k := hp.bound c (List.mem_cons_self _ _)
  constructor
  · obtain ⟨u, s1, hrun, hpend, hcq, hnot, _, htbl, ⟨cont, hcont, hid, hd0, hd1, hnf⟩, _⟩ :=
      handle_close_submits k env cmd s c fl _ h hp
        (fun c0 hc0 => by rw [hdata c0 hc0]; decide) hslot rfl rfl henv
    have hslot1 : s1.fd_table[cmd.params.file_close.fd]? =
        some { state := fd_state.reserved, counter := 0 } := by
      rw [htbl]
      exact getElem?_set_of_some hslot
    refine ⟨s1, hrun, hpend, hcq, hnot, hslot1, ?_⟩
    intro t hpool htab hs
    rw [hcont] at hpool
    rw [hslot1] at htab
    have hent : t.fd_table[cont.data.getD 0 0]? =
        some { state := fd_state.reserved, counter := 0 } := by
      rw [hd0]; exact htab
    by_cases ha : a.status = 0
    · have hrun' := close_cb_success k a t c cont _ hpool hcN hnf hent rfl hs ha
      have hfree : (t.fd_table.set (cont.data.getD 0 0)
          { state := fd_state.free, counter := 0 })[cmd.params.file_close.fd]? =
          some { state := fd_state.free, counter := 0 } := by
        rw [hd0]; exact getElem?_set_of_some htab
      refine ⟨_, hrun', ?_, fun hne => absurd ha hne, fun _ _ _ => hfree⟩
      intro _
      refine ⟨⟨?_, rfl⟩, hfree, ?_⟩
      · rw [hid]; rfl
      · exact fd_alloc_of_free (e := { state := fd_state.free, counter := 0 }) hfree rfl
    · have hrun' := close_cb_failure k a t c cont _ hpool hcN hnf hent rfl hs ha
      have hpub : publishes k { id := cmd.id, status := FS_STATUS_ERROR, data := {} } t
          (reply_state k { id := cont.request_id, status := FS_STATUS_ERROR, data := {} }
            { t with
              fd_table := t.fd_table.set (cont.data.getD 0 0)
                { ({ state := fd_state.reserved, counter := 0 } : fd_entry) with
                  state := fd_state.file (cont.data.getD 1 0) }
              continuation_pool :=
                t.continuation_pool.set c { cont with next_free := t.first_free_cont }
              first_free_cont := some (c : Int) }) := by
        refine ⟨?_, rfl⟩
        rw [hid]; rfl
      refine ⟨_, hrun', fun h0 => absurd h0 ha, ?_, ?_⟩
      · intro _
        refine ⟨hpub, ?_⟩
        show (t.fd_table.set (cont.data.getD 0 0) _)[cmd.params.file_close.fd]? = _
        rw [hd0, hd1]
        exact getElem?_set_of_some htab
      · intro cmpl hc hst
        exfalso
        have hinj : ({ id := cmd.id, status := FS_STATUS_ERROR, data := {} } : fs_cmpl_t) =
            cmpl := by
          have h1 := hpub.1
          rw [hc.1] at h1
          exact (reply_state_cmpl_inj rfl h1).symm
        rw [← hinj] at hst
        cases hst
  · intro env' s0 s0' cmpl hrun hpub
    exact (handle_close_no_success k env' cmd s0).run () s0' hrun cmpl hpub

/-- C17 (counterexample). `DIR_READ` with a valid buffer of `FS_MAX_NAME_LENGTH` bytes on
a descriptor bound to a directory, the NFS client library returning an entry whose
name is 257 bytes long, one more than `FS_MAX_NAME_LENGTH`: the handler stops in
its assertion and publishes no completion. -/
theorem readdir_long_name_fails_assertion :
    buffer_valid (cmd_readdir 9).params.dir_read.buf ∧
    consts_q2.FS_MAX_NAME_LENGTH ≤ (cmd_readdir 9).params.dir_read.buf.size ∧
    bound_q2.fd_table[(cmd_readdir 9).params.dir_read.fd]? =
      some { state := fd_state.dir 9, counter := 2 } ∧
    env_long_name.dirent = some (List.replicate 257 0x61) ∧
    handle_readdir consts_q2 env_long_name (cmd_readdir 9) bound_q2 =
      .error Fault.assertion := by
  have hb : buffer_valid (cmd_readdir 9).params.dir_read.buf := by
    unfold buffer_valid; decide
  refine ⟨hb, by decide, rfl, rfl, ?_⟩
  exact handle_readdir_long_name consts_q2 env_long_name (cmd_readdir 9) bound_q2
    { state := fd_state.dir 9, counter := 2 } 9 (List.replicate 257 0x61)
    (by decide) hb (by decide) rfl rfl rfl (by rw [List.length_replicate]; decide)

/-- C17 (amended). For a `DIR_READ` command, the completion queue having producer
space: a buffer of size less than `FS_MAX_NAME_LENGTH` yields `INVALID_BUFFER`
and nothing else. With a valid buffer of size at least `FS_MAX_NAME_LENGTH`, the
shared region at a non-null address and a descriptor bound to a directory: if
`nfs_readdir` returns no entry, the handler publishes exactly one completion, of
status `END_OF_DIRECTORY`, and the shared data region is unchanged; if it returns
an entry whose name is at most `FS_MAX_NAME_LENGTH` bytes long, the handler
publishes exactly one completion, of status `SUCCESS` with `path_len` the length
of the name, the bytes of the name are at the start of the buffer and no other
byte of the region has changed; in both cases the descriptor table, and so the
operation counter of the descriptor, is as before. An entry with a longer name
stops the handler in its assertion. -/
theorem readdir_completes (k : Consts) (env : nfs_env) (cmd : fs_cmd_t) (s : State)
    (hs : fs_queue_length_producer s.completion_queue ≠ k.FS_QUEUE_CAPACITY) :
    (cmd.params.dir_read.buf.size < k.FS_MAX_NAME_LENGTH →
      ∃ s', handle_readdir k env cmd s = .ok ((), s') ∧
        Rejected k { id := cmd.id, status := FS_STATUS_INVALID_BUFFER, data := {} } s s') ∧
    (∀ (e : fd_entry) (h : Nat),
      buffer_valid cmd.params.dir_read.buf →
      k.FS_MAX_NAME_LENGTH ≤ cmd.params.dir_read.buf.size →
      0 < s.client_share →
      s.fd_table[cmd.params.dir_read.fd]? = some e → e.state = fd_state.dir h →
      (env.dirent = none →
        ∃ s', handle_readdir k env cmd s = .ok ((), s') ∧
          publishes k { id := cmd.id, status := FS_STATUS_END_OF_DIRECTORY, data := {} } s s' ∧
          s'.mem = s.mem ∧ s'.fd_table = s.fd_table) ∧
      (∀ name : List Nat, env.dirent = some name → name.length ≤ k.FS_MAX_NAME_LENGTH →
        ∃ s', handle_readdir k env cmd s = .ok ((), s') ∧
          publishes k
            { id := cmd.id, status := FS_STATUS_SUCCESS,
              data := { dir_read_path_len := name.length } } s s' ∧
          (∀ j, j < name.length →
            s'.mem (s.client_share + cmd.params.dir_read.buf.offset + j) = name.getD j 0) ∧
          (∀ b, b < s.client_share + cmd.params.dir_read.buf.offset ∨
              s.client_share + cmd.params.dir_read.buf.offset + name.length ≤ b →
            s'.mem b = s.mem b) ∧
          s'.fd_table = s.fd_table) ∧
      (∀ name : List Nat, env.dirent = some name → k.FS_MAX_NAME_LENGTH < name.length →
        handle_readdir k env cmd s = .error Fault.assertion)) := by
  constructor
  · intro hsz
    exact ⟨_, handle_readdir_small_buffer k env cmd s hs hsz, Rejected_reply_state _ _ _⟩
  · intro e h hb hsz hcs he hst
    refine ⟨?_, ?_, ?_⟩
    · intro hd
      exact ⟨_, handle_readdir_end k env cmd s e h hs hcs hb hsz he hst hd, ⟨rfl, rfl⟩, rfl, rfl⟩
    · intro name hd hlen
      refine ⟨_, handle_readdir_entry k env cmd s e h name hs hcs hb hsz he hst hd hlen,
        ⟨rfl, rfl⟩, ?_, ?_, rfl⟩
      · intro j hj
        show (if _ then _ else _) = _
        rw [if_pos ⟨by omega, by omega⟩]
        congr 1
        omega
      · intro b hb'
        show (if _ then _ else _) = _
        rw [if_neg (by omega)]
    · intro name hd hlen
      exact handle_readdir_long_name k env cmd s e h name hcs hb hsz he hst hd hlen

/-! ## Concrete instances -/

theorem start_q2_pool_ok :
    PoolOK consts_q2 start_q2.continuation_pool start_q2.first_free_cont [0, 1] :=
  init_pool_ok consts_q2 (by decide) (boot_state consts_q2 0x30000000 (fun _ => 0x2f)) rfl

theorem fd_table_wf_replicate (n : Nat) : fd_table_wf (List.replicate n {}) := by
  intro e he _
  rw [List.eq_of_mem_replicate he]

theorem cmd_unlink_acquires (id : Nat) (k : Consts) (s : State)
    (hk : 1 ≤ k.FS_MAX_PATH_LENGTH) : acquisition_succeeds k (cmd_unlink id) s := by
  refine Or.inr (Or.inr (Or.inr (Or.inr (Or.inr (Or.inr (Or.inr (Or.inl ⟨rfl, ?_, hk⟩)))))))
  show (0 : Nat) < CLIENT_SHARE_SIZE ∧ 1 ≤ CLIENT_SHARE_SIZE - 0 ∧ 0 < 1
  decide

theorem rejected_submission_is_rolled_back_witness :
    PoolOK consts_q1 start_q1.continuation_pool start_q1.first_free_cont [0] ∧
    fd_table_wf start_q1.fd_table ∧
    acquisition_succeeds consts_q1 (cmd_unlink 7) start_q1 ∧
    env_reject.err ≠ 0 ∧
    ∃ s', process_command consts_q1 env_reject (cmd_unlink 7) start_q1 = .ok ((), s') ∧
      RolledBack consts_q1 (cmd_unlink 7).id start_q1 s' :=
  ⟨start_q1_pool_ok, fd_table_wf_replicate 4, cmd_unlink_acquires 7 consts_q1 start_q1 (by decide),
   by decide,
   rejected_submission_is_rolled_back consts_q1 env_reject (cmd_unlink 7) start_q1 0 []
     start_q1_pool_ok (by decide) (by decide) (fd_table_wf_replicate 4)
     (cmd_unlink_acquires 7 consts_q1 start_q1 (by decide)) (by decide)⟩

theorem close_callback_frees_or_restores_witness :
    bound_q2.fd_table[(cmd_close 6 0).params.file_close.fd]? =
      some { state := fd_state.file 7, counter := 0 } ∧
    ∃ s1, handle_close consts_q2 {} (cmd_close 6 0) bound_q2 = .ok ((), s1) ∧
      s1.pending =
        [{ call := nfs_call.close 7, cb := nfs_cb.close_cb, private_data := some 0 }] ∧
      s1.fd_table[0]? = some { state := fd_state.reserved, counter := 0 } :=
  ⟨rfl, by
    obtain ⟨s1, hrun, hpend, _, _, hslot, _⟩ :=
      (close_callback_frees_or_restores consts_q2 {} (cmd_close 6 0) bound_q2 0 [1] 7 {}
        rfl start_q2_pool_ok
        (fun c0 hc0 => by
          have e : bound_q2.continuation_pool[0]? =
              some { request_id := 0, data := [0, 0, 0, 0], next_free := some 1 } := rfl
          rw [e] at hc0
          rw [← Option.some.inj hc0]
          rfl)
        rfl).1
    exact ⟨s1, hrun, hpend, hslot⟩⟩

theorem close_with_outstanding_operations_witness :
    (0 : Nat) < 1 ∧
    fs_queue_length_producer bound_q2.completion_queue ≠ consts_q2.FS_QUEUE_CAPACITY ∧
    ∃ s', handle_close consts_q2 {} (cmd_close 6 2) bound_q2 = .ok ((), s') ∧
      Rejected consts_q2
        { id := 6, status := FS_STATUS_OUTSTANDING_OPERATIONS, data := {} } bound_q2 s' ∧
      s'.fd_table[2]? = some { state := fd_state.file 8, counter := 1 } :=
  ⟨by decide, by decide,
   (close_with_outstanding_operations consts_q2 {} (cmd_close 6 2) bound_q2 8 1 (by decide)
     (by decide)).1 rfl⟩

theorem invalid_command_is_skipped_witness :
    (0 : Nat) < 2 ∧
    (nth_command consts_q2 run_f1 0).type ≥ FS_NUM_COMMANDS ∧
    fs_queue_length_producer run_f1.completion_queue ≠ consts_q2.FS_QUEUE_CAPACITY ∧
    fs_queue_length_producer run_f1.completion_queue + (2 - 0) ≤
      consts_q2.FS_QUEUE_CAPACITY ∧
    process_commands_loop consts_q2 env_accept 2 2 0 run_f1 =
      process_commands_loop consts_q2 env_accept 2 1 1 (reply_state consts_q2
        { id := (nth_command consts_q2 run_f1 0).id, status := FS_STATUS_INVALID_COMMAND,
          data := {} } run_f1) ∧
    ∃ t, process_commands_loop consts_q2 env_accept 2 1 1 run_f1 = .ok ((), t) ∧
      ∃ l : List fs_cmpl_t,
        l.length ≤ 2 - (0 + 1) ∧
        t.completion_queue = fs_queue_produce consts_q2 run_f1.completion_queue l ∧
        t.notified = run_f1.notified + l.length ∧
        process_commands_loop consts_q2 env_accept 2 1 1 (reply_state consts_q2
            { id := (nth_command consts_q2 run_f1 0).id, status := FS_STATUS_INVALID_COMMAND,
              data := {} } run_f1) =
          .ok ((), with_completions t
            (fs_queue_produce consts_q2 (reply_state consts_q2
              { id := (nth_command consts_q2 run_f1 0).id,
                status := FS_STATUS_INVALID_COMMAND, data := {} }
              run_f1).completion_queue l)
            (run_f1.notified + 1 + l.length)) :=
  ⟨by decide, by decide, by decide, by decide,
   (invalid_command_is_skipped consts_q2 env_accept 2 1 0 run_f1 (by decide) (by decide)
     (by decide)).2.2.1,
   _, rfl,
   ((invalid_command_is_skipped consts_q2 env_accept 2 1 0 run_f1 (by decide) (by decide)
     (by decide)).2.2.2 (by decide)).1 _ rfl⟩

theorem handle_read_rejects_invalid_witness :
    fs_queue_length_producer bound_q2.completion_queue ≠ consts_q2.FS_QUEUE_CAPACITY ∧
    ∃ s', handle_read consts_q2 {} (cmd_read_empty 3) bound_q2 = .ok ((), s') ∧
      Rejected consts_q2 { id := 3, status := FS_STATUS_INVALID_BUFFER, data := {} } bound_q2 s' :=
  ⟨by decide,
   (handle_read_rejects_invalid consts_q2 {} (cmd_read_empty 3) bound_q2 (by decide)).1
     (Or.inl rfl)⟩

theorem open_passes_translated_flags_witness :
    path_ok consts_q2 (cmd_open 2).params.file_open.path ∧
    (∃ e, e ∈ bound_q2.fd_table ∧ e.state = fd_state.free) ∧
    ∃ s', handle_open consts_q2 {} (cmd_open 2) bound_q2 = .ok ((), s') ∧
      s'.nfs_calls = bound_q2.nfs_calls ++
        [nfs_call.open2 0 (open_flags_translation consts_q2 6) 0o644] :=
  have hpath : path_ok consts_q2 (cmd_open 2).params.file_open.path :=
    ⟨by unfold buffer_valid; decide, by decide⟩
  have hfree : ∃ e, e ∈ bound_q2.fd_table ∧ e.state = fd_state.free :=
    ⟨{ state := fd_state.free, counter := 0 }, by decide, rfl⟩
  ⟨hpath, hfree,
   (open_passes_translated_flags consts_q2 {} (cmd_open 2) bound_q2 0 [1] start_q2_pool_ok
     (by decide) (by decide) hpath hfree).1⟩

theorem readdir_completes_witness :
    fs_queue_length_producer bound_q2.completion_queue ≠ consts_q2.FS_QUEUE_CAPACITY ∧
    ∃ s', handle_readdir consts_q2 {} (cmd_readdir 9) bound_q2 = .ok ((), s') ∧
      publishes consts_q2 { id := 9, status := FS_STATUS_END_OF_DIRECTORY, data := {} }
        bound_q2 s' ∧
      s'.mem = bound_q2.mem ∧ s'.fd_table = bound_q2.fd_table :=
  ⟨by decide,
   ((readdir_completes consts_q2 {} (cmd_readdir 9) bound_q2 (by decide)).2
     { state := fd_state.dir 9, counter := 2 } 9 (by unfold buffer_valid; decide) (by decide)
     (by decide) rfl rfl).1 rfl⟩

theorem rejected_command_leaks_nothing_witness :
    cmd_handler FS_CMD_FILE_READ = some handle_read ∧
    handle_read consts_q2 {} (cmd_read_empty 3) bound_q2 =
      .ok ((), reply_state consts_q2
        { id := 3, status := FS_STATUS_INVALID_BUFFER, data := {} } bound_q2) ∧
    (reply_state consts_q2
        { id := 3, status := FS_STATUS_INVALID_BUFFER, data := {} } bound_q2).continuation_pool =
      bound_q2.continuation_pool ∧
    (reply_state consts_q2
        { id := 3, status := FS_STATUS_INVALID_BUFFER, data := {} } bound_q2).fd_table =
      bound_q2.fd_table :=
  have hrun : handle_read consts_q2 {} (cmd_read_empty 3) bound_q2 =
      .ok ((), reply_state consts_q2
        { id := 3, status := FS_STATUS_INVALID_BUFFER, data := {} } bound_q2) :=
    handle_read_invalid_buffer consts_q2 {} (cmd_read_empty 3) bound_q2 (by decide)
      (by unfold buffer_valid; decide)
  have h := rejected_command_leaks_nothing consts_q2 {} (cmd_read_empty 3) bound_q2 _
    FS_CMD_FILE_READ handle_read { id := 3, status := FS_STATUS_INVALID_BUFFER, data := {} }
    rfl hrun ⟨rfl, rfl⟩ rfl
  ⟨rfl, hrun, h.1, h.2.2.1⟩

/-! ## What a handler hands to its callback -/

theorem Handoff_none {cb : Option nfs_cb} {id c : Nat} {s s' : State}
    (h : s'.pending = s.pending) : Handoff cb id c s s' := by
  intro p hp
  rw [h] at hp
  have := congrArg List.length hp
  simp at this

theorem Handoff_submit {cb : nfs_cb} {id c : Nat} {s s' : State} {call : nfs_call}
    (hpend : s'.pending =
      s.pending ++ [{ call := call, cb := cb, private_data := some (c : Int) }])
    (h : ∃ cont, s'.continuation_pool[c]? = some cont ∧ cont.request_id = id ∧
      cb_fd_ready cb cont s'.fd_table) : Handoff (some cb) id c s s' := by
  intro p hp
  rw [hpend] at hp
  have e := List.append_cancel_left hp
  injection e with e _
  subst e
  exact ⟨rfl, rfl, h⟩

theorem getD_set_0 (l : List Nat) (x : Nat) (hl : l.length = 4) : (l.set 0 x).getD 0 0 = x := by
  match l, hl with
  | _ :: _, _ => rfl

theorem getD_set_set_0_of_four (l : List Nat) (x y : Nat) (hl : l.length = 4) :
    ((l.set 0 x).set 1 y).getD 0 0 = x := by
  match l, hl with
  | _ :: _ :: _, _ => rfl

/-- The callbacks that end an operation find the descriptor pinned. -/
theorem ready_of_counter {cb : nfs_cb} {cont : continuation} {tbl : List fd_entry} {fd : Nat}
    {e : fd_entry}
    (hcb : cb = nfs_cb.fsize_cb ∨ cb = nfs_cb.read_cb ∨ cb = nfs_cb.write_cb ∨
      cb = nfs_cb.fsync_cb ∨ cb = nfs_cb.truncate_cb)
    (hd : cont.data.getD 0 0 = fd) (he : tbl[fd]? = some e) (hc : 0 < e.counter) :
    cb_fd_ready cb cont tbl := by
  subst hd
  rcases hcb with h | h | h | h | h <;> subst h <;> exact ⟨e, he, hc⟩

/-- The callbacks of open, close and opendir find the descriptor reserved. -/
theorem ready_of_reserved {cb : nfs_cb} {cont : continuation} {tbl : List fd_entry} {fd : Nat}
    {e : fd_entry}
    (hcb : cb = nfs_cb.open_cb ∨ cb = nfs_cb.close_cb ∨ cb = nfs_cb.opendir_cb)
    (hd : cont.data.getD 0 0 = fd) (he : tbl[fd]? = some e)
    (hst : e.state = fd_state.reserved) : cb_fd_ready cb cont tbl := by
  subst hd
  rcases hcb with h | h | h <;> subst h <;> exact ⟨e, he, hst⟩

theorem handle_unlink_handoff (k : Consts) (env : nfs_env) (cmd : fs_cmd_t) (s : State)
    (c : Nat) (fl : List Nat)
    (hp : PoolOK k s.continuation_pool s.first_free_cont (c :: fl))
    (hs : fs_queue_length_producer s.completion_queue ≠ k.FS_QUEUE_CAPACITY) :
    wpt (handle_unlink k env cmd) s (fun _ s' => Handoff (some nfs_cb.unlink_cb) cmd.id c s s') := by
  obtain ⟨c0, hff, hc, hcN, _, _⟩ := PoolOK_alloc hp
  unfold handle_unlink
  apply wpt_bind; apply wpt_copy_path (Or.inl rfl); intro r pb
  cases r with
  | none =>
    try dsimp only
    apply wpt_reply (by exact hs)
    exact Handoff_none rfl
  | some path =>
    try dsimp only
    apply wpt_bind
    apply wpt_of_eq (continuation_alloc_ok (by exact hff) (by exact hc) hcN)
    dsimp only
    apply wpt_bind; apply wpt_assert rfl
    apply wpt_bind
    apply wpt_of_eq (cont_set_request_id_ok _ (getElem?_set_of_some hc) hcN)
    dsimp only
    apply wpt_bind; apply wpt_nfs_async
    · simp only [ne_eq, not_true_eq_false, if_false]
      apply wpt_pure
      exact Handoff_submit rfl ⟨_, (getElem?_set_of_some (getElem?_set_of_some hc)), rfl,
        trivial⟩
    · intro err herr
      simp only [ne_eq, herr, not_false_eq_true, if_true]
      apply wpt_bind
      apply wpt_of_eq (continuation_free_ok (getElem?_set_of_some (getElem?_set_of_some hc)) hcN rfl)
      dsimp only
      apply wpt_reply (by exact hs)
      exact Handoff_none rfl

theorem handle_mkdir_handoff (k : Consts) (env : nfs_env) (cmd : fs_cmd_t) (s : State)
    (c : Nat) (fl : List Nat)
    (hp : PoolOK k s.continuation_pool s.first_free_cont (c :: fl))
    (hs : fs_queue_length_producer s.completion_queue ≠ k.FS_QUEUE_CAPACITY) :
    wpt (handle_mkdir k env cmd) s (fun _ s' => Handoff (some nfs_cb.mkdir_cb) cmd.id c s s') := by
  obtain ⟨c0, hff, hc, hcN, _, _⟩ := PoolOK_alloc hp
  unfold handle_mkdir
  apply wpt_bind; apply wpt_copy_path (Or.inl rfl); intro r pb
  cases r with
  | none =>
    try dsimp only
    apply wpt_reply (by exact hs)
    exact Handoff_none rfl
  | some path =>
    try dsimp only
    apply wpt_bind
    apply wpt_of_eq (continuation_alloc_ok (by exact hff) (by exact hc) hcN)
    dsimp only
    apply wpt_bind; apply wpt_assert rfl
    apply wpt_bind
    apply wpt_of_eq (cont_set_request_id_ok _ (getElem?_set_of_some hc) hcN)
    dsimp only
    apply wpt_bind; apply wpt_nfs_async
    · simp only [ne_eq, not_true_eq_false, if_false]
      apply wpt_pure
      exact Handoff_submit rfl ⟨_, (getElem?_set_of_some (getElem?_set_of_some hc)), rfl,
        trivial⟩
    · intro err herr
      simp only [ne_eq, herr, not_false_eq_true, if_true]
      apply wpt_bind
      apply wpt_of_eq (continuation_free_ok (getElem?_set_of_some (getElem?_set_of_some hc)) hcN rfl)
      dsimp only
      apply wpt_reply (by exact hs)
      exact Handoff_none rfl

theorem handle_rmdir_handoff (k : Consts) (env : nfs_env) (cmd : fs_cmd_t) (s : State)
    (c : Nat) (fl : List Nat)
    (hp : PoolOK k s.continuation_pool s.first_free_cont (c :: fl))
    (hs : fs_queue_length_producer s.completion_queue ≠ k.FS_QUEUE_CAPACITY) :
    wpt (handle_rmdir k env cmd) s (fun _ s' => Handoff (some nfs_cb.rmdir_cb) cmd.id c s s') := by
  obtain ⟨c0, hff, hc, hcN, _, _⟩ := PoolOK_alloc hp
  unfold handle_rmdir
  apply wpt_bind; apply wpt_copy_path (Or.inl rfl); intro r pb
  cases r with
  | none =>
    try dsimp only
    apply wpt_reply (by exact hs)
    exact Handoff_none rfl
  | some path =>
    try dsimp only
    apply wpt_bind
    apply wpt_of_eq (continuation_alloc_ok (by exact hff) (by exact hc) hcN)
    dsimp only
    apply wpt_bind; apply wpt_assert rfl
    apply wpt_bind
    apply wpt_of_eq (cont_set_request_id_ok _ (getElem?_set_of_some hc) hcN)
    dsimp only
    apply wpt_bind; apply wpt_nfs_async
    · simp only [ne_eq, not_true_eq_false, if_false]
      apply wpt_pure
      exact Handoff_submit rfl ⟨_, (getElem?_set_of_some (getElem?_set_of_some hc)), rfl,
        trivial⟩
    · intro err herr
      simp only [ne_eq, herr, not_false_eq_true, if_true]
      apply wpt_bind
      apply wpt_of_eq (continuation_free_ok (getElem?_set_of_some (getElem?_set_of_some hc)) hcN rfl)
      dsimp only
      apply wpt_reply (by exact hs)
      exact Handoff_none rfl

theorem handle_stat_handoff (k : Consts) (env : nfs_env) (cmd : fs_cmd_t) (s : State)
    (c : Nat) (fl : List Nat)
    (hp : PoolOK k s.continuation_pool s.first_free_cont (c :: fl))
    (hs : fs_queue_length_producer s.completion_queue ≠ k.FS_QUEUE_CAPACITY) :
    wpt (handle_stat k env cmd) s (fun _ s' => Handoff (some nfs_cb.stat64_cb) cmd.id c s s') := by
  obtain ⟨c0, hff, hc, hcN, _, _⟩ := PoolOK_alloc hp
  unfold handle_stat
  apply wpt_bind; apply wpt_copy_path (Or.inl rfl); intro r pb
  cases r with
  | none =>
    try dsimp only
    apply wpt_reply (by exact hs)
    exact Handoff_none rfl
  | some path =>
    try dsimp only
    apply wpt_bind; apply wpt_get_buffer; intro buf
    split
    ·
      apply wpt_reply (by exact hs)
      exact Handoff_none rfl
    ·
      apply wpt_bind
      apply wpt_of_eq (continuation_alloc_ok (by exact hff) (by exact hc) hcN)
      dsimp only
      apply wpt_bind; apply wpt_assert rfl
      apply wpt_bind
      apply wpt_of_eq (cont_set_request_id_ok _ (getElem?_set_of_some hc) hcN)
      dsimp only
      apply wpt_bind
      apply wpt_of_eq (cont_set_data_ok _ _ (getElem?_set_of_some (getElem?_set_of_some hc)) hcN)
      dsimp only
      apply wpt_bind; apply wpt_nfs_async
      · simp only [ne_eq, not_true_eq_false, if_false]
        apply wpt_pure
        exact Handoff_submit rfl ⟨_, (getElem?_set_of_some (getElem?_set_of_some (getElem?_set_of_some hc))), rfl,
          trivial⟩
      · intro err herr
        simp only [ne_eq, herr, not_false_eq_true, if_true]
        apply wpt_bind
        apply wpt_of_eq (continuation_free_ok (getElem?_set_of_some (getElem?_set_of_some (getElem?_set_of_some hc))) hcN rfl)
        dsimp only
        apply wpt_reply (by exact hs)
        exact Handoff_none rfl

theorem handle_rename_handoff (k : Consts) (env : nfs_env) (cmd : fs_cmd_t) (s : State)
    (c : Nat) (fl : List Nat)
    (hp : PoolOK k s.continuation_pool s.first_free_cont (c :: fl))
    (hs : fs_queue_length_producer s.completion_queue ≠ k.FS_QUEUE_CAPACITY) :
    wpt (handle_rename k env cmd) s (fun _ s' => Handoff (some nfs_cb.rename_cb) cmd.id c s s') := by
  obtain ⟨c0, hff, hc, hcN, _, _⟩ := PoolOK_alloc hp
  unfold handle_rename
  apply wpt_bind; apply wpt_copy_path (Or.inl rfl); intro r0 pb0
  apply wpt_bind; apply wpt_copy_path (Or.inr rfl); intro r1 pb1
  cases r0 with
  | none =>
    try dsimp only
    apply wpt_reply (by exact hs)
    exact Handoff_none rfl
  | some old_path =>
    cases r1 with
    | none =>
      try dsimp only
      apply wpt_reply (by exact hs)
      exact Handoff_none rfl
    | some new_path =>
      try dsimp only
      apply wpt_bind
      apply wpt_of_eq (continuation_alloc_ok (by exact hff) (by exact hc) hcN)
      dsimp only
      apply wpt_bind; apply wpt_assert rfl
      apply wpt_bind
      apply wpt_of_eq (cont_set_request_id_ok _ (getElem?_set_of_some hc) hcN)
      dsimp only
      apply wpt_bind; apply wpt_nfs_async
      · simp only [ne_eq, not_true_eq_false, if_false]
        apply wpt_pure
        exact Handoff_submit rfl ⟨_, (getElem?_set_of_some (getElem?_set_of_some hc)), rfl,
          trivial⟩
      · intro err herr
        simp only [ne_eq, herr, not_false_eq_true, if_true]
        apply wpt_bind
        apply wpt_of_eq (continuation_free_ok (getElem?_set_of_some (getElem?_set_of_some hc)) hcN rfl)
        dsimp only
        apply wpt_reply (by exact hs)
        exact Handoff_none rfl

theorem handle_fsize_handoff (k : Consts) (env : nfs_env) (cmd : fs_cmd_t) (s : State)
    (c : Nat) (fl : List Nat)
    (hp : PoolOK k s.continuation_pool s.first_free_cont (c :: fl))
    (hs : fs_queue_length_producer s.completion_queue ≠ k.FS_QUEUE_CAPACITY)
    (hdata : ∀ c0, s.continuation_pool[c]? = some c0 → c0.data.length = 4) :
    wpt (handle_fsize k env cmd) s (fun _ s' => Handoff (some nfs_cb.fsize_cb) cmd.id c s s') := by
  obtain ⟨c0, hff, hc, hcN, _, _⟩ := PoolOK_alloc hp
  unfold handle_fsize
  apply wpt_bind; apply wpt_fd_begin_op_file
  · intro r hr
    obtain ⟨err, fh⟩ := r
    dsimp only at hr ⊢
    rw [if_pos hr]
    apply wpt_reply (by exact hs)
    exact Handoff_none rfl
  · intro fh e he hst
    try dsimp only
    rw [if_neg (by decide)]
    apply wpt_bind
    apply wpt_of_eq (continuation_alloc_ok (by exact hff) (by exact hc) hcN)
    dsimp only
    apply wpt_bind; apply wpt_assert rfl
    apply wpt_bind
    apply wpt_of_eq (cont_set_request_id_ok _ (getElem?_set_of_some hc) hcN)
    dsimp only
    apply wpt_bind
    apply wpt_of_eq (cont_set_data_ok _ _ (getElem?_set_of_some (getElem?_set_of_some hc)) hcN)
    dsimp only
    apply wpt_bind; apply wpt_nfs_async
    · simp only [ne_eq, not_true_eq_false, if_false]
      apply wpt_pure
      exact Handoff_submit rfl ⟨_, (getElem?_set_of_some (getElem?_set_of_some (getElem?_set_of_some hc))), rfl,
        ready_of_counter (by decide) (getD_set_0 _ _ (hdata c0 hc))
          (getElem?_set_of_some he) (Nat.succ_pos _)⟩
    · intro err herr
      simp only [ne_eq, herr, not_false_eq_true, if_true]
      apply wpt_bind
      apply wpt_of_eq (continuation_free_ok (getElem?_set_of_some (getElem?_set_of_some (getElem?_set_of_some hc))) hcN rfl)
      dsimp only
      apply wpt_bind; apply wpt_fd_end_op (e := { e with counter := e.counter + 1 }) (getElem?_set_of_some he) (Nat.succ_pos _)
      apply wpt_reply (by exact hs)
      exact Handoff_none rfl

theorem handle_read_handoff (k : Consts) (env : nfs_env) (cmd : fs_cmd_t) (s : State)
    (c : Nat) (fl : List Nat)
    (hp : PoolOK k s.continuation_pool s.first_free_cont (c :: fl))
    (hs : fs_queue_length_producer s.completion_queue ≠ k.FS_QUEUE_CAPACITY)
    (hdata : ∀ c0, s.continuation_pool[c]? = some c0 → c0.data.length = 4) :
    wpt (handle_read k env cmd) s (fun _ s' => Handoff (some nfs_cb.read_cb) cmd.id c s s') := by
  obtain ⟨c0, hff, hc, hcN, _, _⟩ := PoolOK_alloc hp
  unfold handle_read
  apply wpt_bind; apply wpt_get_buffer; intro buf
  split
  ·
    apply wpt_reply (by exact hs)
    exact Handoff_none rfl
  ·
    apply wpt_bind; apply wpt_fd_begin_op_file
    · intro r hr
      obtain ⟨err, fh⟩ := r
      dsimp only at hr ⊢
      rw [if_pos hr]
      apply wpt_reply (by exact hs)
      exact Handoff_none rfl
    · intro fh e he hst
      try dsimp only
      rw [if_neg (by decide)]
      apply wpt_bind
      apply wpt_of_eq (continuation_alloc_ok (by exact hff) (by exact hc) hcN)
      dsimp only
      apply wpt_bind; apply wpt_assert rfl
      apply wpt_bind
      apply wpt_of_eq (cont_set_request_id_ok _ (getElem?_set_of_some hc) hcN)
      dsimp only
      apply wpt_bind
      apply wpt_of_eq (cont_set_data_ok _ _ (getElem?_set_of_some (getElem?_set_of_some hc)) hcN)
      dsimp only
      apply wpt_bind
      apply wpt_of_eq (cont_set_data_ok _ _ (getElem?_set_of_some (getElem?_set_of_some (getElem?_set_of_some hc))) hcN)
      dsimp only
      apply wpt_bind; apply wpt_nfs_async
      · simp only [ne_eq, not_true_eq_false, if_false]
        apply wpt_pure
        exact Handoff_submit rfl ⟨_, (getElem?_set_of_some (getElem?_set_of_some (getElem?_set_of_some (getElem?_set_of_some hc)))), rfl,
          ready_of_counter (by decide) (getD_set_set_0_of_four _ _ _ (hdata c0 hc))
            (getElem?_set_of_some he) (Nat.succ_pos _)⟩
      · intro err herr
        simp only [ne_eq, herr, not_false_eq_true, if_true]
        apply wpt_bind
        apply wpt_of_eq (continuation_free_ok (getElem?_set_of_some (getElem?_set_of_some (getElem?_set_of_some (getElem?_set_of_some hc)))) hcN rfl)
        dsimp only
        apply wpt_bind; apply wpt_fd_end_op (e := { e with counter := e.counter + 1 }) (getElem?_set_of_some he) (Nat.succ_pos _)
        apply wpt_reply (by exact hs)
        exact Handoff_none rfl

theorem handle_write_handoff (k : Consts) (env : nfs_env) (cmd : fs_cmd_t) (s : State)
    (c : Nat) (fl : List Nat)
    (hp : PoolOK k s.continuation_pool s.first_free_cont (c :: fl))
    (hs : fs_queue_length_producer s.completion_queue ≠ k.FS_QUEUE_CAPACITY)
    (hdata : ∀ c0, s.continuation_pool[c]? = some c0 → c0.data.length = 4) :
    wpt (handle_write k env cmd) s (fun _ s' => Handoff (some nfs_cb.write_cb) cmd.id c s s') := by
  obtain ⟨c0, hff, hc, hcN, _, _⟩ := PoolOK_alloc hp
  unfold handle_write
  apply wpt_bind; apply wpt_get_buffer; intro buf
  split
  ·
    apply wpt_reply (by exact hs)
    exact Handoff_none rfl
  ·
    apply wpt_bind; apply wpt_fd_begin_op_file
    · intro r hr
      obtain ⟨err, fh⟩ := r
      dsimp only at hr ⊢
      rw [if_pos hr]
      apply wpt_reply (by exact hs)
      exact Handoff_none rfl
    · intro fh e he hst
      try dsimp only
      rw [if_neg (by decide)]
      apply wpt_bind
      apply wpt_of_eq (continuation_alloc_ok (by exact hff) (by exact hc) hcN)
      dsimp only
      apply wpt_bind; apply wpt_assert rfl
      apply wpt_bind
      apply wpt_of_eq (cont_set_request_id_ok _ (getElem?_set_of_some hc) hcN)
      dsimp only
      apply wpt_bind
      apply wpt_of_eq (cont_set_data_ok _ _ (getElem?_set_of_some (getElem?_set_of_some hc)) hcN)
      dsimp only
      apply wpt_bind; apply wpt_nfs_async
      · simp only [ne_eq, not_true_eq_false, if_false]
        apply wpt_pure
        exact Handoff_submit rfl ⟨_, (getElem?_set_of_some (getElem?_set_of_some (getElem?_set_of_some hc))), rfl,
          ready_of_counter (by decide) (getD_set_0 _ _ (hdata c0 hc))
            (getElem?_set_of_some he) (Nat.succ_pos _)⟩
      · intro err herr
        simp only [ne_eq, herr, not_false_eq_true, if_true]
        apply wpt_bind
        apply wpt_of_eq (continuation_free_ok (getElem?_set_of_some (getElem?_set_of_some (getElem?_set_of_some hc))) hcN rfl)
        dsimp only
        apply wpt_bind; apply wpt_fd_end_op (e := { e with counter := e.counter + 1 }) (getElem?_set_of_some he) (Nat.succ_pos _)
        apply wpt_reply (by exact hs)
        exact Handoff_none rfl

theorem handle_fsync_handoff (k : Consts) (env : nfs_env) (cmd : fs_cmd_t) (s : State)
    (c : Nat) (fl : List Nat)
    (hp : PoolOK k s.continuation_pool s.first_free_cont (c :: fl))
    (hs : fs_queue_length_producer s.completion_queue ≠ k.FS_QUEUE_CAPACITY)
    (hdata : ∀ c0, s.continuation_pool[c]? = some c0 → c0.data.length = 4) :
    wpt (handle_fsync k env cmd) s (fun _ s' => Handoff (some nfs_cb.fsync_cb) cmd.id c s s') := by
  obtain ⟨c0, hff, hc, hcN, _, _⟩ := PoolOK_alloc hp
  unfold handle_fsync
  apply wpt_bind; apply wpt_fd_begin_op_file
  · intro r hr
    obtain ⟨err, fh⟩ := r
    dsimp only at hr ⊢
    rw [if_pos hr]
    apply wpt_reply (by exact hs)
    exact Handoff_none rfl
  · intro fh e he hst
    try dsimp only
    rw [if_neg (by decide)]
    apply wpt_bind
    apply wpt_of_eq (continuation_alloc_ok (by exact hff) (by exact hc) hcN)
    dsimp only
    apply wpt_bind; apply wpt_assert rfl
    apply wpt_bind
    apply wpt_of_eq (cont_set_request_id_ok _ (getElem?_set_of_some hc) hcN)
    dsimp only
    apply wpt_bind
    apply wpt_of_eq (cont_set_data_ok _ _ (getElem?_set_of_some (getElem?_set_of_some hc)) hcN)
    dsimp only
    apply wpt_bind; apply wpt_nfs_async
    · simp only [ne_eq, not_true_eq_false, if_false]
      apply wpt_pure
      exact Handoff_submit rfl ⟨_, (getElem?_set_of_some (getElem?_set_of_some (getElem?_set_of_some hc))), rfl,
        ready_of_counter (by decide) (getD_set_0 _ _ (hdata c0 hc))
          (getElem?_set_of_some he) (Nat.succ_pos _)⟩
    · intro err herr
      simp only [ne_eq, herr, not_false_eq_true, if_true]
      apply wpt_bind
      apply wpt_of_eq (continuation_free_ok (getElem?_set_of_some (getElem?_set_of_some (getElem?_set_of_some hc))) hcN rfl)
      dsimp only
      apply wpt_bind; apply wpt_fd_end_op (e := { e with counter := e.counter + 1 }) (getElem?_set_of_some he) (Nat.succ_pos _)
      apply wpt_reply (by exact hs)
      exact Handoff_none rfl

theorem handle_truncate_handoff (k : Consts) (env : nfs_env) (cmd : fs_cmd_t) (s : State)
    (c : Nat) (fl : List Nat)
    (hp : PoolOK k s.continuation_pool s.first_free_cont (c :: fl))
    (hs : fs_queue_length_producer s.completion_queue ≠ k.FS_QUEUE_CAPACITY)
    (hdata : ∀ c0, s.continuation_pool[c]? = some c0 → c0.data.length = 4) :
    wpt (handle_truncate k env cmd) s (fun _ s' => Handoff (some nfs_cb.truncate_cb) cmd.id c s s') := by
  obtain ⟨c0, hff, hc, hcN, _, _⟩ := PoolOK_alloc hp
  unfold handle_truncate
  apply wpt_bind; apply wpt_fd_begin_op_file
  · intro r hr
    obtain ⟨err, fh⟩ := r
    dsimp only at hr ⊢
    rw [if_pos hr]
    apply wpt_reply (by exact hs)
    exact Handoff_none rfl
  · intro fh e he hst
    try dsimp only
    rw [if_neg (by decide)]
    apply wpt_bind
    apply wpt_of_eq (continuation_alloc_ok (by exact hff) (by exact hc) hcN)
    dsimp only
    apply wpt_bind; apply wpt_assert rfl
    apply wpt_bind
    apply wpt_of_eq (cont_set_request_id_ok _ (getElem?_set_of_some hc) hcN)
    dsimp only
    apply wpt_bind
    apply wpt_of_eq (cont_set_data_ok _ _ (getElem?_set_of_some (getElem?_set_of_some hc)) hcN)
    dsimp only
    apply wpt_bind; apply wpt_nfs_async
    · simp only [ne_eq, not_true_eq_false, if_false]
      apply wpt_pure
      exact Handoff_submit rfl ⟨_, (getElem?_set_of_some (getElem?_set_of_some (getElem?_set_of_some hc))), rfl,
        ready_of_counter (by decide) (getD_set_0 _ _ (hdata c0 hc))
          (getElem?_set_of_some he) (Nat.succ_pos _)⟩
    · intro err herr
      simp only [ne_eq, herr, not_false_eq_true, if_true]
      apply wpt_bind
      apply wpt_of_eq (continuation_free_ok (getElem?_set_of_some (getElem?_set_of_some (getElem?_set_of_some hc))) hcN rfl)
      dsimp only
      apply wpt_bind; apply wpt_fd_end_op (e := { e with counter := e.counter + 1 }) (getElem?_set_of_some he) (Nat.succ_pos _)
      apply wpt_reply (by exact hs)
      exact Handoff_none rfl

theorem handle_open_handoff (k : Consts) (env : nfs_env) (cmd : fs_cmd_t) (s : State)
    (c : Nat) (fl : List Nat)
    (hp : PoolOK k s.continuation_pool s.first_free_cont (c :: fl))
    (hs : fs_queue_length_producer s.completion_queue ≠ k.FS_QUEUE_CAPACITY)
    (hdata : ∀ c0, s.continuation_pool[c]? = some c0 → c0.data.length = 4) :
    wpt (handle_open k env cmd) s (fun _ s' => Handoff (some nfs_cb.open_cb) cmd.id c s s') := by
  obtain ⟨c0, hff, hc, hcN, _, _⟩ := PoolOK_alloc hp
  unfold handle_open
  apply wpt_bind; apply wpt_copy_path (Or.inl rfl); intro r pb
  cases r with
  | none =>
    try dsimp only
    apply wpt_reply (by exact hs)
    exact Handoff_none rfl
  | some path =>
    try dsimp only
    apply wpt_bind; apply wpt_fd_alloc
    · intro r hr
      obtain ⟨err, fd⟩ := r
      dsimp only at hr ⊢
      rw [if_pos hr]
      apply wpt_reply (by exact hs)
      exact Handoff_none rfl
    · intro fd hfd
      try dsimp only
      rw [if_neg (by decide)]
      apply wpt_bind
      apply wpt_of_eq (continuation_alloc_ok (by exact hff) (by exact hc) hcN)
      dsimp only
      apply wpt_bind; apply wpt_assert rfl
      apply wpt_bind
      apply wpt_of_eq (cont_set_request_id_ok _ (getElem?_set_of_some hc) hcN)
      dsimp only
      apply wpt_bind
      apply wpt_of_eq (cont_set_data_ok _ _ (getElem?_set_of_some (getElem?_set_of_some hc)) hcN)
      dsimp only
      try dsimp only
      apply wpt_bind; apply wpt_nfs_async
      · simp only [ne_eq, not_true_eq_false, if_false]
        apply wpt_pure
        exact Handoff_submit rfl ⟨_, (getElem?_set_of_some (getElem?_set_of_some (getElem?_set_of_some hc))), rfl,
          ready_of_reserved (by decide) (getD_set_0 _ _ (hdata c0 hc))
            (List.getElem?_set_self hfd) rfl⟩
      · intro err herr
        simp only [ne_eq, herr, not_false_eq_true, if_true]
        apply wpt_bind
        apply wpt_of_eq (continuation_free_ok (getElem?_set_of_some (getElem?_set_of_some (getElem?_set_of_some hc))) hcN rfl)
        dsimp only
        apply wpt_bind; apply wpt_fd_free (e := { state := fd_state.reserved, counter := 0 }) (List.getElem?_set_self hfd) rfl
        apply wpt_reply (by exact hs)
        exact Handoff_none rfl

theorem handle_opendir_handoff (k : Consts) (env : nfs_env) (cmd : fs_cmd_t) (s : State)
    (c : Nat) (fl : List Nat)
    (hp : PoolOK k s.continuation_pool s.first_free_cont (c :: fl))
    (hs : fs_queue_length_producer s.completion_queue ≠ k.FS_QUEUE_CAPACITY)
    (hdata : ∀ c0, s.continuation_pool[c]? = some c0 → c0.data.length = 4) :
    wpt (handle_opendir k env cmd) s (fun _ s' => Handoff (some nfs_cb.opendir_cb) cmd.id c s s') := by
  obtain ⟨c0, hff, hc, hcN, _, _⟩ := PoolOK_alloc hp
  unfold handle_opendir
  apply wpt_bind; apply wpt_copy_path (Or.inl rfl); intro r pb
  cases r with
  | none =>
    try dsimp only
    apply wpt_reply (by exact hs)
    exact Handoff_none rfl
  | some path =>
    try dsimp only
    apply wpt_bind; apply wpt_fd_alloc
    · intro r hr
      obtain ⟨err, fd⟩ := r
      dsimp only at hr ⊢
      rw [if_pos hr]
      apply wpt_reply (by exact hs)
      exact Handoff_none rfl
    · intro fd hfd
      try dsimp only
      rw [if_neg (by decide)]
      apply wpt_bind
      apply wpt_of_eq (continuation_alloc_ok (by exact hff) (by exact hc) hcN)
      dsimp only
      apply wpt_bind; apply wpt_assert rfl
      apply wpt_bind
      apply wpt_of_eq (cont_set_request_id_ok _ (getElem?_set_of_some hc) hcN)
      dsimp only
      apply wpt_bind
      apply wpt_of_eq (cont_set_data_ok _ _ (getElem?_set_of_some (getElem?_set_of_some hc)) hcN)
      dsimp only
      try dsimp only
      apply wpt_bind; apply wpt_nfs_async
      · simp only [ne_eq, not_true_eq_false, if_false]
        apply wpt_pure
        exact Handoff_submit rfl ⟨_, (getElem?_set_of_some (getElem?_set_of_some (getElem?_set_of_some hc))), rfl,
          ready_of_reserved (by decide) (getD_set_0 _ _ (hdata c0 hc))
            (List.getElem?_set_self hfd) rfl⟩
      · intro err herr
        simp only [ne_eq, herr, not_false_eq_true, if_true]
        apply wpt_bind
        apply wpt_of_eq (continuation_free_ok (getElem?_set_of_some (getElem?_set_of_some (getElem?_set_of_some hc))) hcN rfl)
        dsimp only
        apply wpt_bind; apply wpt_fd_free (e := { state := fd_state.reserved, counter := 0 }) (List.getElem?_set_self hfd) rfl
        apply wpt_reply (by exact hs)
        exact Handoff_none rfl

theorem handle_close_handoff (k : Consts) (env : nfs_env) (cmd : fs_cmd_t) (s : State)
    (c : Nat) (fl : List Nat)
    (hp : PoolOK k s.continuation_pool s.first_free_cont (c :: fl))
    (hs : fs_queue_length_producer s.completion_queue ≠ k.FS_QUEUE_CAPACITY)
    (hdata : ∀ c0, s.continuation_pool[c]? = some c0 → c0.data.length = 4) :
    wpt (handle_close k env cmd) s (fun _ s' => Handoff (some nfs_cb.close_cb) cmd.id c s s') := by
  obtain ⟨c0, hff, hc, hcN, _, _⟩ := PoolOK_alloc hp
  unfold handle_close
  apply wpt_bind; apply wpt_fd_begin_op_file
  · intro r hr
    obtain ⟨err, fh⟩ := r
    dsimp only at hr ⊢
    rw [if_pos hr]
    apply wpt_reply (by exact hs)
    exact Handoff_none rfl
  · intro fh e he hst
    try dsimp only
    rw [if_neg (by decide)]
    apply wpt_bind
    apply wpt_fd_end_op (e := { e with counter := e.counter + 1 }) (getElem?_set_of_some he)
      (Nat.succ_pos _)
    apply wpt_bind; apply wpt_fd_unset
    · intro r hr
      rw [if_pos hr]
      apply wpt_reply (by exact hs)
      exact Handoff_none rfl
    · intro e2 he2
      rw [if_neg (by decide)]
      apply wpt_bind
      apply wpt_of_eq (continuation_alloc_ok (by exact hff) (by exact hc) hcN)
      dsimp only
      apply wpt_bind; apply wpt_assert rfl
      apply wpt_bind
      apply wpt_of_eq (cont_set_request_id_ok _ (getElem?_set_of_some hc) hcN)
      dsimp only
      apply wpt_bind
      apply wpt_of_eq (cont_set_data_ok _ _ (getElem?_set_of_some (getElem?_set_of_some hc)) hcN)
      dsimp only
      apply wpt_bind
      apply wpt_of_eq (cont_set_data_ok _ _ (getElem?_set_of_some (getElem?_set_of_some (getElem?_set_of_some hc))) hcN)
      dsimp only
      apply wpt_bind; apply wpt_nfs_async
      · simp only [ne_eq, not_true_eq_false, if_false]
        apply wpt_pure
        exact Handoff_submit rfl ⟨_, (getElem?_set_of_some (getElem?_set_of_some (getElem?_set_of_some (getElem?_set_of_some hc)))), rfl,
          ready_of_reserved (by decide) (getD_set_set_0_of_four _ _ _ (hdata c0 hc))
            (getElem?_set_of_some he2) rfl⟩
      · intro err herr
        simp only [ne_eq, herr, not_false_eq_true, if_true]
        apply wpt_bind
        apply wpt_of_eq (continuation_free_ok (getElem?_set_of_some (getElem?_set_of_some (getElem?_set_of_some (getElem?_set_of_some hc)))) hcN rfl)
        dsimp only
        apply wpt_bind; apply wpt_fd_set_file (e := { e2 with state := fd_state.reserved }) (getElem?_set_of_some he2) rfl
        apply wpt_reply (by exact hs)
        exact Handoff_none rfl

theorem handle_closedir_handoff (k : Consts) (env : nfs_env) (cmd : fs_cmd_t) (s : State)
    (c : Nat) (cb : Option nfs_cb)
    (hs : fs_queue_length_producer s.completion_queue ≠ k.FS_QUEUE_CAPACITY) :
    wpt (handle_closedir k env cmd) s (fun _ s' => Handoff cb cmd.id c s s') := by
  unfold handle_closedir
  apply wpt_bind; apply wpt_fd_begin_op_dir
  · intro r hr
    obtain ⟨err, fh⟩ := r
    dsimp only at hr ⊢
    rw [if_pos hr]
    apply wpt_reply (by exact hs)
    exact Handoff_none rfl
  · intro fh e he hst
    try dsimp only
    rw [if_neg (by decide)]
    apply wpt_bind
    apply wpt_fd_end_op (e := { e with counter := e.counter + 1 }) (getElem?_set_of_some he)
      (Nat.succ_pos _)
    apply wpt_bind; apply wpt_fd_unset
    · intro r hr
      rw [if_pos hr]
      apply wpt_reply (by exact hs)
      exact Handoff_none rfl
    · intro e2 he2
      rw [if_neg (by decide)]
      apply wpt_bind; apply wpt_nfs_closedir
      apply wpt_bind
      apply wpt_fd_free (e := { e2 with state := fd_state.reserved }) (getElem?_set_of_some he2) rfl
      apply wpt_reply (by exact hs)
      exact Handoff_none rfl

theorem handle_seekdir_handoff (k : Consts) (env : nfs_env) (cmd : fs_cmd_t) (s : State)
    (c : Nat) (cb : Option nfs_cb)
    (hs : fs_queue_length_producer s.completion_queue ≠ k.FS_QUEUE_CAPACITY) :
    wpt (handle_seekdir k env cmd) s (fun _ s' => Handoff cb cmd.id c s s') := by
  unfold handle_seekdir
  apply wpt_bind; apply wpt_fd_begin_op_dir
  · intro r hr
    obtain ⟨err, fh⟩ := r
    dsimp only at hr ⊢
    rw [if_pos hr]
    apply wpt_reply (by exact hs)
    exact Handoff_none rfl
  · intro fh e he hst
    try dsimp only
    rw [if_neg (by decide)]
    apply wpt_bind; apply wpt_nfs_seekdir
    apply wpt_bind
    apply wpt_fd_end_op (e := { e with counter := e.counter + 1 }) (getElem?_set_of_some he)
      (Nat.succ_pos _)
    apply wpt_reply (by exact hs)
    exact Handoff_none rfl

theorem handle_telldir_handoff (k : Consts) (env : nfs_env) (cmd : fs_cmd_t) (s : State)
    (c : Nat) (cb : Option nfs_cb)
    (hs : fs_queue_length_producer s.completion_queue ≠ k.FS_QUEUE_CAPACITY) :
    wpt (handle_telldir k env cmd) s (fun _ s' => Handoff cb cmd.id c s s') := by
  unfold handle_telldir
  apply wpt_bind; apply wpt_fd_begin_op_dir
  · intro r hr
    obtain ⟨err, fh⟩ := r
    dsimp only at hr ⊢
    rw [if_pos hr]
    apply wpt_reply (by exact hs)
    exact Handoff_none rfl
  · intro fh e he hst
    try dsimp only
    rw [if_neg (by decide)]
    apply wpt_bind; apply wpt_nfs_telldir
    apply wpt_bind
    apply wpt_fd_end_op (e := { e with counter := e.counter + 1 }) (getElem?_set_of_some he)
      (Nat.succ_pos _)
    apply wpt_reply (by exact hs)
    exact Handoff_none rfl

theorem handle_rewinddir_handoff (k : Consts) (env : nfs_env) (cmd : fs_cmd_t) (s : State)
    (c : Nat) (cb : Option nfs_cb)
    (hs : fs_queue_length_producer s.completion_queue ≠ k.FS_QUEUE_CAPACITY) :
    wpt (handle_rewinddir k env cmd) s (fun _ s' => Handoff cb cmd.id c s s') := by
  unfold handle_rewinddir
  apply wpt_bind; apply wpt_fd_begin_op_dir
  · intro r hr
    obtain ⟨err, fh⟩ := r
    dsimp only at hr ⊢
    rw [if_pos hr]
    apply wpt_reply (by exact hs)
    exact Handoff_none rfl
  · intro fh e he hst
    try dsimp only
    rw [if_neg (by decide)]
    apply wpt_bind; apply wpt_nfs_rewinddir
    apply wpt_bind
    apply wpt_fd_end_op (e := { e with counter := e.counter + 1 }) (getElem?_set_of_some he)
      (Nat.succ_pos _)
    apply wpt_reply (by exact hs)
    exact Handoff_none rfl

theorem handle_readdir_handoff (k : Consts) (env : nfs_env) (cmd : fs_cmd_t) (s : State)
    (c : Nat) (cb : Option nfs_cb)
    (hs : fs_queue_length_producer s.completion_queue ≠ k.FS_QUEUE_CAPACITY)
    (henv : ∀ name, env.dirent = some name → name.length ≤ k.FS_MAX_NAME_LENGTH) :
    wpt (handle_readdir k env cmd) s (fun _ s' => Handoff cb cmd.id c s s') := by
  unfold handle_readdir
  apply wpt_bind; apply wpt_get_buffer; intro buf
  split
  ·
    apply wpt_reply (by exact hs)
    exact Handoff_none rfl
  · apply wpt_bind; apply wpt_fd_begin_op_dir
    · intro r hr
      obtain ⟨err, fh⟩ := r
      dsimp only at hr ⊢
      rw [if_pos hr]
      apply wpt_reply (by exact hs)
      exact Handoff_none rfl
    · intro fh e he hst
      try dsimp only
      rw [if_neg (by decide)]
      apply wpt_bind; apply wpt_nfs_readdir
      cases hd : env.dirent with
      | none =>
        try dsimp only
        apply wpt_bind
        apply wpt_fd_end_op (e := { e with counter := e.counter + 1 }) (getElem?_set_of_some he)
          (Nat.succ_pos _)
        apply wpt_reply (by exact hs)
        exact Handoff_none rfl
      | some name =>
        try dsimp only
        apply wpt_bind; apply wpt_assert (decide_eq_true (henv name hd))
        apply wpt_bind; apply wpt_memcpy_to_mem; intro m
        apply wpt_bind
        apply wpt_fd_end_op (e := { e with counter := e.counter + 1 }) (getElem?_set_of_some he)
          (Nat.succ_pos _)
        apply wpt_reply (by exact hs)
        exact Handoff_none rfl

theorem handle_initialise_handoff (k : Consts) (env : nfs_env) (cmd : fs_cmd_t) (s : State)
    (c : Nat) (fl : List Nat)
    (hp : PoolOK k s.continuation_pool s.first_free_cont (c :: fl))
    (hs : fs_queue_length_producer s.completion_queue ≠ k.FS_QUEUE_CAPACITY) :
    wpt (handle_initialise k env cmd) s (fun _ s' => Handoff (some nfs_cb.mount_cb) cmd.id c s s') := by
  obtain ⟨c0, hff, hc, hcN, _, _⟩ := PoolOK_alloc hp
  unfold handle_initialise
  apply wpt_bind; apply wpt_get_nfs
  cases hn : s.nfs with
  | true =>
    simp only [if_true]
    apply wpt_reply (by exact hs)
    exact Handoff_none rfl
  | false =>
    simp only [Bool.false_eq_true, if_false]
    apply wpt_bind; apply wpt_nfs_init_context
    apply wpt_bind; apply wpt_get_nfs
    cases hi : env.init_context_ok with
    | false =>
      simp only [Bool.not_false, if_true]
      apply wpt_reply (by exact hs)
      exact Handoff_none rfl
    | true =>
      simp only [Bool.not_true, Bool.false_eq_true, if_false]
      apply wpt_bind
      apply wpt_of_eq (continuation_alloc_ok (by exact hff) (by exact hc) hcN)
      dsimp only
      apply wpt_bind; apply wpt_assert rfl
      apply wpt_bind
      apply wpt_of_eq (cont_set_request_id_ok _ (getElem?_set_of_some hc) hcN)
      dsimp only
      apply wpt_bind; apply wpt_nfs_set_autoreconnect
      apply wpt_bind; apply wpt_nfs_async
      · simp only [ne_eq, not_true_eq_false, if_false]
        apply wpt_pure
        exact Handoff_submit rfl ⟨_, (getElem?_set_of_some (getElem?_set_of_some hc)), rfl,
          trivial⟩
      · intro err herr
        simp only [ne_eq, herr, not_false_eq_true, if_true]
        apply wpt_bind
        apply wpt_of_eq (continuation_free_ok (getElem?_set_of_some (getElem?_set_of_some hc)) hcN rfl)
        dsimp only
        apply wpt_reply (by exact hs)
        exact Handoff_none rfl

theorem handle_deinitialise_handoff (k : Consts) (env : nfs_env) (cmd : fs_cmd_t) (s : State)
    (c : Nat) (cb : Option nfs_cb) :
    wpt (handle_deinitialise k env cmd) s (fun _ s' => Handoff cb cmd.id c s s') :=
  wpt_pure (Handoff_none rfl)

theorem cmd_callback_rmdir (type : Nat) (h : cmd_callback type = some nfs_cb.rmdir_cb) :
    type = FS_CMD_DIR_REMOVE := by
  unfold cmd_callback at h
  by_cases h0 : type = FS_CMD_INITIALISE
  · rw [if_pos h0] at h; cases h
  rw [if_neg h0] at h
  by_cases h1 : type = FS_CMD_FILE_OPEN
  · rw [if_pos h1] at h; cases h
  rw [if_neg h1] at h
  by_cases h2 : type = FS_CMD_FILE_CLOSE
  · rw [if_pos h2] at h; cases h
  rw [if_neg h2] at h
  by_cases h3 : type = FS_CMD_STAT
  · rw [if_pos h3] at h; cases h
  rw [if_neg h3] at h
  by_cases h4 : type = FS_CMD_FILE_READ
  · rw [if_pos h4] at h; cases h
  rw [if_neg h4] at h
  by_cases h5 : type = FS_CMD_FILE_WRITE
  · rw [if_pos h5] at h; cases h
  rw [if_neg h5] at h
  by_cases h6 : type = FS_CMD_FILE_SIZE
  · rw [if_pos h6] at h; cases h
  rw [if_neg h6] at h
  by_cases h7 : type = FS_CMD_RENAME
  · rw [if_pos h7] at h; cases h
  rw [if_neg h7] at h
  by_cases h8 : type = FS_CMD_FILE_REMOVE
  · rw [if_pos h8] at h; cases h
  rw [if_neg h8] at h
  by_cases h9 : type = FS_CMD_FILE_TRUNCATE
  · rw [if_pos h9] at h; cases h
  rw [if_neg h9] at h
  by_cases h10 : type = FS_CMD_DIR_CREATE
  · rw [if_pos h10] at h; cases h
  rw [if_neg h10] at h
  by_cases h11 : type = FS_CMD_DIR_REMOVE
  · exact h11
  rw [if_neg h11] at h
  by_cases h12 : type = FS_CMD_DIR_OPEN
  · rw [if_pos h12] at h; cases h
  rw [if_neg h12] at h
  by_cases h13 : type = FS_CMD_FILE_SYNC
  · rw [if_pos h13] at h; cases h
  rw [if_neg h13] at h
  cases h

/-- Whatever the dispatcher does for a command, a submission it leaves pending
has the callback of the command type, registered on the continuation that was
the head of the free list, which holds the request identifier of the command,
and the descriptor is as that callback needs it. -/
theorem process_command_handoff (k : Consts) (env : nfs_env) (cmd : fs_cmd_t) (s : State)
    (c : Nat) (fl : List Nat)
    (hp : PoolOK k s.continuation_pool s.first_free_cont (c :: fl))
    (hs : fs_queue_length_producer s.completion_queue ≠ k.FS_QUEUE_CAPACITY)
    (henv : ∀ name, env.dirent = some name → name.length ≤ k.FS_MAX_NAME_LENGTH)
    (hdata : ∀ c0, s.continuation_pool[c]? = some c0 → c0.data.length = 4) :
    wpt (process_command k env cmd) s
      (fun _ s' => Handoff (cmd_callback cmd.type) cmd.id c s s') := by
  unfold process_command
  split
  · apply wpt_reply (by exact hs)
    exact Handoff_none rfl
  · rename_i hlt
    unfold FS_NUM_COMMANDS at hlt
    have hlt2 : cmd.type < 20 := by omega
    generalize cmd.type = ty at hlt2 ⊢
    interval_cases ty
    · exact handle_initialise_handoff k env cmd s c fl hp hs
    · exact handle_deinitialise_handoff k env cmd s c _
    · exact handle_open_handoff k env cmd s c fl hp hs hdata
    · exact handle_close_handoff k env cmd s c fl hp hs hdata
    · exact handle_stat_handoff k env cmd s c fl hp hs
    · exact handle_read_handoff k env cmd s c fl hp hs hdata
    · exact handle_write_handoff k env cmd s c fl hp hs hdata
    · exact handle_fsize_handoff k env cmd s c fl hp hs hdata
    · exact handle_rename_handoff k env cmd s c fl hp hs
    · exact handle_unlink_handoff k env cmd s c fl hp hs
    · exact handle_truncate_handoff k env cmd s c fl hp hs hdata
    · exact handle_mkdir_handoff k env cmd s c fl hp hs
    · exact handle_rmdir_handoff k env cmd s c fl hp hs
    · exact handle_opendir_handoff k env cmd s c fl hp hs hdata
    · exact handle_closedir_handoff k env cmd s c _ hs
    · exact handle_fsync_handoff k env cmd s c fl hp hs hdata
    · exact handle_readdir_handoff k env cmd s c _ hs henv
    · exact handle_seekdir_handoff k env cmd s c _ hs
    · exact handle_telldir_handoff k env cmd s c _ hs
    · exact handle_rewinddir_handoff k env cmd s c _ hs

/-! ## One completion for every command -/

theorem reply_state_queue_congr (k : Consts) (cmpl : fs_cmpl_t) {s t : State}
    (h : t.completion_queue = s.completion_queue) :
    (reply_state k cmpl t).completion_queue = (reply_state k cmpl s).completion_queue := by
  unfold reply_state
  dsimp only
  rw [h]

theorem cmd_callback_deinitialise : cmd_callback FS_CMD_DEINITIALISE = none := rfl

/-- The callback of the submission that a handler has left pending, run in the
state the handler has left, publishes the one completion of the command. -/
theorem pending_callback_completes (k : Consts) (env : nfs_env) (cmd : fs_cmd_t) (s s' : State)
    (c : Nat) (fl : List Nat) (p : nfs_pending)
    (hp : PoolOK k s.continuation_pool s.first_free_cont (c :: fl))
    (hs : fs_queue_length_producer s.completion_queue ≠ k.FS_QUEUE_CAPACITY)
    (henv : ∀ name, env.dirent = some name → name.length ≤ k.FS_MAX_NAME_LENGTH)
    (hdata : ∀ c0, s.continuation_pool[c]? = some c0 → c0.data.length = 4)
    (hrun : process_command k env cmd s = .ok ((), s'))
    (hpend : s'.pending = s.pending ++ [p]) :
    cmd_callback cmd.type = some p.cb ∧
    p.private_data = some (c : Int) ∧
    (∃ cont, s'.continuation_pool[c]? = some cont ∧ cont.request_id = cmd.id ∧
      cb_fd_ready p.cb cont s'.fd_table) ∧
    (cmd.type ≠ FS_CMD_DIR_REMOVE → ∀ a : cb_args,
      wpt (run_cb k p.cb a p.private_data) { s' with pending := s.pending } (fun _ t =>
        ∃ cmpl : fs_cmpl_t, cmpl.id = cmd.id ∧
          t.completion_queue = (reply_state k cmpl s).completion_queue ∧
          t.notified = s.notified + 1 ∧
          t.pending = s.pending ∧
          PoolOK k t.continuation_pool t.first_free_cont (c :: fl))) := by
  obtain ⟨_, s1, hrun1, hho⟩ := process_command_handoff k env cmd s c fl hp hs henv hdata
  rw [hrun] at hrun1
  obtain ⟨_, rfl⟩ := ok_inj hrun1
  obtain ⟨hcb, hpd, cont, hcont, hid, hready⟩ := hho p hpend
  refine ⟨hcb.symm ▸ rfl, hpd, ⟨cont, hcont, hid, hready⟩, ?_⟩
  intro hty a
  have hty2 : cmd.type ≠ FS_CMD_DEINITIALISE := by
    intro h
    rw [h, cmd_callback_deinitialise] at hcb
    cases hcb
  obtain ⟨_, s2, hrun2, hout⟩ := process_command_outcome k env cmd s c fl hp hs henv hty2
  rw [hrun] at hrun2
  obtain ⟨_, rfl⟩ := ok_inj hrun2
  have hcN : c < MAX_CONCURRENT_OPS k := hp.bound c (List.mem_cons_self _ _)
  have hcfl : c ∉ fl := (List.nodup_cons.1 hp.nodup).1
  cases hout with
  | immediate cmpl _ _ _ hpend2 _ _ =>
    rw [hpend2] at hpend
    have := congrArg List.length hpend
    simp at this
  | deferred c2 fl2 p2 hfl _ hcq hnot _ _ hpool =>
    injection hfl with h1 h2
    subst h1
    subst h2
    have hcbne : p.cb ≠ nfs_cb.rmdir_cb := by
      intro h
      rw [h] at hcb
      exact hty (cmd_callback_rmdir _ hcb)
    have hsp : fs_queue_length_producer
        ({ s' with pending := s.pending } : State).completion_queue ≠ k.FS_QUEUE_CAPACITY := by
      show fs_queue_length_producer s'.completion_queue ≠ k.FS_QUEUE_CAPACITY
      rw [hcq]
      exact hs
    have hfd : ∀ cont2,
        ({ s' with pending := s.pending } : State).continuation_pool[c]? = some cont2 →
        cb_fd_ready p.cb cont2 ({ s' with pending := s.pending } : State).fd_table := by
      intro cont2 h2
      have h3 : s'.continuation_pool[c]? = some cont2 := h2
      rw [hcont] at h3
      rw [← Option.some.inj h3]
      exact hready
    have h := run_cb_completes k p.cb a c fl { s' with pending := s.pending } hcbne hpool hcN
      hcfl hsp hfd
    rw [hpd]
    refine wpt_mono h ?_
    rintro _ t ⟨cmpl, cont2, hc2, hidc, hq, hn, hpe, hpo⟩
    have h3 : s'.continuation_pool[c]? = some cont2 := hc2
    rw [hcont] at h3
    refine ⟨cmpl, ?_, ?_, ?_, hpe, hpo⟩
    · rw [hidc, ← Option.some.inj h3, hid]
    · rw [hq]
      exact reply_state_queue_congr k cmpl hcq
    · rw [hn]
      show s'.notified + 1 = s.notified + 1
      rw [hnot]

/-- C4, amended. Every consumed command of a type other than `DEINITIALISE`,
unknown types included, is handled as follows when the pool invariant holds
with a free continuation, the completion queue has producer space and the name
that `nfs_readdir` returns is at most `FS_MAX_NAME_LENGTH` bytes long: the
handler returns, and either it has published exactly one completion and left no
pending submission, or it has published none and left exactly one pending
submission, whose user pointer is the continuation taken from the free list.
A submission that the handling of a command has left pending is registered
with the callback of the command type, `cmd_callback`, on that continuation,
which holds the request identifier of the command, and with the descriptor as
that callback needs it (the pool entries holding their four data words); and
for every type but `DIR_REMOVE` that callback, run in the state the handler has
left, returns and publishes exactly one completion, which carries the request
identifier of the command. And every callback other than `rmdir_cb`, run later
on an allocated continuation with producer space in the completion queue and
the descriptor as the handler left it, returns and publishes exactly one
completion. -/
theorem command_produces_one_completion (k : Consts) :
    (∀ (env : nfs_env) (cmd : fs_cmd_t) (s : State) (c : Nat) (fl : List Nat),
      PoolOK k s.continuation_pool s.first_free_cont (c :: fl) →
      fs_queue_length_producer s.completion_queue ≠ k.FS_QUEUE_CAPACITY →
      (∀ name, env.dirent = some name → name.length ≤ k.FS_MAX_NAME_LENGTH) →
      cmd.type ≠ FS_CMD_DEINITIALISE →
      one_completion_or_one_pending k env cmd s ∧
      wpt (process_command k env cmd) s (fun _ s' => Outcome k s (c :: fl) cmd.id s')) ∧
    (∀ (env : nfs_env) (cmd : fs_cmd_t) (s s' : State) (c : Nat) (fl : List Nat)
      (p : nfs_pending),
      PoolOK k s.continuation_pool s.first_free_cont (c :: fl) →
      fs_queue_length_producer s.completion_queue ≠ k.FS_QUEUE_CAPACITY →
      (∀ name, env.dirent = some name → name.length ≤ k.FS_MAX_NAME_LENGTH) →
      (∀ c0, s.continuation_pool[c]? = some c0 → c0.data.length = 4) →
      process_command k env cmd s = .ok ((), s') →
      s'.pending = s.pending ++ [p] →
      cmd_callback cmd.type = some p.cb ∧
      p.private_data = some (c : Int) ∧
      (∃ cont, s'.continuation_pool[c]? = some cont ∧ cont.request_id = cmd.id ∧
        cb_fd_ready p.cb cont s'.fd_table) ∧
      (cmd.type ≠ FS_CMD_DIR_REMOVE → ∀ a : cb_args,
        wpt (run_cb k p.cb a p.private_data) { s' with pending := s.pending } (fun _ t =>
          ∃ cmpl : fs_cmpl_t, cmpl.id = cmd.id ∧
            t.completion_queue = (reply_state k cmpl s).completion_queue ∧
            t.notified = s.notified + 1 ∧
            t.pending = s.pending ∧
            PoolOK k t.continuation_pool t.first_free_cont (c :: fl)))) ∧
    (∀ (cb : nfs_cb) (a : cb_args) (c : Nat) (fl : List Nat) (s : State),
      cb ≠ nfs_cb.rmdir_cb →
      PoolOK k s.continuation_pool s.first_free_cont fl →
      c < MAX_CONCURRENT_OPS k → c ∉ fl →
      fs_queue_length_producer s.completion_queue ≠ k.FS_QUEUE_CAPACITY →
      (∀ cont, s.continuation_pool[c]? = some cont → cb_fd_ready cb cont s.fd_table) →
      callback_completes k cb a c fl s ∧
      wpt (run_cb k cb a (some (c : Int))) s (fun _ s' =>
        published_one k s s' ∧ s'.pending = s.pending)) := by
  refine ⟨?_, ?_, ?_⟩
  · intro env cmd s c fl hp hs henv hty
    have h := process_command_outcome k env cmd s c fl hp hs henv hty
    refine ⟨?_, h⟩
    obtain ⟨_, s', hrun, ho⟩ := h
    refine ⟨s', hrun, ?_⟩
    cases ho with
    | immediate cmpl _ hcq hnot hpend _ _ => exact Or.inl ⟨⟨cmpl, hcq, hnot⟩, hpend⟩
    | deferred c' fl' p _ _ hcq hnot hpend _ _ => exact Or.inr ⟨⟨hcq, hnot⟩, p, hpend⟩
  · intro env cmd s s' c fl p hp hs henv hdata hrun hpend
    exact pending_callback_completes k env cmd s s' c fl p hp hs henv hdata hrun hpend
  · intro cb a c fl s hcb hp hcN hcfl hs hfd
    have h := run_cb_completes k cb a c fl s hcb hp hcN hcfl hs hfd
    refine ⟨h, wpt_mono h ?_⟩
    rintro _ s' ⟨cmpl, _, _, _, hcq, hnot, hpend, _⟩
    exact ⟨⟨cmpl, hcq, hnot⟩, hpend⟩

theorem bound_q2_data (c0 : continuation) (h : bound_q2.continuation_pool[0]? = some c0) :
    c0.data.length = 4 := by
  have e : bound_q2.continuation_pool[0]? =
      some { request_id := 0, data := [0, 0, 0, 0], next_free := some 1 } := rfl
  rw [e] at h
  rw [← Option.some.inj h]
  rfl

theorem command_produces_one_completion_witness :
    PoolOK consts_q2 bound_q2.continuation_pool bound_q2.first_free_cont [0, 1] ∧
    fs_queue_length_producer bound_q2.completion_queue ≠ consts_q2.FS_QUEUE_CAPACITY ∧
    (cmd_close 6 0).type ≠ FS_CMD_DEINITIALISE ∧
    (cmd_close 6 0).type ≠ FS_CMD_DIR_REMOVE ∧
    one_completion_or_one_pending consts_q2 {} (cmd_close 6 0) bound_q2 ∧
    ∃ s', process_command consts_q2 {} (cmd_close 6 0) bound_q2 = .ok ((), s') ∧
      s'.pending = bound_q2.pending ++
        [{ call := nfs_call.close 7, cb := nfs_cb.close_cb, private_data := some 0 }] ∧
      ∀ a : cb_args,
        wpt (run_cb consts_q2 nfs_cb.close_cb a (some 0))
          { s' with pending := bound_q2.pending } (fun _ t =>
            ∃ cmpl : fs_cmpl_t, cmpl.id = 6 ∧
              t.completion_queue = (reply_state consts_q2 cmpl bound_q2).completion_queue ∧
              t.notified = bound_q2.notified + 1 ∧
              t.pending = bound_q2.pending ∧
              PoolOK consts_q2 t.continuation_pool t.first_free_cont [0, 1]) :=
  ⟨start_q2_pool_ok, by decide, by decide, by decide,
   ((command_produces_one_completion consts_q2).1 {} (cmd_close 6 0) bound_q2 0 [1]
     start_q2_pool_ok (by decide) (fun _ h => by cases h) (by decide)).1,
   _, rfl, rfl,
   ((command_produces_one_completion consts_q2).2.1 {} (cmd_close 6 0) bound_q2 _ 0 [1]
     { call := nfs_call.close 7, cb := nfs_cb.close_cb, private_data := some 0 }
     start_q2_pool_ok (by decide) (fun _ h => by cases h) bound_q2_data rfl rfl).2.2.2
     (by decide)⟩

end NfsOp
